import Mathlib

/-!
# VoodooI2C controller driver: a shallow embedding

The definitions below follow `VoodooI2CControllerDriver.cpp` function by function.

* The driver object's `bus_device` is the record `Dev`.  The hardware behind
  `nub->readRegister` is an input: `hw n r` is the value obtained when the read
  number `n` of the run is a read of register `r`.
* Every register access, every access to an element of the message array and every
  byte moved from or to a message buffer is appended to `Dev.trace`, in program order.
* The pointer `bus_device.messages` is NULL from `init` until `prepareTransferI2C`
  stores the caller's array in it: `Dev.messages_null` says so.  An access to a message
  element made while the pointer is NULL is a fault, at which the code stops; the
  functions below are total and go on, and mark the state in `Dev.fault`.  Of a state
  with `fault = true` only the trace up to the first faulting access describes the
  driver.
* Unsigned 32-bit values are naturals reduced modulo `2^32` where the source can
  wrap; the C `int` counters of `bus_device` are integers.
* Constants of the header `VoodooI2CControllerDriver.hpp` are the fields of `Consts`:
  the theorems hold for every value of them unless a hypothesis says otherwise.
-/

namespace VoodooI2C

/-! ## Registers, return codes, trace -/

/-- The register names used by the driver (offsets are fixed by the header). -/
inductive Reg
  | DW_IC_CON | DW_IC_TAR
  | DW_IC_SS_SCL_HCNT | DW_IC_SS_SCL_LCNT | DW_IC_FS_SCL_HCNT | DW_IC_FS_SCL_LCNT
  | DW_IC_DATA_CMD | DW_IC_INTR_STAT | DW_IC_INTR_MASK | DW_IC_RAW_INTR_STAT
  | DW_IC_RX_TL | DW_IC_TX_TL
  | DW_IC_CLR_INTR | DW_IC_CLR_RX_UNDER | DW_IC_CLR_RX_OVER | DW_IC_CLR_TX_OVER
  | DW_IC_CLR_RD_REQ | DW_IC_CLR_TX_ABRT | DW_IC_CLR_RX_DONE | DW_IC_CLR_ACTIVITY
  | DW_IC_CLR_STOP_DET | DW_IC_CLR_START_DET | DW_IC_CLR_GEN_CALL
  | DW_IC_ENABLE | DW_IC_STATUS | DW_IC_TXFLR | DW_IC_RXFLR | DW_IC_SDA_HOLD
  | DW_IC_TX_ABRT_SOURCE | DW_IC_ENABLE_STATUS
  | DW_IC_COMP_PARAM_1 | DW_IC_COMP_VERSION | DW_IC_COMP_TYPE
  | LPSS_PRIVATE_CLOCK_GATING
  deriving DecidableEq, Repr

/-- The IOKit return codes the driver returns. -/
inductive IOReturn
  | kIOReturnSuccess | kIOReturnError | kIOReturnBusy | kIOReturnTimeout
  | kIOReturnNotReady | kIOReturnNotFound
  deriving DecidableEq, Repr

/-- Results of `IOCommandGate::commandSleep`. -/
inductive WaitResult
  | THREAD_AWAKENED | THREAD_TIMED_OUT | THREAD_INTERRUPTED | THREAD_RESTART
  deriving DecidableEq, Repr

/-- One observable action of the driver.  `cmd i n v` is the write of `v` to
`DW_IC_DATA_CMD` made by `transferMessageToBus`, recorded together with the write
index `i` and the remaining buffer length `n` it had when the command was built. -/
inductive Event
  | read (r : Reg) (v : Nat)
  | write (v : Nat) (r : Reg)
  | cmd (i : Int) (n : Nat) (v : Nat)
  | msg (i : Int)
  | load (addr : Nat)
  | store (addr : Nat) (v : Nat)
  | delay
  | wakeup
  | disableInterrupt
  | enableInterrupt
  deriving DecidableEq, Repr

/-- Constants and macros of `VoodooI2CControllerDriver.hpp` (not part of the sources
at hand); each is a parameter of the model. -/
structure Consts where
  DW_IC_ERR_TX_ABRT : Nat
  STATUS_IDLE : Nat
  STATUS_WRITE_IN_PROGRESS : Nat
  STATUS_READ_IN_PROGRESS : Nat
  I2C_M_RD : Nat
  I2C_M_TEN : Nat
  DW_IC_CON_10BITADDR_MASTER : Nat
  DW_IC_TAR_10BITADDR_MASTER : Nat
  DW_IC_CON_RESTART_EN : Nat
  DW_IC_INTR_RX_UNDER : Nat
  DW_IC_INTR_RX_OVER : Nat
  DW_IC_INTR_RX_FULL : Nat
  DW_IC_INTR_TX_OVER : Nat
  DW_IC_INTR_TX_EMPTY : Nat
  DW_IC_INTR_RD_REQ : Nat
  DW_IC_INTR_TX_ABRT : Nat
  DW_IC_INTR_RX_DONE : Nat
  DW_IC_INTR_ACTIVITY : Nat
  DW_IC_INTR_STOP_DET : Nat
  DW_IC_INTR_START_DET : Nat
  DW_IC_INTR_GEN_CALL : Nat
  DW_IC_INTR_DEFAULT_MASK : Nat
  DW_IC_STATUS_ACTIVITY : Nat
  DW_IC_SDA_HOLD_MIN_VERS : Nat
  DW_IC_SDA_HOLD_RX_MASK : Nat
  DW_IC_SDA_HOLD_RX_SHIFT : Nat
  TIMEOUT : Nat
  kVoodooI2CStateOff : Nat
  kVoodooI2CStateOn : Nat

/-- An element of the message array (`VoodooI2CControllerBusMessage`); `buffer` is the
address of its first byte. -/
structure VoodooI2CControllerBusMessage where
  address : Nat
  buffer : Nat
  flags : Nat
  length : Nat
  deriving DecidableEq, Repr

/-- The timing values `bus_device.acpi_config`. -/
structure VoodooI2CControllerBusConfig where
  ss_hcnt : Nat
  ss_lcnt : Nat
  fs_hcnt : Nat
  fs_lcnt : Nat
  sda_hold : Nat
  deriving DecidableEq, Repr

/-- What the driver reads from its provider: the platform name, the interrupt-mask
workaround flag, and `getACPIParams` for the methods `SSCN` and `FMCN`.  The latter
two are given the current contents of the variables whose addresses are passed and
return the status together with the contents they leave there (`SSCN` is called with
a null third pointer, so it has no third value). -/
structure Nub where
  name : String
  access_intr_mask_workaround : Bool
  getACPIParams_SSCN : Nat → Nat → IOReturn × Nat × Nat
  getACPIParams_FMCN : Nat → Nat → Nat → IOReturn × Nat × Nat × Nat

/-- The driver state `bus_device`, the byte memory holding the message buffers, the
hardware input and the trace.  The pointer `bus_device.messages` is given by
`messages_null` (it is NULL) and `messages` (the array it points to otherwise);
`fault` says that a message element has been accessed through the NULL pointer. -/
structure Dev where
  acpi_config : VoodooI2CControllerBusConfig
  transaction_fifo_depth : Nat
  receive_fifo_depth : Nat
  awake : Bool
  bus_config : Nat
  command_error : Nat
  messages : Int → VoodooI2CControllerBusMessage
  message_number : Int
  message_error : Int
  message_read_index : Int
  message_write_index : Int
  receive_outstanding : Int
  status : Nat
  abort_source : Nat
  transaction_buffer : Nat
  transaction_buffer_length : Nat
  receive_buffer : Nat
  receive_buffer_length : Nat
  mem : Nat → Nat
  hw : Nat → Reg → Nat
  nreads : Nat
  trace : List Event
  messages_null : Bool
  fault : Bool

/-! ## Machine arithmetic -/

/-- Two to the 32. -/
def U32 : Nat := 4294967296

/-- Two to the 64. -/
def U64 : Nat := 18446744073709551616

/-- The value of a 32-bit pattern read as a C `int` (two's complement). -/
def toInt32 (x : Int) : Int := (x + 2147483648) % 4294967296 - 2147483648

/-- Unsigned 32-bit subtraction. -/
def u32sub (a b : Nat) : Nat := (a % U32 + U32 - b % U32) % U32

/-- The complement `~x` of a 32-bit value. -/
def not32 (x : Nat) : Nat := 4294967295 ^^^ (x % U32)

/-! ## Register access port -/

/-- `nub->readRegister(r)`. -/
def readRegister (r : Reg) (s : Dev) : Nat × Dev :=
  let v := s.hw s.nreads r % U32
  (v, { s with nreads := s.nreads + 1, trace := s.trace ++ [Event.read r v] })

/-- `nub->writeRegister(v, r)`. -/
def writeRegister (v : Nat) (r : Reg) (s : Dev) : Dev :=
  { s with trace := s.trace ++ [Event.write v r] }

/-- The element `messages[i]`, the access being recorded.  With the pointer NULL the
access is a fault. -/
def messageAt (i : Int) (s : Dev) : VoodooI2CControllerBusMessage × Dev :=
  (s.messages i, { s with
    trace := s.trace ++ [Event.msg i],
    fault := s.fault || s.messages_null })

/-! ## Timing calculator -/

/-- The constant `KILO`. -/
def KILO : Nat := 1000

/-- The constant `MICRO`. -/
def MICRO : Nat := 1000000

/-- The macro `DIV_ROUND_CLOSEST_ULL(x, divisor)`: `_tmp = x + d / 2` in 64 bits, then
`do_div(_tmp, d)` which divides by the 32-bit `__base`. -/
def DIV_ROUND_CLOSEST_ULL (x divisor : Nat) : Nat :=
  let d := divisor % U64
  let tmp := (x + d / 2) % U64
  let base := d % U32
  tmp / base

/-- The function `div_s64`: C division, truncating toward zero. -/
def div_s64 (dividend divisor : Int) : Int := Int.tdiv dividend divisor

/-- The macro `DIV_S64_ROUND_CLOSEST(dividend, divisor)`. -/
def DIV_S64_ROUND_CLOSEST (dividend divisor : Int) : Int :=
  let x := dividend
  let d := toInt32 divisor
  if (decide (x > 0)) = (decide (d > 0)) then div_s64 (x + Int.tdiv d 2) d
  else div_s64 (x - Int.tdiv d 2) d

/-- The function `getClkRateFor`.  `strncmp` with `sizeof` of the literal compares the
terminator too, so each test is equality of the two strings. -/
def getClkRateFor (name : String) : Nat :=
  if name = "AMD0010" then 133000000 / KILO
  else if name = "AMDI0010" ∨ name = "AMDI0019" then 150000000 / KILO
  else 0

/-- The local `is_sunrise_point` of `getBusConfig`. -/
def is_sunrise_point (name : String) : Bool :=
  decide (name = "INT344B") || decide (name = "INT345D")

/-- The `SSCN` block of `getBusConfig`, on `acpi_config` and the local `error`. -/
def getBusConfigSS (P : Nub) (i2c_clk : Nat) (sunrise : Bool)
    (cfg : VoodooI2CControllerBusConfig) (error : Bool) : VoodooI2CControllerBusConfig × Bool :=
  let r := P.getACPIParams_SSCN cfg.ss_hcnt cfg.ss_lcnt
  let cfg := { cfg with ss_hcnt := r.2.1, ss_lcnt := r.2.2 }
  if r.1 ≠ IOReturn.kIOReturnSuccess then
    if i2c_clk ≠ 0 then
      ({ cfg with
          ss_hcnt := u32sub (DIV_ROUND_CLOSEST_ULL (i2c_clk * (4000 + 300) % U64) MICRO) 3,
          ss_lcnt := u32sub (DIV_ROUND_CLOSEST_ULL (i2c_clk * (4700 + 300) % U64) MICRO) 1 },
       error)
    else
      ({ cfg with
          ss_hcnt := if sunrise then 0x01B0 else 0x03F2,
          ss_lcnt := if sunrise then 0x01FB else 0x043D },
       true)
  else (cfg, error)

/-- The `FMCN` block of `getBusConfig`, on `acpi_config` and the local `error`. -/
def getBusConfigFS (P : Nub) (i2c_clk : Nat) (sunrise : Bool)
    (cfg : VoodooI2CControllerBusConfig) (error : Bool) : VoodooI2CControllerBusConfig × Bool :=
  let r := P.getACPIParams_FMCN cfg.fs_hcnt cfg.fs_lcnt cfg.sda_hold
  let cfg := { cfg with fs_hcnt := r.2.1, fs_lcnt := r.2.2.1, sda_hold := r.2.2.2 }
  if r.1 ≠ IOReturn.kIOReturnSuccess then
    if i2c_clk ≠ 0 then
      ({ cfg with
          fs_hcnt := u32sub (DIV_ROUND_CLOSEST_ULL (i2c_clk * (600 + 300) % U64) MICRO) 3,
          fs_lcnt := u32sub (DIV_ROUND_CLOSEST_ULL (i2c_clk * (1300 + 300) % U64) MICRO) 1 },
       error)
    else
      ({ cfg with
          fs_hcnt := if sunrise then 0x48 else 0x0101,
          fs_lcnt := if sunrise then 0xA0 else 0x012C },
       true)
  else (cfg, error)

/-- The SDA hold block of `getBusConfig` for hardware at or above
`DW_IC_SDA_HOLD_MIN_VERS`: the value of `sda_hold` and the state after the register
read it may make. -/
def getBusConfigHold (K : Consts) (i2c_clk : Nat) (sunrise : Bool) (sda_hold : Nat) (s : Dev) :
    Nat × Dev :=
  let sda_hold :=
    if i2c_clk ≠ 0 then
      (DIV_S64_ROUND_CLOSEST ((i2c_clk : Int) * 300) (MICRO : Int) % (U32 : Int)).toNat
    else sda_hold
  let (sda_hold, s) :=
    if sda_hold = 0 then readRegister Reg.DW_IC_SDA_HOLD s else (sda_hold, s)
  let sda_hold :=
    if sda_hold = 0 then (if sunrise then 0x1E else 0x62) else sda_hold
  let sda_hold :=
    if sda_hold &&& K.DW_IC_SDA_HOLD_RX_MASK = 0 then
      (sda_hold ||| (1 <<< K.DW_IC_SDA_HOLD_RX_SHIFT)) % U32
    else sda_hold
  (sda_hold, s)

/-- The body of `getBusConfig` after `i2c_clk` has been obtained. -/
def getBusConfigClk (K : Consts) (P : Nub) (i2c_clk : Nat) (s : Dev) : IOReturn × Dev :=
  let error := false
  let (param, s) := readRegister Reg.DW_IC_COMP_PARAM_1 s
  let tx_fifo_depth := (((param >>> 16) &&& 0xff) + 1) % U32
  let rx_fifo_depth := (((param >>> 8) &&& 0xff) + 1) % U32
  let s := { s with transaction_fifo_depth := tx_fifo_depth, receive_fifo_depth := rx_fifo_depth }
  let sunrise := is_sunrise_point P.name
  let r1 := getBusConfigSS P i2c_clk sunrise s.acpi_config error
  let r2 := getBusConfigFS P i2c_clk sunrise r1.1 r1.2
  let s := { s with acpi_config := r2.1 }
  let error := r2.2
  let (version, s) := readRegister Reg.DW_IC_COMP_VERSION s
  let s :=
    if version ≥ K.DW_IC_SDA_HOLD_MIN_VERS then
      let r3 := getBusConfigHold K i2c_clk sunrise s.acpi_config.sda_hold s
      { r3.2 with acpi_config := { r3.2.acpi_config with sda_hold := r3.1 } }
    else s
  (if error then IOReturn.kIOReturnNotFound else IOReturn.kIOReturnSuccess, s)

/-- The function `getBusConfig`. -/
def getBusConfig (K : Consts) (P : Nub) (s : Dev) : IOReturn × Dev :=
  getBusConfigClk K P (getClkRateFor P.name) s

/-! ## Bus state controller -/

/-- The call `IODelay` or `IOSleep`. -/
def delay (s : Dev) : Dev := { s with trace := s.trace ++ [Event.delay] }

/-- The function `toggleClockGating`. -/
def toggleClockGating (P : Nub) (enabled : Nat) (s : Dev) : Dev :=
  if P.name.toList.take 3 = ['A', 'M', 'D'] then
    writeRegister enabled Reg.LPSS_PRIVATE_CLOCK_GATING s
  else s

/-- The loop of `toggleBusState`; the argument is the value of `timeout` when the body
is entered. -/
def toggleBusStateLoop (P : Nub) (enabled : Nat) : Nat → Dev → IOReturn × Dev
  | timeout, s =>
    let s := writeRegister enabled Reg.DW_IC_ENABLE s
    let (v, s) := readRegister Reg.DW_IC_ENABLE_STATUS s
    if v &&& 1 = enabled then
      (IOReturn.kIOReturnSuccess, toggleClockGating P enabled s)
    else
      let s := delay s
      match timeout with
      | 0 => (IOReturn.kIOReturnTimeout, s)
      | t + 1 => toggleBusStateLoop P enabled t s

/-- The function `toggleBusState`. -/
def toggleBusState (P : Nub) (enabled : Nat) (s : Dev) : IOReturn × Dev :=
  toggleBusStateLoop P enabled 1000 s

/-- The function `toggleInterrupts`. -/
def toggleInterrupts (K : Consts) (enabled : Nat) (s : Dev) : Dev :=
  if enabled = 0 then
    writeRegister 0 Reg.DW_IC_INTR_MASK s
  else
    let (_, s) := readRegister Reg.DW_IC_CLR_INTR s
    writeRegister K.DW_IC_INTR_DEFAULT_MASK Reg.DW_IC_INTR_MASK s

/-- The function `initialiseBus`. -/
def initialiseBus (K : Consts) (P : Nub) (s : Dev) : IOReturn × Dev :=
  let (r, s) := toggleBusState P K.kVoodooI2CStateOff s
  if r ≠ IOReturn.kIOReturnSuccess then (IOReturn.kIOReturnError, s)
  else
    let s := writeRegister s.acpi_config.ss_hcnt Reg.DW_IC_SS_SCL_HCNT s
    let s := writeRegister s.acpi_config.ss_lcnt Reg.DW_IC_SS_SCL_LCNT s
    let s := writeRegister s.acpi_config.fs_hcnt Reg.DW_IC_FS_SCL_HCNT s
    let s := writeRegister s.acpi_config.fs_lcnt Reg.DW_IC_FS_SCL_LCNT s
    let s := if s.acpi_config.sda_hold ≠ 0 then
        writeRegister s.acpi_config.sda_hold Reg.DW_IC_SDA_HOLD s else s
    let s := writeRegister (s.transaction_fifo_depth / 2) Reg.DW_IC_TX_TL s
    let s := writeRegister 0 Reg.DW_IC_RX_TL s
    let s := writeRegister s.bus_config Reg.DW_IC_CON s
    (IOReturn.kIOReturnSuccess, s)

/-- The loop of `waitBusNotBusyI2C`; the argument is the value of `timeout`. -/
def waitBusNotBusyLoop (K : Consts) : Nat → Dev → IOReturn × Dev
  | timeout, s =>
    let (v, s) := readRegister Reg.DW_IC_STATUS s
    if v &&& K.DW_IC_STATUS_ACTIVITY ≠ 0 then
      match timeout with
      | 0 => (IOReturn.kIOReturnBusy, s)
      | t + 1 => waitBusNotBusyLoop K t (delay s)
    else (IOReturn.kIOReturnSuccess, s)

/-- The function `waitBusNotBusyI2C`. -/
def waitBusNotBusyI2C (K : Consts) (s : Dev) : IOReturn × Dev :=
  waitBusNotBusyLoop K (K.TIMEOUT * 150) s

/-! ## Transfer engine: arming -/

/-- The function `requestTransferI2C`. -/
def requestTransferI2C (K : Consts) (P : Nub) (s : Dev) : Dev :=
  let i2c_target := 0
  let s := if P.access_intr_mask_workaround then (initialiseBus K P s).2
    else (toggleBusState P K.kVoodooI2CStateOff s).2
  let (orig, s) := readRegister Reg.DW_IC_CON s
  let i2c_configuration := orig
  let (m, s) := messageAt s.message_write_index s
  let (i2c_configuration, i2c_target) :=
    if m.flags &&& K.I2C_M_TEN ≠ 0 then
      ((i2c_configuration ||| K.DW_IC_CON_10BITADDR_MASTER) % U32, K.DW_IC_TAR_10BITADDR_MASTER)
    else
      (i2c_configuration &&& not32 K.DW_IC_CON_10BITADDR_MASTER, i2c_target)
  let s := if i2c_configuration ≠ orig then writeRegister i2c_configuration Reg.DW_IC_CON s else s
  let (m, s) := messageAt s.message_write_index s
  let s := writeRegister ((m.address ||| i2c_target) % U32) Reg.DW_IC_TAR s
  let s := toggleInterrupts K K.kVoodooI2CStateOff s
  let s := (toggleBusState P K.kVoodooI2CStateOn s).2
  let (_, s) := readRegister Reg.DW_IC_ENABLE_STATUS s
  toggleInterrupts K K.kVoodooI2CStateOn s

/-! ## Transfer engine: transmit fill -/

/-- The inner `while` loop of `transferMessageToBus`, by recursion on `buffer_length`.
The result is the state and the final values of `need_restart`, `buffer` and
`buffer_length`. -/
def txWhile (K : Consts) : (buffer_length : Nat) → (need_restart : Bool) →
    (transaction_limit receive_limit : Int) → (buffer : Nat) → Dev → Dev × Bool × Nat × Nat
  | 0, need_restart, _, _, buffer, s => (s, need_restart, buffer, 0)
  | bl + 1, need_restart, transaction_limit, receive_limit, buffer, s =>
    if transaction_limit > 0 ∧ receive_limit > 0 then
      let command := 0
      let command :=
        if s.message_write_index = s.message_number - 1 ∧ bl + 1 = 1 then command ||| 0x200
        else command
      let command := if need_restart then command ||| 0x400 else command
      let need_restart := if need_restart then false else need_restart
      let (m, s) := messageAt s.message_write_index s
      if m.flags &&& K.I2C_M_RD ≠ 0 then
        if receive_limit - s.receive_outstanding ≤ 0 then
          (s, need_restart, buffer, bl + 1)
        else
          let s := { s with trace := s.trace ++
            [Event.cmd s.message_write_index (bl + 1) (command ||| 0x100)] }
          let s := { s with receive_outstanding := s.receive_outstanding + 1 }
          txWhile K bl need_restart (transaction_limit - 1) (receive_limit - 1) buffer s
      else
        let s := { s with trace := s.trace ++ [Event.load buffer] }
        let byte := s.mem buffer % 256
        let s := { s with trace := s.trace ++
          [Event.cmd s.message_write_index (bl + 1) (command ||| byte)] }
        txWhile K bl need_restart (transaction_limit - 1) receive_limit (buffer + 1) s
    else (s, need_restart, buffer, bl + 1)

/-- The part of the body of the outer loop of `transferMessageToBus` that sends from
the message at the write index: the choice of `buffer` and `buffer_length`, the two
FIFO limits, and the inner loop. -/
def txMessage (K : Consts) (need_restart : Bool) (buffer buffer_length : Nat) (s : Dev) :
    Dev × Bool × Nat × Nat :=
  let (s, need_restart, buffer, buffer_length) :=
    if s.status &&& K.STATUS_WRITE_IN_PROGRESS = 0 then
      let (m1, s) := messageAt s.message_write_index s
      let (m2, s) := messageAt s.message_write_index s
      let need_restart :=
        if s.bus_config &&& K.DW_IC_CON_RESTART_EN ≠ 0 ∧ s.message_write_index > 0
        then true else need_restart
      (s, need_restart, m1.buffer, m2.length)
    else (s, need_restart, buffer, buffer_length)
  let (txflr, s) := readRegister Reg.DW_IC_TXFLR s
  let transaction_limit := toInt32 ((s.transaction_fifo_depth : Int) - txflr)
  let (rxflr, s) := readRegister Reg.DW_IC_RXFLR s
  let receive_limit := toInt32 ((s.receive_fifo_depth : Int) - rxflr)
  txWhile K buffer_length need_restart transaction_limit receive_limit buffer s

/-- The outer `for` loop of `transferMessageToBus`.  `fuel` bounds the number of
iterations; `transferMessageToBus` supplies `message_number - message_write_index`,
the number of messages left. -/
def txFor (K : Consts) (address : Nat) : (fuel : Nat) → (need_restart : Bool) →
    (buffer buffer_length : Nat) → Dev → Dev
  | 0, _, _, _, s => s
  | fuel + 1, need_restart, buffer, buffer_length, s =>
    if s.message_write_index < s.message_number then
      let (m, s) := messageAt s.message_write_index s
      if m.address ≠ address then { s with message_error := -1 }
      else
        let (m, s) := messageAt s.message_write_index s
        if m.length = 0 then { s with message_error := -1 }
        else
          let r := txMessage K need_restart buffer buffer_length s
          let s := r.1
          let need_restart := r.2.1
          let buffer := r.2.2.1
          let buffer_length := r.2.2.2
          let s := { s with transaction_buffer := buffer, transaction_buffer_length := buffer_length }
          if buffer_length > 0 then
            { s with status := s.status ||| K.STATUS_WRITE_IN_PROGRESS }
          else
            let s := { s with status := s.status &&& not32 K.STATUS_WRITE_IN_PROGRESS }
            let s := { s with message_write_index := s.message_write_index + 1 }
            txFor K address fuel need_restart buffer buffer_length s
    else s

/-- The function `transferMessageToBus`. -/
def transferMessageToBus (K : Consts) (s : Dev) : Dev :=
  let (m, s) := messageAt s.message_write_index s
  let address := m.address
  let buffer_length := s.transaction_buffer_length
  let buffer := s.transaction_buffer
  let need_restart := false
  let interrupt_mask := K.DW_IC_INTR_DEFAULT_MASK
  let s := txFor K address (s.message_number - s.message_write_index).toNat
    need_restart buffer buffer_length s
  let interrupt_mask :=
    if s.message_write_index = s.message_number then
      interrupt_mask &&& not32 K.DW_IC_INTR_TX_EMPTY
    else interrupt_mask
  let interrupt_mask := if s.message_error ≠ 0 then 0 else interrupt_mask
  writeRegister interrupt_mask Reg.DW_IC_INTR_MASK s

/-! ## Transfer engine: receive drain -/

/-- The inner `for` loop of `readFromBus`, by recursion on `length`.  The result is the
state and the final values of `buffer` and `length`. -/
def rxFor : (length : Nat) → (receive_valid : Int) → (buffer : Nat) → Dev → Dev × Nat × Nat
  | 0, _, buffer, s => (s, buffer, 0)
  | l + 1, receive_valid, buffer, s =>
    if receive_valid > 0 then
      let (v, s) := readRegister Reg.DW_IC_DATA_CMD s
      let s := { s with
        mem := fun a => if a = buffer then v % 256 else s.mem a,
        trace := s.trace ++ [Event.store buffer (v % 256)] }
      let s := { s with receive_outstanding := s.receive_outstanding - 1 }
      rxFor l (receive_valid - 1) (buffer + 1) s
    else (s, buffer, l + 1)

/-- The outer `for` loop of `readFromBus`.  `fuel` bounds the number of iterations;
`readFromBus` supplies `message_number - message_read_index`. -/
def rxLoop (K : Consts) : (fuel : Nat) → Dev → Dev
  | 0, s => s
  | fuel + 1, s =>
    if s.message_read_index < s.message_number then
      let (m, s) := messageAt s.message_read_index s
      if m.flags &&& K.I2C_M_RD = 0 then
        rxLoop K fuel { s with message_read_index := s.message_read_index + 1 }
      else
        let (length, buffer, s) :=
          if s.status &&& K.STATUS_READ_IN_PROGRESS = 0 then
            let (m1, s) := messageAt s.message_read_index s
            let (m2, s) := messageAt s.message_read_index s
            (m1.length, m2.buffer, s)
          else (s.receive_buffer_length, s.receive_buffer, s)
        let (rxflr, s) := readRegister Reg.DW_IC_RXFLR s
        let receive_valid := toInt32 rxflr
        let r := rxFor length receive_valid buffer s
        let s := r.1
        let buffer := r.2.1
        let length := r.2.2
        if length > 0 then
          { s with
            status := s.status ||| K.STATUS_READ_IN_PROGRESS,
            receive_buffer_length := length,
            receive_buffer := buffer }
        else
          let s := { s with status := s.status &&& not32 K.STATUS_READ_IN_PROGRESS }
          rxLoop K fuel { s with message_read_index := s.message_read_index + 1 }
    else s

/-- The function `readFromBus`. -/
def readFromBus (K : Consts) (s : Dev) : Dev :=
  rxLoop K (s.message_number - s.message_read_index).toNat s

/-! ## Transfer engine: interrupt path -/

/-- One statement `if (c) readRegister(r);` of `readClearInterruptBits`. -/
def clearIf (c : Prop) [Decidable c] (r : Reg) (s : Dev) : Dev :=
  if c then (readRegister r s).2 else s

/-- The statement of `readClearInterruptBits` for the bit `DW_IC_INTR_TX_ABRT`. -/
def clearAbort (c : Prop) [Decidable c] (s : Dev) : Dev :=
  if c then
    let r := readRegister Reg.DW_IC_TX_ABRT_SOURCE s
    (readRegister Reg.DW_IC_CLR_TX_ABRT { r.2 with abort_source := r.1 }).2
  else s

/-- The function `readClearInterruptBits`. -/
def readClearInterruptBits (K : Consts) (s : Dev) : Nat × Dev :=
  let (stat, s) := readRegister Reg.DW_IC_INTR_STAT s
  let s := clearIf (stat &&& K.DW_IC_INTR_RX_UNDER ≠ 0) Reg.DW_IC_CLR_RX_UNDER s
  let s := clearIf (stat &&& K.DW_IC_INTR_RX_OVER ≠ 0) Reg.DW_IC_CLR_RX_OVER s
  let s := clearIf (stat &&& K.DW_IC_INTR_TX_OVER ≠ 0) Reg.DW_IC_CLR_TX_OVER s
  let s := clearIf (stat &&& K.DW_IC_INTR_RD_REQ ≠ 0) Reg.DW_IC_CLR_RD_REQ s
  let s := clearAbort (stat &&& K.DW_IC_INTR_TX_ABRT ≠ 0) s
  let s := clearIf (stat &&& K.DW_IC_INTR_RX_DONE ≠ 0) Reg.DW_IC_CLR_RX_DONE s
  let s := clearIf (stat &&& K.DW_IC_INTR_ACTIVITY ≠ 0) Reg.DW_IC_CLR_ACTIVITY s
  let s := clearIf (stat &&& K.DW_IC_INTR_STOP_DET ≠ 0 ∧
      (s.receive_outstanding = 0 ∨ stat &&& K.DW_IC_INTR_RX_FULL ≠ 0)) Reg.DW_IC_CLR_STOP_DET s
  let s := clearIf (stat &&& K.DW_IC_INTR_START_DET ≠ 0) Reg.DW_IC_CLR_START_DET s
  let s := clearIf (stat &&& K.DW_IC_INTR_GEN_CALL ≠ 0) Reg.DW_IC_CLR_GEN_CALL s
  (stat, s)

/-- The part of `handleInterrupt` from the label `wakeup` to the label `exit`. -/
def handleInterruptWakeup (K : Consts) (P : Nub) (status : Nat) (s : Dev) : Dev :=
  if (status &&& (K.DW_IC_INTR_TX_ABRT ||| K.DW_IC_INTR_STOP_DET) ≠ 0 ∨ s.message_error ≠ 0) ∧
      s.receive_outstanding = 0 then
    { s with trace := s.trace ++ [Event.wakeup] }
  else if P.access_intr_mask_workaround then
    let (status, s) := readRegister Reg.DW_IC_INTR_MASK s
    let s := writeRegister 0 Reg.DW_IC_INTR_MASK s
    writeRegister status Reg.DW_IC_INTR_MASK s
  else s

/-- The part of `handleInterrupt` after the skip checks, up to the label `exit`. -/
def handleInterruptServe (K : Consts) (P : Nub) (s : Dev) : Dev :=
  let (status, s) := readClearInterruptBits K s
  if status &&& K.DW_IC_INTR_TX_ABRT ≠ 0 then
    let s := { s with
      command_error := s.command_error ||| K.DW_IC_ERR_TX_ABRT,
      status := K.STATUS_IDLE,
      receive_outstanding := 0 }
    let s := writeRegister 0 Reg.DW_IC_INTR_MASK s
    handleInterruptWakeup K P status s
  else
    let s := if status &&& K.DW_IC_INTR_RX_FULL ≠ 0 then readFromBus K s else s
    let s := if status &&& K.DW_IC_INTR_TX_EMPTY ≠ 0 then transferMessageToBus K s else s
    handleInterruptWakeup K P status s

/-- The function `handleInterrupt`. -/
def handleInterrupt (K : Consts) (P : Nub) (s : Dev) : Dev :=
  let s := { s with trace := s.trace ++ [Event.disableInterrupt] }
  let s :=
    if s.awake = false then s
    else
      let (enabled, s) := readRegister Reg.DW_IC_ENABLE s
      let (status, s) := readRegister Reg.DW_IC_RAW_INTR_STAT s
      if enabled = 0 ∨ status &&& not32 K.DW_IC_INTR_ACTIVITY = 0 ∨ status = 0xFFFFFFFF then s
      else handleInterruptServe K P s
  { s with trace := s.trace ++ [Event.enableInterrupt] }

/-! ## Transfer engine: foreground path -/

/-- The assignments of `prepareTransferI2C` that reset the descriptor, followed by the
call of `requestTransferI2C`.  The argument `messages` is the caller's array: the
pointer stored in `bus_device.messages` is not NULL from here on. -/
def armTransfer (K : Consts) (P : Nub) (messages : Int → VoodooI2CControllerBusMessage)
    (number : Int) (s : Dev) : Dev :=
  let s := { s with
    messages := messages,
    messages_null := false,
    message_number := number,
    command_error := 0,
    message_write_index := 0,
    message_read_index := 0,
    message_error := 0,
    status := K.STATUS_IDLE,
    abort_source := 0,
    receive_outstanding := 0 }
  requestTransferI2C K P s

/-- The part of `prepareTransferI2C` after `commandSleep` has returned `sleep`.
The function `handleAbortI2C` only writes log lines and is left out. -/
def finishTransfer (K : Consts) (P : Nub) (sleep : WaitResult) (s : Dev) : IOReturn × Dev :=
  if sleep = WaitResult.THREAD_TIMED_OUT then
    (IOReturn.kIOReturnTimeout, (initialiseBus K P s).2)
  else
    let s := (toggleBusState P K.kVoodooI2CStateOff s).2
    if s.message_error ≠ 0 then (IOReturn.kIOReturnError, s)
    else if s.command_error = 0 then (IOReturn.kIOReturnSuccess, s)
    else if s.command_error = K.DW_IC_ERR_TX_ABRT then (IOReturn.kIOReturnError, s)
    else (IOReturn.kIOReturnNotReady, s)

/-- The function `prepareTransferI2C`.  The argument `commandSleep` is the blocking
wait on `command_complete`: it maps the state at the time of the call to the result of
the wait and the state at the time it returns (interrupts are served in between). -/
def prepareTransferI2C (K : Consts) (P : Nub) (commandSleep : Dev → WaitResult × Dev)
    (messages : Int → VoodooI2CControllerBusMessage) (number : Int) (s : Dev) :
    IOReturn × Dev :=
  if s.awake = false then (IOReturn.kIOReturnBusy, s)
  else
    let (r, s) := waitBusNotBusyI2C K s
    if r ≠ IOReturn.kIOReturnSuccess then (IOReturn.kIOReturnBusy, s)
    else
      let s := armTransfer K P messages number s
      let (sleep, s) := commandSleep s
      finishTransfer K P sleep s

/-- The loop of `transferI2CGated`; `left` is the number of values `tries` has yet to
take (`6 - tries`). -/
def transferI2CGatedLoop (K : Consts) (P : Nub) (commandSleep : Dev → WaitResult × Dev)
    (messages : Int → VoodooI2CControllerBusMessage) (number : Int) :
    (left : Nat) → IOReturn → Dev → IOReturn × Dev
  | 0, ret, s => (ret, s)
  | left + 1, _, s =>
    let (ret, s) := prepareTransferI2C K P commandSleep messages number s
    if ret ≠ IOReturn.kIOReturnNotReady then (ret, s)
    else transferI2CGatedLoop K P commandSleep messages number left ret s

/-- The function `transferI2CGated`. -/
def transferI2CGated (K : Consts) (P : Nub) (commandSleep : Dev → WaitResult × Dev)
    (messages : Int → VoodooI2CControllerBusMessage) (number : Int) (s : Dev) :
    IOReturn × Dev :=
  transferI2CGatedLoop K P commandSleep messages number 6 IOReturn.kIOReturnSuccess s


/-! ## Reading the trace -/

/-- The commands written to `DW_IC_DATA_CMD`, in order: write index, remaining
length and value of each. -/
def cmdsOf : List Event → List (Int × Nat × Nat)
  | [] => []
  | Event.cmd i n v :: t => (i, n, v) :: cmdsOf t
  | _ :: t => cmdsOf t

/-- The values written to register `r`, in order; a command of `transferMessageToBus`
is a write to `DW_IC_DATA_CMD`. -/
def writesTo (r : Reg) : List Event → List Nat
  | [] => []
  | Event.write v r2 :: t => if r2 = r then v :: writesTo r t else writesTo r t
  | Event.cmd _ _ v :: t => if r = Reg.DW_IC_DATA_CMD then v :: writesTo r t else writesTo r t
  | _ :: t => writesTo r t

/-- The registers written, in order. -/
def written : List Event → List Reg
  | [] => []
  | Event.write _ r :: t => r :: written t
  | Event.cmd _ _ _ :: t => Reg.DW_IC_DATA_CMD :: written t
  | _ :: t => written t

/-- The registers read, in order. -/
def readsOf : List Event → List Reg
  | [] => []
  | Event.read r _ :: t => r :: readsOf t
  | _ :: t => readsOf t

/-- The indices at which the message array is accessed, in order. -/
def msgsOf : List Event → List Int
  | [] => []
  | Event.msg i :: t => i :: msgsOf t
  | _ :: t => msgsOf t

/-- The number of times the completion condition is signalled. -/
def wakeups : List Event → Nat
  | [] => 0
  | Event.wakeup :: t => wakeups t + 1
  | _ :: t => wakeups t

/-- The write index and remaining length of a recorded command. -/
def annot (e : Int × Nat × Nat) : Int × Nat := (e.1, e.2.1)

/-- The pairs `(i, n), (i, n - 1), ..., (i, 1)`: one per byte of a message of index `i`
that has `n` bytes left. -/
def seqDown (i : Int) : Nat → List (Int × Nat)
  | 0 => []
  | n + 1 => (i, n + 1) :: seqDown i n

/-- The `n` bytes stored from address `b` on. -/
def bytesAt (mem : Nat → Nat) (b : Nat) : Nat → List Nat
  | 0 => []
  | n + 1 => mem b % 256 :: bytesAt mem (b + 1) n

/-- The command word before the data byte or the read token is added: the stop bit and
the restart bit. -/
def cmdWord (stop restart : Bool) : Nat :=
  (if restart then (if stop then 0 ||| 0x200 else 0) ||| 0x400
   else (if stop then 0 ||| 0x200 else 0))

/-- The state after one pass of the inner loop of `transferMessageToBus` that writes a
read token. -/
def tokenState (bl : Nat) (need_restart : Bool) (s : Dev) : Dev :=
  { s with
    trace := s.trace ++ [Event.msg s.message_write_index,
      Event.cmd s.message_write_index (bl + 1)
        (cmdWord (decide (s.message_write_index = s.message_number - 1 ∧ bl + 1 = 1))
          need_restart ||| 0x100)],
    receive_outstanding := s.receive_outstanding + 1,
    fault := s.fault || s.messages_null }

/-- The state after one pass of the inner loop of `transferMessageToBus` that writes a
data byte. -/
def byteState (bl : Nat) (need_restart : Bool) (buffer : Nat) (s : Dev) : Dev :=
  { s with
    trace := s.trace ++ [Event.msg s.message_write_index, Event.load buffer,
      Event.cmd s.message_write_index (bl + 1)
        (cmdWord (decide (s.message_write_index = s.message_number - 1 ∧ bl + 1 = 1))
          need_restart ||| s.mem buffer % 256)],
    fault := s.fault || s.messages_null }

/-- What the inner loop of `transferMessageToBus` does, entered with the given locals
in state `s` and leaving the result `r`: it changes only the trace, the
read count and `receive_outstanding`, and the commands `X` it writes
* are those of the next bytes of the message at the write index, in order;
* carry the stop bit exactly on the last byte of the last message;
* number at most `transaction_limit`;
* for a read message are read tokens, counted in `receive_outstanding`, each written
  with `receive_outstanding` below the receive limit of the moment;
* for a write message carry the bytes of the buffer in order, all of them when the
  limits leave room. -/
def TxWhilePost (K : Consts) (bl : Nat) (tl rl : Int) (buffer : Nat) (s : Dev)
    (r : Dev × Bool × Nat × Nat) : Prop :=
  r.1 = { s with
    trace := r.1.trace,
    receive_outstanding := r.1.receive_outstanding,
    nreads := r.1.nreads,
    fault := r.1.fault } ∧
  ∃ X : List (Int × Nat × Nat),
    cmdsOf r.1.trace = cmdsOf s.trace ++ X ∧
    X.map annot ++ seqDown s.message_write_index r.2.2.2 = seqDown s.message_write_index bl ∧
    (∀ e ∈ X, (e.2.2 &&& 0x200 ≠ 0 ↔
      (s.message_write_index = s.message_number - 1 ∧ e.2.1 = 1))) ∧
    ((X.length : Int) ≤ max tl 0) ∧
    r.1.receive_outstanding = s.receive_outstanding +
      (if (s.messages s.message_write_index).flags &&& K.I2C_M_RD ≠ 0 then (X.length : Int)
       else 0) ∧
    ((s.messages s.message_write_index).flags &&& K.I2C_M_RD ≠ 0 →
      (∀ j : Nat, j < X.length → s.receive_outstanding + j < rl - j) ∧
      (∀ e ∈ X, e.2.2 &&& 0x100 ≠ 0) ∧ r.2.2.1 = buffer) ∧
    (¬ (s.messages s.message_write_index).flags &&& K.I2C_M_RD ≠ 0 →
      X.map (fun e => e.2.2 % 256) ++ bytesAt s.mem r.2.2.1 r.2.2.2 = bytesAt s.mem buffer bl ∧
      r.2.2.1 + r.2.2.2 = buffer + bl ∧
      ((bl : Int) ≤ tl → 0 < rl → r.2.2.2 = 0))

/-- The state after an access to the message at the write index. -/
@[simps] def noteMsg (s : Dev) : Dev :=
  { s with
    trace := s.trace ++ [Event.msg s.message_write_index],
    fault := s.fault || s.messages_null }

/-- The state in which `message_error` has been set. -/
@[simps] def flagError (s : Dev) : Dev := { s with message_error := -1 }

/-- The state in which the outer loop of `transferMessageToBus` stops on a message that
is not fully written; `r` is the result of `txMessage`. -/
@[simps] def txPartial (K : Consts) (r : Dev × Bool × Nat × Nat) : Dev :=
  { r.1 with
    transaction_buffer := r.2.2.1,
    transaction_buffer_length := r.2.2.2,
    status := r.1.status ||| K.STATUS_WRITE_IN_PROGRESS }

/-- The state in which the outer loop of `transferMessageToBus` goes on to the next
message; `r` is the result of `txMessage`. -/
@[simps] def txNext (K : Consts) (r : Dev × Bool × Nat × Nat) : Dev :=
  { r.1 with
    transaction_buffer := r.2.2.1,
    transaction_buffer_length := r.2.2.2,
    status := r.1.status &&& not32 K.STATUS_WRITE_IN_PROGRESS,
    message_write_index := r.1.message_write_index + 1 }

/-- The fields the outer loop of `transferMessageToBus` can change: `s2` is `s1` up to
the trace, the read count, `receive_outstanding`, the saved transmit cursor, `status`,
the write index, `message_error` and the fault mark. -/
def TxFrame (s1 s2 : Dev) : Prop :=
  s2 = { s1 with
    trace := s2.trace,
    fault := s2.fault,
    nreads := s2.nreads,
    receive_outstanding := s2.receive_outstanding,
    transaction_buffer := s2.transaction_buffer,
    transaction_buffer_length := s2.transaction_buffer_length,
    status := s2.status,
    message_write_index := s2.message_write_index,
    message_error := s2.message_error }

/-- How the outer loop of `transferMessageToBus` can end, from state `s` to state `s2`,
`address` being the address it compares with: all messages done; an error flagged at
the message it stopped on; or that message left partly written, with
`STATUS_WRITE_IN_PROGRESS` set. -/
def TxExit (K : Consts) (address : Nat) (s s2 : Dev) : Prop :=
  (s.message_number ≤ s2.message_write_index ∧ s2.message_error = s.message_error) ∨
  (s2.message_write_index < s.message_number ∧ s2.message_error = -1 ∧
    ((s.messages s2.message_write_index).address ≠ address ∨
      (s.messages s2.message_write_index).length = 0)) ∨
  (s2.message_write_index < s.message_number ∧ s2.message_error = s.message_error ∧
    (s.messages s2.message_write_index).address = address ∧
    (s.messages s2.message_write_index).length ≠ 0 ∧
    s2.transaction_buffer_length ≠ 0 ∧
    ∃ st, s2.status = st ||| K.STATUS_WRITE_IN_PROGRESS)

/-- What the outer loop of `transferMessageToBus` does from state `s` to state `s2`:
the fields it leaves alone, the messages it goes past, how it ends, the commands `X` it
writes (stop bit exactly on the last byte of the last message; only for messages that
passed the address and length checks), and the bound on `receive_outstanding`. -/
def TxForPost (K : Consts) (address : Nat) (s s2 : Dev) : Prop :=
  TxFrame s s2 ∧
  s.message_write_index ≤ s2.message_write_index ∧
  (∀ j, s.message_write_index ≤ j → j < s2.message_write_index →
    (s.messages j).address = address ∧ (s.messages j).length ≠ 0 ∧ j < s.message_number) ∧
  TxExit K address s s2 ∧
  (∃ X : List (Int × Nat × Nat), cmdsOf s2.trace = cmdsOf s.trace ++ X ∧
    ∀ e ∈ X, (e.2.2 &&& 0x200 ≠ 0 ↔ (e.1 = s.message_number - 1 ∧ e.2.1 = 1)) ∧
      s.message_write_index ≤ e.1 ∧ e.1 ≤ s2.message_write_index ∧ e.1 < s.message_number ∧
      (s.messages e.1).address = address ∧ (s.messages e.1).length ≠ 0) ∧
  s.receive_outstanding ≤ s2.receive_outstanding ∧
  ((∀ n, s.hw n Reg.DW_IC_RXFLR % U32 ≤ s.receive_fifo_depth) →
    s.receive_outstanding ≤ s.receive_fifo_depth →
    s2.receive_outstanding ≤ s.receive_fifo_depth)

/-- The index and remaining length of every command still to be written for the
messages `i`, `i + 1`, ..., `i + f - 1`, none of them begun. -/
def pendingFrom (msgs : Int → VoodooI2CControllerBusMessage) (i : Int) :
    Nat → List (Int × Nat)
  | 0 => []
  | f + 1 => seqDown i (msgs i).length ++ pendingFrom msgs (i + 1) f

/-- The index and remaining length of every command still to be written at the head of
a pass of the outer loop of `transferMessageToBus`, `bl` being the local
`buffer_length`. -/
def pendingLoop (K : Consts) (bl : Nat) (s : Dev) : List (Int × Nat) :=
  if s.message_write_index < s.message_number then
    seqDown s.message_write_index
      (if s.status &&& K.STATUS_WRITE_IN_PROGRESS = 0 then
        (s.messages s.message_write_index).length else bl) ++
    pendingFrom s.messages (s.message_write_index + 1)
      (s.message_number - s.message_write_index - 1).toNat
  else []

/-- The index and remaining length of every command still to be written when
`transferMessageToBus` is entered in state `s`. -/
def pending (K : Consts) (s : Dev) : List (Int × Nat) :=
  pendingLoop K s.transaction_buffer_length s

/-- The value `transferMessageToBus` writes to `DW_IC_INTR_MASK`, from the state its
loop leaves. -/
def interruptMask (K : Consts) (s : Dev) : Nat :=
  if s.message_error ≠ 0 then 0
  else if s.message_write_index = s.message_number then
    K.DW_IC_INTR_DEFAULT_MASK &&& not32 K.DW_IC_INTR_TX_EMPTY
  else K.DW_IC_INTR_DEFAULT_MASK

/-- The state after `n` successive calls of `transferMessageToBus`. -/
def fillSteps (K : Consts) : Nat → Dev → Dev
  | 0, s => s
  | n + 1, s => fillSteps K n (transferMessageToBus K s)

/-- The state after at most `n` successive calls of `transferMessageToBus`, none of
them made once `message_error` is set. -/
def fillRun (K : Consts) : Nat → Dev → Dev
  | 0, s => s
  | n + 1, s => if s.message_error ≠ 0 then s else fillRun K n (transferMessageToBus K s)

/-- The messages from the write index on all have the address of the one at the write
index and a nonzero length. -/
def ValidFrom (s : Dev) : Prop :=
  ∀ j, s.message_write_index ≤ j → j < s.message_number →
    (s.messages j).address = (s.messages s.message_write_index).address ∧
    (s.messages j).length ≠ 0

/-- State `s2` is `s1` up to the trace, the read count and the fault mark. -/
def LogFrame (s1 s2 : Dev) : Prop :=
  s2 = { s1 with trace := s2.trace, nreads := s2.nreads, fault := s2.fault }

/-- The invariant of the fill steps on a batch made of the single write message `m`,
`X` being the commands written so far: their data bytes are the first bytes of the
buffer, in order, and the state is either fresh, or stopped inside the message with the
saved cursor right after the bytes written, or past the message with all bytes
written. -/
def SingleWriteInv (K : Consts) (mem : Nat → Nat) (m : VoodooI2CControllerBusMessage)
    (s : Dev) (X : List (Int × Nat × Nat)) : Prop :=
  s.message_number = 1 ∧ s.messages 0 = m ∧ s.mem = mem ∧
  X.length ≤ m.length ∧
  X.map (fun e => e.2.2 % 256) = bytesAt mem m.buffer X.length ∧
  ((s.message_write_index = 0 ∧ s.status &&& K.STATUS_WRITE_IN_PROGRESS = 0 ∧ X = []) ∨
   (s.message_write_index = 0 ∧ s.status &&& K.STATUS_WRITE_IN_PROGRESS ≠ 0 ∧
     s.transaction_buffer = m.buffer + X.length ∧
     s.transaction_buffer_length = m.length - X.length ∧ X.length < m.length) ∨
   (s.message_write_index = 1 ∧ s.status &&& K.STATUS_WRITE_IN_PROGRESS = 0 ∧
     X.length = m.length))

/-- What the inner loop of `readFromBus` does, entered with `length`, `receive_valid`
and `buffer` in state `s` and leaving the result `r`: with `k` the smaller of `length`
and `receive_valid` (0 if that is negative), it makes `k` reads of `DW_IC_DATA_CMD`,
stores the low byte of read number `j` at `buffer + j`, takes `k` off
`receive_outstanding`, and changes nothing else but the trace. -/
def RxForPost (l : Nat) (rv : Int) (buffer : Nat) (s : Dev) (r : Dev × Nat × Nat) : Prop :=
  r.2.1 = buffer + min l rv.toNat ∧
  r.2.2 = l - min l rv.toNat ∧
  r.1 = { s with
    mem := r.1.mem,
    trace := r.1.trace,
    receive_outstanding := s.receive_outstanding - (min l rv.toNat : Nat),
    nreads := s.nreads + min l rv.toNat } ∧
  (∀ a, r.1.mem a =
    if buffer ≤ a ∧ a < buffer + min l rv.toNat then
      s.hw (s.nreads + (a - buffer)) Reg.DW_IC_DATA_CMD % U32 % 256
    else s.mem a) ∧
  cmdsOf r.1.trace = cmdsOf s.trace

/-- The state after one pass of the inner loop of `readFromBus`. -/
@[simps] def rxByteState (buffer : Nat) (s : Dev) : Dev :=
  { s with
    nreads := s.nreads + 1,
    mem := fun a => if a = buffer then s.hw s.nreads Reg.DW_IC_DATA_CMD % U32 % 256 else s.mem a,
    trace := s.trace ++ [Event.read Reg.DW_IC_DATA_CMD (s.hw s.nreads Reg.DW_IC_DATA_CMD % U32)] ++
      [Event.store buffer (s.hw s.nreads Reg.DW_IC_DATA_CMD % U32 % 256)],
    receive_outstanding := s.receive_outstanding - 1 }

/-- The remaining length with which `readFromBus` enters its inner loop for the message
at the read index: the saved one if a read is in progress, else the message length. -/
def rxLength (K : Consts) (s : Dev) : Nat :=
  if s.status &&& K.STATUS_READ_IN_PROGRESS = 0 then (s.messages s.message_read_index).length
  else s.receive_buffer_length

/-- The cursor with which `readFromBus` enters its inner loop for the message at the
read index: the saved one if a read is in progress, else the start of the buffer. -/
def rxBuffer (K : Consts) (s : Dev) : Nat :=
  if s.status &&& K.STATUS_READ_IN_PROGRESS = 0 then (s.messages s.message_read_index).buffer
  else s.receive_buffer

/-- The state in which `readFromBus` enters its inner loop for a read message at the
read index: the element accesses are recorded and `DW_IC_RXFLR` has been read. -/
@[simps] def rxEntry (K : Consts) (s : Dev) : Dev :=
  { s with
    nreads := s.nreads + 1,
    trace := (if s.status &&& K.STATUS_READ_IN_PROGRESS = 0 then
        s.trace ++ [Event.msg s.message_read_index] ++ [Event.msg s.message_read_index] ++
          [Event.msg s.message_read_index]
      else s.trace ++ [Event.msg s.message_read_index]) ++
      [Event.read Reg.DW_IC_RXFLR (s.hw s.nreads Reg.DW_IC_RXFLR % U32)],
    fault := s.fault || s.messages_null }

/-- The state in which `readFromBus` returns when bytes of the message remain. -/
@[simps] def rxPartial (K : Consts) (r : Dev × Nat × Nat) : Dev :=
  { r.1 with
    status := r.1.status ||| K.STATUS_READ_IN_PROGRESS,
    receive_buffer_length := r.2.2,
    receive_buffer := r.2.1 }

/-- The state in which `readFromBus` goes on to the next message. -/
@[simps] def rxNext (K : Consts) (r : Dev × Nat × Nat) : Dev :=
  { r.1 with
    status := r.1.status &&& not32 K.STATUS_READ_IN_PROGRESS,
    message_read_index := r.1.message_read_index + 1 }

/-! ## Pieces of the SDA hold block -/

/-- The SDA hold value `getBusConfig` resolves before it forces the receive hold, as a
function of the clock, the value at hand (that of `FMCN`, if it gave one) and the value
`readback` that `DW_IC_SDA_HOLD` gives: the one computed from the clock when it is
known, else the one at hand, else the one read back, else the platform constant. -/
def holdValue (i2c_clk : Nat) (sunrise : Bool) (sda_hold readback : Nat) : Nat :=
  let sda_hold :=
    if i2c_clk ≠ 0 then
      (DIV_S64_ROUND_CLOSEST ((i2c_clk : Int) * 300) (MICRO : Int) % (U32 : Int)).toNat
    else sda_hold
  let sda_hold := if sda_hold = 0 then readback else sda_hold
  if sda_hold = 0 then (if sunrise then 0x1E else 0x62) else sda_hold

/-- The last step of the SDA hold block of `getBusConfig`: the receive hold is forced
on when the receive field of the value is zero. -/
def forceRxHold (K : Consts) (sda_hold : Nat) : Nat :=
  if sda_hold &&& K.DW_IC_SDA_HOLD_RX_MASK = 0 then
    (sda_hold ||| (1 <<< K.DW_IC_SDA_HOLD_RX_SHIFT)) % U32
  else sda_hold

/-- The events `T` touch neither a register for writing, nor `DW_IC_DATA_CMD`, nor the
message array, and signal nothing. -/
def Quiet (T : List Event) : Prop :=
  written T = [] ∧ Reg.DW_IC_DATA_CMD ∉ readsOf T ∧ msgsOf T = [] ∧ wakeups T = 0 ∧
    cmdsOf T = []

/-- State `s2` comes from `s1` by register reads other than of `DW_IC_DATA_CMD`, and by
recording the abort source. -/
def ClearFrame (s1 s2 : Dev) : Prop :=
  ∃ T, Quiet T ∧ s2 = { s1 with
    trace := s1.trace ++ T,
    nreads := s2.nreads,
    abort_source := s2.abort_source }

/-- The state after one pass of the loop of `toggleBusState` has written the enable
register and polled the enable status. -/
@[simps] def pollState (enabled : Nat) (s : Dev) : Dev :=
  { s with
    nreads := s.nreads + 1,
    trace := s.trace ++ [Event.write enabled Reg.DW_IC_ENABLE] ++
      [Event.read Reg.DW_IC_ENABLE_STATUS (s.hw s.nreads Reg.DW_IC_ENABLE_STATUS % U32)] }

/-- The bit 0 of the enable status that poll number `j` of a run started in state `s`
observes. -/
def pollBit (s : Dev) (j : Nat) : Nat :=
  s.hw (s.nreads + j) Reg.DW_IC_ENABLE_STATUS % U32 &&& 1

/-- The clock-gating family: the name starts with `AMD`. -/
def gated (P : Nub) : Prop := P.name.toList.take 3 = ['A', 'M', 'D']

instance (P : Nub) : Decidable (gated P) := by unfold gated; infer_instance

/-- What a run of the loop of `toggleBusState` entered with `timeout = t` does, `n`
being the number of passes and `T` the events: every pass writes `enabled` to the
enable register and polls the enable status once; the passes before the last observe a
state other than `enabled`; the run ends in success on a pass that observes `enabled`,
the clock-gating register being then written once if the controller is of that
family, or in a timeout after `t + 1` passes, that register not being written. -/
def ToggleRun (P : Nub) (enabled : Nat) (t : Nat) (s : Dev) (r : IOReturn × Dev)
    (n : Nat) (T : List Event) : Prop :=
  1 ≤ n ∧ n ≤ t + 1 ∧
  r.2.trace = s.trace ++ T ∧
  r.2.nreads = s.nreads + n ∧
  writesTo Reg.DW_IC_ENABLE T = List.replicate n enabled ∧
  readsOf T = List.replicate n Reg.DW_IC_ENABLE_STATUS ∧
  (∀ x, x ∈ written T → x = Reg.DW_IC_ENABLE ∨ x = Reg.LPSS_PRIVATE_CLOCK_GATING) ∧
  msgsOf T = [] ∧ cmdsOf T = [] ∧ wakeups T = 0 ∧
  (∀ j, j + 1 < n → pollBit s j ≠ enabled) ∧
  ((r.1 = IOReturn.kIOReturnSuccess ∧ pollBit s (n - 1) = enabled ∧
      writesTo Reg.LPSS_PRIVATE_CLOCK_GATING T = (if gated P then [enabled] else [])) ∨
   (r.1 = IOReturn.kIOReturnTimeout ∧ n = t + 1 ∧ pollBit s (n - 1) ≠ enabled ∧
      writesTo Reg.LPSS_PRIVATE_CLOCK_GATING T = []))

/-! ## Stale saved cursors -/

/-- State `s` with the saved transmit cursor and length replaced by `a`, `b` and the
saved receive cursor and length by `c`, `d`. -/
@[simps] def graft (s : Dev) (a b c d : Nat) : Dev :=
  { s with
    transaction_buffer := a,
    transaction_buffer_length := b,
    receive_buffer := c,
    receive_buffer_length := d }

/-- States `s` and `s2` differ at most in saved cursors and lengths that are not in
use: the transmit ones may differ when `STATUS_WRITE_IN_PROGRESS` is clear, the receive
ones when `STATUS_READ_IN_PROGRESS` is clear. -/
def StaleRel (K : Consts) (s s2 : Dev) : Prop :=
  ∃ a b c d, s2 = graft s a b c d ∧
    (s.status &&& K.STATUS_WRITE_IN_PROGRESS ≠ 0 →
      a = s.transaction_buffer ∧ b = s.transaction_buffer_length) ∧
    (s.status &&& K.STATUS_READ_IN_PROGRESS ≠ 0 →
      c = s.receive_buffer ∧ d = s.receive_buffer_length)

/-- The descriptor of state `s` with its fields zeroed; the configuration, the memory,
the hardware input, the trace and the marks of the message pointer are kept. -/
def zeroed (s : Dev) : Dev :=
  { s with
    command_error := 0,
    messages := fun _ => ⟨0, 0, 0, 0⟩,
    message_number := 0,
    message_error := 0,
    message_read_index := 0,
    message_write_index := 0,
    receive_outstanding := 0,
    status := 0,
    abort_source := 0,
    transaction_buffer := 0,
    transaction_buffer_length := 0,
    receive_buffer := 0,
    receive_buffer_length := 0 }

/-- The state after `k` interrupts have been served. -/
def interrupts (K : Consts) (P : Nub) : Nat → Dev → Dev
  | 0, s => s
  | k + 1, s => interrupts K P k (handleInterrupt K P s)

/-- A completion wait during which `k` interrupts are served and which then returns
`w`. -/
def interruptSleep (K : Consts) (P : Nub) (k : Nat) (w : WaitResult) :
    Dev → WaitResult × Dev :=
  fun s => (w, interrupts K P k s)

/-- The state in which `readFromBus` passes over a message that is not a read. -/
@[simps] def rxSkip (s : Dev) : Dev :=
  { s with
    trace := s.trace ++ [Event.msg s.message_read_index],
    message_read_index := s.message_read_index + 1,
    fault := s.fault || s.messages_null }

/-! ## Steps of the interrupt handler -/

/-- The state after `handleInterrupt` has disabled the interrupt line. -/
@[simps] def irqEnter (s : Dev) : Dev :=
  { s with trace := s.trace ++ [Event.disableInterrupt] }

/-- The state after `handleInterrupt` has read the enable register and the raw
interrupt status. -/
@[simps] def irqRead (s : Dev) : Dev :=
  { s with
    nreads := s.nreads + 2,
    trace := s.trace ++ [Event.disableInterrupt] ++
      [Event.read Reg.DW_IC_ENABLE (s.hw s.nreads Reg.DW_IC_ENABLE % U32)] ++
      [Event.read Reg.DW_IC_RAW_INTR_STAT (s.hw (s.nreads + 1) Reg.DW_IC_RAW_INTR_STAT % U32)] }

/-- The state after `handleInterrupt` has enabled the interrupt line again. -/
@[simps] def irqExit (s : Dev) : Dev :=
  { s with trace := s.trace ++ [Event.enableInterrupt] }

/-- The skip checks of `handleInterrupt` that follow the test of `awake`: the enable
register reads 0, or the raw status has no bit but activity, or it reads all ones. -/
def irqSkip (K : Consts) (s : Dev) : Prop :=
  s.hw s.nreads Reg.DW_IC_ENABLE % U32 = 0 ∨
  (s.hw (s.nreads + 1) Reg.DW_IC_RAW_INTR_STAT % U32) &&& not32 K.DW_IC_INTR_ACTIVITY = 0 ∨
  s.hw (s.nreads + 1) Reg.DW_IC_RAW_INTR_STAT % U32 = 0xFFFFFFFF

instance (K : Consts) (s : Dev) : Decidable (irqSkip K s) := by unfold irqSkip; infer_instance

/-! ## What the interrupt handler may change -/

/-- An event other than a completion signal and the disabling or enabling of the
interrupt line. -/
def plain : Event → Bool
  | Event.wakeup => false
  | Event.disableInterrupt => false
  | Event.enableInterrupt => false
  | _ => true

/-- The number of times the interrupt line is disabled. -/
def disables : List Event → Nat
  | [] => 0
  | Event.disableInterrupt :: t => disables t + 1
  | _ :: t => disables t

/-- The number of times the interrupt line is enabled. -/
def enables : List Event → Nat
  | [] => 0
  | Event.enableInterrupt :: t => enables t + 1
  | _ :: t => enables t

/-- State `s2` comes from `s` by steps of the drain, the fill and the clearing of
interrupt bits: the trace grows by plain events, and the configuration, `awake`,
`command_error`, the message array, its length and the hardware input are as they
were. -/
def IrqFrame (s s2 : Dev) : Prop :=
  ∃ T, (∀ e, e ∈ T → plain e = true) ∧ s2 = { s with
    trace := s.trace ++ T,
    fault := s2.fault,
    nreads := s2.nreads,
    abort_source := s2.abort_source,
    mem := s2.mem,
    receive_outstanding := s2.receive_outstanding,
    status := s2.status,
    transaction_buffer := s2.transaction_buffer,
    transaction_buffer_length := s2.transaction_buffer_length,
    receive_buffer := s2.receive_buffer,
    receive_buffer_length := s2.receive_buffer_length,
    message_read_index := s2.message_read_index,
    message_write_index := s2.message_write_index,
    message_error := s2.message_error }

/-- The part of `handleInterrupt` from the call of `readClearInterruptBits` to the
label `wakeup`: the status returned by that call and the state at the label. -/
def handleInterruptBody (K : Consts) (s : Dev) : Nat × Dev :=
  let (status, s) := readClearInterruptBits K s
  if status &&& K.DW_IC_INTR_TX_ABRT ≠ 0 then
    let s := { s with
      command_error := s.command_error ||| K.DW_IC_ERR_TX_ABRT,
      status := K.STATUS_IDLE,
      receive_outstanding := 0 }
    (status, writeRegister 0 Reg.DW_IC_INTR_MASK s)
  else
    let s := if status &&& K.DW_IC_INTR_RX_FULL ≠ 0 then readFromBus K s else s
    let s := if status &&& K.DW_IC_INTR_TX_EMPTY ≠ 0 then transferMessageToBus K s else s
    (status, s)

/-- The test at the label `wakeup` of `handleInterrupt`. -/
def wakeTest (K : Consts) (status : Nat) (s : Dev) : Prop :=
  (status &&& (K.DW_IC_INTR_TX_ABRT ||| K.DW_IC_INTR_STOP_DET) ≠ 0 ∨ s.message_error ≠ 0) ∧
    s.receive_outstanding = 0

instance (K : Consts) (status : Nat) (s : Dev) : Decidable (wakeTest K status s) := by
  unfold wakeTest; infer_instance

/-- The events of the part of `handleInterrupt` from the label `wakeup` to the label
`exit`, entered with `status` in state `s`: the completion signal if the test holds,
else the retrigger through the interrupt mask if the platform needs it. -/
def wakeEvents (K : Consts) (P : Nub) (status : Nat) (s : Dev) : List Event :=
  if wakeTest K status s then [Event.wakeup]
  else if P.access_intr_mask_workaround then
    [Event.read Reg.DW_IC_INTR_MASK (s.hw s.nreads Reg.DW_IC_INTR_MASK % U32),
     Event.write 0 Reg.DW_IC_INTR_MASK,
     Event.write (s.hw s.nreads Reg.DW_IC_INTR_MASK % U32) Reg.DW_IC_INTR_MASK]
  else []

/-! ## Runs of the driver -/

/-- What happens to the driver: an interrupt, a call of `prepareTransferI2C`, or a call
of `transferI2CGated`, for `number` messages, each wait serving `k` interrupts and
returning `w`. -/
inductive Action
  | irq
  | prepare (messages : Int → VoodooI2CControllerBusMessage) (number : Int) (k : Nat)
      (w : WaitResult)
  | submit (messages : Int → VoodooI2CControllerBusMessage) (number : Int) (k : Nat)
      (w : WaitResult)

/-- The state after one action. -/
def act (K : Consts) (P : Nub) (a : Action) (s : Dev) : Dev :=
  match a with
  | Action.irq => handleInterrupt K P s
  | Action.prepare messages number k w =>
    (prepareTransferI2C K P (interruptSleep K P k w) messages number s).2
  | Action.submit messages number k w =>
    (transferI2CGated K P (interruptSleep K P k w) messages number s).2

/-- The state after the actions of a list, in order. -/
def run (K : Consts) (P : Nub) : List Action → Dev → Dev
  | [], s => s
  | a :: l, s => run K P l (act K P a s)

/-- The values `command_error` takes: 0 or the abort marker. -/
def CmdOk (K : Consts) (s : Dev) : Prop :=
  s.command_error = 0 ∨ s.command_error = K.DW_IC_ERR_TX_ABRT

/-! ## Runs of drain and fill steps -/

/-- The state after a sequence of steps of the transfer engine, each a call of
`readFromBus` (`false`) or a call of `transferMessageToBus` (`true`). -/
def steps (K : Consts) : List Bool → Dev → Dev
  | [], s => s
  | true :: l, s => steps K l (transferMessageToBus K s)
  | false :: l, s => steps K l (readFromBus K s)

/-- State `s2` is as state `s` for the transmit fill: the batch, the write index, the
saved remaining length, the test of `STATUS_WRITE_IN_PROGRESS` and the hardware input
are the same, and no command has been written in between. -/
def TxSame (K : Consts) (s s2 : Dev) : Prop :=
  s2.messages = s.messages ∧ s2.message_number = s.message_number ∧
  s2.message_write_index = s.message_write_index ∧
  s2.transaction_buffer_length = s.transaction_buffer_length ∧
  (s2.status &&& K.STATUS_WRITE_IN_PROGRESS = 0 ↔ s.status &&& K.STATUS_WRITE_IN_PROGRESS = 0) ∧
  s2.hw = s.hw ∧
  cmdsOf s2.trace = cmdsOf s.trace

/-- The commands `X` written between state `s0` and state `s` are the first of those
due at `s0`, the ones still due at `s` being the rest; each carries the stop bit exactly
when it is for the last byte of the last message; and the batch is valid from the write
index on. -/
def Progress (K : Consts) (s0 s : Dev) : Prop :=
  s.message_number = s0.message_number ∧ s.hw = s0.hw ∧ ValidFrom s ∧
  ∃ X, cmdsOf s.trace = cmdsOf s0.trace ++ X ∧
    X.map annot ++ pending K s = pending K s0 ∧
    ∀ e ∈ X, (e.2.2 &&& 0x200 ≠ 0 ↔ (e.1 = s0.message_number - 1 ∧ e.2.1 = 1))

/-! ## The message pointer -/

/-- From state `s` to state `s2` the message pointer is NULL or not as it was, and, if
it is not NULL, no fault has been added. -/
def NullKept (s s2 : Dev) : Prop :=
  s2.messages_null = s.messages_null ∧ (s.messages_null = false → s2.fault = s.fault)

/-! ## Concrete data used to evaluate the model -/

/-- The values the Synopsys DesignWare register map and the driver give the constants. -/
def dwConsts : Consts where
  DW_IC_ERR_TX_ABRT := 0x1
  STATUS_IDLE := 0x0
  STATUS_WRITE_IN_PROGRESS := 0x1
  STATUS_READ_IN_PROGRESS := 0x2
  I2C_M_RD := 0x0001
  I2C_M_TEN := 0x0010
  DW_IC_CON_10BITADDR_MASTER := 0x10
  DW_IC_TAR_10BITADDR_MASTER := 0x1000
  DW_IC_CON_RESTART_EN := 0x20
  DW_IC_INTR_RX_UNDER := 0x001
  DW_IC_INTR_RX_OVER := 0x002
  DW_IC_INTR_RX_FULL := 0x004
  DW_IC_INTR_TX_OVER := 0x008
  DW_IC_INTR_TX_EMPTY := 0x010
  DW_IC_INTR_RD_REQ := 0x020
  DW_IC_INTR_TX_ABRT := 0x040
  DW_IC_INTR_RX_DONE := 0x080
  DW_IC_INTR_ACTIVITY := 0x100
  DW_IC_INTR_STOP_DET := 0x200
  DW_IC_INTR_START_DET := 0x400
  DW_IC_INTR_GEN_CALL := 0x800
  DW_IC_INTR_DEFAULT_MASK := 0x254
  DW_IC_STATUS_ACTIVITY := 0x1
  DW_IC_SDA_HOLD_MIN_VERS := 0x3131312A
  DW_IC_SDA_HOLD_RX_MASK := 0xFF0000
  DW_IC_SDA_HOLD_RX_SHIFT := 16
  TIMEOUT := 20
  kVoodooI2CStateOff := 0
  kVoodooI2CStateOn := 1

/-- The state `init` leaves: `bus_device` zeroed, then `awake` set; the pointer
`messages` is NULL, so that the array it is given here is never read without a fault.
The memory and the hardware input are arguments. -/
def init (mem : Nat → Nat) (hw : Nat → Reg → Nat) : Dev where
  acpi_config := ⟨0, 0, 0, 0, 0⟩
  transaction_fifo_depth := 0
  receive_fifo_depth := 0
  awake := true
  bus_config := 0
  command_error := 0
  messages := fun _ => ⟨0, 0, 0, 0⟩
  message_number := 0
  message_error := 0
  message_read_index := 0
  message_write_index := 0
  receive_outstanding := 0
  status := 0
  abort_source := 0
  transaction_buffer := 0
  transaction_buffer_length := 0
  receive_buffer := 0
  receive_buffer_length := 0
  mem := mem
  hw := hw
  nreads := 0
  trace := []
  messages_null := true
  fault := false

/-- A provider without ACPI overrides: both methods fail and leave the variables as
they were. -/
def plainNub (name : String) (workaround : Bool) : Nub where
  name := name
  access_intr_mask_workaround := workaround
  getACPIParams_SSCN := fun h l => (IOReturn.kIOReturnError, h, l)
  getACPIParams_FMCN := fun h l d => (IOReturn.kIOReturnError, h, l, d)

/-- A provider whose ACPI methods both succeed, with the given values. -/
def overrideNub (name : String) (sscn : Nat × Nat) (fmcn : Nat × Nat × Nat) : Nub where
  name := name
  access_intr_mask_workaround := false
  getACPIParams_SSCN := fun _ _ => (IOReturn.kIOReturnSuccess, sscn.1, sscn.2)
  getACPIParams_FMCN := fun _ _ _ => (IOReturn.kIOReturnSuccess, fmcn.1, fmcn.2.1, fmcn.2.2)

/-- The array holding the given messages; past its end every field reads as zero. -/
def arrayOf (l : List VoodooI2CControllerBusMessage) : Int → VoodooI2CControllerBusMessage :=
  fun i => if i < 0 then ⟨0, 0, 0, 0⟩ else l.getD i.toNat ⟨0, 0, 0, 0⟩

/-- The hardware input in which every register reads as `v`. -/
def constHw (v : Nat) : Nat → Reg → Nat := fun _ _ => v

/-- The result of invocation number `k` (from 0) of `prepareTransferI2C` when the
invocations follow one another, each from the state the previous one left. -/
def nthAttempt (K : Consts) (P : Nub) (commandSleep : Dev → WaitResult × Dev)
    (messages : Int → VoodooI2CControllerBusMessage) (number : Int) :
    Nat → Dev → IOReturn × Dev
  | 0, s => prepareTransferI2C K P commandSleep messages number s
  | k + 1, s =>
    prepareTransferI2C K P commandSleep messages number
      (nthAttempt K P commandSleep messages number k s).2

/-- The outcome `prepareTransferI2C` assigns to the error fields of a descriptor. -/
def classify (K : Consts) (d : Dev) : IOReturn :=
  if d.message_error ≠ 0 then IOReturn.kIOReturnError
  else if d.command_error = 0 then IOReturn.kIOReturnSuccess
  else if d.command_error = K.DW_IC_ERR_TX_ABRT then IOReturn.kIOReturnError
  else IOReturn.kIOReturnNotReady

/-- The state after bring-up on a controller whose two FIFOs have depth `d`. -/
def fifoDev (mem : Nat → Nat) (hw : Nat → Reg → Nat) (d : Nat) : Dev :=
  { init mem hw with transaction_fifo_depth := d, receive_fifo_depth := d }

/-- A hardware input under which arming succeeds at once: the enable status reads 0 on
the first read of the run and 1 afterwards, every other register reads 0 (both FIFOs
empty). -/
def armHw : Nat → Reg → Nat := fun n r =>
  match r with
  | Reg.DW_IC_ENABLE_STATUS => if n = 0 then 0 else 1
  | _ => 0

/-- A memory whose byte at address `a` is `a + 0x41`. -/
def letters : Nat → Nat := fun a => a + 0x41

/-- One read of 5 bytes from address 0x2c into the buffer at 0. -/
def oneRead5 : Int → VoodooI2CControllerBusMessage :=
  arrayOf [⟨0x2c, 0, 1, 5⟩]

/-- One write of 3 bytes to address 0x2c from the buffer at 0. -/
def oneWrite3 : Int → VoodooI2CControllerBusMessage :=
  arrayOf [⟨0x2c, 0, 0, 3⟩]


/-- A hardware input for a drain in two calls: the receive level reads 2 on the first
read of the run and 3 afterwards, and read number `n` of any other register gives
`0x60 + n`. -/
def drainHw : Nat → Reg → Nat := fun n r =>
  match r with
  | Reg.DW_IC_RXFLR => if n = 0 then 2 else 3
  | _ => 0x60 + n

/-- A single read of 5 bytes whose 5 tokens are outstanding, no byte received yet. -/
def read5Dev : Dev :=
  { init letters drainHw with
    messages := oneRead5,
    messages_null := false,
    message_number := 1,
    receive_outstanding := 5,
    receive_fifo_depth := 16,
    transaction_fifo_depth := 16 }

/-- A hardware input of a recent controller: `DW_IC_SDA_HOLD` reads as `v` and every
other register as 0x3132322A (a version above the minimum for the SDA hold). -/
def holdHw (v : Nat) : Nat → Reg → Nat := fun _ r =>
  match r with
  | Reg.DW_IC_SDA_HOLD => v
  | _ => 0x3132322A

/-- A hardware input of an interrupt with a transmit abort: every register reads as
0x40 (the enable register is nonzero and the interrupt status is the transmit-abort
bit). -/
def abortHw : Nat → Reg → Nat := fun _ _ => 0x40

/-- A transfer in progress on a controller with FIFOs of depth 16: one read of 5 bytes
with two tokens outstanding, the read in progress. -/
def busyDev (hw : Nat → Reg → Nat) : Dev :=
  { fifoDev letters hw 16 with
    messages := oneRead5,
    messages_null := false,
    message_number := 1,
    message_write_index := 0,
    receive_outstanding := 2,
    status := 0x3,
    transaction_buffer_length := 3 }

/-- A wait that returns at once with the given result, no interrupt served. -/
def sleepNow (w : WaitResult) : Dev → WaitResult × Dev := fun s => (w, s)

/-- The state after `setPowerState` has put the controller to sleep: as `busyDev`, with
`awake` cleared. -/
def asleepDev (hw : Nat → Reg → Nat) : Dev := { busyDev hw with awake := false }

/-- A hardware input for one submission on an idle bus: the enable status reads 1 on
read number 3 of the run (the poll that follows the enabling) and 0 on every other
read, and every other register reads 0 (bus idle, both FIFOs empty). -/
def submitHw : Nat → Reg → Nat := fun n r =>
  match r with
  | Reg.DW_IC_ENABLE_STATUS => if n = 3 then 1 else 0
  | _ => 0

/-- Two writes to the address 0x2c: 2 bytes from the buffer at 0, then 1 byte from the
buffer at 2. -/
def twoWrites : Int → VoodooI2CControllerBusMessage :=
  arrayOf [⟨0x2c, 0, 0, 2⟩, ⟨0x2c, 2, 0, 1⟩]

/-- A hardware input in which the transmit FIFO is found full once: `DW_IC_TXFLR`
reads 2 on read number 2 of the run and 0 otherwise, and every other register reads
0. -/
def fullOnceHw : Nat → Reg → Nat := fun n r =>
  match r with
  | Reg.DW_IC_TXFLR => if n = 2 then 2 else 0
  | _ => 0

/-- An armed transfer of `twoWrites` on a controller with FIFOs of depth `d`, restart
enabled in `bus_config` (master, fast mode, restart enable, slave disable). -/
def restartDev (hw : Nat → Reg → Nat) (d : Nat) : Dev :=
  { fifoDev letters hw d with
    messages := twoWrites,
    messages_null := false,
    message_number := 2,
    bus_config := 0x65 }

/-- A hardware input for one submission served by one interrupt: the bus is idle, the
enable status reads 1 on read number 3 of the run (the poll that follows the enabling)
and 0 otherwise, the enable register reads 1, both interrupt status registers read
0x210 (transmit empty and stop detected), and every other register reads 0. -/
def xferHw : Nat → Reg → Nat := fun n r =>
  match r with
  | Reg.DW_IC_ENABLE_STATUS => if n = 3 then 1 else 0
  | Reg.DW_IC_ENABLE => 1
  | Reg.DW_IC_RAW_INTR_STAT => 0x210
  | Reg.DW_IC_INTR_STAT => 0x210
  | _ => 0

/-- The state a transfer that timed out may leave: a read of 5 bytes cut short, both
progress flags set, saved cursors in the middle of buffers, both errors flagged. -/
def staleDev (hw : Nat → Reg → Nat) : Dev :=
  { fifoDev letters hw 16 with
    messages := oneRead5,
    messages_null := false,
    message_number := 1,
    message_write_index := 1,
    message_read_index := 0,
    message_error := -1,
    command_error := 1,
    abort_source := 0x800,
    receive_outstanding := 2,
    status := 0x3,
    transaction_buffer := 7,
    transaction_buffer_length := 9,
    receive_buffer := 3,
    receive_buffer_length := 2 }

/-- A hardware input of an interrupt with a stop detected: the enable register reads
1, both interrupt status registers read 0x200, and every other register reads 0. -/
def stopHw : Nat → Reg → Nat := fun _ r =>
  match r with
  | Reg.DW_IC_ENABLE => 1
  | Reg.DW_IC_RAW_INTR_STAT => 0x200
  | Reg.DW_IC_INTR_STAT => 0x200
  | _ => 0

/-- A single message of length 0 for the address 0x2c. -/
def oneEmpty : Int → VoodooI2CControllerBusMessage :=
  arrayOf [⟨0x2c, 0, 0, 0⟩]

/-- A hardware input for one submission served by one interrupt with the transmit
FIFO empty: as `xferHw`, both interrupt status registers reading 0x10. -/
def emptyHw : Nat → Reg → Nat := fun n r =>
  match r with
  | Reg.DW_IC_ENABLE_STATUS => if n = 3 then 1 else 0
  | Reg.DW_IC_ENABLE => 1
  | Reg.DW_IC_RAW_INTR_STAT => 0x10
  | Reg.DW_IC_INTR_STAT => 0x10
  | _ => 0

/-- A hardware input with a slow receive side: arming succeeds at once as with `armHw`,
the receive level `DW_IC_RXFLR` always reads 1 and every other register reads 0. -/
def trickleHw : Nat → Reg → Nat := fun n r =>
  match r with
  | Reg.DW_IC_ENABLE_STATUS => if n = 0 then 0 else 1
  | Reg.DW_IC_RXFLR => 1
  | _ => 0

/-- A hardware input for arming followed by interrupts that report the transmit FIFO
empty: arming succeeds at once as with `armHw`, the enable register reads 1, both
interrupt status registers read 0x10, and every other register reads 0. -/
def fillHw : Nat → Reg → Nat := fun n r =>
  match r with
  | Reg.DW_IC_ENABLE_STATUS => if n = 0 then 0 else 1
  | Reg.DW_IC_ENABLE => 1
  | Reg.DW_IC_RAW_INTR_STAT => 0x10
  | Reg.DW_IC_INTR_STAT => 0x10
  | _ => 0

/-- A read of one byte followed by a message of length 0, both for the address 0x2c. -/
def readThenEmpty : Int → VoodooI2CControllerBusMessage :=
  arrayOf [⟨0x2c, 0, 1, 1⟩, ⟨0x2c, 1, 0, 0⟩]

/-! ## Frame lemmas for the bus state controller -/

theorem toggleClockGating_frame (P : Nub) (e : Nat) (s : Dev) :
    toggleClockGating P e s =
      { s with nreads := (toggleClockGating P e s).nreads,
               trace := (toggleClockGating P e s).trace } := by
  unfold toggleClockGating writeRegister
  split <;> rfl

theorem toggleBusStateLoop_frame (P : Nub) (e : Nat) (t : Nat) (s : Dev) :
    (toggleBusStateLoop P e t s).2 =
      { s with nreads := (toggleBusStateLoop P e t s).2.nreads,
               trace := (toggleBusStateLoop P e t s).2.trace } := by
  induction t generalizing s with
  | zero =>
    unfold toggleBusStateLoop
    simp only [readRegister, writeRegister, delay]
    split
    · rw [toggleClockGating_frame]
    · rfl
  | succ t ih =>
    unfold toggleBusStateLoop
    simp only [readRegister, writeRegister, delay]
    split
    · rw [toggleClockGating_frame]
    · rw [ih]

theorem toggleBusState_frame (P : Nub) (e : Nat) (s : Dev) :
    (toggleBusState P e s).2 =
      { s with nreads := (toggleBusState P e s).2.nreads,
               trace := (toggleBusState P e s).2.trace } :=
  toggleBusStateLoop_frame P e 1000 s

theorem toggleBusState_message_error (P : Nub) (e : Nat) (s : Dev) :
    (toggleBusState P e s).2.message_error = s.message_error := by
  rw [toggleBusState_frame]

theorem toggleBusState_command_error (P : Nub) (e : Nat) (s : Dev) :
    (toggleBusState P e s).2.command_error = s.command_error := by
  rw [toggleBusState_frame]

/-! ## Outcome classification and retry (C1, C2) -/

theorem finishTransfer_fst (K : Consts) (P : Nub) (w : WaitResult) (d : Dev) :
    (finishTransfer K P w d).1 =
      if w = WaitResult.THREAD_TIMED_OUT then IOReturn.kIOReturnTimeout else classify K d := by
  unfold finishTransfer classify
  by_cases hw : w = WaitResult.THREAD_TIMED_OUT
  · simp [hw]
  · simp only [hw, if_false, toggleBusState_message_error, toggleBusState_command_error]
    split_ifs <;> rfl

/-- C1: once the controller is awake and the bus is found not busy, the result of
`prepareTransferI2C` is decided by the completion wait alone: `Timeout` if the wait
timed out, whatever the error fields hold; otherwise, for the descriptor `d` present
when the wait returns, `Error` if `message_error` is nonzero, else `Success` if
`command_error` is 0, else `Error` if `command_error` is the abort marker, else
`NotReady`. -/
theorem C1_prepareTransferI2C_outcome (K : Consts) (P : Nub)
    (commandSleep : Dev → WaitResult × Dev)
    (messages : Int → VoodooI2CControllerBusMessage) (number : Int) (s : Dev)
    (hawake : s.awake = true)
    (hidle : (waitBusNotBusyI2C K s).1 = IOReturn.kIOReturnSuccess) :
    let armed := armTransfer K P messages number (waitBusNotBusyI2C K s).2
    let w := (commandSleep armed).1
    let d := (commandSleep armed).2
    (prepareTransferI2C K P commandSleep messages number s).1 =
      if w = WaitResult.THREAD_TIMED_OUT then IOReturn.kIOReturnTimeout
      else if d.message_error ≠ 0 then IOReturn.kIOReturnError
      else if d.command_error = 0 then IOReturn.kIOReturnSuccess
      else if d.command_error = K.DW_IC_ERR_TX_ABRT then IOReturn.kIOReturnError
      else IOReturn.kIOReturnNotReady := by
  intro armed w d
  have h : prepareTransferI2C K P commandSleep messages number s =
      finishTransfer K P w d := by
    unfold prepareTransferI2C
    simp [hawake, hidle, w, d, armed]
  rw [h, finishTransfer_fst]
  rfl

/-- Witness for C1: an awake controller on an idle bus whose wait is woken with
`command_error = 3` gets `NotReady`. -/
theorem C1_prepareTransferI2C_outcome_witness :
    (init (fun _ => 0) (fun _ _ => 0)).awake = true ∧
    (waitBusNotBusyI2C dwConsts (init (fun _ => 0) (fun _ _ => 0))).1 =
      IOReturn.kIOReturnSuccess ∧
    (prepareTransferI2C dwConsts (plainNub "INT33C3" false)
      (fun s => (WaitResult.THREAD_AWAKENED, { s with message_error := 0, command_error := 3 }))
      (arrayOf [⟨0x2c, 0, 0, 1⟩]) 1 (init (fun _ => 0) (fun _ _ => 0))).1 =
      IOReturn.kIOReturnNotReady := by
  have hidle : (waitBusNotBusyI2C dwConsts (init (fun _ => 0) (fun _ _ => 0))).1 =
      IOReturn.kIOReturnSuccess := by
    unfold waitBusNotBusyI2C waitBusNotBusyLoop
    simp [readRegister, init, U32]
  refine ⟨rfl, hidle, ?_⟩
  have h := C1_prepareTransferI2C_outcome dwConsts (plainNub "INT33C3" false)
    (fun s => (WaitResult.THREAD_AWAKENED, { s with message_error := 0, command_error := 3 }))
    (arrayOf [⟨0x2c, 0, 0, 1⟩]) 1 (init (fun _ => 0) (fun _ _ => 0)) rfl hidle
  simpa [dwConsts] using h

theorem transferI2CGatedLoop_spec (K : Consts) (P : Nub)
    (commandSleep : Dev → WaitResult × Dev)
    (messages : Int → VoodooI2CControllerBusMessage) (number : Int)
    (left : Nat) (r0 : IOReturn) (s : Dev) :
    ∃ k, k ≤ left ∧
      transferI2CGatedLoop K P commandSleep messages number (left + 1) r0 s =
        nthAttempt K P commandSleep messages number k s ∧
      (∀ j, j < k →
        (nthAttempt K P commandSleep messages number j s).1 = IOReturn.kIOReturnNotReady) ∧
      ((nthAttempt K P commandSleep messages number k s).1 = IOReturn.kIOReturnNotReady →
        k = left) := by
  induction left generalizing r0 s with
  | zero =>
    refine ⟨0, le_refl _, ?_, ?_, ?_⟩
    · simp only [transferI2CGatedLoop, nthAttempt]
      split_ifs <;> rfl
    · intro j hj; omega
    · intro _; rfl
  | succ left ih =>
    by_cases h : (prepareTransferI2C K P commandSleep messages number s).1 =
        IOReturn.kIOReturnNotReady
    · obtain ⟨k, hk, heq, hall, hlast⟩ := ih IOReturn.kIOReturnNotReady
        (prepareTransferI2C K P commandSleep messages number s).2
      have shift : ∀ j, nthAttempt K P commandSleep messages number j
          (prepareTransferI2C K P commandSleep messages number s).2 =
          nthAttempt K P commandSleep messages number (j + 1) s := by
        intro j
        induction j with
        | zero => rfl
        | succ j ihj => simp only [nthAttempt] at ihj ⊢; rw [ihj]
      refine ⟨k + 1, by omega, ?_, ?_, ?_⟩
      · rw [← shift, ← heq]
        conv_lhs => unfold transferI2CGatedLoop
        simp only [h, ne_eq, not_true_eq_false, if_false]
      · intro j hj
        cases j with
        | zero => exact h
        | succ j => rw [← shift]; exact hall j (by omega)
      · intro hnr
        rw [← shift] at hnr
        have := hlast hnr
        omega
    · refine ⟨0, by omega, ?_, ?_, ?_⟩
      · conv_lhs => unfold transferI2CGatedLoop
        simp only [nthAttempt, ne_eq, h, not_false_eq_true, if_true]
      · intro j hj; omega
      · intro hnr; exact absurd hnr h

/-- C2: `transferI2CGated` returns the result and state of invocation number `k` of
`prepareTransferI2C` for some `k` below 6 (so it makes `k + 1`, at most 6, invocations,
each starting from the state left by the one before); all invocations before it
returned `NotReady`, and it is either the first one whose result is not `NotReady`
or, all six having returned `NotReady`, the sixth. -/
theorem C2_transferI2CGated_retry (K : Consts) (P : Nub)
    (commandSleep : Dev → WaitResult × Dev)
    (messages : Int → VoodooI2CControllerBusMessage) (number : Int) (s : Dev) :
    ∃ k, k < 6 ∧
      transferI2CGated K P commandSleep messages number s =
        nthAttempt K P commandSleep messages number k s ∧
      (∀ j, j < k →
        (nthAttempt K P commandSleep messages number j s).1 = IOReturn.kIOReturnNotReady) ∧
      ((nthAttempt K P commandSleep messages number k s).1 = IOReturn.kIOReturnNotReady →
        k = 5) := by
  obtain ⟨k, hk, heq, hall, hlast⟩ :=
    transferI2CGatedLoop_spec K P commandSleep messages number 5 IOReturn.kIOReturnSuccess s
  exact ⟨k, by omega, heq, hall, hlast⟩


/-! ## The inner loop of the transmit fill -/

theorem cmdsOf_append (a b : List Event) : cmdsOf (a ++ b) = cmdsOf a ++ cmdsOf b := by
  induction a with
  | nil => rfl
  | cons e t ih => cases e <;> simp [cmdsOf, ih]

theorem txWhile_succ (K : Consts) (bl : Nat) (nr : Bool) (tl rl : Int) (buffer : Nat) (s : Dev) :
    txWhile K (bl + 1) nr tl rl buffer s =
      if tl > 0 ∧ rl > 0 then
        if (s.messages s.message_write_index).flags &&& K.I2C_M_RD ≠ 0 then
          if rl - s.receive_outstanding ≤ 0 then
            (noteMsg s, false, buffer, bl + 1)
          else txWhile K bl false (tl - 1) (rl - 1) buffer (tokenState bl nr s)
        else txWhile K bl false (tl - 1) rl (buffer + 1) (byteState bl nr buffer s)
      else (s, nr, buffer, bl + 1) := by
  conv_lhs => unfold txWhile
  by_cases h1 : tl > 0 ∧ rl > 0
  · rw [if_pos h1, if_pos h1]
    simp only [messageAt]
    by_cases h2 : (s.messages s.message_write_index).flags &&& K.I2C_M_RD ≠ 0
    · rw [if_pos h2, if_pos h2]
      by_cases h3 : rl - s.receive_outstanding ≤ 0
      · rw [if_pos h3, if_pos h3]
        cases nr <;> rfl
      · rw [if_neg h3, if_neg h3]
        cases nr <;> simp [tokenState, cmdWord]
    · rw [if_neg h2, if_neg h2]
      cases nr <;> simp [byteState, cmdWord]
  · rw [if_neg h1, if_neg h1]

theorem and_512_ne_zero (x : Nat) : x &&& 0x200 ≠ 0 ↔ x.testBit 9 = true := by
  rw [show (0x200 : Nat) = 2 ^ 9 by norm_num, Nat.and_two_pow]
  cases x.testBit 9 <;> simp

theorem testBit9_of_lt (b : Nat) (h : b < 256) : b.testBit 9 = false :=
  Nat.testBit_lt_two_pow (by omega)

theorem stop_bit_token (stop nr : Bool) :
    (cmdWord stop nr ||| 0x100) &&& 0x200 ≠ 0 ↔ stop = true := by
  cases stop <;> cases nr <;> decide

theorem token_bit (stop nr : Bool) : (cmdWord stop nr ||| 0x100) &&& 0x100 ≠ 0 := by
  cases stop <;> cases nr <;> decide

theorem stop_bit_byte (stop nr : Bool) (b : Nat) (h : b < 256) :
    (cmdWord stop nr ||| b) &&& 0x200 ≠ 0 ↔ stop = true := by
  rw [and_512_ne_zero, Nat.testBit_or, testBit9_of_lt b h, Bool.or_false]
  cases stop <;> cases nr <;> decide

theorem lor_mod_256 (c b : Nat) (hc : c % 256 = 0) (h : b < 256) : (c ||| b) % 256 = b := by
  apply Nat.eq_of_testBit_eq
  intro i
  rw [show (256 : Nat) = 2 ^ 8 by norm_num, Nat.testBit_mod_two_pow, Nat.testBit_or]
  have hc' : ∀ j, j < 8 → c.testBit j = false := by
    intro j hj
    have := Nat.testBit_mod_two_pow c 8 j
    rw [show (2:Nat)^8 = 256 by norm_num, hc] at this
    simp [hj] at this
    exact this
  by_cases hi : i < 8
  · simp [hi, hc' i hi]
  · simp [hi]
    rw [Nat.testBit_lt_two_pow]
    calc b < 256 := h
      _ = 2 ^ 8 := by norm_num
      _ ≤ 2 ^ i := Nat.pow_le_pow_right (by norm_num) (by omega)

theorem byte_low (stop nr : Bool) (b : Nat) (h : b < 256) :
    (cmdWord stop nr ||| b) % 256 = b :=
  lor_mod_256 _ _ (by cases stop <;> cases nr <;> decide) h

@[simp] theorem tokenState_trace (bl : Nat) (nr : Bool) (s : Dev) :
    (tokenState bl nr s).trace = s.trace ++ [Event.msg s.message_write_index,
      Event.cmd s.message_write_index (bl + 1)
        (cmdWord (decide (s.message_write_index = s.message_number - 1 ∧ bl + 1 = 1))
          nr ||| 0x100)] := rfl

@[simp] theorem tokenState_receive_outstanding (bl : Nat) (nr : Bool) (s : Dev) :
    (tokenState bl nr s).receive_outstanding = s.receive_outstanding + 1 := rfl

@[simp] theorem tokenState_message_write_index (bl : Nat) (nr : Bool) (s : Dev) :
    (tokenState bl nr s).message_write_index = s.message_write_index := rfl

@[simp] theorem tokenState_message_number (bl : Nat) (nr : Bool) (s : Dev) :
    (tokenState bl nr s).message_number = s.message_number := rfl

@[simp] theorem tokenState_messages (bl : Nat) (nr : Bool) (s : Dev) :
    (tokenState bl nr s).messages = s.messages := rfl

@[simp] theorem tokenState_mem (bl : Nat) (nr : Bool) (s : Dev) :
    (tokenState bl nr s).mem = s.mem := rfl

theorem tokenState_frame (bl : Nat) (nr : Bool) (s : Dev) (t : List Event) (ro : Int)
    (n : Nat) (f : Bool) :
    { tokenState bl nr s with
        trace := t, receive_outstanding := ro, nreads := n, fault := f } =
      { s with trace := t, receive_outstanding := ro, nreads := n, fault := f } := rfl

@[simp] theorem byteState_trace (bl : Nat) (nr : Bool) (b : Nat) (s : Dev) :
    (byteState bl nr b s).trace = s.trace ++ [Event.msg s.message_write_index, Event.load b,
      Event.cmd s.message_write_index (bl + 1)
        (cmdWord (decide (s.message_write_index = s.message_number - 1 ∧ bl + 1 = 1))
          nr ||| s.mem b % 256)] := rfl

@[simp] theorem byteState_receive_outstanding (bl : Nat) (nr : Bool) (b : Nat) (s : Dev) :
    (byteState bl nr b s).receive_outstanding = s.receive_outstanding := rfl

@[simp] theorem byteState_message_write_index (bl : Nat) (nr : Bool) (b : Nat) (s : Dev) :
    (byteState bl nr b s).message_write_index = s.message_write_index := rfl

@[simp] theorem byteState_message_number (bl : Nat) (nr : Bool) (b : Nat) (s : Dev) :
    (byteState bl nr b s).message_number = s.message_number := rfl

@[simp] theorem byteState_messages (bl : Nat) (nr : Bool) (b : Nat) (s : Dev) :
    (byteState bl nr b s).messages = s.messages := rfl

@[simp] theorem byteState_mem (bl : Nat) (nr : Bool) (b : Nat) (s : Dev) :
    (byteState bl nr b s).mem = s.mem := rfl

theorem byteState_frame (bl : Nat) (nr : Bool) (b : Nat) (s : Dev) (t : List Event) (ro : Int)
    (n : Nat) (f : Bool) :
    { byteState bl nr b s with
        trace := t, receive_outstanding := ro, nreads := n, fault := f } =
      { s with trace := t, receive_outstanding := ro, nreads := n, fault := f } := rfl

theorem txWhile_post (K : Consts) (bl : Nat) :
    ∀ (nr : Bool) (tl rl : Int) (buffer : Nat) (s : Dev),
      TxWhilePost K bl tl rl buffer s (txWhile K bl nr tl rl buffer s) := by
  induction bl with
  | zero =>
    intro nr tl rl buffer s
    refine ⟨rfl, [], ?_⟩
    simp [txWhile, seqDown, bytesAt]
  | succ bl ih =>
    intro nr tl rl buffer s
    rw [txWhile_succ]
    by_cases h1 : tl > 0 ∧ rl > 0
    · rw [if_pos h1]
      by_cases h2 : (s.messages s.message_write_index).flags &&& K.I2C_M_RD ≠ 0
      · rw [if_pos h2]
        by_cases h3 : rl - s.receive_outstanding ≤ 0
        · rw [if_pos h3]
          refine ⟨rfl, [], ?_⟩
          simp [cmdsOf_append, cmdsOf, h2]
        · rw [if_neg h3]
          have ih' := ih false (tl - 1) (rl - 1) buffer (tokenState bl nr s)
          generalize txWhile K bl false (tl - 1) (rl - 1) buffer (tokenState bl nr s) = r at ih' ⊢
          obtain ⟨hf, X, hX, ha, hs, hl, hro, hrd, -⟩ := ih'
          simp only [tokenState_trace, tokenState_receive_outstanding,
            tokenState_message_write_index, tokenState_message_number, tokenState_messages,
            tokenState_mem, h2, if_true, not_true_eq_false, ne_eq, not_false_eq_true,
            forall_true_left] at hX ha hs hl hro hrd
          rw [tokenState_frame] at hf
          refine ⟨hf, (s.message_write_index, bl + 1,
            cmdWord (decide (s.message_write_index = s.message_number - 1 ∧ bl + 1 = 1)) nr
              ||| 0x100) :: X, ?_, ?_, ?_, ?_, ?_, ?_, ?_⟩
          · rw [hX]; simp [cmdsOf_append, cmdsOf]
          · simp only [List.map_cons, List.cons_append, annot, seqDown, ha]
          · intro e he
            rcases List.mem_cons.mp he with rfl | he
            · rw [stop_bit_token]; simp
            · exact hs e he
          · simp only [List.length_cons]; push_cast; omega
          · rw [hro, if_pos h2]; simp only [List.length_cons]; push_cast; omega
          · intro _
            refine ⟨?_, ?_, hrd.2.2⟩
            · intro j hj
              cases j with
              | zero => simp; omega
              | succ j =>
                have := hrd.1 j (by simpa using hj)
                push_cast; omega
            · intro e he
              rcases List.mem_cons.mp he with rfl | he
              · exact token_bit _ _
              · exact hrd.2.1 e he
          · intro hn; exact absurd h2 hn
      · rw [if_neg h2]
        have ih' := ih false (tl - 1) rl (buffer + 1) (byteState bl nr buffer s)
        generalize txWhile K bl false (tl - 1) rl (buffer + 1) (byteState bl nr buffer s) = r
          at ih' ⊢
        obtain ⟨hf, X, hX, ha, hs, hl, hro, -, hwr⟩ := ih'
        simp only [byteState_trace, byteState_receive_outstanding,
          byteState_message_write_index, byteState_message_number, byteState_messages,
          byteState_mem, h2, if_false, not_false_eq_true, ne_eq,
          forall_true_left] at hX ha hs hl hro hwr
        rw [byteState_frame] at hf
        refine ⟨hf, (s.message_write_index, bl + 1,
          cmdWord (decide (s.message_write_index = s.message_number - 1 ∧ bl + 1 = 1)) nr
            ||| s.mem buffer % 256) :: X, ?_, ?_, ?_, ?_, ?_, ?_, ?_⟩
        · rw [hX]; simp [cmdsOf_append, cmdsOf]
        · simp only [List.map_cons, List.cons_append, annot, seqDown, ha]
        · intro e he
          rcases List.mem_cons.mp he with rfl | he
          · rw [stop_bit_byte _ _ _ (Nat.mod_lt _ (by norm_num))]; simp
          · exact hs e he
        · simp only [List.length_cons]; push_cast; omega
        · rw [hro, if_neg h2]
        · intro hn; exact absurd hn h2
        · intro _
          refine ⟨?_, ?_, ?_⟩
          · simp only [List.map_cons, List.cons_append, bytesAt, hwr.1,
              byte_low _ _ _ (Nat.mod_lt _ (by norm_num : 0 < 256))]
          · have := hwr.2.1; omega
          · intro hb hr
            exact hwr.2.2 (by push_cast at hb; omega) hr
    · rw [if_neg h1]
      refine ⟨rfl, [], ?_⟩
      simp only [cmdsOf_append, List.append_nil, List.map_nil, List.nil_append, List.not_mem_nil,
        false_implies, implies_true, List.length_nil, Nat.cast_zero, true_and, ite_self,
        add_zero, not_false_eq_true]
      refine ⟨by omega, fun _ => ⟨fun j hj => by omega, trivial⟩, fun _ hb hr => ?_⟩
      push_cast at hb; omega

theorem TxWhilePost_of_frame (K : Consts) (bl : Nat) (tl rl : Int) (buffer : Nat)
    (s s1 : Dev) (r : Dev × Bool × Nat × Nat)
    (h : s1 = { s with trace := s1.trace, nreads := s1.nreads, fault := s1.fault })
    (hc : cmdsOf s1.trace = cmdsOf s.trace)
    (hp : TxWhilePost K bl tl rl buffer s1 r) : TxWhilePost K bl tl rl buffer s r := by
  have e1 : s1.message_write_index = s.message_write_index := by rw [h]
  have e2 : s1.message_number = s.message_number := by rw [h]
  have e3 : s1.messages = s.messages := by rw [h]
  have e4 : s1.mem = s.mem := by rw [h]
  have e5 : s1.receive_outstanding = s.receive_outstanding := by rw [h]
  obtain ⟨hf, X, hX⟩ := hp
  rw [e1, e2, e3, e4, e5, hc] at hX
  refine ⟨?_, X, hX⟩
  rw [hf, h]

theorem txMessage_post (K : Consts) (nr : Bool) (buffer bl : Nat) (s : Dev) :
    TxWhilePost K
      (if s.status &&& K.STATUS_WRITE_IN_PROGRESS = 0 then
        (s.messages s.message_write_index).length else bl)
      (toInt32 ((s.transaction_fifo_depth : Int) - (s.hw s.nreads Reg.DW_IC_TXFLR % U32 : Nat)))
      (toInt32 ((s.receive_fifo_depth : Int) -
        (s.hw (s.nreads + 1) Reg.DW_IC_RXFLR % U32 : Nat)))
      (if s.status &&& K.STATUS_WRITE_IN_PROGRESS = 0 then
        (s.messages s.message_write_index).buffer else buffer)
      s (txMessage K nr buffer bl s) := by
  unfold txMessage
  by_cases hw : s.status &&& K.STATUS_WRITE_IN_PROGRESS = 0
  · simp only [hw, if_true, messageAt, readRegister]
    refine TxWhilePost_of_frame K _ _ _ _ s _ _ rfl ?_ (txWhile_post K _ _ _ _ _ _)
    simp [cmdsOf_append, cmdsOf]
  · simp only [hw, if_false, messageAt, readRegister]
    refine TxWhilePost_of_frame K _ _ _ _ s _ _ rfl ?_ (txWhile_post K _ _ _ _ _ _)
    simp [cmdsOf_append, cmdsOf]

/-! ## The outer loop of the transmit fill -/

theorem txFor_succ (K : Consts) (address : Nat) (fuel : Nat) (nr : Bool) (buffer bl : Nat)
    (s : Dev) :
    txFor K address (fuel + 1) nr buffer bl s =
      if s.message_write_index < s.message_number then
        if (s.messages s.message_write_index).address ≠ address then flagError (noteMsg s)
        else if (s.messages s.message_write_index).length = 0 then
          flagError (noteMsg (noteMsg s))
        else if (txMessage K nr buffer bl (noteMsg (noteMsg s))).2.2.2 > 0 then
          txPartial K (txMessage K nr buffer bl (noteMsg (noteMsg s)))
        else
          txFor K address fuel (txMessage K nr buffer bl (noteMsg (noteMsg s))).2.1
            (txMessage K nr buffer bl (noteMsg (noteMsg s))).2.2.1
            (txMessage K nr buffer bl (noteMsg (noteMsg s))).2.2.2
            (txNext K (txMessage K nr buffer bl (noteMsg (noteMsg s))))
      else s := by
  conv_lhs => unfold txFor
  rfl

theorem mem_seqDown (i : Int) (n : Nat) (p : Int × Nat) (h : p ∈ seqDown i n) :
    p.1 = i ∧ 1 ≤ p.2 ∧ p.2 ≤ n := by
  induction n with
  | zero => simp [seqDown] at h
  | succ n ih =>
    simp only [seqDown, List.mem_cons] at h
    rcases h with rfl | h
    · exact ⟨rfl, by simp, le_refl _⟩
    · have := ih h
      exact ⟨this.1, this.2.1, by omega⟩

theorem annot_of_prefix (i : Int) (bl bl' : Nat) (X : List (Int × Nat × Nat))
    (h : X.map annot ++ seqDown i bl' = seqDown i bl) :
    ∀ e ∈ X, e.1 = i ∧ 1 ≤ e.2.1 ∧ e.2.1 ≤ bl := by
  intro e he
  have : annot e ∈ seqDown i bl := by
    rw [← h]
    exact List.mem_append_left _ (List.mem_map_of_mem annot he)
  exact mem_seqDown i bl (annot e) this

theorem toInt32_le_self (x : Int) (h : 0 ≤ x) : toInt32 x ≤ x := by
  unfold toInt32; omega

theorem toInt32_eq_self (x : Int) (h1 : -2147483648 ≤ x) (h2 : x < 2147483648) :
    toInt32 x = x := by
  unfold toInt32; omega

theorem TxFrame.refl (s : Dev) : TxFrame s s := rfl

theorem TxFrame.trans {s1 s2 s3 : Dev} (h1 : TxFrame s1 s2) (h2 : TxFrame s2 s3) :
    TxFrame s1 s3 := by
  unfold TxFrame at *
  rw [h1] at h2
  exact h2

theorem TxFrame.noteMsg (s : Dev) : TxFrame s (noteMsg s) := rfl

theorem TxFrame.flagError (s : Dev) : TxFrame s (flagError s) := rfl

theorem TxFrame.txPartial (K : Consts) (s : Dev) (r : Dev × Bool × Nat × Nat)
    (h : r.1 = { s with
      trace := r.1.trace,
      receive_outstanding := r.1.receive_outstanding,
      nreads := r.1.nreads,
      fault := r.1.fault }) : TxFrame s (txPartial K r) := by
  unfold TxFrame VoodooI2C.txPartial
  rw [h]

theorem TxFrame.txNext (K : Consts) (s : Dev) (r : Dev × Bool × Nat × Nat)
    (h : r.1 = { s with
      trace := r.1.trace,
      receive_outstanding := r.1.receive_outstanding,
      nreads := r.1.nreads,
      fault := r.1.fault }) : TxFrame s (txNext K r) := by
  unfold TxFrame VoodooI2C.txNext
  rw [h]

theorem TxFrame.fields {s1 s2 : Dev} (h : TxFrame s1 s2) :
    s2.messages = s1.messages ∧ s2.message_number = s1.message_number ∧ s2.mem = s1.mem ∧
    s2.hw = s1.hw ∧ s2.receive_fifo_depth = s1.receive_fifo_depth ∧
    s2.transaction_fifo_depth = s1.transaction_fifo_depth ∧ s2.bus_config = s1.bus_config ∧
    s2.message_read_index = s1.message_read_index ∧ s2.command_error = s1.command_error := by
  unfold TxFrame at h
  refine ⟨?_, ?_, ?_, ?_, ?_, ?_, ?_, ?_, ?_⟩ <;> rw [h]

theorem cmdsOf_noteMsg (s : Dev) : cmdsOf (noteMsg s).trace = cmdsOf s.trace := by
  simp [cmdsOf_append, cmdsOf]

/-- The inner part of one pass of the outer loop, stated on the state at the head of
the pass. -/
theorem txMessage_post_head (K : Consts) (nr : Bool) (buffer bl : Nat) (s : Dev) :
    TxWhilePost K
      (if s.status &&& K.STATUS_WRITE_IN_PROGRESS = 0 then
        (s.messages s.message_write_index).length else bl)
      (toInt32 ((s.transaction_fifo_depth : Int) - (s.hw s.nreads Reg.DW_IC_TXFLR % U32 : Nat)))
      (toInt32 ((s.receive_fifo_depth : Int) -
        (s.hw (s.nreads + 1) Reg.DW_IC_RXFLR % U32 : Nat)))
      (if s.status &&& K.STATUS_WRITE_IN_PROGRESS = 0 then
        (s.messages s.message_write_index).buffer else buffer)
      s (txMessage K nr buffer bl (noteMsg (noteMsg s))) := by
  have h := txMessage_post K nr buffer bl (noteMsg (noteMsg s))
  simp only [noteMsg_status, noteMsg_messages, noteMsg_message_write_index,
    noteMsg_transaction_fifo_depth, noteMsg_receive_fifo_depth, noteMsg_hw, noteMsg_nreads] at h
  refine TxWhilePost_of_frame K _ _ _ _ s _ _ rfl ?_ h
  rw [cmdsOf_noteMsg, cmdsOf_noteMsg]

theorem TxForPost_exit (K : Consts) (address : Nat) (s : Dev)
    (h : ¬ s.message_write_index < s.message_number) : TxForPost K address s s := by
  refine ⟨TxFrame.refl s, le_refl _, ?_, Or.inl ⟨by omega, rfl⟩, ⟨[], by simp, by simp⟩,
    le_refl _, fun _ h => h⟩
  intro j h1 h2; omega

theorem TxForPost_error1 (K : Consts) (address : Nat) (s : Dev)
    (hlt : s.message_write_index < s.message_number)
    (hbad : (s.messages s.message_write_index).address ≠ address) :
    TxForPost K address s (flagError (noteMsg s)) := by
  refine ⟨rfl, le_refl _, ?_, Or.inr (Or.inl ⟨hlt, rfl, Or.inl hbad⟩),
    ⟨[], by simp [cmdsOf_append, cmdsOf], by simp⟩, le_refl _, fun _ h => h⟩
  intro j h1 h2
  simp only [flagError_message_write_index, noteMsg_message_write_index] at h2
  omega

theorem TxForPost_error2 (K : Consts) (address : Nat) (s : Dev)
    (hlt : s.message_write_index < s.message_number)
    (hbad : (s.messages s.message_write_index).length = 0) :
    TxForPost K address s (flagError (noteMsg (noteMsg s))) := by
  refine ⟨rfl, le_refl _, ?_, Or.inr (Or.inl ⟨hlt, rfl, Or.inr hbad⟩),
    ⟨[], by simp [cmdsOf_append, cmdsOf], by simp⟩, le_refl _, fun _ h => h⟩
  intro j h1 h2
  simp only [flagError_message_write_index, noteMsg_message_write_index] at h2
  omega

theorem TxWhilePost.parts {K : Consts} {bl : Nat} {tl rl : Int} {buffer : Nat} {s : Dev}
    {r : Dev × Bool × Nat × Nat} (hp : TxWhilePost K bl tl rl buffer s r) :
    r.1.message_write_index = s.message_write_index ∧ r.1.message_number = s.message_number ∧
    r.1.messages = s.messages ∧ r.1.message_error = s.message_error ∧ r.1.hw = s.hw ∧
    r.1.receive_fifo_depth = s.receive_fifo_depth ∧ r.1.status = s.status ∧
    r.1.mem = s.mem := by
  obtain ⟨hf, -⟩ := hp
  refine ⟨?_, ?_, ?_, ?_, ?_, ?_, ?_, ?_⟩ <;> rw [hf]

theorem TxWhilePost.ro_le {K : Consts} {bl : Nat} {tl rl : Int} {buffer : Nat} {s : Dev}
    {r : Dev × Bool × Nat × Nat} (hp : TxWhilePost K bl tl rl buffer s r) :
    s.receive_outstanding ≤ r.1.receive_outstanding := by
  obtain ⟨-, X, -, -, -, -, hro, -⟩ := hp
  rw [hro]
  split_ifs
  · have : (0 : Int) ≤ X.length := Int.natCast_nonneg _
    omega
  · omega

theorem TxWhilePost.ro_bound {K : Consts} {bl : Nat} {tl rl : Int} {buffer : Nat} {s : Dev}
    {r : Dev × Bool × Nat × Nat} (hp : TxWhilePost K bl tl rl buffer s r) (d : Int)
    (hrl : rl ≤ d) (h0 : s.receive_outstanding ≤ d) : r.1.receive_outstanding ≤ d := by
  obtain ⟨-, X, -, -, -, -, hro, hrd, -⟩ := hp
  rw [hro]
  by_cases h2 : (s.messages s.message_write_index).flags &&& K.I2C_M_RD ≠ 0
  · rw [if_pos h2]
    rcases Nat.eq_zero_or_pos X.length with h | h
    · rw [h]; simpa using h0
    · have := (hrd h2).1 (X.length - 1) (by omega)
      have e : ((X.length - 1 : Nat) : Int) = (X.length : Int) - 1 := by omega
      rw [e] at this
      omega
  · rw [if_neg h2]; simpa using h0

theorem TxForPost_partial (K : Consts) (address : Nat) (nr : Bool) (buffer bl : Nat) (s : Dev)
    (hlt : s.message_write_index < s.message_number)
    (hok : (s.messages s.message_write_index).address = address)
    (hlen : (s.messages s.message_write_index).length ≠ 0)
    (hbl : (txMessage K nr buffer bl (noteMsg (noteMsg s))).2.2.2 > 0) :
    TxForPost K address s (txPartial K (txMessage K nr buffer bl (noteMsg (noteMsg s)))) := by
  have hp := txMessage_post_head K nr buffer bl s
  generalize txMessage K nr buffer bl (noteMsg (noteMsg s)) = r at hp hbl ⊢
  obtain ⟨e1, e2, e3, e4, e5, e6, e7, e8⟩ := hp.parts
  have hle := hp.ro_le
  have hb := fun h1 h2 => hp.ro_bound (s.receive_fifo_depth : Int) h1 h2
  obtain ⟨hf, X, hX, ha, hs, -⟩ := hp
  have hidx := annot_of_prefix _ _ _ X ha
  refine ⟨TxFrame.txPartial K s r hf, ?_, ?_, Or.inr (Or.inr ?_), ⟨X, ?_, ?_⟩, ?_, ?_⟩
  · simp only [txPartial_message_write_index, e1, le_refl]
  · intro j h1 h2
    simp only [txPartial_message_write_index, e1] at h2
    omega
  · simp only [txPartial_message_write_index, txPartial_message_error,
      txPartial_transaction_buffer_length, txPartial_status, e1, e4]
    exact ⟨hlt, trivial, hok, hlen, by omega, r.1.status, rfl⟩
  · simp only [txPartial_trace, hX]
  · intro e he
    obtain ⟨i1, i2, i3⟩ := hidx e he
    simp only [txPartial_message_write_index, e1]
    rw [i1]
    exact ⟨hs e he, le_refl _, le_refl _, hlt, hok, hlen⟩
  · simp only [txPartial_receive_outstanding]; exact hle
  · intro hR h0
    simp only [txPartial_receive_outstanding]
    refine hb ?_ h0
    have hx := hR (s.nreads + 1)
    have : (0 : Int) ≤ (s.receive_fifo_depth : Int) -
        (s.hw (s.nreads + 1) Reg.DW_IC_RXFLR % U32 : Nat) := by omega
    have := toInt32_le_self _ this
    omega

theorem TxExit_of_next (K : Consts) (address : Nat) (s sn s2 : Dev)
    (h1 : sn.messages = s.messages) (h2 : sn.message_number = s.message_number)
    (h3 : sn.message_error = s.message_error) (h : TxExit K address sn s2) :
    TxExit K address s s2 := by
  unfold TxExit at *
  rw [h1, h2, h3] at h
  exact h

theorem TxForPost_next (K : Consts) (address : Nat) (nr : Bool) (buffer bl : Nat) (s s2 : Dev)
    (hlt : s.message_write_index < s.message_number)
    (hok : (s.messages s.message_write_index).address = address)
    (hlen : (s.messages s.message_write_index).length ≠ 0)
    (hn : TxForPost K address (txNext K (txMessage K nr buffer bl (noteMsg (noteMsg s)))) s2) :
    TxForPost K address s s2 := by
  have hp := txMessage_post_head K nr buffer bl s
  generalize txMessage K nr buffer bl (noteMsg (noteMsg s)) = r at hp hn ⊢
  obtain ⟨e1, e2, e3, e4, e5, e6, e7, e8⟩ := hp.parts
  have hle := hp.ro_le
  have hb := fun h1 h2 => hp.ro_bound (s.receive_fifo_depth : Int) h1 h2
  obtain ⟨hf, X, hX, ha, hs, -⟩ := hp
  have hidx := annot_of_prefix _ _ _ X ha
  obtain ⟨n1, n2, n3, n4, ⟨X2, hX2, hE2⟩, n6, n7⟩ := hn
  simp only [txNext_message_write_index, txNext_messages, txNext_message_number,
    txNext_trace, txNext_receive_outstanding, txNext_hw, txNext_receive_fifo_depth,
    e1, e2, e3, e5, e6] at n2 n3 hX2 hE2 n6 n7
  refine ⟨(TxFrame.txNext K s r hf).trans n1, by omega, ?_, ?_, ⟨X ++ X2, ?_, ?_⟩, ?_, ?_⟩
  · intro j h1 h2
    by_cases hj : j = s.message_write_index
    · rw [hj]; exact ⟨hok, hlen, hlt⟩
    · exact n3 j (by omega) h2
  · exact TxExit_of_next K address s (txNext K r) s2 (e3 ▸ rfl) (e2 ▸ rfl) (e4 ▸ rfl) n4
  · rw [hX2, hX, List.append_assoc]
  · intro e he
    rcases List.mem_append.mp he with he | he
    · obtain ⟨i1, i2, i3⟩ := hidx e he
      rw [i1]
      exact ⟨hs e he, le_refl _, by omega, hlt, hok, hlen⟩
    · obtain ⟨a1, a2, a3, a4, a5, a6⟩ := hE2 e he
      exact ⟨a1, by omega, a3, a4, a5, a6⟩
  · omega
  · intro hR h0
    refine n7 hR (hb ?_ h0)
    have hx := hR (s.nreads + 1)
    have : (0 : Int) ≤ (s.receive_fifo_depth : Int) -
        (s.hw (s.nreads + 1) Reg.DW_IC_RXFLR % U32 : Nat) := by omega
    have := toInt32_le_self _ this
    omega

theorem txFor_post (K : Consts) (address : Nat) (fuel : Nat) :
    ∀ (nr : Bool) (buffer bl : Nat) (s : Dev),
      (s.message_number - s.message_write_index).toNat ≤ fuel →
      TxForPost K address s (txFor K address fuel nr buffer bl s) := by
  induction fuel with
  | zero =>
    intro nr buffer bl s hfuel
    have : txFor K address 0 nr buffer bl s = s := rfl
    rw [this]
    exact TxForPost_exit K address s (by omega)
  | succ fuel ih =>
    intro nr buffer bl s hfuel
    rw [txFor_succ]
    by_cases hlt : s.message_write_index < s.message_number
    · rw [if_pos hlt]
      by_cases hbad : (s.messages s.message_write_index).address ≠ address
      · rw [if_pos hbad]
        exact TxForPost_error1 K address s hlt hbad
      · rw [if_neg hbad]
        by_cases hz : (s.messages s.message_write_index).length = 0
        · rw [if_pos hz]
          exact TxForPost_error2 K address s hlt hz
        · rw [if_neg hz]
          by_cases hbl : (txMessage K nr buffer bl (noteMsg (noteMsg s))).2.2.2 > 0
          · rw [if_pos hbl]
            exact TxForPost_partial K address nr buffer bl s hlt (not_not.mp hbad) hz hbl
          · rw [if_neg hbl]
            refine TxForPost_next K address nr buffer bl s _ hlt (not_not.mp hbad) hz
              (ih _ _ _ _ ?_)
            have e1 := (txMessage_post_head K nr buffer bl s).parts.1
            have e2 := (txMessage_post_head K nr buffer bl s).parts.2.1
            simp only [txNext_message_write_index, txNext_message_number, e1, e2]
            omega
    · rw [if_neg hlt]
      exact TxForPost_exit K address s hlt

/-! ## One call of `transferMessageToBus` -/

theorem transferMessageToBus_eq (K : Consts) (s : Dev) :
    transferMessageToBus K s =
      writeRegister
        (interruptMask K (txFor K (s.messages s.message_write_index).address
          (s.message_number - s.message_write_index).toNat false s.transaction_buffer
          s.transaction_buffer_length (noteMsg s)))
        Reg.DW_IC_INTR_MASK
        (txFor K (s.messages s.message_write_index).address
          (s.message_number - s.message_write_index).toNat false s.transaction_buffer
          s.transaction_buffer_length (noteMsg s)) := by
  rfl

theorem txFor_done (K : Consts) (address : Nat) (fuel : Nat) (nr : Bool) (buffer bl : Nat)
    (s : Dev) (h : ¬ s.message_write_index < s.message_number) :
    txFor K address fuel nr buffer bl s = s := by
  cases fuel with
  | zero => rfl
  | succ fuel => rw [txFor_succ, if_neg h]

theorem or_and_flag (st w : Nat) (hw : w ≠ 0) : (st ||| w) &&& w ≠ 0 := by
  have : (st ||| w) &&& w = w := by
    apply Nat.eq_of_testBit_eq
    intro i
    simp only [Nat.testBit_and, Nat.testBit_or]
    cases st.testBit i <;> cases w.testBit i <;> rfl
  rw [this]; exact hw

theorem and_not32_flag (st w : Nat) : (st &&& not32 w) &&& w = 0 := by
  unfold not32 U32
  apply Nat.eq_of_testBit_eq
  intro i
  have h32 : (4294967296 : Nat) = 2 ^ 32 := by norm_num
  have hm : (4294967295 : Nat) = 2 ^ 32 - 1 := by norm_num
  simp only [Nat.testBit_and, Nat.testBit_xor, Nat.zero_testBit, h32, hm,
    Nat.testBit_mod_two_pow, Nat.testBit_two_pow_sub_one]
  by_cases h : i < 32 <;> simp [h]

theorem TxForPost_of_noteMsg (K : Consts) (address : Nat) (s s2 : Dev)
    (h : TxForPost K address (noteMsg s) s2) : TxForPost K address s s2 := by
  obtain ⟨h1, h2, h3, h4, ⟨X, hX, hE⟩, h6, h7⟩ := h
  exact ⟨(TxFrame.noteMsg s).trans h1, h2, h3, h4, ⟨X, by rw [hX, cmdsOf_noteMsg], hE⟩, h6, h7⟩

theorem TxForPost_writeRegister (K : Consts) (address : Nat) (s s2 : Dev) (v : Nat) (r : Reg)
    (h : TxForPost K address s s2) : TxForPost K address s (writeRegister v r s2) := by
  obtain ⟨h1, h2, h3, h4, ⟨X, hX, hE⟩, h6, h7⟩ := h
  refine ⟨?_, h2, h3, h4, ⟨X, ?_, hE⟩, h6, h7⟩
  · unfold TxFrame writeRegister at *
    rw [h1]
  · simp only [writeRegister, cmdsOf_append, hX, cmdsOf, List.append_nil]

/-- What one call of `transferMessageToBus` does. -/
theorem transferMessageToBus_post (K : Consts) (s : Dev) :
    TxForPost K (s.messages s.message_write_index).address s (transferMessageToBus K s) := by
  rw [transferMessageToBus_eq]
  apply TxForPost_writeRegister
  apply TxForPost_of_noteMsg
  exact txFor_post K _ _ _ _ _ _ (le_refl _)

/-! ## Arming leaves the descriptor as reset -/

theorem logFrame_refl (s : Dev) : LogFrame s s := rfl

theorem logFrame_trans {s1 s2 s3 : Dev} (h1 : LogFrame s1 s2) (h2 : LogFrame s2 s3) :
    LogFrame s1 s3 := by
  unfold LogFrame at *
  rw [h1] at h2
  exact h2

theorem logFrame_readRegister (r : Reg) (s : Dev) : LogFrame s (readRegister r s).2 := rfl

theorem logFrame_writeRegister (v : Nat) (r : Reg) (s : Dev) :
    LogFrame s (writeRegister v r s) := rfl

theorem logFrame_messageAt (i : Int) (s : Dev) : LogFrame s (messageAt i s).2 := rfl

theorem logFrame_toggleBusState (P : Nub) (e : Nat) (s : Dev) :
    LogFrame s (toggleBusState P e s).2 := by
  unfold LogFrame
  have h := toggleBusState_frame P e s
  rw [h]

theorem logFrame_toggleInterrupts (K : Consts) (e : Nat) (s : Dev) :
    LogFrame s (toggleInterrupts K e s) := by
  unfold toggleInterrupts
  split_ifs <;> rfl

theorem logFrame_initialiseBus (K : Consts) (P : Nub) (s : Dev) :
    LogFrame s (initialiseBus K P s).2 := by
  have h0 := logFrame_toggleBusState P K.kVoodooI2CStateOff s
  unfold initialiseBus
  generalize toggleBusState P K.kVoodooI2CStateOff s = r at h0 ⊢
  obtain ⟨c, s1⟩ := r
  simp only at h0 ⊢
  by_cases h : c ≠ IOReturn.kIOReturnSuccess
  · rw [if_pos h]; exact h0
  · rw [if_neg h]
    refine logFrame_trans h0 ?_
    dsimp only
    refine logFrame_trans ?_ (logFrame_writeRegister _ _ _)
    refine logFrame_trans ?_ (logFrame_writeRegister _ _ _)
    refine logFrame_trans ?_ (logFrame_writeRegister _ _ _)
    refine @logFrame_trans _ (writeRegister s1.acpi_config.fs_lcnt Reg.DW_IC_FS_SCL_LCNT
      (writeRegister s1.acpi_config.fs_hcnt Reg.DW_IC_FS_SCL_HCNT
        (writeRegister s1.acpi_config.ss_lcnt Reg.DW_IC_SS_SCL_LCNT
          (writeRegister s1.acpi_config.ss_hcnt Reg.DW_IC_SS_SCL_HCNT s1)))) _ ?_ ?_
    · exact logFrame_trans (logFrame_trans (logFrame_trans (logFrame_writeRegister _ _ _)
        (logFrame_writeRegister _ _ _)) (logFrame_writeRegister _ _ _))
        (logFrame_writeRegister _ _ _)
    · split_ifs
      · exact logFrame_writeRegister _ _ _
      · exact logFrame_refl _

theorem logFrame_requestTransferI2C (K : Consts) (P : Nub) (s : Dev) :
    LogFrame s (requestTransferI2C K P s) := by
  unfold requestTransferI2C
  have h1 : LogFrame s (if P.access_intr_mask_workaround then (initialiseBus K P s).2
      else (toggleBusState P K.kVoodooI2CStateOff s).2) := by
    split_ifs
    · exact logFrame_initialiseBus K P s
    · exact logFrame_toggleBusState P _ s
  generalize (if P.access_intr_mask_workaround then (initialiseBus K P s).2
      else (toggleBusState P K.kVoodooI2CStateOff s).2) = s1 at h1 ⊢
  refine logFrame_trans h1 ?_
  simp only [readRegister, messageAt]
  refine logFrame_trans ?_ (logFrame_toggleInterrupts K _ _)
  refine logFrame_trans ?_ (logFrame_readRegister _ _)
  refine logFrame_trans ?_ (logFrame_toggleBusState P _ _)
  refine logFrame_trans ?_ (logFrame_toggleInterrupts K _ _)
  refine logFrame_trans ?_ (logFrame_writeRegister _ _ _)
  split_ifs <;> rfl

theorem armTransfer_fields (K : Consts) (P : Nub)
    (messages : Int → VoodooI2CControllerBusMessage) (number : Int) (s : Dev) :
    (armTransfer K P messages number s).messages = messages ∧
    (armTransfer K P messages number s).message_number = number ∧
    (armTransfer K P messages number s).message_write_index = 0 ∧
    (armTransfer K P messages number s).message_read_index = 0 ∧
    (armTransfer K P messages number s).message_error = 0 ∧
    (armTransfer K P messages number s).command_error = 0 ∧
    (armTransfer K P messages number s).status = K.STATUS_IDLE ∧
    (armTransfer K P messages number s).receive_outstanding = 0 ∧
    (armTransfer K P messages number s).abort_source = 0 := by
  unfold armTransfer
  have h := logFrame_requestTransferI2C K P
    { s with
      messages := messages,
      messages_null := false,
      message_number := number,
      command_error := 0,
      message_write_index := 0,
      message_read_index := 0,
      message_error := 0,
      status := K.STATUS_IDLE,
      abort_source := 0,
      receive_outstanding := 0 }
  unfold LogFrame at h
  refine ⟨?_, ?_, ?_, ?_, ?_, ?_, ?_, ?_, ?_⟩ <;> rw [h]

theorem armTransfer_messages_null (K : Consts) (P : Nub)
    (messages : Int → VoodooI2CControllerBusMessage) (number : Int) (s : Dev) :
    (armTransfer K P messages number s).messages_null = false := by
  unfold armTransfer
  have h := logFrame_requestTransferI2C K P
    { s with
      messages := messages,
      messages_null := false,
      message_number := number,
      command_error := 0,
      message_write_index := 0,
      message_read_index := 0,
      message_error := 0,
      status := K.STATUS_IDLE,
      abort_source := 0,
      receive_outstanding := 0 }
  unfold LogFrame at h
  rw [h]

/-! ## A batch with a mismatched target address (C3) -/

theorem transferMessageToBus_last (K : Consts) (s : Dev) :
    (transferMessageToBus K s).trace.getLast? =
      some (Event.write (if (transferMessageToBus K s).message_error ≠ 0 then 0
        else if (transferMessageToBus K s).message_write_index =
          (transferMessageToBus K s).message_number then
          K.DW_IC_INTR_DEFAULT_MASK &&& not32 K.DW_IC_INTR_TX_EMPTY
        else K.DW_IC_INTR_DEFAULT_MASK) Reg.DW_IC_INTR_MASK) := by
  rw [transferMessageToBus_eq]
  simp only [writeRegister, interruptMask, List.getLast?_append, List.getLast?_singleton]
  rfl

/-- The invariant of a run of fill steps on a batch whose message `k` is the first with
an address other than that of message 0: the write index has not passed `k`, every
command written since state `a` is for a message before `k`, and once the write index
is `k` the error is flagged and the last register write is a zero interrupt mask. -/
theorem fill_step_mismatch (K : Consts) (msgs : Int → VoodooI2CControllerBusMessage)
    (number k : Int) (a s : Dev)
    (hk : k < number) (hbad : (msgs k).address ≠ (msgs 0).address)
    (hfirst : ∀ j, 0 ≤ j → j < k → (msgs j).address = (msgs 0).address)
    (hm : s.messages = msgs) (hn : s.message_number = number)
    (h0 : 0 ≤ s.message_write_index) (hlt : s.message_write_index < k)
    (he : s.message_error = 0)
    (hX : ∃ X, cmdsOf s.trace = cmdsOf a.trace ++ X ∧ ∀ e ∈ X, (0 : Int) ≤ e.1 ∧ e.1 < k) :
    (transferMessageToBus K s).messages = msgs ∧
    (transferMessageToBus K s).message_number = number ∧
    0 ≤ (transferMessageToBus K s).message_write_index ∧
    (transferMessageToBus K s).message_write_index ≤ k ∧
    ((transferMessageToBus K s).message_error = 0 ∨
      (transferMessageToBus K s).message_error = -1) ∧
    ((transferMessageToBus K s).message_error = 0 →
      (transferMessageToBus K s).message_write_index < k) ∧
    ((transferMessageToBus K s).message_write_index = k →
      (transferMessageToBus K s).message_error = -1) ∧
    (∃ X, cmdsOf (transferMessageToBus K s).trace = cmdsOf a.trace ++ X ∧
      ∀ e ∈ X, (0 : Int) ≤ e.1 ∧ e.1 < k) := by
  have hp := transferMessageToBus_post K s
  generalize transferMessageToBus K s = s2 at hp ⊢
  have haddr : (s.messages s.message_write_index).address = (msgs 0).address := by
    rw [hm]; exact hfirst _ h0 hlt
  rw [haddr] at hp
  obtain ⟨h1, h2, h3, h4, ⟨X2, hX2, hE2⟩, -, -⟩ := hp
  obtain ⟨f1, f2, -⟩ := h1.fields
  unfold TxExit at h4
  rw [hm] at h3 h4 hE2
  rw [hn] at h3 h4 hE2
  have hle : s2.message_write_index ≤ k := by
    by_contra hc
    exact hbad (h3 k (by omega) (by omega)).1
  have hex : (s2.message_error = 0 ∨ s2.message_error = -1) ∧
      (s2.message_error = 0 → s2.message_write_index < k) ∧
      (s2.message_write_index = k → s2.message_error = -1) := by
    rcases h4 with ⟨g1, g2⟩ | ⟨g1, g2, g3⟩ | ⟨g1, g2, g3, g4, -⟩
    · omega
    · refine ⟨Or.inr g2, fun h => ?_, fun _ => g2⟩
      omega
    · rw [g2, he]
      refine ⟨Or.inl rfl, fun _ => ?_, fun h => ?_⟩
      · rcases lt_or_eq_of_le hle with h | h
        · exact h
        · rw [h] at g3; exact absurd g3 hbad
      · rw [h] at g3; exact absurd g3 hbad
  obtain ⟨X, hXa, hXb⟩ := hX
  refine ⟨f1.trans hm, f2.trans hn, by omega, hle, hex.1, hex.2.1, hex.2.2,
    X ++ X2, by rw [hX2, hXa, List.append_assoc], ?_⟩
  intro e hmem
  rcases List.mem_append.mp hmem with hmem | hmem
  · exact hXb e hmem
  · obtain ⟨-, a2, a3, a4, a5, -⟩ := hE2 e hmem
    refine ⟨by omega, ?_⟩
    rcases lt_or_eq_of_le (le_trans a3 hle) with h | h
    · exact h
    · rw [h] at a5; exact absurd a5 hbad

theorem fillRun_mismatch (K : Consts) (msgs : Int → VoodooI2CControllerBusMessage)
    (number k : Int) (a : Dev)
    (hk : k < number) (hbad : (msgs k).address ≠ (msgs 0).address)
    (hfirst : ∀ j, 0 ≤ j → j < k → (msgs j).address = (msgs 0).address) (n : Nat) :
    ∀ s : Dev, s.messages = msgs → s.message_number = number →
      0 ≤ s.message_write_index → s.message_write_index ≤ k →
      (s.message_error = 0 ∨ s.message_error = -1) →
      (s.message_error = 0 → s.message_write_index < k) →
      (s.message_write_index = k → s.message_error = -1 ∧
        s.trace.getLast? = some (Event.write 0 Reg.DW_IC_INTR_MASK)) →
      (∃ X, cmdsOf s.trace = cmdsOf a.trace ++ X ∧ ∀ e ∈ X, (0 : Int) ≤ e.1 ∧ e.1 < k) →
      (fillRun K n s).message_write_index ≤ k ∧
      ((fillRun K n s).message_error = 0 ∨ (fillRun K n s).message_error = -1) ∧
      ((fillRun K n s).message_write_index = k → (fillRun K n s).message_error = -1 ∧
        (fillRun K n s).trace.getLast? = some (Event.write 0 Reg.DW_IC_INTR_MASK)) ∧
      (∃ X, cmdsOf (fillRun K n s).trace = cmdsOf a.trace ++ X ∧
        ∀ e ∈ X, (0 : Int) ≤ e.1 ∧ e.1 < k) := by
  induction n with
  | zero =>
    intro s hm hn h0 hle he1 he2 hr hX
    exact ⟨hle, he1, hr, hX⟩
  | succ n ih =>
    intro s hm hn h0 hle he1 he2 hr hX
    unfold fillRun
    by_cases he : s.message_error ≠ 0
    · rw [if_pos he]
      exact ⟨hle, he1, hr, hX⟩
    · rw [if_neg he]
      have he0 : s.message_error = 0 := not_not.mp he
      obtain ⟨g1, g2, g3, g4, g5, g6, g7, g8⟩ :=
        fill_step_mismatch K msgs number k a s hk hbad hfirst hm hn h0 (he2 he0) he0 hX
      refine ih _ g1 g2 g3 g4 g5 g6 (fun h => ⟨g7 h, ?_⟩) g8
      rw [transferMessageToBus_last, if_pos (by rw [g7 h]; decide)]

/-- The fill steps run from the armed state on a batch whose message `k > 0` is the
first with a target address other than that of message 0, none of them made after
`message_error` is set.  Every command written is for a message before `k`; the write
index never passes `k`; once it is `k`, `message_error` is set and the last register
write is an all-zero interrupt mask. -/
theorem fillRun_mismatch_armed (K : Consts) (P : Nub)
    (msgs : Int → VoodooI2CControllerBusMessage) (number k : Int) (s0 : Dev) (n : Nat)
    (hk0 : 0 < k) (hk : k < number) (hbad : (msgs k).address ≠ (msgs 0).address)
    (hfirst : ∀ j, 0 ≤ j → j < k → (msgs j).address = (msgs 0).address) :
    let armed := armTransfer K P msgs number s0
    let s := fillRun K n armed
    (∃ X, cmdsOf s.trace = cmdsOf armed.trace ++ X ∧ ∀ e ∈ X, (0 : Int) ≤ e.1 ∧ e.1 < k) ∧
    s.message_write_index ≤ k ∧
    (s.message_write_index = k → s.message_error = -1 ∧
      s.trace.getLast? = some (Event.write 0 Reg.DW_IC_INTR_MASK)) := by
  intro armed s
  obtain ⟨a1, a2, a3, -, a5, -⟩ := armTransfer_fields K P msgs number s0
  obtain ⟨r1, r2, r3, r4⟩ := fillRun_mismatch K msgs number k armed hk hbad hfirst n armed
    a1 a2 (by rw [a3]) (by rw [a3]; omega) (Or.inl a5) (fun _ => by rw [a3]; exact hk0)
    (fun h => by rw [a3] at h; omega) ⟨[], by simp, by simp⟩
  exact ⟨r4, r1, r3⟩

theorem armTransfer_env (K : Consts) (P : Nub)
    (messages : Int → VoodooI2CControllerBusMessage) (number : Int) (s : Dev) :
    (armTransfer K P messages number s).hw = s.hw ∧
    (armTransfer K P messages number s).mem = s.mem ∧
    (armTransfer K P messages number s).receive_fifo_depth = s.receive_fifo_depth ∧
    (armTransfer K P messages number s).transaction_fifo_depth = s.transaction_fifo_depth ∧
    (armTransfer K P messages number s).bus_config = s.bus_config := by
  unfold armTransfer
  have h := logFrame_requestTransferI2C K P
    { s with
      messages := messages,
      messages_null := false,
      message_number := number,
      command_error := 0,
      message_write_index := 0,
      message_read_index := 0,
      message_error := 0,
      status := K.STATUS_IDLE,
      abort_source := 0,
      receive_outstanding := 0 }
  unfold LogFrame at h
  refine ⟨?_, ?_, ?_, ?_, ?_⟩ <;> rw [h]

/-- C4: let `transferMessageToBus` be entered with
`0 <= receive_outstanding <= receive_fifo_depth` on hardware whose receive level never
reads above `receive_fifo_depth`.  Then `receive_outstanding` is still between 0 and
`receive_fifo_depth` when it returns.  And in a pass for a read message, with `RXFLR`
the level read in that pass, the commands `X` written are read tokens (bit 0x100), each
counted in `receive_outstanding`; token number `j` is written with
`receive_outstanding`, then `receive_outstanding + j`, strictly below the remaining free
capacity `receive_fifo_depth - RXFLR - j`; and there are at most
`receive_fifo_depth - RXFLR` of them. -/
theorem C4_read_tokens_bounded (K : Consts) (s : Dev)
    (h0 : 0 ≤ s.receive_outstanding)
    (h1 : s.receive_outstanding ≤ s.receive_fifo_depth)
    (hR : ∀ n, s.hw n Reg.DW_IC_RXFLR % U32 ≤ s.receive_fifo_depth) :
    (0 ≤ (transferMessageToBus K s).receive_outstanding ∧
      (transferMessageToBus K s).receive_outstanding ≤ s.receive_fifo_depth) ∧
    (∀ (need_restart : Bool) (buffer buffer_length : Nat),
      (s.messages s.message_write_index).flags &&& K.I2C_M_RD ≠ 0 →
      ∃ X : List (Int × Nat × Nat),
        cmdsOf (txMessage K need_restart buffer buffer_length s).1.trace =
          cmdsOf s.trace ++ X ∧
        (∀ e ∈ X, e.2.2 &&& 0x100 ≠ 0) ∧
        (txMessage K need_restart buffer buffer_length s).1.receive_outstanding =
          s.receive_outstanding + X.length ∧
        (∀ j : Nat, j < X.length →
          s.receive_outstanding + j <
            ((s.receive_fifo_depth : Int) -
              (s.hw (s.nreads + 1) Reg.DW_IC_RXFLR % U32 : Nat)) - j) ∧
        (X.length : Int) ≤ (s.receive_fifo_depth : Int) -
          (s.hw (s.nreads + 1) Reg.DW_IC_RXFLR % U32 : Nat)) := by
  constructor
  · obtain ⟨-, -, -, -, -, h6, h7⟩ := transferMessageToBus_post K s
    exact ⟨le_trans h0 h6, h7 hR h1⟩
  · intro nr buffer bl hrd
    have hp := txMessage_post K nr buffer bl s
    generalize txMessage K nr buffer bl s = r at hp ⊢
    obtain ⟨-, X, hX, -, -, -, hro, hread, -⟩ := hp
    rw [if_pos hrd] at hro
    obtain ⟨hj, htok, -⟩ := hread hrd
    have hx := hR (s.nreads + 1)
    have hnn : (0 : Int) ≤ (s.receive_fifo_depth : Int) -
        (s.hw (s.nreads + 1) Reg.DW_IC_RXFLR % U32 : Nat) := by omega
    have hrl := toInt32_le_self _ hnn
    refine ⟨X, hX, htok, hro, ?_, ?_⟩
    · intro j hlt
      have := hj j hlt
      omega
    · rcases Nat.eq_zero_or_pos X.length with h | h
      · rw [h]; simpa using hnn
      · have := hj (X.length - 1) (by omega)
        have e : ((X.length - 1 : Nat) : Int) = (X.length : Int) - 1 := by omega
        rw [e] at this
        omega

/-- Witness for C4: a read of 5 bytes armed on a controller with FIFO depth 4 and an
empty receive FIFO: the first fill step writes 2 read tokens. -/
theorem C4_read_tokens_bounded_witness :
    (transferMessageToBus dwConsts (armTransfer dwConsts (plainNub "INT33C3" false) oneRead5 1
      (fifoDev letters armHw 4))).receive_outstanding ≤ 4 ∧
    (transferMessageToBus dwConsts (armTransfer dwConsts (plainNub "INT33C3" false) oneRead5 1
      (fifoDev letters armHw 4))).receive_outstanding = 2 ∧
    cmdsOf (transferMessageToBus dwConsts (armTransfer dwConsts (plainNub "INT33C3" false)
      oneRead5 1 (fifoDev letters armHw 4))).trace = [(0, 5, 0x100), (0, 4, 0x100)] := by
  have h := (C4_read_tokens_bounded dwConsts
    (armTransfer dwConsts (plainNub "INT33C3" false) oneRead5 1 (fifoDev letters armHw 4))
    (by decide) (by decide)
    (by
      intro n
      rw [(armTransfer_env _ _ _ _ _).1, (armTransfer_env _ _ _ _ _).2.2.1]
      have e : armHw n Reg.DW_IC_RXFLR = 0 := rfl
      show armHw n Reg.DW_IC_RXFLR % U32 ≤ 4
      rw [e]
      decide)).1.2
  rw [(armTransfer_env _ _ _ _ _).2.2.1] at h
  exact ⟨h, by decide, by decide⟩

/-! ## The stop bit (C5) -/

theorem pendingFrom_head (msgs : Int → VoodooI2CControllerBusMessage) (i n : Int)
    (h : i < n) :
    pendingFrom msgs i (n - i).toNat =
      seqDown i (msgs i).length ++ pendingFrom msgs (i + 1) (n - i - 1).toNat := by
  have e : (n - i).toNat = (n - i - 1).toNat + 1 := by omega
  rw [e]
  rfl

theorem pendingFrom_done (msgs : Int → VoodooI2CControllerBusMessage) (i n : Int)
    (h : ¬ i < n) : pendingFrom msgs i (n - i).toNat = [] := by
  have e : (n - i).toNat = 0 := by omega
  rw [e]
  rfl

theorem pendingLoop_idle (K : Consts) (bl : Nat) (s : Dev)
    (h : s.status &&& K.STATUS_WRITE_IN_PROGRESS = 0) :
    pendingLoop K bl s =
      pendingFrom s.messages s.message_write_index
        (s.message_number - s.message_write_index).toNat := by
  unfold pendingLoop
  by_cases hlt : s.message_write_index < s.message_number
  · rw [if_pos hlt, if_pos h, pendingFrom_head _ _ _ hlt]
  · rw [if_neg hlt, pendingFrom_done _ _ _ hlt]

theorem txFor_pending (K : Consts) (address : Nat) (hW : K.STATUS_WRITE_IN_PROGRESS ≠ 0)
    (fuel : Nat) :
    ∀ (nr : Bool) (buffer bl : Nat) (s : Dev),
      (s.message_number - s.message_write_index).toNat ≤ fuel →
      (∀ j, s.message_write_index ≤ j → j < s.message_number →
        (s.messages j).address = address ∧ (s.messages j).length ≠ 0) →
      ∃ X, cmdsOf (txFor K address fuel nr buffer bl s).trace = cmdsOf s.trace ++ X ∧
        X.map annot ++ pending K (txFor K address fuel nr buffer bl s) =
          pendingLoop K bl s := by
  induction fuel with
  | zero =>
    intro nr buffer bl s hfuel hv
    have e : txFor K address 0 nr buffer bl s = s := rfl
    rw [e]
    refine ⟨[], by simp, ?_⟩
    have hlt : ¬ s.message_write_index < s.message_number := by omega
    simp only [List.map_nil, List.nil_append, pending, pendingLoop, if_neg hlt]
  | succ fuel ih =>
    intro nr buffer bl s hfuel hv
    rw [txFor_succ]
    by_cases hlt : s.message_write_index < s.message_number
    · obtain ⟨hok, hlen⟩ := hv _ (le_refl _) hlt
      rw [if_pos hlt, if_neg (not_not.mpr hok), if_neg hlen]
      have hp := txMessage_post_head K nr buffer bl s
      have ihn := ih (txMessage K nr buffer bl (noteMsg (noteMsg s))).2.1
        (txMessage K nr buffer bl (noteMsg (noteMsg s))).2.2.1
        (txMessage K nr buffer bl (noteMsg (noteMsg s))).2.2.2
        (txNext K (txMessage K nr buffer bl (noteMsg (noteMsg s))))
      generalize txMessage K nr buffer bl (noteMsg (noteMsg s)) = r at hp ihn ⊢
      obtain ⟨e1, e2, e3, e4, e5, e6, e7, e8⟩ := hp.parts
      obtain ⟨hf, X, hX, ha, -⟩ := hp
      by_cases hbl : r.2.2.2 > 0
      · rw [if_pos hbl]
        refine ⟨X, by simp only [txPartial_trace, hX], ?_⟩
        have hst : (txPartial K r).status &&& K.STATUS_WRITE_IN_PROGRESS ≠ 0 := by
          simp only [txPartial_status]
          exact or_and_flag _ _ hW
        have hm : (txPartial K r).messages = s.messages := e3 ▸ rfl
        simp only [pending, pendingLoop, txPartial_message_write_index,
          txPartial_message_number, txPartial_transaction_buffer_length, e1, e2,
          if_pos hlt, if_neg hst, hm]
        rw [← List.append_assoc, ha]
      · rw [if_neg hbl]
        have hz : r.2.2.2 = 0 := by omega
        have hm : (txNext K r).messages = s.messages := e3 ▸ rfl
        obtain ⟨X2, hX2, hP2⟩ := ihn
          (by simp only [txNext_message_write_index, txNext_message_number, e1, e2]; omega)
          (by
            intro j h1 h2
            simp only [txNext_message_write_index, txNext_message_number, e1, e2] at h1 h2
            rw [hm]
            exact hv j (by omega) h2)
        have hst : (txNext K r).status &&& K.STATUS_WRITE_IN_PROGRESS = 0 := by
          simp only [txNext_status]
          exact and_not32_flag _ _
        rw [pendingLoop_idle K _ _ hst, hm] at hP2
        simp only [txNext_message_write_index, txNext_message_number, txNext_trace,
          e1, e2] at hP2 hX2
        refine ⟨X ++ X2, by rw [hX2, hX, List.append_assoc], ?_⟩
        rw [hz] at ha
        simp only [seqDown, List.append_nil] at ha
        rw [List.map_append, List.append_assoc, hP2, ha]
        unfold pendingLoop
        rw [if_pos hlt]
        have e : (s.message_number - (s.message_write_index + 1)).toNat =
            (s.message_number - s.message_write_index - 1).toNat := by omega
        rw [e]
    · rw [if_neg hlt]
      refine ⟨[], by simp, ?_⟩
      simp only [List.map_nil, List.nil_append, pending, pendingLoop, if_neg hlt]

theorem pending_writeRegister (K : Consts) (v : Nat) (r : Reg) (s : Dev) :
    pending K (writeRegister v r s) = pending K s := rfl

theorem pendingLoop_noteMsg (K : Consts) (bl : Nat) (s : Dev) :
    pendingLoop K bl (noteMsg s) = pendingLoop K bl s := rfl

theorem ValidFrom_step (K : Consts) (s : Dev) (hv : ValidFrom s) :
    ValidFrom (transferMessageToBus K s) := by
  obtain ⟨h1, h2, -⟩ := transferMessageToBus_post K s
  obtain ⟨f1, f2, -⟩ := h1.fields
  intro j hj1 hj2
  rw [f1, f2] at *
  by_cases hlt : (transferMessageToBus K s).message_write_index < s.message_number
  · have a := hv j (by omega) hj2
    have b := hv _ h2 hlt
    exact ⟨a.1.trans b.1.symm, a.2⟩
  · omega

/-- One call of `transferMessageToBus` on a batch that is valid from the write index
on: the commands written are the next ones due. -/
theorem transferMessageToBus_pending (K : Consts) (hW : K.STATUS_WRITE_IN_PROGRESS ≠ 0)
    (s : Dev) (hv : ValidFrom s) :
    ∃ X, cmdsOf (transferMessageToBus K s).trace = cmdsOf s.trace ++ X ∧
      X.map annot ++ pending K (transferMessageToBus K s) = pending K s ∧
      (∀ e ∈ X, (e.2.2 &&& 0x200 ≠ 0 ↔ (e.1 = s.message_number - 1 ∧ e.2.1 = 1))) := by
  obtain ⟨-, -, -, -, ⟨X1, hX1, hE1⟩, -, -⟩ := transferMessageToBus_post K s
  have h := txFor_pending K (s.messages s.message_write_index).address hW
    (s.message_number - s.message_write_index).toNat false s.transaction_buffer
    s.transaction_buffer_length (noteMsg s) (le_refl _) hv
  obtain ⟨X, hX, hP⟩ := h
  rw [transferMessageToBus_eq] at hX1 ⊢
  rw [pending_writeRegister]
  have hc : cmdsOf (writeRegister
      (interruptMask K (txFor K (s.messages s.message_write_index).address
        (s.message_number - s.message_write_index).toNat false s.transaction_buffer
        s.transaction_buffer_length (noteMsg s))) Reg.DW_IC_INTR_MASK
      (txFor K (s.messages s.message_write_index).address
        (s.message_number - s.message_write_index).toNat false s.transaction_buffer
        s.transaction_buffer_length (noteMsg s))).trace = cmdsOf s.trace ++ X := by
    simp only [writeRegister, cmdsOf_append, hX, cmdsOf, List.append_nil, cmdsOf_noteMsg]
  have hXX : X1 = X := List.append_cancel_left (hX1.symm.trans hc)
  refine ⟨X, hc, ?_, ?_⟩
  · rw [hP, pendingLoop_noteMsg]; rfl
  · intro e he
    exact (hE1 e (hXX ▸ he)).1

theorem fillSteps_pending (K : Consts) (hW : K.STATUS_WRITE_IN_PROGRESS ≠ 0) (n : Nat) :
    ∀ s : Dev, ValidFrom s →
      (fillSteps K n s).message_number = s.message_number ∧
      ∃ X, cmdsOf (fillSteps K n s).trace = cmdsOf s.trace ++ X ∧
        X.map annot ++ pending K (fillSteps K n s) = pending K s ∧
        (∀ e ∈ X, (e.2.2 &&& 0x200 ≠ 0 ↔ (e.1 = s.message_number - 1 ∧ e.2.1 = 1))) := by
  induction n with
  | zero =>
    intro s _
    exact ⟨rfl, [], by simp [fillSteps], by simp [fillSteps], by simp⟩
  | succ n ih =>
    intro s hv
    obtain ⟨X1, hX1, hP1, hE1⟩ := transferMessageToBus_pending K hW s hv
    obtain ⟨hn, X2, hX2, hP2, hE2⟩ := ih _ (ValidFrom_step K s hv)
    have hnum : (transferMessageToBus K s).message_number = s.message_number :=
      (transferMessageToBus_post K s).1.fields.2.1
    rw [hnum] at hn hE2
    refine ⟨hn, X1 ++ X2, ?_, ?_, ?_⟩
    · show cmdsOf (fillSteps K n (transferMessageToBus K s)).trace = _
      rw [hX2, hX1, List.append_assoc]
    · show _ ++ pending K (fillSteps K n (transferMessageToBus K s)) = _
      rw [List.map_append, List.append_assoc, hP2, hP1]
    · intro e he
      rcases List.mem_append.mp he with he | he
      · exact hE1 e he
      · exact hE2 e he

theorem seqDown_last (i : Int) (l : Nat) :
    ∃ Y, seqDown i (l + 1) = Y ++ [(i, 1)] ∧ ∀ p ∈ Y, p.1 = i ∧ 2 ≤ p.2 := by
  induction l with
  | zero => exact ⟨[], rfl, by simp⟩
  | succ l ih =>
    obtain ⟨Y, hY, hp⟩ := ih
    refine ⟨(i, l + 2) :: Y, ?_, ?_⟩
    · show (i, l + 1 + 1) :: seqDown i (l + 1) = _
      rw [hY]; rfl
    · intro p hmem
      rcases List.mem_cons.mp hmem with rfl | hmem
      · exact ⟨rfl, by simp⟩
      · exact hp p hmem

theorem pendingFrom_last (msgs : Int → VoodooI2CControllerBusMessage) (m : Nat) :
    ∀ i : Int, (∀ j, i ≤ j → j ≤ i + m → (msgs j).length ≠ 0) →
      ∃ Y, pendingFrom msgs i (m + 1) = Y ++ [(i + m, 1)] ∧
        ∀ p ∈ Y, ¬ (p.1 = i + m ∧ p.2 = 1) := by
  induction m with
  | zero =>
    intro i hlen
    have h := hlen i (le_refl _) (by simp)
    obtain ⟨l, hl⟩ := Nat.exists_eq_succ_of_ne_zero h
    obtain ⟨Y, hY, hp⟩ := seqDown_last i l
    refine ⟨Y, ?_, ?_⟩
    · show seqDown i (msgs i).length ++ [] = _
      rw [hl, List.append_nil]
      simpa using hY
    · intro p hmem hc
      have := (hp p hmem).2
      omega
  | succ m ih =>
    intro i hlen
    obtain ⟨Y, hY, hp⟩ := ih (i + 1) (fun j h1 h2 => hlen j (by omega) (by push_cast; omega))
    refine ⟨seqDown i (msgs i).length ++ Y, ?_, ?_⟩
    · show seqDown i (msgs i).length ++ pendingFrom msgs (i + 1) (m + 1) = _
      rw [hY, List.append_assoc]
      have e : i + 1 + (m : Int) = i + ((m + 1 : Nat) : Int) := by push_cast; ring
      rw [e]
    · intro p hmem hc
      rcases List.mem_append.mp hmem with hmem | hmem
      · have := (mem_seqDown _ _ _ hmem).1
        have := hc.1
        push_cast at this
        omega
      · refine hp p hmem ⟨?_, hc.2⟩
        have := hc.1
        push_cast at this
        omega

/-! ## A single write message (C6) -/

theorem seqDown_length (i : Int) (n : Nat) : (seqDown i n).length = n := by
  induction n with
  | zero => rfl
  | succ n ih => simp [seqDown, ih]

theorem bytesAt_length (mem : Nat → Nat) (b n : Nat) : (bytesAt mem b n).length = n := by
  induction n generalizing b with
  | zero => rfl
  | succ n ih => simp [bytesAt, ih]

theorem bytesAt_append (mem : Nat → Nat) (j : Nat) :
    ∀ (b r : Nat), bytesAt mem b (j + r) = bytesAt mem b j ++ bytesAt mem (b + j) r := by
  induction j with
  | zero => intro b r; simp [bytesAt]
  | succ j ih =>
    intro b r
    have e : j + 1 + r = (j + r) + 1 := by omega
    rw [e]
    simp only [bytesAt, List.cons_append, ih]
    have e2 : b + 1 + j = b + (j + 1) := by omega
    rw [e2]

theorem len_of_annot (i : Int) (X : List (Int × Nat × Nat)) (bl bl2 : Nat)
    (h : X.map annot ++ seqDown i bl2 = seqDown i bl) : X.length + bl2 = bl := by
  have := congrArg List.length h
  simpa [seqDown_length] using this

/-- One call of `transferMessageToBus` on a batch of one write message, the write index
on it; `buf0` and `bl0` are the cursor and the remaining length the call starts from. -/
theorem single_write_step (K : Consts) (hW : K.STATUS_WRITE_IN_PROGRESS ≠ 0) (s : Dev)
    (hnum : s.message_number = 1) (hidx : s.message_write_index = 0)
    (hwrite : (s.messages 0).flags &&& K.I2C_M_RD = 0) (hlen : (s.messages 0).length ≠ 0)
    (buf0 bl0 : Nat)
    (hbuf0 : buf0 = if s.status &&& K.STATUS_WRITE_IN_PROGRESS = 0 then
      (s.messages 0).buffer else s.transaction_buffer)
    (hbl0 : bl0 = if s.status &&& K.STATUS_WRITE_IN_PROGRESS = 0 then
      (s.messages 0).length else s.transaction_buffer_length) :
    ∃ (X : List (Int × Nat × Nat)) (bl2 : Nat),
      cmdsOf (transferMessageToBus K s).trace = cmdsOf s.trace ++ X ∧
      X.map (fun e => e.2.2 % 256) ++ bytesAt s.mem (buf0 + X.length) bl2 =
        bytesAt s.mem buf0 bl0 ∧
      X.length + bl2 = bl0 ∧
      (X.length : Int) ≤ max (toInt32 ((s.transaction_fifo_depth : Int) -
        (s.hw s.nreads Reg.DW_IC_TXFLR % U32 : Nat))) 0 ∧
      ((bl0 : Int) ≤ toInt32 ((s.transaction_fifo_depth : Int) -
            (s.hw s.nreads Reg.DW_IC_TXFLR % U32 : Nat)) →
        0 < toInt32 ((s.receive_fifo_depth : Int) -
          (s.hw (s.nreads + 1) Reg.DW_IC_RXFLR % U32 : Nat)) → bl2 = 0) ∧
      (bl2 ≠ 0 → (transferMessageToBus K s).message_write_index = 0 ∧
        (transferMessageToBus K s).status &&& K.STATUS_WRITE_IN_PROGRESS ≠ 0 ∧
        (transferMessageToBus K s).transaction_buffer = buf0 + X.length ∧
        (transferMessageToBus K s).transaction_buffer_length = bl2) ∧
      (bl2 = 0 → (transferMessageToBus K s).message_write_index = 1 ∧
        (transferMessageToBus K s).status &&& K.STATUS_WRITE_IN_PROGRESS = 0) ∧
      (transferMessageToBus K s).message_error = s.message_error := by
  have hfuel : (s.message_number - s.message_write_index).toNat = 0 + 1 := by
    rw [hnum, hidx]; rfl
  have hlt : (noteMsg s).message_write_index < (noteMsg s).message_number := by
    simp only [noteMsg_message_write_index, noteMsg_message_number, hnum, hidx]; decide
  rw [transferMessageToBus_eq, hfuel, txFor_succ, if_pos hlt]
  simp only [noteMsg_messages, noteMsg_message_write_index, hidx, ne_eq, not_true_eq_false,
    if_false, if_neg hlen]
  have hp := txMessage_post_head K false s.transaction_buffer s.transaction_buffer_length
    (noteMsg s)
  simp only [noteMsg_messages, noteMsg_message_write_index, noteMsg_status, noteMsg_hw,
    noteMsg_nreads, noteMsg_transaction_fifo_depth, noteMsg_receive_fifo_depth, hidx,
    ← hbuf0, ← hbl0] at hp
  have hp2 := TxWhilePost_of_frame K _ _ _ _ s (noteMsg s) _ rfl (cmdsOf_noteMsg s) hp
  clear hp
  generalize txMessage K false s.transaction_buffer s.transaction_buffer_length
    (noteMsg (noteMsg (noteMsg s))) = r at hp2 ⊢
  obtain ⟨e1, e2, e3, e4, e5, e6, e7, e8⟩ := hp2.parts
  obtain ⟨hf, X, hX, ha, -, hl, -, -, hwr⟩ := hp2
  rw [hidx] at ha hwr
  obtain ⟨hb, hcur, hall⟩ := hwr (by rw [hwrite]; simp)
  have hlenX := len_of_annot _ _ _ _ ha
  have hbuf : r.2.2.1 = buf0 + X.length := by omega
  rw [hbuf] at hb
  have hdone : ¬ (txNext K r).message_write_index < (txNext K r).message_number := by
    simp only [txNext_message_write_index, txNext_message_number, e1, e2, hidx, hnum]
    decide
  refine ⟨X, r.2.2.2, ?_, hb, hlenX, hl, hall, ?_, ?_, ?_⟩
  · by_cases hbl : r.2.2.2 > 0
    · rw [if_pos hbl]
      simp only [writeRegister, cmdsOf_append, txPartial_trace, hX, cmdsOf, List.append_nil]
    · rw [if_neg hbl, txFor_done _ _ _ _ _ _ _ hdone]
      simp only [writeRegister, cmdsOf_append, txNext_trace, hX, cmdsOf, List.append_nil]
  · intro hne
    rw [if_pos (by omega)]
    simp only [writeRegister, txPartial_message_write_index, txPartial_status,
      txPartial_transaction_buffer, txPartial_transaction_buffer_length, e1, hidx, hbuf]
    exact ⟨trivial, or_and_flag _ _ hW, trivial, trivial⟩
  · intro hz
    rw [if_neg (by omega), txFor_done _ _ _ _ _ _ _ hdone]
    simp only [writeRegister, txNext_message_write_index, txNext_status, e1, hidx]
    exact ⟨by decide, and_not32_flag _ _⟩
  · by_cases hbl : r.2.2.2 > 0
    · rw [if_pos hbl]
      simp only [writeRegister, txPartial_message_error, e4]
    · rw [if_neg hbl, txFor_done _ _ _ _ _ _ _ hdone]
      simp only [writeRegister, txNext_message_error, e4]

theorem fillSteps_succ (K : Consts) (k : Nat) :
    ∀ s : Dev, fillSteps K (k + 1) s = transferMessageToBus K (fillSteps K k s) := by
  induction k with
  | zero => intro s; rfl
  | succ k ih =>
    intro s
    show fillSteps K (k + 1) (transferMessageToBus K s) = _
    rw [ih]
    rfl

/-- A call of `transferMessageToBus` entered with the write index at `message_number`
writes no command and leaves the cursor fields as they are. -/
theorem transferMessageToBus_done (K : Consts) (s : Dev)
    (h : ¬ s.message_write_index < s.message_number) :
    cmdsOf (transferMessageToBus K s).trace = cmdsOf s.trace ∧
    (transferMessageToBus K s).message_write_index = s.message_write_index ∧
    (transferMessageToBus K s).status = s.status ∧
    (transferMessageToBus K s).message_error = s.message_error := by
  have h2 : ¬ (noteMsg s).message_write_index < (noteMsg s).message_number := h
  rw [transferMessageToBus_eq, txFor_done _ _ _ _ _ _ _ h2]
  simp only [writeRegister, cmdsOf_append, cmdsOf, List.append_nil, cmdsOf_noteMsg,
    noteMsg_message_write_index, noteMsg_status, noteMsg_message_error, and_self]

theorem single_write_inv_step (K : Consts) (hW : K.STATUS_WRITE_IN_PROGRESS ≠ 0)
    (mem : Nat → Nat) (m : VoodooI2CControllerBusMessage) (s : Dev)
    (X : List (Int × Nat × Nat))
    (hwrite : m.flags &&& K.I2C_M_RD = 0) (hlen : m.length ≠ 0)
    (hinv : SingleWriteInv K mem m s X) :
    ∃ X1, cmdsOf (transferMessageToBus K s).trace = cmdsOf s.trace ++ X1 ∧
      SingleWriteInv K mem m (transferMessageToBus K s) (X ++ X1) ∧
      ((transferMessageToBus K s).status &&& K.STATUS_WRITE_IN_PROGRESS ≠ 0 ↔
        (X ++ X1).length < m.length) ∧
      (s.hw s.nreads Reg.DW_IC_TXFLR % U32 ≤ s.transaction_fifo_depth →
        X1.length ≤ s.transaction_fifo_depth - s.hw s.nreads Reg.DW_IC_TXFLR % U32) := by
  obtain ⟨hnum, hm, hmem, hle, hbytes, hcase⟩ := hinv
  obtain ⟨hfr, -⟩ := transferMessageToBus_post K s
  obtain ⟨f1, f2, f3, -⟩ := hfr.fields
  have hm2 : (transferMessageToBus K s).messages 0 = m := by rw [f1]; exact hm
  have hnum2 : (transferMessageToBus K s).message_number = 1 := f2.trans hnum
  have hmem2 : (transferMessageToBus K s).mem = mem := f3.trans hmem
  -- the two cases in which the write index is on the message
  have active : ∀ (buf0 bl0 : Nat), s.message_write_index = 0 →
      buf0 = (if s.status &&& K.STATUS_WRITE_IN_PROGRESS = 0 then
        (s.messages 0).buffer else s.transaction_buffer) →
      bl0 = (if s.status &&& K.STATUS_WRITE_IN_PROGRESS = 0 then
        (s.messages 0).length else s.transaction_buffer_length) →
      buf0 = m.buffer + X.length → bl0 = m.length - X.length → X.length < m.length →
      ∃ X1, cmdsOf (transferMessageToBus K s).trace = cmdsOf s.trace ++ X1 ∧
        SingleWriteInv K mem m (transferMessageToBus K s) (X ++ X1) ∧
        ((transferMessageToBus K s).status &&& K.STATUS_WRITE_IN_PROGRESS ≠ 0 ↔
          (X ++ X1).length < m.length) ∧
        (s.hw s.nreads Reg.DW_IC_TXFLR % U32 ≤ s.transaction_fifo_depth →
          X1.length ≤ s.transaction_fifo_depth - s.hw s.nreads Reg.DW_IC_TXFLR % U32) := by
    intro buf0 bl0 hidx hb0 hl0 hbe hle0 hlt
    obtain ⟨X1, bl2, hX1, hB, hL, hlim, -, hpart, hfull, -⟩ :=
      single_write_step K hW s hnum hidx (by rw [hm]; exact hwrite) (by rw [hm]; exact hlen)
        buf0 bl0 hb0 hl0
    rw [hmem] at hB
    have hsplit := bytesAt_append mem X1.length buf0 bl2
    rw [hL] at hsplit
    rw [hsplit] at hB
    have hX1b : X1.map (fun e => e.2.2 % 256) = bytesAt mem buf0 X1.length :=
      List.append_cancel_right hB
    have hall : (X ++ X1).map (fun e => e.2.2 % 256) =
        bytesAt mem m.buffer (X ++ X1).length := by
      rw [List.map_append, List.length_append, bytesAt_append, hbytes, hX1b, hbe]
    refine ⟨X1, hX1, ⟨hnum2, hm2, hmem2, by rw [List.length_append]; omega, hall, ?_⟩, ?_, ?_⟩
    · by_cases hz : bl2 = 0
      · obtain ⟨g1, g2⟩ := hfull hz
        exact Or.inr (Or.inr ⟨g1, g2, by rw [List.length_append]; omega⟩)
      · obtain ⟨g1, g2, g3, g4⟩ := hpart hz
        refine Or.inr (Or.inl ⟨g1, g2, ?_, ?_, ?_⟩)
        · rw [g3, hbe, List.length_append]; omega
        · rw [g4, List.length_append]; omega
        · rw [List.length_append]; omega
    · by_cases hz : bl2 = 0
      · obtain ⟨g1, g2⟩ := hfull hz
        rw [List.length_append]
        constructor
        · intro h; exact absurd g2 h
        · intro h; omega
      · obtain ⟨g1, g2, g3, g4⟩ := hpart hz
        rw [List.length_append]
        exact ⟨fun _ => by omega, fun _ => g2⟩
    · intro htx
      have hnn : (0 : Int) ≤ (s.transaction_fifo_depth : Int) -
          (s.hw s.nreads Reg.DW_IC_TXFLR % U32 : Nat) := by omega
      have := toInt32_le_self _ hnn
      omega
  rcases hcase with ⟨c1, c2, c3⟩ | ⟨c1, c2, c3, c4, c5⟩ | ⟨c1, c2, c3⟩
  · subst c3
    exact active (s.messages 0).buffer (s.messages 0).length c1 (by rw [if_pos c2])
      (by rw [if_pos c2]) (by rw [hm]; rfl) (by rw [hm]; rfl) (by simpa using Nat.pos_of_ne_zero hlen)
  · exact active s.transaction_buffer s.transaction_buffer_length c1 (by rw [if_neg c2])
      (by rw [if_neg c2]) c3 c4 c5
  · obtain ⟨d1, d2, d3, -⟩ := transferMessageToBus_done K s (by rw [c1, hnum]; decide)
    refine ⟨[], by rw [d1, List.append_nil], ?_, ?_, ?_⟩
    · rw [List.append_nil]
      exact ⟨hnum2, hm2, hmem2, hle, hbytes, Or.inr (Or.inr ⟨d2.trans c1, by rw [d3]; exact c2, c3⟩)⟩
    · rw [List.append_nil, d3]
      constructor
      · intro h; exact absurd c2 h
      · intro h; omega
    · intro _; simp

theorem single_write_run (K : Consts) (hW : K.STATUS_WRITE_IN_PROGRESS ≠ 0)
    (m : VoodooI2CControllerBusMessage) (s : Dev)
    (hnum : s.message_number = 1) (hidx : s.message_write_index = 0)
    (hidle : s.status &&& K.STATUS_WRITE_IN_PROGRESS = 0) (hm : s.messages 0 = m)
    (hwrite : m.flags &&& K.I2C_M_RD = 0) (hlen : m.length ≠ 0) (k : Nat) :
    ∃ X, cmdsOf (fillSteps K k s).trace = cmdsOf s.trace ++ X ∧
      SingleWriteInv K s.mem m (fillSteps K k s) X ∧
      (1 ≤ k → ((fillSteps K k s).status &&& K.STATUS_WRITE_IN_PROGRESS ≠ 0 ↔
        X.length < m.length)) := by
  induction k with
  | zero =>
    refine ⟨[], by simp [fillSteps], ⟨hnum, hm, rfl, by simp, rfl,
      Or.inl ⟨hidx, hidle, rfl⟩⟩, fun h => by omega⟩
  | succ k ih =>
    obtain ⟨X, hX, hinv, -⟩ := ih
    obtain ⟨X1, hX1, hinv1, hwip, -⟩ :=
      single_write_inv_step K hW s.mem m (fillSteps K k s) X hwrite hlen hinv
    rw [fillSteps_succ]
    exact ⟨X ++ X1, by rw [hX1, hX, List.append_assoc], hinv1, fun _ => hwip⟩

/-- C6: take a batch made of one write message `m` of length at least 1, in a state
with the write index on it and `STATUS_WRITE_IN_PROGRESS` clear.  After any number `k`
of calls of `transferMessageToBus` the data bytes of the commands written are the first
`j` bytes of the buffer of `m`, in order (`j` at most the length); after a call
`STATUS_WRITE_IN_PROGRESS` is set exactly when `j` is below the length, and then the
saved cursor is right after byte `j - 1`; the write index is at `message_number`
exactly when all bytes are written; and a call writes at most
`transaction_fifo_depth - TXFLR` commands (for a level `TXFLR` not above the depth).
If moreover the length fits in the free transmit slots, the receive FIFO is not
full and both depths are below `2^31`, a single call writes all the bytes, moves the write index to `message_number`,
clears `STATUS_WRITE_IN_PROGRESS` and writes the default interrupt mask without the
transmit-empty bit. -/
theorem C6_single_write_in_order (K : Consts) (m : VoodooI2CControllerBusMessage) (s : Dev)
    (hW : K.STATUS_WRITE_IN_PROGRESS ≠ 0)
    (hnum : s.message_number = 1) (hidx : s.message_write_index = 0)
    (hidle : s.status &&& K.STATUS_WRITE_IN_PROGRESS = 0) (hm : s.messages 0 = m)
    (hwrite : m.flags &&& K.I2C_M_RD = 0) (hlen : 1 ≤ m.length) :
    (∀ k, ∃ X : List (Int × Nat × Nat),
      cmdsOf (fillSteps K k s).trace = cmdsOf s.trace ++ X ∧
      X.length ≤ m.length ∧
      X.map (fun e => e.2.2 % 256) = bytesAt s.mem m.buffer X.length ∧
      (1 ≤ k → ((fillSteps K k s).status &&& K.STATUS_WRITE_IN_PROGRESS ≠ 0 ↔
        X.length < m.length)) ∧
      ((fillSteps K k s).status &&& K.STATUS_WRITE_IN_PROGRESS ≠ 0 →
        (fillSteps K k s).transaction_buffer = m.buffer + X.length ∧
        (fillSteps K k s).transaction_buffer_length = m.length - X.length) ∧
      ((fillSteps K k s).message_write_index = s.message_number ↔ X.length = m.length) ∧
      (∃ X1, cmdsOf (fillSteps K (k + 1) s).trace = cmdsOf (fillSteps K k s).trace ++ X1 ∧
        ((fillSteps K k s).hw (fillSteps K k s).nreads Reg.DW_IC_TXFLR % U32 ≤
            (fillSteps K k s).transaction_fifo_depth →
          X1.length ≤ (fillSteps K k s).transaction_fifo_depth -
            (fillSteps K k s).hw (fillSteps K k s).nreads Reg.DW_IC_TXFLR % U32))) ∧
    (s.message_error = 0 →
      s.hw s.nreads Reg.DW_IC_TXFLR % U32 + m.length ≤ s.transaction_fifo_depth →
      s.transaction_fifo_depth < 2147483648 →
      s.hw (s.nreads + 1) Reg.DW_IC_RXFLR % U32 < s.receive_fifo_depth →
      s.receive_fifo_depth < 2147483648 →
      ∃ X : List (Int × Nat × Nat),
        cmdsOf (transferMessageToBus K s).trace = cmdsOf s.trace ++ X ∧
        X.length = m.length ∧
        X.map (fun e => e.2.2 % 256) = bytesAt s.mem m.buffer m.length ∧
        (transferMessageToBus K s).message_write_index = s.message_number ∧
        (transferMessageToBus K s).status &&& K.STATUS_WRITE_IN_PROGRESS = 0 ∧
        (transferMessageToBus K s).trace.getLast? =
          some (Event.write (K.DW_IC_INTR_DEFAULT_MASK &&& not32 K.DW_IC_INTR_TX_EMPTY)
            Reg.DW_IC_INTR_MASK)) := by
  have hlen0 : m.length ≠ 0 := by omega
  constructor
  · intro k
    obtain ⟨X, hX, hinv, hwip⟩ := single_write_run K hW m s hnum hidx hidle hm hwrite hlen0 k
    obtain ⟨X1, hX1, -, -, hbound⟩ :=
      single_write_inv_step K hW s.mem m (fillSteps K k s) X hwrite hlen0 hinv
    obtain ⟨-, -, -, hle, hbytes, hcase⟩ := hinv
    refine ⟨X, hX, hle, hbytes, hwip, ?_, ?_, X1, by rw [fillSteps_succ]; exact hX1, hbound⟩
    · intro hs
      rcases hcase with ⟨-, c2, -⟩ | ⟨-, -, c3, c4, -⟩ | ⟨-, c2, -⟩
      · exact absurd c2 hs
      · exact ⟨c3, c4⟩
      · exact absurd c2 hs
    · rw [hnum]
      rcases hcase with ⟨c1, -, c3⟩ | ⟨c1, -, -, -, c5⟩ | ⟨c1, -, c3⟩
      · subst c3
        rw [c1]
        constructor
        · intro h; exact absurd h (by decide)
        · intro h; simp at h; omega
      · rw [c1]
        constructor
        · intro h; exact absurd h (by decide)
        · intro h; omega
      · rw [c1]
        exact ⟨fun _ => c3, fun _ => rfl⟩
  · intro herr htx htd hrx hrd
    obtain ⟨X, bl2, hX, hB, hL, -, hall, -, hfull, hme⟩ :=
      single_write_step K hW s hnum hidx (by rw [hm]; exact hwrite) (by rw [hm]; exact hlen0)
        m.buffer m.length (by rw [if_pos hidle, hm]) (by rw [if_pos hidle, hm])
    have h1 : toInt32 ((s.transaction_fifo_depth : Int) -
        (s.hw s.nreads Reg.DW_IC_TXFLR % U32 : Nat)) =
        (s.transaction_fifo_depth : Int) - (s.hw s.nreads Reg.DW_IC_TXFLR % U32 : Nat) :=
      toInt32_eq_self _ (by omega) (by omega)
    have h2 : toInt32 ((s.receive_fifo_depth : Int) -
        (s.hw (s.nreads + 1) Reg.DW_IC_RXFLR % U32 : Nat)) =
        (s.receive_fifo_depth : Int) - (s.hw (s.nreads + 1) Reg.DW_IC_RXFLR % U32 : Nat) :=
      toInt32_eq_self _ (by omega) (by omega)
    have hz : bl2 = 0 := hall (by rw [h1]; omega) (by rw [h2]; omega)
    obtain ⟨g1, g2⟩ := hfull hz
    have hXl : X.length = m.length := by omega
    have hnum2 : (transferMessageToBus K s).message_number = 1 :=
      ((transferMessageToBus_post K s).1.fields.2.1).trans hnum
    refine ⟨X, hX, hXl, ?_, by rw [g1, hnum], g2, ?_⟩
    · rw [hz] at hB
      simpa [bytesAt] using hB
    · rw [transferMessageToBus_last, if_neg (by rw [hme, herr]; decide),
        if_pos (by rw [g1, hnum2])]

/-- Witness for C6: a single write of 3 bytes, armed on a controller with FIFO depth
16 and empty FIFOs: one call writes the three bytes, the last with the stop bit, moves
the write index to 1, leaves `STATUS_WRITE_IN_PROGRESS` clear and writes the interrupt
mask 0x244. -/
theorem C6_single_write_in_order_witness :
    (∃ X : List (Int × Nat × Nat),
      cmdsOf (transferMessageToBus dwConsts (armTransfer dwConsts (plainNub "INT33C3" false)
        oneWrite3 1 (fifoDev letters armHw 16))).trace =
        cmdsOf (armTransfer dwConsts (plainNub "INT33C3" false) oneWrite3 1
          (fifoDev letters armHw 16)).trace ++ X ∧
      X.length = 3) ∧
    cmdsOf (transferMessageToBus dwConsts (armTransfer dwConsts (plainNub "INT33C3" false)
        oneWrite3 1 (fifoDev letters armHw 16))).trace =
      [(0, 3, 0x41), (0, 2, 0x42), (0, 1, 0x243)] ∧
    (transferMessageToBus dwConsts (armTransfer dwConsts (plainNub "INT33C3" false)
        oneWrite3 1 (fifoDev letters armHw 16))).message_write_index = 1 ∧
    (transferMessageToBus dwConsts (armTransfer dwConsts (plainNub "INT33C3" false)
        oneWrite3 1 (fifoDev letters armHw 16))).status = 0 ∧
    (transferMessageToBus dwConsts (armTransfer dwConsts (plainNub "INT33C3" false)
        oneWrite3 1 (fifoDev letters armHw 16))).trace.getLast? =
      some (Event.write 0x244 Reg.DW_IC_INTR_MASK) := by
  have h := (C6_single_write_in_order dwConsts ⟨0x2c, 0, 0, 3⟩
    (armTransfer dwConsts (plainNub "INT33C3" false) oneWrite3 1 (fifoDev letters armHw 16))
    (by decide) (by decide) (by decide) (by decide) (by decide) (by decide) (by decide)).2
    (by decide) (by decide) (by decide) (by decide) (by decide)
  obtain ⟨X, hX, hXl, -⟩ := h
  exact ⟨⟨X, hX, hXl⟩, by decide, by decide, by decide, by decide⟩

/-! ## The receive drain (C7) -/

theorem rxFor_succ (l : Nat) (rv : Int) (buffer : Nat) (s : Dev) :
    rxFor (l + 1) rv buffer s =
      if rv > 0 then rxFor l (rv - 1) (buffer + 1) (rxByteState buffer s)
      else (s, buffer, l + 1) := by
  conv_lhs => unfold rxFor
  rfl

theorem rxFor_post (l : Nat) :
    ∀ (rv : Int) (buffer : Nat) (s : Dev), RxForPost l rv buffer s (rxFor l rv buffer s) := by
  induction l with
  | zero =>
    intro rv buffer s
    refine ⟨by simp [rxFor], by simp [rxFor], ?_, ?_, rfl⟩
    · simp [rxFor]
    · intro a
      have hk : min 0 rv.toNat = 0 := by omega
      rw [hk, if_neg (by omega)]
      simp [rxFor]
  | succ l ih =>
    intro rv buffer s
    rw [rxFor_succ]
    by_cases h : rv > 0
    · rw [if_pos h]
      have ih' := ih (rv - 1) (buffer + 1) (rxByteState buffer s)
      generalize rxFor l (rv - 1) (buffer + 1) (rxByteState buffer s) = r at ih' ⊢
      obtain ⟨h1, h2, h3, h4, h5⟩ := ih'
      have hk : min (l + 1) rv.toNat = min l (rv - 1).toNat + 1 := by omega
      refine ⟨by rw [h1, hk]; omega, by rw [h2, hk]; omega, ?_, ?_, ?_⟩
      · rw [h3, hk]
        simp only [rxByteState, Dev.mk.injEq, true_and, and_true]
        constructor
        · push_cast; omega
        · omega
      · intro a
        rw [h4 a, hk]
        simp only [rxByteState_mem, rxByteState_hw, rxByteState_nreads]
        by_cases ha : a = buffer
        · subst ha
          rw [if_neg (by omega), if_pos rfl, if_pos (by omega)]
          simp
        · by_cases hin : buffer + 1 ≤ a ∧ a < buffer + 1 + min l (rv - 1).toNat
          · rw [if_pos hin, if_pos (by omega)]
            have : s.nreads + 1 + (a - (buffer + 1)) = s.nreads + (a - buffer) := by omega
            rw [this]
          · rw [if_neg hin, if_neg ha, if_neg (by omega)]
      · rw [h5]
        simp [rxByteState_trace, cmdsOf_append, cmdsOf]
    · rw [if_neg h]
      have hk : min (l + 1) rv.toNat = 0 := by omega
      refine ⟨by rw [hk]; rfl, by rw [hk]; rfl, ?_, ?_, rfl⟩
      · rw [hk]; simp
      · intro a
        rw [hk, if_neg (by omega)]

theorem rxLoop_read (K : Consts) (fuel : Nat) (s : Dev)
    (hi : s.message_read_index < s.message_number)
    (hrd : (s.messages s.message_read_index).flags &&& K.I2C_M_RD ≠ 0) :
    rxLoop K (fuel + 1) s =
      if (rxFor (rxLength K s) (toInt32 (s.hw s.nreads Reg.DW_IC_RXFLR % U32 : Nat))
          (rxBuffer K s) (rxEntry K s)).2.2 > 0 then
        rxPartial K (rxFor (rxLength K s) (toInt32 (s.hw s.nreads Reg.DW_IC_RXFLR % U32 : Nat))
          (rxBuffer K s) (rxEntry K s))
      else
        rxLoop K fuel (rxNext K (rxFor (rxLength K s)
          (toInt32 (s.hw s.nreads Reg.DW_IC_RXFLR % U32 : Nat)) (rxBuffer K s) (rxEntry K s))) := by
  conv_lhs => unfold rxLoop
  rw [if_pos hi]
  simp only [messageAt]
  rw [if_neg hrd]
  unfold rxLength rxBuffer rxEntry
  by_cases hs : s.status &&& K.STATUS_READ_IN_PROGRESS = 0
  · simp only [hs, if_true, Bool.or_assoc, Bool.or_self]
    rfl
  · simp only [hs, if_false]
    rfl

/-- C7: one pass of `readFromBus` over the read message at the read index.  With `r`
bytes still to receive (the saved remaining length if a read is in progress, else the
message length), cursor `b` (the saved cursor, else the buffer start) and a
receive level `c = DW_IC_RXFLR` below `2^31`, the pass makes `min r c` reads of
`DW_IC_DATA_CMD`, stores the low byte of read `j` at `b + j` and nothing else, and takes
`min r c` off `receive_outstanding`.  If `c < r` the call returns there with
`STATUS_READ_IN_PROGRESS` set, cursor `b + c` and length `r - c` saved (so the end of
the message stays `b + r`) and the read index unchanged; otherwise the flag is cleared,
the read index advanced, and the loop goes on with the next message (returning at once
if this was the last).  Hence for a single read whose remaining tokens are all
outstanding, the call that stores the last byte leaves `receive_outstanding = 0` with
the flag clear. -/
theorem C7_readFromBus_drain (K : Consts) (s : Dev)
    (hR : K.STATUS_READ_IN_PROGRESS ≠ 0)
    (hi : s.message_read_index < s.message_number)
    (hrd : (s.messages s.message_read_index).flags &&& K.I2C_M_RD ≠ 0)
    (hc : s.hw s.nreads Reg.DW_IC_RXFLR % U32 < 2147483648) :
    ∃ s1 : Dev,
      (∀ a, s1.mem a =
        if rxBuffer K s ≤ a ∧
            a < rxBuffer K s + min (rxLength K s) (s.hw s.nreads Reg.DW_IC_RXFLR % U32) then
          s.hw (s.nreads + 1 + (a - rxBuffer K s)) Reg.DW_IC_DATA_CMD % U32 % 256
        else s.mem a) ∧
      s1.receive_outstanding = s.receive_outstanding -
        (min (rxLength K s) (s.hw s.nreads Reg.DW_IC_RXFLR % U32) : Nat) ∧
      s1.nreads = s.nreads + 1 + min (rxLength K s) (s.hw s.nreads Reg.DW_IC_RXFLR % U32) ∧
      s1.messages = s.messages ∧ s1.message_number = s.message_number ∧
      s1.message_write_index = s.message_write_index ∧ s1.hw = s.hw ∧
      cmdsOf s1.trace = cmdsOf s.trace ∧
      (s.hw s.nreads Reg.DW_IC_RXFLR % U32 < rxLength K s →
        readFromBus K s = s1 ∧
        s1.status = s.status ||| K.STATUS_READ_IN_PROGRESS ∧
        s1.status &&& K.STATUS_READ_IN_PROGRESS ≠ 0 ∧
        s1.receive_buffer = rxBuffer K s + s.hw s.nreads Reg.DW_IC_RXFLR % U32 ∧
        s1.receive_buffer_length = rxLength K s - s.hw s.nreads Reg.DW_IC_RXFLR % U32 ∧
        s1.receive_buffer + s1.receive_buffer_length = rxBuffer K s + rxLength K s ∧
        s1.message_read_index = s.message_read_index) ∧
      (rxLength K s ≤ s.hw s.nreads Reg.DW_IC_RXFLR % U32 →
        readFromBus K s =
          rxLoop K ((s.message_number - s.message_read_index).toNat - 1) s1 ∧
        s1.status = s.status &&& not32 K.STATUS_READ_IN_PROGRESS ∧
        s1.status &&& K.STATUS_READ_IN_PROGRESS = 0 ∧
        s1.message_read_index = s.message_read_index + 1 ∧
        (s.message_read_index + 1 = s.message_number →
          readFromBus K s = s1 ∧
          (s.receive_outstanding = (rxLength K s : Nat) →
            (readFromBus K s).receive_outstanding = 0 ∧
            (readFromBus K s).status &&& K.STATUS_READ_IN_PROGRESS = 0))) := by
  obtain ⟨fuel, hfuel⟩ : ∃ fuel, (s.message_number - s.message_read_index).toNat = fuel + 1 :=
    ⟨(s.message_number - s.message_read_index).toNat - 1, by omega⟩
  have hloop := rxLoop_read K fuel s hi hrd
  have hpost := rxFor_post (rxLength K s) (toInt32 (s.hw s.nreads Reg.DW_IC_RXFLR % U32 : Nat))
    (rxBuffer K s) (rxEntry K s)
  have hrv : toInt32 (s.hw s.nreads Reg.DW_IC_RXFLR % U32 : Nat) =
      ((s.hw s.nreads Reg.DW_IC_RXFLR % U32 : Nat) : Int) :=
    toInt32_eq_self _ (by omega) (by omega)
  rw [hrv] at hloop hpost
  generalize s.hw s.nreads Reg.DW_IC_RXFLR % U32 = c at hloop hpost hc ⊢
  generalize rxLength K s = r at hloop hpost ⊢
  generalize rxBuffer K s = b at hloop hpost ⊢
  unfold readFromBus
  rw [hfuel, Nat.add_sub_cancel, hloop]
  generalize rxFor r (c : Int) b (rxEntry K s) = res at hpost ⊢
  obtain ⟨h1, h2, h3, h4, h5⟩ := hpost
  rw [Int.toNat_ofNat] at h1 h2 h3 h4
  have hcm : cmdsOf (rxEntry K s).trace = cmdsOf s.trace := by
    rw [rxEntry_trace]
    by_cases hs : s.status &&& K.STATUS_READ_IN_PROGRESS = 0
    · rw [if_pos hs]; simp [cmdsOf_append, cmdsOf]
    · rw [if_neg hs]; simp [cmdsOf_append, cmdsOf]
  have e_ro : res.1.receive_outstanding = s.receive_outstanding - (min r c : Nat) := by
    rw [h3]; rfl
  have e_nr : res.1.nreads = s.nreads + 1 + min r c := by rw [h3]; rfl
  have e_ms : res.1.messages = s.messages := by rw [h3]; rfl
  have e_mn : res.1.message_number = s.message_number := by rw [h3]; rfl
  have e_wi : res.1.message_write_index = s.message_write_index := by rw [h3]; rfl
  have e_ri : res.1.message_read_index = s.message_read_index := by rw [h3]; rfl
  have e_hw : res.1.hw = s.hw := by rw [h3]; rfl
  have e_st : res.1.status = s.status := by rw [h3]; rfl
  have e_mem : ∀ a, res.1.mem a =
      if b ≤ a ∧ a < b + min r c then s.hw (s.nreads + 1 + (a - b)) Reg.DW_IC_DATA_CMD % U32 % 256
      else s.mem a := fun a => h4 a
  by_cases hlt : c < r
  · have hk : min r c = c := by omega
    refine ⟨rxPartial K res, e_mem, e_ro, e_nr, e_ms, e_mn, e_wi, e_hw, h5.trans hcm, ?_, ?_⟩
    · intro _
      rw [if_pos (by rw [h2]; omega)]
      refine ⟨rfl, ?_, ?_, ?_, ?_, ?_, e_ri⟩
      · rw [rxPartial_status, e_st]
      · rw [rxPartial_status]; exact or_and_flag _ _ hR
      · rw [rxPartial_receive_buffer, h1, hk]
      · rw [rxPartial_receive_buffer_length, h2, hk]
      · rw [rxPartial_receive_buffer, rxPartial_receive_buffer_length, h1, h2, hk]; omega
    · intro hle; omega
  · have hk : min r c = r := by omega
    refine ⟨rxNext K res, e_mem, e_ro, e_nr, e_ms, e_mn, e_wi, e_hw, h5.trans hcm, ?_, ?_⟩
    · intro h; omega
    · intro _
      rw [if_neg (by rw [h2]; omega)]
      refine ⟨rfl, ?_, ?_, ?_, ?_⟩
      · rw [rxNext_status, e_st]
      · rw [rxNext_status]; exact and_not32_flag _ _
      · rw [rxNext_message_read_index, e_ri]
      · intro hlast
        have hdone : rxLoop K fuel (rxNext K res) = rxNext K res := by
          cases fuel with
          | zero => rfl
          | succ f =>
            unfold rxLoop
            rw [if_neg]
            rw [rxNext_message_read_index, rxNext_message_number, e_ri, e_mn]
            omega
        rw [hdone]
        refine ⟨rfl, ?_⟩
        intro hro
        refine ⟨?_, ?_⟩
        · show res.1.receive_outstanding = 0
          rw [e_ro, hk, hro]; omega
        · rw [rxNext_status]; exact and_not32_flag _ _

theorem C7_readFromBus_drain_witness :
    dwConsts.STATUS_READ_IN_PROGRESS ≠ 0 ∧
    (readFromBus dwConsts read5Dev).status &&& dwConsts.STATUS_READ_IN_PROGRESS ≠ 0 ∧
    rxLength dwConsts (readFromBus dwConsts read5Dev) = 3 ∧
    rxBuffer dwConsts (readFromBus dwConsts read5Dev) = 2 ∧
    (readFromBus dwConsts read5Dev).receive_outstanding = 3 ∧
    (readFromBus dwConsts (readFromBus dwConsts read5Dev)).receive_outstanding = 0 ∧
    (readFromBus dwConsts (readFromBus dwConsts read5Dev)).status &&&
      dwConsts.STATUS_READ_IN_PROGRESS = 0 ∧
    (List.range 6).map (readFromBus dwConsts (readFromBus dwConsts read5Dev)).mem =
      [0x61, 0x62, 0x64, 0x65, 0x66, 0x46] ∧
    ∃ s1 : Dev, readFromBus dwConsts (readFromBus dwConsts read5Dev) = s1 ∧
      s1.receive_outstanding = 0 :=
  ⟨by decide, by decide, by decide, by decide, by decide, by decide, by decide, by decide,
    by
      obtain ⟨s1, -, h2, -, -, -, -, -, -, -, h10⟩ :=
        C7_readFromBus_drain dwConsts (readFromBus dwConsts read5Dev) (by decide) (by decide)
          (by decide) (by decide)
      have h := h10 (by decide)
      exact ⟨s1, (h.2.2.2.2 (by decide)).1, by rw [h2]; decide⟩⟩

/-! ## Timing calculator (C8, C9, C10) -/

theorem getBusConfigHold_frame (K : Consts) (c : Nat) (b : Bool) (h : Nat) (s : Dev) :
    (getBusConfigHold K c b h s).2.acpi_config = s.acpi_config := by
  unfold getBusConfigHold
  generalize (if c ≠ 0 then
      (DIV_S64_ROUND_CLOSEST ((c : Int) * 300) (MICRO : Int) % (U32 : Int)).toNat else h) = h0
  dsimp only
  by_cases e : h0 = 0
  · simp only [e, if_true, readRegister]
  · simp only [e, if_false]

/-- The configuration `getBusConfig` leaves is that of its `SSCN` and `FMCN` blocks,
up to the SDA hold value. -/
theorem getBusConfigClk_config (K : Consts) (P : Nub) (c : Nat) (s : Dev) :
    ∃ h, (getBusConfigClk K P c s).2.acpi_config =
      { (getBusConfigFS P c (is_sunrise_point P.name)
          (getBusConfigSS P c (is_sunrise_point P.name) s.acpi_config false).1
          (getBusConfigSS P c (is_sunrise_point P.name) s.acpi_config false).2).1
        with sda_hold := h } := by
  unfold getBusConfigClk
  simp only [readRegister]
  by_cases hv : s.hw (s.nreads + 1) Reg.DW_IC_COMP_VERSION % U32 ≥ K.DW_IC_SDA_HOLD_MIN_VERS
  · rw [if_pos hv]
    exact ⟨_, by rw [getBusConfigHold_frame]⟩
  · rw [if_neg hv]
    exact ⟨_, rfl⟩

/-- The `SSCN` block: what it leaves in each field. -/
theorem getBusConfigSS_eq (P : Nub) (c : Nat) (b : Bool) (cfg : VoodooI2CControllerBusConfig)
    (e : Bool) :
    (getBusConfigSS P c b cfg e).1 =
      { cfg with
        ss_hcnt :=
          if (P.getACPIParams_SSCN cfg.ss_hcnt cfg.ss_lcnt).1 ≠ IOReturn.kIOReturnSuccess then
            if c ≠ 0 then u32sub (DIV_ROUND_CLOSEST_ULL (c * (4000 + 300) % U64) MICRO) 3
            else if b then 0x01B0 else 0x03F2
          else (P.getACPIParams_SSCN cfg.ss_hcnt cfg.ss_lcnt).2.1,
        ss_lcnt :=
          if (P.getACPIParams_SSCN cfg.ss_hcnt cfg.ss_lcnt).1 ≠ IOReturn.kIOReturnSuccess then
            if c ≠ 0 then u32sub (DIV_ROUND_CLOSEST_ULL (c * (4700 + 300) % U64) MICRO) 1
            else if b then 0x01FB else 0x043D
          else (P.getACPIParams_SSCN cfg.ss_hcnt cfg.ss_lcnt).2.2 } := by
  unfold getBusConfigSS
  generalize u32sub (DIV_ROUND_CLOSEST_ULL (c * (4000 + 300) % U64) MICRO) 3 = x
  generalize u32sub (DIV_ROUND_CLOSEST_ULL (c * (4700 + 300) % U64) MICRO) 1 = y
  dsimp only
  by_cases h1 : (P.getACPIParams_SSCN cfg.ss_hcnt cfg.ss_lcnt).1 ≠ IOReturn.kIOReturnSuccess
  · by_cases h2 : c ≠ 0
    · simp only [if_pos h1, if_pos h2]
    · simp only [if_pos h1, if_neg h2]
  · simp only [if_neg h1]

/-- The `FMCN` block: what it leaves in each field. -/
theorem getBusConfigFS_eq (P : Nub) (c : Nat) (b : Bool) (cfg : VoodooI2CControllerBusConfig)
    (e : Bool) :
    (getBusConfigFS P c b cfg e).1 =
      { cfg with
        fs_hcnt :=
          if (P.getACPIParams_FMCN cfg.fs_hcnt cfg.fs_lcnt cfg.sda_hold).1 ≠
              IOReturn.kIOReturnSuccess then
            if c ≠ 0 then u32sub (DIV_ROUND_CLOSEST_ULL (c * (600 + 300) % U64) MICRO) 3
            else if b then 0x48 else 0x0101
          else (P.getACPIParams_FMCN cfg.fs_hcnt cfg.fs_lcnt cfg.sda_hold).2.1,
        fs_lcnt :=
          if (P.getACPIParams_FMCN cfg.fs_hcnt cfg.fs_lcnt cfg.sda_hold).1 ≠
              IOReturn.kIOReturnSuccess then
            if c ≠ 0 then u32sub (DIV_ROUND_CLOSEST_ULL (c * (1300 + 300) % U64) MICRO) 1
            else if b then 0xA0 else 0x012C
          else (P.getACPIParams_FMCN cfg.fs_hcnt cfg.fs_lcnt cfg.sda_hold).2.2.1,
        sda_hold := (P.getACPIParams_FMCN cfg.fs_hcnt cfg.fs_lcnt cfg.sda_hold).2.2.2 } := by
  unfold getBusConfigFS
  generalize u32sub (DIV_ROUND_CLOSEST_ULL (c * (600 + 300) % U64) MICRO) 3 = x
  generalize u32sub (DIV_ROUND_CLOSEST_ULL (c * (1300 + 300) % U64) MICRO) 1 = y
  dsimp only
  by_cases h1 : (P.getACPIParams_FMCN cfg.fs_hcnt cfg.fs_lcnt cfg.sda_hold).1 ≠
      IOReturn.kIOReturnSuccess
  · by_cases h2 : c ≠ 0
    · simp only [if_pos h1, if_pos h2]
    · simp only [if_pos h1, if_neg h2]
  · simp only [if_neg h1]

/-- The four counts `getBusConfig` leaves, by cases on the two ACPI calls and the clock. -/
theorem getBusConfigClk_counts (K : Consts) (P : Nub) (c : Nat) (s : Dev) :
    (getBusConfigClk K P c s).2.acpi_config.ss_hcnt =
      (if (P.getACPIParams_SSCN s.acpi_config.ss_hcnt s.acpi_config.ss_lcnt).1 ≠
          IOReturn.kIOReturnSuccess then
        if c ≠ 0 then u32sub (DIV_ROUND_CLOSEST_ULL (c * (4000 + 300) % U64) MICRO) 3
        else if is_sunrise_point P.name then 0x01B0 else 0x03F2
      else (P.getACPIParams_SSCN s.acpi_config.ss_hcnt s.acpi_config.ss_lcnt).2.1) ∧
    (getBusConfigClk K P c s).2.acpi_config.ss_lcnt =
      (if (P.getACPIParams_SSCN s.acpi_config.ss_hcnt s.acpi_config.ss_lcnt).1 ≠
          IOReturn.kIOReturnSuccess then
        if c ≠ 0 then u32sub (DIV_ROUND_CLOSEST_ULL (c * (4700 + 300) % U64) MICRO) 1
        else if is_sunrise_point P.name then 0x01FB else 0x043D
      else (P.getACPIParams_SSCN s.acpi_config.ss_hcnt s.acpi_config.ss_lcnt).2.2) ∧
    (getBusConfigClk K P c s).2.acpi_config.fs_hcnt =
      (if (P.getACPIParams_FMCN s.acpi_config.fs_hcnt s.acpi_config.fs_lcnt
          s.acpi_config.sda_hold).1 ≠ IOReturn.kIOReturnSuccess then
        if c ≠ 0 then u32sub (DIV_ROUND_CLOSEST_ULL (c * (600 + 300) % U64) MICRO) 3
        else if is_sunrise_point P.name then 0x48 else 0x0101
      else (P.getACPIParams_FMCN s.acpi_config.fs_hcnt s.acpi_config.fs_lcnt
          s.acpi_config.sda_hold).2.1) ∧
    (getBusConfigClk K P c s).2.acpi_config.fs_lcnt =
      (if (P.getACPIParams_FMCN s.acpi_config.fs_hcnt s.acpi_config.fs_lcnt
          s.acpi_config.sda_hold).1 ≠ IOReturn.kIOReturnSuccess then
        if c ≠ 0 then u32sub (DIV_ROUND_CLOSEST_ULL (c * (1300 + 300) % U64) MICRO) 1
        else if is_sunrise_point P.name then 0xA0 else 0x012C
      else (P.getACPIParams_FMCN s.acpi_config.fs_hcnt s.acpi_config.fs_lcnt
          s.acpi_config.sda_hold).2.2.1) := by
  obtain ⟨h, key⟩ := getBusConfigClk_config K P c s
  rw [key, getBusConfigFS_eq, getBusConfigSS_eq]
  generalize u32sub (DIV_ROUND_CLOSEST_ULL (c * (4000 + 300) % U64) MICRO) 3 = x1
  generalize u32sub (DIV_ROUND_CLOSEST_ULL (c * (4700 + 300) % U64) MICRO) 1 = x2
  generalize u32sub (DIV_ROUND_CLOSEST_ULL (c * (600 + 300) % U64) MICRO) 3 = x3
  generalize u32sub (DIV_ROUND_CLOSEST_ULL (c * (1300 + 300) % U64) MICRO) 1 = x4
  exact ⟨rfl, rfl, rfl, rfl⟩

theorem DIV_ROUND_CLOSEST_ULL_MICRO (x : Nat) (hx : x < 2 ^ 63) :
    DIV_ROUND_CLOSEST_ULL x MICRO = (x + 500000) / 1000000 := by
  unfold DIV_ROUND_CLOSEST_ULL MICRO U64 U32
  simp only []
  norm_num
  rw [Nat.mod_eq_of_lt (by omega)]

theorem u32sub_cast (a b : Nat) (ha : a < U32) (hb : b < U32) :
    ((u32sub a b : Nat) : Int) = ((a : Int) - b) % 4294967296 := by
  unfold u32sub
  unfold U32 at *
  omega

/-- The value of a count: `u32sub (round (c * k)) b` as an integer. -/
theorem count_value (c k b : Nat) (hc32 : c < 4294967296) (hk : k ≤ 5000) (hb : b < 4) :
    ((u32sub (DIV_ROUND_CLOSEST_ULL (c * k % U64) MICRO) b : Nat) : Int) =
      ((((c * k + 500000) / 1000000 : Nat) : Int) - b) % 4294967296 := by
  have h1 : c * k < 2 ^ 45 := by
    calc c * k ≤ 4294967296 * 5000 := Nat.mul_le_mul (by omega) hk
      _ < 2 ^ 45 := by norm_num
  have h2 : c * k % U64 = c * k := Nat.mod_eq_of_lt (by unfold U64; omega)
  rw [h2, DIV_ROUND_CLOSEST_ULL_MICRO _ (by omega)]
  apply u32sub_cast
  · unfold U32; omega
  · unfold U32; omega

/-- C8: with a nonzero input clock `c` (kHz, 32 bits) and neither `SSCN` nor `FMCN`
supplied, the four counts are `round(c*4300) - 3`, `round(c*5000) - 1`,
`round(c*900) - 3` and `round(c*1600) - 1` as 32-bit unsigned values, where
`round(x) = (x + 500000) / 1000000` is the integer nearest to `x / 1000000`, ties
going up: `1000000 * round(x) <= x + 500000 < 1000000 * (round(x) + 1)`. -/
theorem C8_counts_round_to_nearest (K : Consts) (P : Nub) (c : Nat) (s : Dev)
    (hc : c ≠ 0) (hc32 : c < 4294967296)
    (hss : ∀ a b, (P.getACPIParams_SSCN a b).1 ≠ IOReturn.kIOReturnSuccess)
    (hfs : ∀ a b d, (P.getACPIParams_FMCN a b d).1 ≠ IOReturn.kIOReturnSuccess) :
    let cfg := (getBusConfigClk K P c s).2.acpi_config
    let round := fun x : Nat => (x + 500000) / 1000000
    ((cfg.ss_hcnt : Int) = ((round (c * 4300) : Nat) - 3 : Int) % 4294967296 ∧
     (cfg.ss_lcnt : Int) = ((round (c * 5000) : Nat) - 1 : Int) % 4294967296 ∧
     (cfg.fs_hcnt : Int) = ((round (c * 900) : Nat) - 3 : Int) % 4294967296 ∧
     (cfg.fs_lcnt : Int) = ((round (c * 1600) : Nat) - 1 : Int) % 4294967296) ∧
    (∀ x : Nat, 1000000 * round x ≤ x + 500000 ∧ x + 500000 < 1000000 * (round x + 1)) := by
  intro cfg round
  obtain ⟨e1, e2, e3, e4⟩ := getBusConfigClk_counts K P c s
  rw [if_pos (hss _ _), if_pos hc] at e1 e2
  rw [if_pos (hfs _ _ _), if_pos hc] at e3 e4
  refine ⟨⟨?_, ?_, ?_, ?_⟩, ?_⟩
  · rw [show cfg.ss_hcnt = _ from e1]
    exact count_value c 4300 3 hc32 (by omega) (by omega)
  · rw [show cfg.ss_lcnt = _ from e2]
    exact count_value c 5000 1 hc32 (by omega) (by omega)
  · rw [show cfg.fs_hcnt = _ from e3]
    exact count_value c 900 3 hc32 (by omega) (by omega)
  · rw [show cfg.fs_lcnt = _ from e4]
    exact count_value c 1600 1 hc32 (by omega) (by omega)
  · intro x
    show 1000000 * ((x + 500000) / 1000000) ≤ x + 500000 ∧
      x + 500000 < 1000000 * ((x + 500000) / 1000000 + 1)
    omega

/-- Witness for C8: the clocks of `AMD0010` (133000 kHz) and `AMDI0010` (150000 kHz)
give `ss_hcnt` 569 and 642; truncating division would give 568 for the first. -/
theorem C8_counts_round_to_nearest_witness :
    (getBusConfig dwConsts (plainNub "AMD0010" false)
      (init (fun _ => 0) (fun _ _ => 0))).2.acpi_config.ss_hcnt = 569 ∧
    (getBusConfig dwConsts (plainNub "AMDI0010" false)
      (init (fun _ => 0) (fun _ _ => 0))).2.acpi_config.ss_hcnt = 642 ∧
    133000 * 4300 / 1000000 - 3 = 568 := by
  have h1 := (C8_counts_round_to_nearest dwConsts (plainNub "AMD0010" false) 133000
    (init (fun _ => 0) (fun _ _ => 0)) (by decide) (by decide)
    (by intro a b; simp [plainNub]) (by intro a b d; simp [plainNub])).1.1
  have h2 := (C8_counts_round_to_nearest dwConsts (plainNub "AMDI0010" false) 150000
    (init (fun _ => 0) (fun _ _ => 0)) (by decide) (by decide)
    (by intro a b; simp [plainNub]) (by intro a b d; simp [plainNub])).1.1
  have c1 : getClkRateFor "AMD0010" = 133000 := by decide
  have c2 : getClkRateFor "AMDI0010" = 150000 := by decide
  refine ⟨?_, ?_, by norm_num⟩
  · show (getBusConfigClk dwConsts (plainNub "AMD0010" false) (getClkRateFor "AMD0010")
      (init (fun _ => 0) (fun _ _ => 0))).2.acpi_config.ss_hcnt = 569
    rw [c1]
    norm_num at h1
    exact_mod_cast h1
  · show (getBusConfigClk dwConsts (plainNub "AMDI0010" false) (getClkRateFor "AMDI0010")
      (init (fun _ => 0) (fun _ _ => 0))).2.acpi_config.ss_hcnt = 642
    rw [c2]
    norm_num at h2
    exact_mod_cast h2

/-- C9: for every input clock `c` (zero or not) and every platform, if the `SSCN`
call succeeds then the final `ss_hcnt` and `ss_lcnt` are the two values that call
stored, and if the `FMCN` call succeeds then the final `fs_hcnt` and `fs_lcnt` are the
two values that call stored: no computed or default count replaces them. -/
theorem C9_override_counts_verbatim (K : Consts) (P : Nub) (c : Nat) (s : Dev) :
    let sscn := P.getACPIParams_SSCN s.acpi_config.ss_hcnt s.acpi_config.ss_lcnt
    let fmcn := P.getACPIParams_FMCN s.acpi_config.fs_hcnt s.acpi_config.fs_lcnt
      s.acpi_config.sda_hold
    let cfg := (getBusConfigClk K P c s).2.acpi_config
    (sscn.1 = IOReturn.kIOReturnSuccess →
      cfg.ss_hcnt = sscn.2.1 ∧ cfg.ss_lcnt = sscn.2.2) ∧
    (fmcn.1 = IOReturn.kIOReturnSuccess →
      cfg.fs_hcnt = fmcn.2.1 ∧ cfg.fs_lcnt = fmcn.2.2.1) := by
  intro sscn fmcn cfg
  obtain ⟨e1, e2, e3, e4⟩ := getBusConfigClk_counts K P c s
  refine ⟨fun hs => ?_, fun hf => ?_⟩
  · rw [if_neg (not_not.mpr hs)] at e1 e2
    exact ⟨e1, e2⟩
  · rw [if_neg (not_not.mpr hf)] at e3 e4
    exact ⟨e3, e4⟩

/-- Witness for C9: with both overrides supplied on a platform of known clock, the
four counts are the override values. -/
theorem C9_override_counts_verbatim_witness :
    ((getBusConfig dwConsts (overrideNub "AMDI0010" (11, 22) (33, 44, 0))
      (init (fun _ => 0) (fun _ _ => 0))).2.acpi_config.ss_hcnt = 11 ∧
     (getBusConfig dwConsts (overrideNub "AMDI0010" (11, 22) (33, 44, 0))
      (init (fun _ => 0) (fun _ _ => 0))).2.acpi_config.ss_lcnt = 22) ∧
    ((getBusConfig dwConsts (overrideNub "AMDI0010" (11, 22) (33, 44, 0))
      (init (fun _ => 0) (fun _ _ => 0))).2.acpi_config.fs_hcnt = 33 ∧
     (getBusConfig dwConsts (overrideNub "AMDI0010" (11, 22) (33, 44, 0))
      (init (fun _ => 0) (fun _ _ => 0))).2.acpi_config.fs_lcnt = 44) :=
  ⟨(C9_override_counts_verbatim dwConsts (overrideNub "AMDI0010" (11, 22) (33, 44, 0))
      (getClkRateFor "AMDI0010") (init (fun _ => 0) (fun _ _ => 0))).1 rfl,
   (C9_override_counts_verbatim dwConsts (overrideNub "AMDI0010" (11, 22) (33, 44, 0))
      (getClkRateFor "AMDI0010") (init (fun _ => 0) (fun _ _ => 0))).2 rfl⟩

/-- C10 (evaluation at the failing input): on `AMDI0010` (clock 150000 kHz), on
hardware at or above the minimum version, with `FMCN` supplying the SDA hold value 9,
the final `sda_hold` is 0x1002D, the clock-computed 45 with the receive-hold bit, and
not 9 or 0x10009. -/
theorem C10_override_hold_discarded :
    (getBusConfig dwConsts (overrideNub "AMDI0010" (11, 22) (33, 44, 9))
      (init (fun _ => 0) (constHw 0x3132322A))).2.acpi_config.sda_hold = 0x1002D ∧
    (getBusConfig dwConsts (overrideNub "AMDI0010" (11, 22) (33, 44, 9))
      (init (fun _ => 0) (constHw 0x3132322A))).1 = IOReturn.kIOReturnSuccess := by
  constructor <;> decide


/-! ## SDA hold and the degraded result (C11, C12) -/

theorem getBusConfigHold_fst (K : Consts) (c : Nat) (b : Bool) (h : Nat) (s : Dev) :
    (getBusConfigHold K c b h s).1 =
      forceRxHold K (holdValue c b h (s.hw s.nreads Reg.DW_IC_SDA_HOLD % U32)) := by
  unfold getBusConfigHold holdValue forceRxHold
  generalize (if c ≠ 0 then
      (DIV_S64_ROUND_CLOSEST ((c : Int) * 300) (MICRO : Int) % (U32 : Int)).toNat else h) = h0
  dsimp only
  by_cases e : h0 = 0
  · simp only [e, if_true, readRegister]
  · simp only [e, if_false]

theorem holdValue_ne_zero (c : Nat) (b : Bool) (h v : Nat) : holdValue c b h v ≠ 0 := by
  unfold holdValue
  generalize (if c ≠ 0 then
      (DIV_S64_ROUND_CLOSEST ((c : Int) * 300) (MICRO : Int) % (U32 : Int)).toNat else h) = h0
  dsimp only
  by_cases e : (if h0 = 0 then v else h0) = 0
  · rw [if_pos e]; cases b <;> simp
  · rw [if_neg e]; exact e

theorem forceRxHold_idem (K : Consts) (v : Nat) :
    forceRxHold K (forceRxHold K v) = forceRxHold K v := by
  have key : ((v ||| (1 <<< K.DW_IC_SDA_HOLD_RX_SHIFT)) % U32 |||
      (1 <<< K.DW_IC_SDA_HOLD_RX_SHIFT)) % U32 =
      (v ||| (1 <<< K.DW_IC_SDA_HOLD_RX_SHIFT)) % U32 := by
    have h32 : U32 = 2 ^ 32 := by unfold U32; norm_num
    rw [h32, Nat.one_shiftLeft]
    apply Nat.eq_of_testBit_eq
    intro i
    simp only [Nat.testBit_mod_two_pow, Nat.testBit_or, Nat.testBit_two_pow]
    by_cases hi : i < 32 <;> by_cases hs : K.DW_IC_SDA_HOLD_RX_SHIFT = i <;> simp [hi, hs]
  by_cases h1 : v &&& K.DW_IC_SDA_HOLD_RX_MASK = 0
  · have e1 : forceRxHold K v = (v ||| (1 <<< K.DW_IC_SDA_HOLD_RX_SHIFT)) % U32 := by
      unfold forceRxHold; rw [if_pos h1]
    rw [e1]
    unfold forceRxHold
    by_cases h2 : (v ||| (1 <<< K.DW_IC_SDA_HOLD_RX_SHIFT)) % U32 &&&
        K.DW_IC_SDA_HOLD_RX_MASK = 0
    · rw [if_pos h2]; exact key
    · rw [if_neg h2]
  · have e1 : forceRxHold K v = v := by
      unfold forceRxHold; rw [if_neg h1]
    rw [e1, e1]

/-- The SDA hold value `getBusConfig` leaves on hardware at or above the minimum
version. -/
theorem getBusConfigClk_hold (K : Consts) (P : Nub) (c : Nat) (s : Dev)
    (hver : K.DW_IC_SDA_HOLD_MIN_VERS ≤ s.hw (s.nreads + 1) Reg.DW_IC_COMP_VERSION % U32) :
    (getBusConfigClk K P c s).2.acpi_config.sda_hold =
      forceRxHold K (holdValue c (is_sunrise_point P.name)
        (getBusConfigFS P c (is_sunrise_point P.name)
          (getBusConfigSS P c (is_sunrise_point P.name) s.acpi_config false).1
          (getBusConfigSS P c (is_sunrise_point P.name) s.acpi_config false).2).1.sda_hold
        (s.hw (s.nreads + 2) Reg.DW_IC_SDA_HOLD % U32)) := by
  unfold getBusConfigClk
  simp only [readRegister]
  rw [if_pos hver]
  generalize getBusConfigFS P c (is_sunrise_point P.name)
    (getBusConfigSS P c (is_sunrise_point P.name) s.acpi_config false).1
    (getBusConfigSS P c (is_sunrise_point P.name) s.acpi_config false).2 = r2
  dsimp only
  rw [getBusConfigHold_fst]

/-- C11 (amended): on hardware at or above the minimum SDA hold version, let `v` be the
resolved SDA hold value (computed from the clock, else that of `FMCN`, else read back,
else the platform constant); it is never 0.  If the receive field
`v & DW_IC_SDA_HOLD_RX_MASK` is zero, the final `sda_hold` is `v` with the bit
`1 << DW_IC_SDA_HOLD_RX_SHIFT` set (as a 32-bit value); if the field is not zero the
final `sda_hold` is `v` unchanged.  Applying the step to the final value again changes
nothing. -/
theorem C11_receive_hold_forced (K : Consts) (P : Nub) (s : Dev) (v : Nat)
    (hver : K.DW_IC_SDA_HOLD_MIN_VERS ≤ s.hw (s.nreads + 1) Reg.DW_IC_COMP_VERSION % U32)
    (hv : v = holdValue (getClkRateFor P.name) (is_sunrise_point P.name)
      (getBusConfigFS P (getClkRateFor P.name) (is_sunrise_point P.name)
        (getBusConfigSS P (getClkRateFor P.name) (is_sunrise_point P.name)
          s.acpi_config false).1
        (getBusConfigSS P (getClkRateFor P.name) (is_sunrise_point P.name)
          s.acpi_config false).2).1.sda_hold
      (s.hw (s.nreads + 2) Reg.DW_IC_SDA_HOLD % U32)) :
    v ≠ 0 ∧
    (getBusConfig K P s).2.acpi_config.sda_hold = forceRxHold K v ∧
    (v &&& K.DW_IC_SDA_HOLD_RX_MASK = 0 →
      (getBusConfig K P s).2.acpi_config.sda_hold =
        (v ||| (1 <<< K.DW_IC_SDA_HOLD_RX_SHIFT)) % U32) ∧
    (v &&& K.DW_IC_SDA_HOLD_RX_MASK ≠ 0 →
      (getBusConfig K P s).2.acpi_config.sda_hold = v) ∧
    forceRxHold K (getBusConfig K P s).2.acpi_config.sda_hold =
      (getBusConfig K P s).2.acpi_config.sda_hold := by
  have hfin : (getBusConfig K P s).2.acpi_config.sda_hold = forceRxHold K v := by
    unfold getBusConfig
    rw [getBusConfigClk_hold K P (getClkRateFor P.name) s hver, hv]
  refine ⟨?_, hfin, ?_, ?_, ?_⟩
  · rw [hv]; exact holdValue_ne_zero _ _ _ _
  · intro h0
    rw [hfin]; unfold forceRxHold; rw [if_pos h0]
  · intro h0
    rw [hfin]; unfold forceRxHold; rw [if_neg h0]
  · rw [hfin]; exact forceRxHold_idem K v

theorem C11_receive_hold_forced_witness :
    dwConsts.DW_IC_SDA_HOLD_MIN_VERS ≤ holdHw 0x20 1 Reg.DW_IC_COMP_VERSION % U32 ∧
    (getBusConfig dwConsts (plainNub "INT33C3" false)
      (init letters (holdHw 0x20))).2.acpi_config.sda_hold = 0x10020 ∧
    (getBusConfig dwConsts (plainNub "INT33C3" false)
      (init letters (holdHw 0x150020))).2.acpi_config.sda_hold = 0x150020 :=
  ⟨by decide,
   ((C11_receive_hold_forced dwConsts (plainNub "INT33C3" false) (init letters (holdHw 0x20))
      0x20 (by decide) (by decide)).2.2.1 (by decide)).trans (by decide),
   (C11_receive_hold_forced dwConsts (plainNub "INT33C3" false)
      (init letters (holdHw 0x150020)) 0x150020 (by decide) (by decide)).2.2.2.1 (by decide)⟩

/-- C11 as stated fails: with the receive field in bits 16 to 23 and the hold value
0x20000 read back from `DW_IC_SDA_HOLD` (clock unknown, no `FMCN` value), the bit
`1 << 16` is clear in the resolved value, and the final `sda_hold` is 0x20000, not
0x30000. -/
theorem C11_counterexample :
    dwConsts.DW_IC_SDA_HOLD_MIN_VERS ≤ holdHw 0x20000 1 Reg.DW_IC_COMP_VERSION % U32 ∧
    holdValue (getClkRateFor "INT33C3") (is_sunrise_point "INT33C3") 0
      (holdHw 0x20000 2 Reg.DW_IC_SDA_HOLD % U32) = 0x20000 ∧
    0x20000 &&& (1 <<< dwConsts.DW_IC_SDA_HOLD_RX_SHIFT) = 0 ∧
    (getBusConfig dwConsts (plainNub "INT33C3" false)
      (init letters (holdHw 0x20000))).2.acpi_config.sda_hold = 0x20000 ∧
    (getBusConfig dwConsts (plainNub "INT33C3" false)
      (init letters (holdHw 0x20000))).2.acpi_config.sda_hold ≠
        0x20000 ||| (1 <<< dwConsts.DW_IC_SDA_HOLD_RX_SHIFT) := by
  refine ⟨by decide, by decide, by decide, by decide, by decide⟩

/-- C12 (evaluation at the failing input): clock unknown, `SSCN` and `FMCN` both
supplied, `FMCN` giving the SDA hold 0 and `DW_IC_SDA_HOLD` reading 0.  The SDA hold is
the constant 0x62 (here with the receive hold forced on), substituted because the
value could be neither computed nor read, yet `getBusConfig` returns
`kIOReturnSuccess`. -/
theorem C12_default_hold_not_reported :
    holdValue (getClkRateFor "INT33C3") (is_sunrise_point "INT33C3") 0
      (holdHw 0 2 Reg.DW_IC_SDA_HOLD % U32) = 0x62 ∧
    (getBusConfig dwConsts (overrideNub "INT33C3" (0x200, 0x210) (0x50, 0x60, 0))
      (init letters (holdHw 0))).2.acpi_config.sda_hold = 0x10062 ∧
    (getBusConfig dwConsts (overrideNub "INT33C3" (0x200, 0x210) (0x50, 0x60, 0))
      (init letters (holdHw 0))).1 = IOReturn.kIOReturnSuccess ∧
    (getBusConfig dwConsts (plainNub "INT33C3" false)
      (init letters (holdHw 0x20))).1 = IOReturn.kIOReturnNotFound := by
  refine ⟨by decide, by decide, by decide, by decide⟩

/-! ## The interrupt path: abort (C13) -/

theorem written_append (a b : List Event) : written (a ++ b) = written a ++ written b := by
  induction a with
  | nil => rfl
  | cons e t ih => cases e <;> simp [written, ih]

theorem readsOf_append (a b : List Event) : readsOf (a ++ b) = readsOf a ++ readsOf b := by
  induction a with
  | nil => rfl
  | cons e t ih => cases e <;> simp [readsOf, ih]

theorem msgsOf_append (a b : List Event) : msgsOf (a ++ b) = msgsOf a ++ msgsOf b := by
  induction a with
  | nil => rfl
  | cons e t ih => cases e <;> simp [msgsOf, ih]

theorem wakeups_append (a b : List Event) : wakeups (a ++ b) = wakeups a + wakeups b := by
  induction a with
  | nil => simp [wakeups]
  | cons e t ih => cases e <;> simp [wakeups, ih]; omega

theorem writesTo_append (r : Reg) (a b : List Event) :
    writesTo r (a ++ b) = writesTo r a ++ writesTo r b := by
  induction a with
  | nil => rfl
  | cons e t ih =>
    cases e <;> simp only [List.cons_append, writesTo] <;> (try split) <;> simp [ih]

theorem quiet_nil : Quiet [] := ⟨rfl, by simp [readsOf], rfl, rfl, rfl⟩

theorem quiet_append {a b : List Event} (ha : Quiet a) (hb : Quiet b) : Quiet (a ++ b) := by
  obtain ⟨a1, a2, a3, a4, a5⟩ := ha
  obtain ⟨b1, b2, b3, b4, b5⟩ := hb
  refine ⟨?_, ?_, ?_, ?_, ?_⟩
  · rw [written_append, a1, b1]; rfl
  · rw [readsOf_append]; simp [a2, b2]
  · rw [msgsOf_append, a3, b3]; rfl
  · rw [wakeups_append, a4, b4]
  · rw [cmdsOf_append, a5, b5]; rfl

theorem quiet_read (r : Reg) (v : Nat) (hr : r ≠ Reg.DW_IC_DATA_CMD) :
    Quiet [Event.read r v] := by
  refine ⟨rfl, ?_, rfl, rfl, rfl⟩
  simp [readsOf]
  exact fun h => hr h.symm

theorem clearFrame_refl (s : Dev) : ClearFrame s s :=
  ⟨[], quiet_nil, by simp⟩

theorem clearFrame_trans {s1 s2 s3 : Dev} (h1 : ClearFrame s1 s2) (h2 : ClearFrame s2 s3) :
    ClearFrame s1 s3 := by
  obtain ⟨T1, q1, e1⟩ := h1
  obtain ⟨T2, q2, e2⟩ := h2
  refine ⟨T1 ++ T2, quiet_append q1 q2, ?_⟩
  rw [e2, e1]
  simp

theorem clearFrame_readRegister (r : Reg) (hr : r ≠ Reg.DW_IC_DATA_CMD) (s : Dev) :
    ClearFrame s (readRegister r s).2 :=
  ⟨[Event.read r (s.hw s.nreads r % U32)], quiet_read r _ hr, rfl⟩

theorem clearFrame_clearIf (c : Prop) [Decidable c] (r : Reg) (hr : r ≠ Reg.DW_IC_DATA_CMD)
    (s : Dev) : ClearFrame s (clearIf c r s) := by
  unfold clearIf
  by_cases h : c
  · rw [if_pos h]; exact clearFrame_readRegister r hr s
  · rw [if_neg h]; exact clearFrame_refl s

theorem clearFrame_clearAbort (c : Prop) [Decidable c] (s : Dev) :
    ClearFrame s (clearAbort c s) := by
  unfold clearAbort
  by_cases h : c
  · rw [if_pos h]
    refine ⟨[Event.read Reg.DW_IC_TX_ABRT_SOURCE (s.hw s.nreads Reg.DW_IC_TX_ABRT_SOURCE % U32)] ++
      [Event.read Reg.DW_IC_CLR_TX_ABRT (s.hw (s.nreads + 1) Reg.DW_IC_CLR_TX_ABRT % U32)],
      quiet_append (quiet_read _ _ (by decide)) (quiet_read _ _ (by decide)), ?_⟩
    simp [readRegister]
  · rw [if_neg h]; exact clearFrame_refl s

theorem readClearInterruptBits_fst (K : Consts) (s : Dev) :
    (readClearInterruptBits K s).1 = s.hw s.nreads Reg.DW_IC_INTR_STAT % U32 := rfl

theorem clearFrame_readClearInterruptBits (K : Consts) (s : Dev) :
    ClearFrame s (readClearInterruptBits K s).2 := by
  unfold readClearInterruptBits
  dsimp only
  refine clearFrame_trans ?_ (clearFrame_clearIf _ _ (by decide) _)
  refine clearFrame_trans ?_ (clearFrame_clearIf _ _ (by decide) _)
  refine clearFrame_trans ?_ (clearFrame_clearIf _ _ (by decide) _)
  refine clearFrame_trans ?_ (clearFrame_clearIf _ _ (by decide) _)
  refine clearFrame_trans ?_ (clearFrame_clearIf _ _ (by decide) _)
  refine clearFrame_trans ?_ (clearFrame_clearAbort _ _)
  refine clearFrame_trans ?_ (clearFrame_clearIf _ _ (by decide) _)
  refine clearFrame_trans ?_ (clearFrame_clearIf _ _ (by decide) _)
  refine clearFrame_trans ?_ (clearFrame_clearIf _ _ (by decide) _)
  refine clearFrame_trans ?_ (clearFrame_clearIf _ _ (by decide) _)
  exact clearFrame_readRegister _ (by decide) s

theorem or_and_self (a e : Nat) : (a ||| e) &&& e = e := by
  apply Nat.eq_of_testBit_eq
  intro i
  simp only [Nat.testBit_and, Nat.testBit_or]
  cases a.testBit i <;> cases e.testBit i <;> rfl

theorem and_or_ne_zero (a b c : Nat) (h : a &&& b ≠ 0) : a &&& (b ||| c) ≠ 0 := by
  intro h0
  apply h
  apply Nat.eq_of_testBit_eq
  intro i
  have := congrArg (fun n => n.testBit i) h0
  simp only [Nat.testBit_and, Nat.testBit_or, Nat.zero_testBit] at this ⊢
  cases ha : a.testBit i <;> cases hb : b.testBit i <;> simp_all

/-- The abort branch of `handleInterrupt`, from the call of `readClearInterruptBits` to
the label `exit`. -/
theorem handleInterruptServe_abort (K : Consts) (P : Nub) (s : Dev)
    (habrt : (s.hw s.nreads Reg.DW_IC_INTR_STAT % U32) &&& K.DW_IC_INTR_TX_ABRT ≠ 0) :
    ∃ T, Quiet T ∧ handleInterruptServe K P s =
      { s with
        command_error := s.command_error ||| K.DW_IC_ERR_TX_ABRT,
        status := K.STATUS_IDLE,
        receive_outstanding := 0,
        abort_source := (handleInterruptServe K P s).abort_source,
        nreads := (handleInterruptServe K P s).nreads,
        trace := s.trace ++ T ++ [Event.write 0 Reg.DW_IC_INTR_MASK, Event.wakeup] } := by
  unfold handleInterruptServe
  have hc := clearFrame_readClearInterruptBits K s
  have h1 := readClearInterruptBits_fst K s
  generalize readClearInterruptBits K s = r at hc h1
  obtain ⟨stat, s2⟩ := r
  simp only at h1 hc
  subst h1
  dsimp only
  rw [if_pos habrt]
  unfold handleInterruptWakeup
  rw [if_pos ⟨Or.inl (and_or_ne_zero _ _ _ habrt), rfl⟩]
  obtain ⟨T, q, e⟩ := hc
  refine ⟨T, q, ?_⟩
  rw [e]
  simp [writeRegister]

/-- What `handleInterrupt` does when the skip checks pass: the line is disabled, the
enable and raw status registers are read, the part after the checks runs, and the line
is enabled again. -/
theorem handleInterrupt_serve (K : Consts) (P : Nub) (s : Dev)
    (hawake : s.awake = true)
    (hen : s.hw s.nreads Reg.DW_IC_ENABLE % U32 ≠ 0)
    (hraw : (s.hw (s.nreads + 1) Reg.DW_IC_RAW_INTR_STAT % U32) &&&
      not32 K.DW_IC_INTR_ACTIVITY ≠ 0)
    (hones : s.hw (s.nreads + 1) Reg.DW_IC_RAW_INTR_STAT % U32 ≠ 0xFFFFFFFF) :
    handleInterrupt K P s =
      { handleInterruptServe K P
          { s with
            nreads := s.nreads + 2,
            trace := s.trace ++ [Event.disableInterrupt] ++
              [Event.read Reg.DW_IC_ENABLE (s.hw s.nreads Reg.DW_IC_ENABLE % U32)] ++
              [Event.read Reg.DW_IC_RAW_INTR_STAT
                (s.hw (s.nreads + 1) Reg.DW_IC_RAW_INTR_STAT % U32)] } with
        trace := (handleInterruptServe K P
          { s with
            nreads := s.nreads + 2,
            trace := s.trace ++ [Event.disableInterrupt] ++
              [Event.read Reg.DW_IC_ENABLE (s.hw s.nreads Reg.DW_IC_ENABLE % U32)] ++
              [Event.read Reg.DW_IC_RAW_INTR_STAT
                (s.hw (s.nreads + 1) Reg.DW_IC_RAW_INTR_STAT % U32)] }).trace ++
          [Event.enableInterrupt] } := by
  unfold handleInterrupt
  simp only [readRegister]
  rw [if_neg (by rw [hawake]; simp)]
  rw [if_neg (by
    intro h
    rcases h with h | h | h
    · exact hen h
    · exact hraw h
    · exact hones h)]

/-- C13: when `handleInterrupt` passes its skip checks (awake, enable register nonzero,
raw status with a bit other than activity and not all ones) and the status returned by
`readClearInterruptBits` has the transmit-abort bit, it ors the abort marker into
`command_error`, sets `status` to idle and `receive_outstanding` to 0, writes 0 to
`DW_IC_INTR_MASK` and no other register, neither reads nor writes `DW_IC_DATA_CMD`,
accesses no message, leaves the cursors, the saved buffers, `message_error` and the
memory as they were, and signals the completion condition once. -/
theorem C13_abort_interrupt (K : Consts) (P : Nub) (s : Dev)
    (hawake : s.awake = true)
    (hen : s.hw s.nreads Reg.DW_IC_ENABLE % U32 ≠ 0)
    (hraw : (s.hw (s.nreads + 1) Reg.DW_IC_RAW_INTR_STAT % U32) &&&
      not32 K.DW_IC_INTR_ACTIVITY ≠ 0)
    (hones : s.hw (s.nreads + 1) Reg.DW_IC_RAW_INTR_STAT % U32 ≠ 0xFFFFFFFF)
    (habrt : (s.hw (s.nreads + 2) Reg.DW_IC_INTR_STAT % U32) &&& K.DW_IC_INTR_TX_ABRT ≠ 0) :
    ∃ T, (handleInterrupt K P s).trace = s.trace ++ T ∧
      (handleInterrupt K P s).command_error = s.command_error ||| K.DW_IC_ERR_TX_ABRT ∧
      (handleInterrupt K P s).command_error &&& K.DW_IC_ERR_TX_ABRT = K.DW_IC_ERR_TX_ABRT ∧
      (handleInterrupt K P s).status = K.STATUS_IDLE ∧
      (handleInterrupt K P s).receive_outstanding = 0 ∧
      writesTo Reg.DW_IC_INTR_MASK T = [0] ∧
      written T = [Reg.DW_IC_INTR_MASK] ∧
      Reg.DW_IC_DATA_CMD ∉ readsOf T ∧
      cmdsOf T = [] ∧
      msgsOf T = [] ∧
      wakeups T = 1 ∧
      (handleInterrupt K P s).message_write_index = s.message_write_index ∧
      (handleInterrupt K P s).message_read_index = s.message_read_index ∧
      (handleInterrupt K P s).message_error = s.message_error ∧
      (handleInterrupt K P s).transaction_buffer = s.transaction_buffer ∧
      (handleInterrupt K P s).transaction_buffer_length = s.transaction_buffer_length ∧
      (handleInterrupt K P s).receive_buffer = s.receive_buffer ∧
      (handleInterrupt K P s).receive_buffer_length = s.receive_buffer_length ∧
      (handleInterrupt K P s).mem = s.mem := by
  rw [handleInterrupt_serve K P s hawake hen hraw hones]
  obtain ⟨T, q, e⟩ := handleInterruptServe_abort K P
    { s with
      nreads := s.nreads + 2,
      trace := s.trace ++ [Event.disableInterrupt] ++
        [Event.read Reg.DW_IC_ENABLE (s.hw s.nreads Reg.DW_IC_ENABLE % U32)] ++
        [Event.read Reg.DW_IC_RAW_INTR_STAT
          (s.hw (s.nreads + 1) Reg.DW_IC_RAW_INTR_STAT % U32)] } habrt
  obtain ⟨q1, q2, q3, q4, q5⟩ := q
  rw [e]
  refine ⟨[Event.disableInterrupt] ++
    [Event.read Reg.DW_IC_ENABLE (s.hw s.nreads Reg.DW_IC_ENABLE % U32)] ++
    [Event.read Reg.DW_IC_RAW_INTR_STAT (s.hw (s.nreads + 1) Reg.DW_IC_RAW_INTR_STAT % U32)] ++
    T ++ [Event.write 0 Reg.DW_IC_INTR_MASK, Event.wakeup] ++ [Event.enableInterrupt],
    by simp, rfl, or_and_self _ _, rfl, rfl, ?_, ?_, ?_, ?_, ?_, ?_, rfl, rfl, rfl, rfl, rfl,
    rfl, rfl, rfl⟩
  · have hw : writesTo Reg.DW_IC_INTR_MASK T = [] := by
      have : ∀ (L : List Event), written L = [] → writesTo Reg.DW_IC_INTR_MASK L = [] := by
        intro L
        induction L with
        | nil => intro _; rfl
        | cons e t ih => cases e <;> simp [written, writesTo] <;> exact ih
      exact this T q1
    simp [writesTo_append, writesTo, hw]
  · simp [written_append, written, q1]
  · simp [readsOf_append, readsOf, q2]
  · simp [cmdsOf_append, cmdsOf, q5]
  · simp [msgsOf_append, msgsOf, q3]
  · simp [wakeups_append, wakeups, q4]

theorem C13_abort_interrupt_witness :
    (busyDev abortHw).awake = true ∧
    (handleInterrupt dwConsts (plainNub "INT33C3" false) (busyDev abortHw)).command_error = 1 ∧
    (handleInterrupt dwConsts (plainNub "INT33C3" false) (busyDev abortHw)).status = 0 ∧
    (handleInterrupt dwConsts (plainNub "INT33C3" false) (busyDev abortHw)).trace =
      [Event.disableInterrupt, Event.read Reg.DW_IC_ENABLE 0x40,
        Event.read Reg.DW_IC_RAW_INTR_STAT 0x40, Event.read Reg.DW_IC_INTR_STAT 0x40,
        Event.read Reg.DW_IC_TX_ABRT_SOURCE 0x40, Event.read Reg.DW_IC_CLR_TX_ABRT 0x40,
        Event.write 0 Reg.DW_IC_INTR_MASK, Event.wakeup, Event.enableInterrupt] ∧
    (handleInterrupt dwConsts (plainNub "INT33C3" false)
      (busyDev abortHw)).receive_outstanding = 0 :=
  ⟨by decide, by decide, by decide, by decide,
    by
      obtain ⟨T, -, -, -, -, h, -⟩ := C13_abort_interrupt dwConsts (plainNub "INT33C3" false)
        (busyDev abortHw) (by decide) (by decide) (by decide) (by decide) (by decide)
      exact h⟩

/-! ## Submission while asleep (C14) -/

/-- C14: with `awake` false, `prepareTransferI2C` returns `kIOReturnBusy` and the state
it was given: no register is read or written, no field of the descriptor changes, and
the wait is not entered (the result does not depend on it); `transferI2CGated` returns
the same after that one attempt. -/
theorem C14_asleep_is_busy (K : Consts) (P : Nub) (commandSleep : Dev → WaitResult × Dev)
    (messages : Int → VoodooI2CControllerBusMessage) (number : Int) (s : Dev)
    (h : s.awake = false) :
    prepareTransferI2C K P commandSleep messages number s = (IOReturn.kIOReturnBusy, s) ∧
    transferI2CGated K P commandSleep messages number s = (IOReturn.kIOReturnBusy, s) ∧
    transferI2CGated K P commandSleep messages number s =
      prepareTransferI2C K P commandSleep messages number s := by
  have h1 : prepareTransferI2C K P commandSleep messages number s =
      (IOReturn.kIOReturnBusy, s) := by
    unfold prepareTransferI2C
    rw [if_pos h]
  have h2 : transferI2CGated K P commandSleep messages number s =
      (IOReturn.kIOReturnBusy, s) := by
    unfold transferI2CGated transferI2CGatedLoop
    rw [h1]
    rfl
  exact ⟨h1, h2, h2.trans h1.symm⟩

theorem C14_asleep_is_busy_witness :
    (asleepDev abortHw).awake = false ∧
    (transferI2CGated dwConsts (plainNub "INT33C3" false) (sleepNow WaitResult.THREAD_AWAKENED)
      oneWrite3 1 (asleepDev abortHw)).1 = IOReturn.kIOReturnBusy ∧
    (transferI2CGated dwConsts (plainNub "INT33C3" false) (sleepNow WaitResult.THREAD_AWAKENED)
      oneWrite3 1 (asleepDev abortHw)).2.trace = [] ∧
    (transferI2CGated dwConsts (plainNub "INT33C3" false) (sleepNow WaitResult.THREAD_AWAKENED)
      oneWrite3 1 (asleepDev abortHw)).2.status = 3 :=
  ⟨by decide,
   by rw [(C14_asleep_is_busy dwConsts (plainNub "INT33C3" false)
      (sleepNow WaitResult.THREAD_AWAKENED) oneWrite3 1 (asleepDev abortHw) (by decide)).2.1],
   by rw [(C14_asleep_is_busy dwConsts (plainNub "INT33C3" false)
      (sleepNow WaitResult.THREAD_AWAKENED) oneWrite3 1 (asleepDev abortHw) (by decide)).2.1]; rfl,
   by rw [(C14_asleep_is_busy dwConsts (plainNub "INT33C3" false)
      (sleepNow WaitResult.THREAD_AWAKENED) oneWrite3 1 (asleepDev abortHw) (by decide)).2.1]; rfl⟩

/-! ## The empty batch (C15) -/

set_option maxHeartbeats 1000000 in
/-- C15 (evaluation at the failing input): an empty batch (`number = 0`) submitted to
an awake controller on an idle bus.  The call returns (`kIOReturnTimeout` when the wait
times out), but arming reads `messages[0]` twice (its flags and its address), and a
transmit-fill step then reads `messages[0]` once more (its address); only the receive
drain reads no element. -/
theorem C15_empty_batch_reads_element :
    (prepareTransferI2C dwConsts (plainNub "INT33C3" false)
      (sleepNow WaitResult.THREAD_TIMED_OUT) (arrayOf []) 0
      (fifoDev letters submitHw 16)).1 = IOReturn.kIOReturnTimeout ∧
    msgsOf (armTransfer dwConsts (plainNub "INT33C3" false) (arrayOf []) 0
      (fifoDev letters armHw 16)).trace = [0, 0] ∧
    msgsOf (transferMessageToBus dwConsts
      (armTransfer dwConsts (plainNub "INT33C3" false) (arrayOf []) 0
        (fifoDev letters armHw 16))).trace = [0, 0, 0] ∧
    msgsOf (readFromBus dwConsts
      (armTransfer dwConsts (plainNub "INT33C3" false) (arrayOf []) 0
        (fifoDev letters armHw 16))).trace = [0, 0] := by
  refine ⟨by decide, by decide, by decide, by decide⟩

/-! ## The bus state controller (C17, C18, C19) -/

theorem toggleBusStateLoop_eq (P : Nub) (en : Nat) (t : Nat) (s : Dev) :
    toggleBusStateLoop P en t s =
      if pollBit s 0 = en then
        (IOReturn.kIOReturnSuccess, toggleClockGating P en (pollState en s))
      else
        match t with
        | 0 => (IOReturn.kIOReturnTimeout, delay (pollState en s))
        | t + 1 => toggleBusStateLoop P en t (delay (pollState en s)) := by
  cases t <;> (conv_lhs => unfold toggleBusStateLoop) <;> rfl

theorem toggleClockGating_trace (P : Nub) (en : Nat) (s : Dev) :
    (toggleClockGating P en s).trace =
      s.trace ++ (if gated P then [Event.write en Reg.LPSS_PRIVATE_CLOCK_GATING] else []) ∧
    (toggleClockGating P en s).nreads = s.nreads := by
  unfold toggleClockGating gated writeRegister
  split <;> simp

theorem toggleBusStateLoop_run (P : Nub) (en : Nat) (t : Nat) :
    ∀ s : Dev, ∃ n T, ToggleRun P en t s (toggleBusStateLoop P en t s) n T := by
  induction t with
  | zero =>
    intro s
    rw [toggleBusStateLoop_eq]
    by_cases h : pollBit s 0 = en
    · rw [if_pos h]
      refine ⟨1, [Event.write en Reg.DW_IC_ENABLE] ++
        [Event.read Reg.DW_IC_ENABLE_STATUS (s.hw s.nreads Reg.DW_IC_ENABLE_STATUS % U32)] ++
        (if gated P then [Event.write en Reg.LPSS_PRIVATE_CLOCK_GATING] else []),
        le_refl _, by omega, ?_, ?_, ?_, ?_, ?_, ?_, ?_, ?_, ?_, ?_⟩
      · rw [(toggleClockGating_trace P en _).1]; simp
      · rw [(toggleClockGating_trace P en _).2]; rfl
      · split <;> simp [writesTo]
      · split <;> simp [readsOf]
      · intro x; split <;> simp [written]; tauto
      · split <;> simp [msgsOf]
      · split <;> simp [cmdsOf]
      · split <;> simp [wakeups]
      · intro j hj; omega
      · left
        refine ⟨rfl, h, ?_⟩
        split <;> simp [writesTo]
    · rw [if_neg h]
      refine ⟨1, [Event.write en Reg.DW_IC_ENABLE] ++
        [Event.read Reg.DW_IC_ENABLE_STATUS (s.hw s.nreads Reg.DW_IC_ENABLE_STATUS % U32)] ++
        [Event.delay],
        le_refl _, by omega, ?_, rfl, ?_, ?_, ?_, rfl, rfl, rfl, ?_, ?_⟩
      · simp [delay]
      · simp [writesTo]
      · simp [readsOf]
      · intro x; simp [written]; exact fun hx => Or.inl hx
      · intro j hj; omega
      · right
        exact ⟨rfl, rfl, h, by simp [writesTo]⟩
  | succ t ih =>
    intro s
    rw [toggleBusStateLoop_eq]
    by_cases h : pollBit s 0 = en
    · rw [if_pos h]
      refine ⟨1, [Event.write en Reg.DW_IC_ENABLE] ++
        [Event.read Reg.DW_IC_ENABLE_STATUS (s.hw s.nreads Reg.DW_IC_ENABLE_STATUS % U32)] ++
        (if gated P then [Event.write en Reg.LPSS_PRIVATE_CLOCK_GATING] else []),
        le_refl _, by omega, ?_, ?_, ?_, ?_, ?_, ?_, ?_, ?_, ?_, ?_⟩
      · rw [(toggleClockGating_trace P en _).1]; simp
      · rw [(toggleClockGating_trace P en _).2]; rfl
      · split <;> simp [writesTo]
      · split <;> simp [readsOf]
      · intro x; split <;> simp [written]; tauto
      · split <;> simp [msgsOf]
      · split <;> simp [cmdsOf]
      · split <;> simp [wakeups]
      · intro j hj; omega
      · left
        refine ⟨rfl, h, ?_⟩
        split <;> simp [writesTo]
    · rw [if_neg h]
      dsimp only
      obtain ⟨n, T, h1, h2, h3, h4, h5, h6, h7, h8, h9, h10, h11, h12⟩ :=
        ih (delay (pollState en s))
      have hpb : ∀ j, pollBit (delay (pollState en s)) j = pollBit s (j + 1) := by
        intro j
        unfold pollBit delay
        simp only [pollState_hw, pollState_nreads]
        rw [show s.nreads + 1 + j = s.nreads + (j + 1) by omega]
      refine ⟨n + 1, [Event.write en Reg.DW_IC_ENABLE] ++
        [Event.read Reg.DW_IC_ENABLE_STATUS (s.hw s.nreads Reg.DW_IC_ENABLE_STATUS % U32)] ++
        [Event.delay] ++ T,
        by omega, by omega, ?_, ?_, ?_, ?_, ?_, ?_, ?_, ?_, ?_, ?_⟩
      · rw [h3]; simp [delay]
      · rw [h4]; simp only [delay, pollState_nreads]; omega
      · simp [writesTo_append, writesTo, h5, List.replicate_succ]
      · simp [readsOf_append, readsOf, h6, List.replicate_succ]
      · intro x hx
        simp only [written_append, written, List.mem_append, List.mem_cons, List.mem_nil_iff,
          List.nil_append, List.append_nil, or_false, false_or] at hx
        rcases hx with hx | hx
        · left; exact hx
        · exact h7 x hx
      · simp [msgsOf_append, msgsOf, h8]
      · simp [cmdsOf_append, cmdsOf, h9]
      · simp [wakeups_append, wakeups, h10]
      · intro j hj
        cases j with
        | zero => exact h
        | succ j =>
          rw [← hpb]
          exact h11 j (by omega)
      · have hn : n + 1 - 1 = (n - 1) + 1 := by omega
        rcases h12 with ⟨a, b, c⟩ | ⟨a, b, c, d⟩
        · left
          refine ⟨a, ?_, ?_⟩
          · rw [hn, ← hpb]; exact b
          · simp [writesTo_append, writesTo, c]
        · right
          refine ⟨a, by omega, ?_, ?_⟩
          · rw [hn, ← hpb]; exact c
          · simp [writesTo_append, writesTo, d]

/-- C17: `toggleBusState` returns after `n` passes of its loop, `1 ≤ n ≤ 1001`, each of
which writes `enabled` to the enable register and polls the enable status once.  The
passes before the last observe a state other than `enabled`; the result is
`kIOReturnSuccess` exactly when the last pass observes `enabled`, and otherwise
`kIOReturnTimeout`, which happens exactly when all 1001 polls observe another state.
The clock-gating register is written, once and with `enabled`, exactly when the result
is success and the controller name starts with `AMD`. -/
theorem C17_toggleBusState_bounded (P : Nub) (enabled : Nat) (s : Dev) :
    ∃ n T, 1 ≤ n ∧ n ≤ 1001 ∧
      (toggleBusState P enabled s).2.trace = s.trace ++ T ∧
      writesTo Reg.DW_IC_ENABLE T = List.replicate n enabled ∧
      readsOf T = List.replicate n Reg.DW_IC_ENABLE_STATUS ∧
      (∀ j, j + 1 < n → pollBit s j ≠ enabled) ∧
      ((toggleBusState P enabled s).1 = IOReturn.kIOReturnSuccess ∨
        (toggleBusState P enabled s).1 = IOReturn.kIOReturnTimeout) ∧
      ((toggleBusState P enabled s).1 = IOReturn.kIOReturnSuccess ↔
        pollBit s (n - 1) = enabled) ∧
      ((toggleBusState P enabled s).1 = IOReturn.kIOReturnTimeout ↔
        ∀ j, j < 1001 → pollBit s j ≠ enabled) ∧
      ((toggleBusState P enabled s).1 = IOReturn.kIOReturnTimeout → n = 1001) ∧
      writesTo Reg.LPSS_PRIVATE_CLOCK_GATING T =
        (if (toggleBusState P enabled s).1 = IOReturn.kIOReturnSuccess ∧ gated P then [enabled]
         else []) := by
  obtain ⟨n, T, h1, h2, h3, h4, h5, h6, h7, h8, h9, h10, h11, h12⟩ :=
    toggleBusStateLoop_run P enabled 1000 s
  refine ⟨n, T, h1, h2, h3, h5, h6, h11, ?_, ?_, ?_, ?_, ?_⟩
  · rcases h12 with ⟨a, -⟩ | ⟨a, -⟩
    · exact Or.inl a
    · exact Or.inr a
  · rcases h12 with ⟨a, b, -⟩ | ⟨a, -, c, -⟩
    · exact ⟨fun _ => b, fun _ => a⟩
    · constructor
      · intro h
        have : (toggleBusStateLoop P enabled 1000 s).1 = IOReturn.kIOReturnSuccess := h
        rw [a] at this
        exact absurd this (by decide)
      · intro h; exact absurd h c
  · rcases h12 with ⟨a, b, -⟩ | ⟨a, b, c, -⟩
    · constructor
      · intro h
        have : (toggleBusStateLoop P enabled 1000 s).1 = IOReturn.kIOReturnTimeout := h
        rw [a] at this
        exact absurd this (by decide)
      · intro h
        exact absurd b (h (n - 1) (by omega))
    · constructor
      · intro _ j hj
        by_cases hj2 : j + 1 < n
        · exact h11 j hj2
        · have : j = n - 1 := by omega
          rw [this]; exact c
      · intro _; exact a
  · rcases h12 with ⟨a, -⟩ | ⟨-, b, -⟩
    · intro h
      have : (toggleBusStateLoop P enabled 1000 s).1 = IOReturn.kIOReturnTimeout := h
      rw [a] at this
      exact absurd this (by decide)
    · intro _; exact b
  · rcases h12 with ⟨a, -, c⟩ | ⟨a, -, -, d⟩
    · have a2 : (toggleBusState P enabled s).1 = IOReturn.kIOReturnSuccess := a
      rw [c]
      by_cases g : gated P
      · rw [if_pos g, if_pos ⟨a2, g⟩]
      · rw [if_neg g, if_neg (fun h => g h.2)]
    · have a2 : (toggleBusState P enabled s).1 = IOReturn.kIOReturnTimeout := a
      rw [d, if_neg]
      intro h
      rw [a2] at h
      exact absurd h.1 (by decide)

theorem writeRegister_trace (v : Nat) (r : Reg) (s : Dev) :
    (writeRegister v r s).trace = s.trace ++ [Event.write v r] := rfl

theorem writeRegister_acpi_config (v : Nat) (r : Reg) (s : Dev) :
    (writeRegister v r s).acpi_config = s.acpi_config := rfl

theorem writeRegister_transaction_fifo_depth (v : Nat) (r : Reg) (s : Dev) :
    (writeRegister v r s).transaction_fifo_depth = s.transaction_fifo_depth := rfl

theorem writeRegister_bus_config (v : Nat) (r : Reg) (s : Dev) :
    (writeRegister v r s).bus_config = s.bus_config := rfl

/-- The register writes `initialiseBus` makes once the bus is disabled. -/
theorem initialiseBus_writes (K : Consts) (P : Nub) (s : Dev)
    (hok : (toggleBusState P K.kVoodooI2CStateOff s).1 = IOReturn.kIOReturnSuccess) :
    (initialiseBus K P s).1 = IOReturn.kIOReturnSuccess ∧
    (initialiseBus K P s).2.trace = (toggleBusState P K.kVoodooI2CStateOff s).2.trace ++
      [Event.write s.acpi_config.ss_hcnt Reg.DW_IC_SS_SCL_HCNT,
       Event.write s.acpi_config.ss_lcnt Reg.DW_IC_SS_SCL_LCNT,
       Event.write s.acpi_config.fs_hcnt Reg.DW_IC_FS_SCL_HCNT,
       Event.write s.acpi_config.fs_lcnt Reg.DW_IC_FS_SCL_LCNT] ++
      (if s.acpi_config.sda_hold ≠ 0 then
        [Event.write s.acpi_config.sda_hold Reg.DW_IC_SDA_HOLD] else []) ++
      [Event.write (s.transaction_fifo_depth / 2) Reg.DW_IC_TX_TL,
       Event.write 0 Reg.DW_IC_RX_TL,
       Event.write s.bus_config Reg.DW_IC_CON] := by
  have hfr := toggleBusState_frame P K.kVoodooI2CStateOff s
  have e1 : (toggleBusState P K.kVoodooI2CStateOff s).2.acpi_config = s.acpi_config := by
    rw [hfr]
  have e2 : (toggleBusState P K.kVoodooI2CStateOff s).2.transaction_fifo_depth =
      s.transaction_fifo_depth := by rw [hfr]
  have e3 : (toggleBusState P K.kVoodooI2CStateOff s).2.bus_config = s.bus_config := by
    rw [hfr]
  unfold initialiseBus
  dsimp only
  rw [if_neg (by rw [hok]; simp)]
  refine ⟨rfl, ?_⟩
  generalize (toggleBusState P K.kVoodooI2CStateOff s).2 = s1 at e1 e2 e3
  simp only [writeRegister_acpi_config, e1]
  by_cases hh : s.acpi_config.sda_hold ≠ 0
  · simp only [if_pos hh, writeRegister_trace, writeRegister_transaction_fifo_depth,
      writeRegister_bus_config, e2, e3]
    simp
  · simp only [if_neg hh, writeRegister_trace, writeRegister_transaction_fifo_depth,
      writeRegister_bus_config, e2, e3]
    simp

/-- C18: `initialiseBus` first calls `toggleBusState` for the disabled state, which
writes no register but the enable and clock-gating ones.  If that call fails,
`initialiseBus` returns `kIOReturnError` in the state the call left, nothing else
written.  If it succeeds (its last poll observing the disabled state), `initialiseBus`
then writes, in this order, the four SCL counts of `acpi_config`, `sda_hold` to
`DW_IC_SDA_HOLD` if and only if it is nonzero, `transaction_fifo_depth / 2` to
`DW_IC_TX_TL`, 0 to `DW_IC_RX_TL` and `bus_config` to `DW_IC_CON`, and returns
`kIOReturnSuccess`. -/
theorem C18_initialiseBus_programs_disabled (K : Consts) (P : Nub) (s : Dev) :
    ∃ n T, (toggleBusState P K.kVoodooI2CStateOff s).2.trace = s.trace ++ T ∧
      (∀ x, x ∈ written T → x = Reg.DW_IC_ENABLE ∨ x = Reg.LPSS_PRIVATE_CLOCK_GATING) ∧
      ((toggleBusState P K.kVoodooI2CStateOff s).1 ≠ IOReturn.kIOReturnSuccess →
        initialiseBus K P s =
          (IOReturn.kIOReturnError, (toggleBusState P K.kVoodooI2CStateOff s).2) ∧
        (initialiseBus K P s).2.trace = s.trace ++ T) ∧
      ((toggleBusState P K.kVoodooI2CStateOff s).1 = IOReturn.kIOReturnSuccess →
        pollBit s (n - 1) = K.kVoodooI2CStateOff ∧
        (initialiseBus K P s).1 = IOReturn.kIOReturnSuccess ∧
        (initialiseBus K P s).2.trace = s.trace ++ T ++
          [Event.write s.acpi_config.ss_hcnt Reg.DW_IC_SS_SCL_HCNT,
           Event.write s.acpi_config.ss_lcnt Reg.DW_IC_SS_SCL_LCNT,
           Event.write s.acpi_config.fs_hcnt Reg.DW_IC_FS_SCL_HCNT,
           Event.write s.acpi_config.fs_lcnt Reg.DW_IC_FS_SCL_LCNT] ++
          (if s.acpi_config.sda_hold ≠ 0 then
            [Event.write s.acpi_config.sda_hold Reg.DW_IC_SDA_HOLD] else []) ++
          [Event.write (s.transaction_fifo_depth / 2) Reg.DW_IC_TX_TL,
           Event.write 0 Reg.DW_IC_RX_TL,
           Event.write s.bus_config Reg.DW_IC_CON]) := by
  obtain ⟨n, T, h1, h2, h3, h4, h5, h6, h7, h8, h9, h10, h11, h12⟩ :=
    toggleBusStateLoop_run P K.kVoodooI2CStateOff 1000 s
  have h3b : (toggleBusState P K.kVoodooI2CStateOff s).2.trace = s.trace ++ T := h3
  refine ⟨n, T, h3b, h7, ?_, ?_⟩
  · intro hne
    have e : initialiseBus K P s =
        (IOReturn.kIOReturnError, (toggleBusState P K.kVoodooI2CStateOff s).2) := by
      unfold initialiseBus
      dsimp only
      rw [if_pos hne]
    exact ⟨e, by rw [e]; exact h3b⟩
  · intro hok
    have hpoll : pollBit s (n - 1) = K.kVoodooI2CStateOff := by
      rcases h12 with ⟨-, b, -⟩ | ⟨a, -⟩
      · exact b
      · have : (toggleBusState P K.kVoodooI2CStateOff s).1 = IOReturn.kIOReturnTimeout := a
        rw [hok] at this
        exact absurd this (by decide)
    obtain ⟨w1, w2⟩ := initialiseBus_writes K P s hok
    refine ⟨hpoll, w1, ?_⟩
    rw [w2, h3b]

/-- C19 (amended): for a controller of the clock-gating family, each of two
consecutive successful calls `toggleBusState(on)` writes `on` to the enable register
and then `on` to the clock-gating register: the second call writes the clock-gating
register again, with the same value.  Both calls write these two registers only and
only the value `on`, and the second changes nothing of the driver state but the count
of reads and the trace. -/
theorem C19_repeated_enable (P : Nub) (en : Nat) (s : Dev) (hg : gated P)
    (h1 : (toggleBusState P en s).1 = IOReturn.kIOReturnSuccess)
    (h2 : (toggleBusState P en (toggleBusState P en s).2).1 = IOReturn.kIOReturnSuccess) :
    ∃ T1 T2, (toggleBusState P en s).2.trace = s.trace ++ T1 ∧
      (toggleBusState P en (toggleBusState P en s).2).2.trace = s.trace ++ T1 ++ T2 ∧
      writesTo Reg.LPSS_PRIVATE_CLOCK_GATING T1 = [en] ∧
      writesTo Reg.LPSS_PRIVATE_CLOCK_GATING T2 = [en] ∧
      writesTo Reg.LPSS_PRIVATE_CLOCK_GATING (T1 ++ T2) = [en, en] ∧
      (∀ v, v ∈ writesTo Reg.DW_IC_ENABLE (T1 ++ T2) → v = en) ∧
      (∀ x, x ∈ written (T1 ++ T2) →
        x = Reg.DW_IC_ENABLE ∨ x = Reg.LPSS_PRIVATE_CLOCK_GATING) ∧
      (toggleBusState P en (toggleBusState P en s).2).2 =
        { (toggleBusState P en s).2 with
          nreads := (toggleBusState P en (toggleBusState P en s).2).2.nreads,
          trace := (toggleBusState P en (toggleBusState P en s).2).2.trace } := by
  obtain ⟨n, T1, -, -, a3, -, a5, -, a7, -, -, -, -, a12⟩ :=
    toggleBusStateLoop_run P en 1000 s
  obtain ⟨m, T2, -, -, b3, -, b5, -, b7, -, -, -, -, b12⟩ :=
    toggleBusStateLoop_run P en 1000 (toggleBusState P en s).2
  have a3b : (toggleBusState P en s).2.trace = s.trace ++ T1 := a3
  have b3b : (toggleBusState P en (toggleBusState P en s).2).2.trace =
      (toggleBusState P en s).2.trace ++ T2 := b3
  have g1 : writesTo Reg.LPSS_PRIVATE_CLOCK_GATING T1 = [en] := by
    rcases a12 with ⟨-, -, c⟩ | ⟨a, -⟩
    · rw [c, if_pos hg]
    · have : (toggleBusState P en s).1 = IOReturn.kIOReturnTimeout := a
      rw [h1] at this
      exact absurd this (by decide)
  have g2 : writesTo Reg.LPSS_PRIVATE_CLOCK_GATING T2 = [en] := by
    rcases b12 with ⟨-, -, c⟩ | ⟨a, -⟩
    · rw [c, if_pos hg]
    · have : (toggleBusState P en (toggleBusState P en s).2).1 =
          IOReturn.kIOReturnTimeout := a
      rw [h2] at this
      exact absurd this (by decide)
  refine ⟨T1, T2, a3b, by rw [b3b, a3b], g1, g2, ?_, ?_, ?_, ?_⟩
  · rw [writesTo_append, g1, g2]; rfl
  · intro v hv
    rw [writesTo_append, a5, b5, List.mem_append] at hv
    rcases hv with hv | hv <;> exact (List.mem_replicate.mp hv).2
  · intro x hx
    rw [written_append, List.mem_append] at hx
    rcases hx with hx | hx
    · exact a7 x hx
    · exact b7 x hx
  · exact toggleBusState_frame P en (toggleBusState P en s).2

theorem C19_repeated_enable_witness :
    gated (plainNub "AMD0010" false) ∧
    (toggleBusState (plainNub "AMD0010" false) 1 (init letters (constHw 1))).1 =
      IOReturn.kIOReturnSuccess ∧
    ∃ T1 T2,
      (toggleBusState (plainNub "AMD0010" false) 1
        (toggleBusState (plainNub "AMD0010" false) 1 (init letters (constHw 1))).2).2.trace =
        (init letters (constHw 1)).trace ++ T1 ++ T2 ∧
      writesTo Reg.LPSS_PRIVATE_CLOCK_GATING T2 = [1] := by
  refine ⟨by decide, by decide, ?_⟩
  obtain ⟨T1, T2, -, h2, -, h4, -⟩ := C19_repeated_enable (plainNub "AMD0010" false) 1
    (init letters (constHw 1)) (by decide) (by decide) (by decide)
  exact ⟨T1, T2, h2, h4⟩

/-- C19 as stated fails: on `AMD0010`, with the enable status reading 1, two
consecutive calls `toggleBusState(1)` both succeed, and the second writes the
clock-gating register again: of the two calls it is written twice. -/
theorem C19_counterexample :
    (toggleBusState (plainNub "AMD0010" false) 1 (init letters (constHw 1))).1 =
      IOReturn.kIOReturnSuccess ∧
    (toggleBusState (plainNub "AMD0010" false) 1
      (toggleBusState (plainNub "AMD0010" false) 1 (init letters (constHw 1))).2).1 =
      IOReturn.kIOReturnSuccess ∧
    written (toggleBusState (plainNub "AMD0010" false) 1 (init letters (constHw 1))).2.trace =
      [Reg.DW_IC_ENABLE, Reg.LPSS_PRIVATE_CLOCK_GATING] ∧
    written (toggleBusState (plainNub "AMD0010" false) 1
      (toggleBusState (plainNub "AMD0010" false) 1 (init letters (constHw 1))).2).2.trace =
      [Reg.DW_IC_ENABLE, Reg.LPSS_PRIVATE_CLOCK_GATING,
       Reg.DW_IC_ENABLE, Reg.LPSS_PRIVATE_CLOCK_GATING] ∧
    writesTo Reg.LPSS_PRIVATE_CLOCK_GATING (toggleBusState (plainNub "AMD0010" false) 1
      (toggleBusState (plainNub "AMD0010" false) 1 (init letters (constHw 1))).2).2.trace =
      [1, 1] := by
  refine ⟨by decide, by decide, by decide, by decide, by decide⟩

/-! ## Stale descriptor state (C16) -/

theorem ite_graft (p : Prop) [Decidable p] (x y : Dev) (a b c d : Nat) :
    (if p then graft x a b c d else graft y a b c d) = graft (if p then x else y) a b c d := by
  split <;> rfl

theorem readRegister_graft (r : Reg) (s : Dev) (a b c d : Nat) :
    readRegister r (graft s a b c d) = ((readRegister r s).1, graft (readRegister r s).2 a b c d) :=
  rfl

theorem writeRegister_graft (v : Nat) (r : Reg) (s : Dev) (a b c d : Nat) :
    writeRegister v r (graft s a b c d) = graft (writeRegister v r s) a b c d := rfl

theorem messageAt_graft (i : Int) (s : Dev) (a b c d : Nat) :
    messageAt i (graft s a b c d) = ((messageAt i s).1, graft (messageAt i s).2 a b c d) := rfl

theorem delay_graft (s : Dev) (a b c d : Nat) :
    delay (graft s a b c d) = graft (delay s) a b c d := rfl

theorem toggleClockGating_graft (P : Nub) (en : Nat) (s : Dev) (a b c d : Nat) :
    toggleClockGating P en (graft s a b c d) = graft (toggleClockGating P en s) a b c d := by
  unfold toggleClockGating
  split <;> rfl

theorem toggleBusStateLoop_graft (P : Nub) (en : Nat) (t : Nat) :
    ∀ (s : Dev) (a b c d : Nat), toggleBusStateLoop P en t (graft s a b c d) =
      ((toggleBusStateLoop P en t s).1, graft (toggleBusStateLoop P en t s).2 a b c d) := by
  induction t with
  | zero =>
    intro s a b c d
    rw [toggleBusStateLoop_eq, toggleBusStateLoop_eq P en 0 s]
    have hp : pollBit (graft s a b c d) 0 = pollBit s 0 := rfl
    rw [hp]
    by_cases h : pollBit s 0 = en
    · rw [if_pos h, if_pos h]
      exact congrArg _ (toggleClockGating_graft P en (pollState en s) a b c d)
    · rw [if_neg h, if_neg h]
      rfl
  | succ t ih =>
    intro s a b c d
    rw [toggleBusStateLoop_eq, toggleBusStateLoop_eq P en (t + 1) s]
    have hp : pollBit (graft s a b c d) 0 = pollBit s 0 := rfl
    rw [hp]
    by_cases h : pollBit s 0 = en
    · rw [if_pos h, if_pos h]
      exact congrArg _ (toggleClockGating_graft P en (pollState en s) a b c d)
    · rw [if_neg h, if_neg h]
      exact ih (delay (pollState en s)) a b c d

theorem toggleBusState_graft (P : Nub) (en : Nat) (s : Dev) (a b c d : Nat) :
    toggleBusState P en (graft s a b c d) =
      ((toggleBusState P en s).1, graft (toggleBusState P en s).2 a b c d) :=
  toggleBusStateLoop_graft P en 1000 s a b c d

theorem toggleInterrupts_graft (K : Consts) (en : Nat) (s : Dev) (a b c d : Nat) :
    toggleInterrupts K en (graft s a b c d) = graft (toggleInterrupts K en s) a b c d := by
  unfold toggleInterrupts
  split <;> rfl

theorem initialiseBus_graft (K : Consts) (P : Nub) (s : Dev) (a b c d : Nat) :
    initialiseBus K P (graft s a b c d) =
      ((initialiseBus K P s).1, graft (initialiseBus K P s).2 a b c d) := by
  unfold initialiseBus
  rw [toggleBusState_graft]
  dsimp only
  by_cases h : (toggleBusState P K.kVoodooI2CStateOff s).1 ≠ IOReturn.kIOReturnSuccess
  · rw [if_pos h, if_pos h]
  · rw [if_neg h, if_neg h]
    generalize (toggleBusState P K.kVoodooI2CStateOff s).2 = s1
    simp only [graft_acpi_config, writeRegister_graft, writeRegister_acpi_config,
      graft_transaction_fifo_depth, graft_bus_config, ite_graft]

theorem waitBusNotBusyLoop_graft (K : Consts) (t : Nat) :
    ∀ (s : Dev) (a b c d : Nat), waitBusNotBusyLoop K t (graft s a b c d) =
      ((waitBusNotBusyLoop K t s).1, graft (waitBusNotBusyLoop K t s).2 a b c d) := by
  induction t with
  | zero =>
    intro s a b c d
    unfold waitBusNotBusyLoop
    rw [readRegister_graft]
    dsimp only
    split <;> rfl
  | succ t ih =>
    intro s a b c d
    unfold waitBusNotBusyLoop
    rw [readRegister_graft]
    dsimp only
    split
    · rw [delay_graft, ih]
    · rfl

theorem waitBusNotBusyI2C_graft (K : Consts) (s : Dev) (a b c d : Nat) :
    waitBusNotBusyI2C K (graft s a b c d) =
      ((waitBusNotBusyI2C K s).1, graft (waitBusNotBusyI2C K s).2 a b c d) :=
  waitBusNotBusyLoop_graft K _ s a b c d

theorem requestTransferI2C_graft (K : Consts) (P : Nub) (s : Dev) (a b c d : Nat) :
    requestTransferI2C K P (graft s a b c d) = graft (requestTransferI2C K P s) a b c d := by
  unfold requestTransferI2C
  simp only [initialiseBus_graft, toggleBusState_graft, ite_graft, readRegister_graft,
    messageAt_graft, graft_message_write_index, writeRegister_graft, toggleInterrupts_graft]

theorem clearIf_graft (p : Prop) [Decidable p] (r : Reg) (s : Dev) (a b c d : Nat) :
    clearIf p r (graft s a b c d) = graft (clearIf p r s) a b c d := by
  unfold clearIf
  split <;> rfl

theorem clearAbort_graft (p : Prop) [Decidable p] (s : Dev) (a b c d : Nat) :
    clearAbort p (graft s a b c d) = graft (clearAbort p s) a b c d := by
  unfold clearAbort
  split <;> rfl

theorem clearIf_receive_outstanding (p : Prop) [Decidable p] (r : Reg) (s : Dev) :
    (clearIf p r s).receive_outstanding = s.receive_outstanding := by
  unfold clearIf
  split <;> rfl

theorem readClearInterruptBits_graft (K : Consts) (s : Dev) (a b c d : Nat) :
    readClearInterruptBits K (graft s a b c d) =
      ((readClearInterruptBits K s).1, graft (readClearInterruptBits K s).2 a b c d) := by
  unfold readClearInterruptBits
  simp only [readRegister_graft, clearIf_graft, clearAbort_graft, graft_receive_outstanding]

theorem handleInterruptWakeup_graft (K : Consts) (P : Nub) (st : Nat) (s : Dev)
    (a b c d : Nat) :
    handleInterruptWakeup K P st (graft s a b c d) =
      graft (handleInterruptWakeup K P st s) a b c d := by
  unfold handleInterruptWakeup
  simp only [graft_message_error, graft_receive_outstanding, readRegister_graft,
    writeRegister_graft]
  split
  · rfl
  · split <;> rfl

theorem txWhile_graft (K : Consts) (bl : Nat) :
    ∀ (nr : Bool) (tl rl : Int) (buffer : Nat) (s : Dev) (a b c d : Nat),
      txWhile K bl nr tl rl buffer (graft s a b c d) =
        (graft (txWhile K bl nr tl rl buffer s).1 a b c d, (txWhile K bl nr tl rl buffer s).2) := by
  induction bl with
  | zero => intro nr tl rl buffer s a b c d; rfl
  | succ bl ih =>
    intro nr tl rl buffer s a b c d
    rw [txWhile_succ, txWhile_succ K bl nr tl rl buffer s]
    simp only [graft_messages, graft_message_write_index, graft_receive_outstanding]
    by_cases h1 : tl > 0 ∧ rl > 0
    · rw [if_pos h1, if_pos h1]
      by_cases h2 : (s.messages s.message_write_index).flags &&& K.I2C_M_RD ≠ 0
      · rw [if_pos h2, if_pos h2]
        by_cases h3 : rl - s.receive_outstanding ≤ 0
        · rw [if_pos h3, if_pos h3]; rfl
        · rw [if_neg h3, if_neg h3]
          exact ih false (tl - 1) (rl - 1) buffer (tokenState bl nr s) a b c d
      · rw [if_neg h2, if_neg h2]
        exact ih false (tl - 1) rl (buffer + 1) (byteState bl nr buffer s) a b c d
    · rw [if_neg h1, if_neg h1]

theorem rxFor_graft (l : Nat) :
    ∀ (rv : Int) (buffer : Nat) (s : Dev) (a b c d : Nat),
      rxFor l rv buffer (graft s a b c d) =
        (graft (rxFor l rv buffer s).1 a b c d, (rxFor l rv buffer s).2) := by
  induction l with
  | zero => intro rv buffer s a b c d; rfl
  | succ l ih =>
    intro rv buffer s a b c d
    rw [rxFor_succ, rxFor_succ l rv buffer s]
    by_cases h : rv > 0
    · rw [if_pos h, if_pos h]
      exact ih (rv - 1) (buffer + 1) (rxByteState buffer s) a b c d
    · rw [if_neg h, if_neg h]

/-- The inner part of one pass of the transmit fill does not depend on the saved
cursors, nor on the locals when `STATUS_WRITE_IN_PROGRESS` is clear. -/
theorem txMessage_graft (K : Consts) (nr : Bool) (buf bl buf2 bl2 : Nat) (s : Dev)
    (a b c d : Nat)
    (h : s.status &&& K.STATUS_WRITE_IN_PROGRESS ≠ 0 → buf2 = buf ∧ bl2 = bl) :
    txMessage K nr buf2 bl2 (graft s a b c d) =
      (graft (txMessage K nr buf bl s).1 a b c d, (txMessage K nr buf bl s).2) := by
  unfold txMessage
  simp only [graft_status]
  by_cases hs : s.status &&& K.STATUS_WRITE_IN_PROGRESS = 0
  · simp only [hs, if_true, messageAt_graft, graft_message_write_index, graft_bus_config,
      readRegister_graft, graft_transaction_fifo_depth, graft_receive_fifo_depth,
      txWhile_graft]
  · obtain ⟨rfl, rfl⟩ := h hs
    simp only [hs, if_false, readRegister_graft, graft_transaction_fifo_depth,
      graft_receive_fifo_depth, txWhile_graft]

theorem and_flag_of_or (st w r : Nat) (hwr : w &&& r = 0) (h : (st ||| w) &&& r ≠ 0) :
    st &&& r ≠ 0 := by
  intro h0
  apply h
  apply Nat.eq_of_testBit_eq
  intro i
  have e1 := congrArg (fun n => n.testBit i) hwr
  have e2 := congrArg (fun n => n.testBit i) h0
  simp only [Nat.testBit_and, Nat.testBit_or, Nat.zero_testBit] at e1 e2 ⊢
  cases hs : st.testBit i <;> cases hw : w.testBit i <;> cases hr : r.testBit i <;> simp_all

theorem and_flag_of_and (st x r : Nat) (h : (st &&& x) &&& r ≠ 0) : st &&& r ≠ 0 := by
  intro h0
  apply h
  apply Nat.eq_of_testBit_eq
  intro i
  have e2 := congrArg (fun n => n.testBit i) h0
  simp only [Nat.testBit_and, Nat.zero_testBit] at e2 ⊢
  cases hs : st.testBit i <;> cases hx : x.testBit i <;> cases hr : r.testBit i <;> simp_all

/-- The outer loop of the transmit fill on a state with stale saved cursors: the result
is that on the state without them, up to saved cursors that are stale again. -/
theorem txFor_graft (K : Consts) (address : Nat)
    (hwr : K.STATUS_WRITE_IN_PROGRESS &&& K.STATUS_READ_IN_PROGRESS = 0) (fuel : Nat) :
    ∀ (nr : Bool) (buf bl buf2 bl2 : Nat) (s : Dev) (a b c d : Nat),
      (s.status &&& K.STATUS_WRITE_IN_PROGRESS ≠ 0 →
        buf2 = buf ∧ bl2 = bl ∧ a = s.transaction_buffer ∧ b = s.transaction_buffer_length) →
      ∃ a2 b2, txFor K address fuel nr buf2 bl2 (graft s a b c d) =
          graft (txFor K address fuel nr buf bl s) a2 b2 c d ∧
        ((txFor K address fuel nr buf bl s).status &&& K.STATUS_WRITE_IN_PROGRESS ≠ 0 →
          a2 = (txFor K address fuel nr buf bl s).transaction_buffer ∧
          b2 = (txFor K address fuel nr buf bl s).transaction_buffer_length) ∧
        ((txFor K address fuel nr buf bl s).status &&& K.STATUS_READ_IN_PROGRESS ≠ 0 →
          s.status &&& K.STATUS_READ_IN_PROGRESS ≠ 0) ∧
        (txFor K address fuel nr buf bl s).receive_buffer = s.receive_buffer ∧
        (txFor K address fuel nr buf bl s).receive_buffer_length = s.receive_buffer_length := by
  induction fuel with
  | zero =>
    intro nr buf bl buf2 bl2 s a b c d h
    exact ⟨a, b, rfl, fun hs => ⟨(h hs).2.2.1, (h hs).2.2.2⟩, fun hs => hs, rfl, rfl⟩
  | succ fuel ih =>
    intro nr buf bl buf2 bl2 s a b c d h
    rw [txFor_succ, txFor_succ K address fuel nr buf bl s]
    simp only [graft_messages, graft_message_write_index, graft_message_number]
    by_cases h1 : s.message_write_index < s.message_number
    · rw [if_pos h1, if_pos h1]
      by_cases h2 : (s.messages s.message_write_index).address ≠ address
      · rw [if_pos h2, if_pos h2]
        exact ⟨a, b, rfl, fun hs => ⟨(h hs).2.2.1, (h hs).2.2.2⟩, fun hs => hs, rfl, rfl⟩
      · rw [if_neg h2, if_neg h2]
        by_cases h3 : (s.messages s.message_write_index).length = 0
        · rw [if_pos h3, if_pos h3]
          exact ⟨a, b, rfl, fun hs => ⟨(h hs).2.2.1, (h hs).2.2.2⟩, fun hs => hs, rfl, rfl⟩
        · rw [if_neg h3, if_neg h3]
          have hg : noteMsg (noteMsg (graft s a b c d)) = graft (noteMsg (noteMsg s)) a b c d :=
            rfl
          have hm := txMessage_graft K nr buf bl buf2 bl2 (noteMsg (noteMsg s)) a b c d
            (fun hs => ⟨(h hs).1, (h hs).2.1⟩)
          have hst := (txMessage_post K nr buf bl (noteMsg (noteMsg s))).parts.2.2.2.2.2.2.1
          have hfr := (txMessage_post K nr buf bl (noteMsg (noteMsg s))).1
          rw [hg, hm]
          generalize txMessage K nr buf bl (noteMsg (noteMsg s)) = r at hst hfr ⊢
          have hrb : r.1.receive_buffer = s.receive_buffer ∧
              r.1.receive_buffer_length = s.receive_buffer_length := by
            rw [hfr]; exact ⟨rfl, rfl⟩
          dsimp only
          by_cases h4 : r.2.2.2 > 0
          · rw [if_pos h4, if_pos h4]
            refine ⟨r.2.2.1, r.2.2.2, rfl, fun _ => ⟨rfl, rfl⟩, ?_, hrb.1, hrb.2⟩
            intro hs
            rw [txPartial_status, hst] at hs
            exact and_flag_of_or _ _ _ hwr hs
          · rw [if_neg h4, if_neg h4]
            have hn : txNext K (graft r.1 a b c d, r.2) =
                graft (txNext K r) r.2.2.1 r.2.2.2 c d := rfl
            rw [hn]
            obtain ⟨a2, b2, e1, e2, e3, e4, e5⟩ := ih r.2.1 r.2.2.1 r.2.2.2 r.2.2.1 r.2.2.2
              (txNext K r) r.2.2.1 r.2.2.2 c d (fun _ => ⟨rfl, rfl, rfl, rfl⟩)
            refine ⟨a2, b2, e1, e2, ?_, e4.trans hrb.1, e5.trans hrb.2⟩
            intro hs
            have := e3 hs
            rw [txNext_status, hst] at this
            exact and_flag_of_and _ _ _ this
    · rw [if_neg h1, if_neg h1]
      exact ⟨a, b, rfl, fun hs => ⟨(h hs).2.2.1, (h hs).2.2.2⟩, fun hs => hs, rfl, rfl⟩

/-- A fill step on a state with stale saved cursors. -/
theorem transferMessageToBus_stale (K : Consts)
    (hwr : K.STATUS_WRITE_IN_PROGRESS &&& K.STATUS_READ_IN_PROGRESS = 0) (s s2 : Dev)
    (h : StaleRel K s s2) :
    StaleRel K (transferMessageToBus K s) (transferMessageToBus K s2) := by
  obtain ⟨a, b, c, d, rfl, hw, hr⟩ := h
  rw [transferMessageToBus_eq K (graft s a b c d), transferMessageToBus_eq K s]
  have hg : noteMsg (graft s a b c d) = graft (noteMsg s) a b c d := rfl
  simp only [graft_messages, graft_message_write_index, graft_message_number,
    graft_transaction_buffer, graft_transaction_buffer_length]
  rw [hg]
  obtain ⟨a2, b2, e1, e2, e3, e4, e5⟩ := txFor_graft K (s.messages s.message_write_index).address
    hwr (s.message_number - s.message_write_index).toNat false s.transaction_buffer
    s.transaction_buffer_length a b (noteMsg s) a b c d
    (fun hs => ⟨(hw hs).1, (hw hs).2, (hw hs).1, (hw hs).2⟩)
  rw [e1]
  generalize txFor K (s.messages s.message_write_index).address
    (s.message_number - s.message_write_index).toNat false s.transaction_buffer
    s.transaction_buffer_length (noteMsg s) = x at e2 e3 e4 e5 ⊢
  refine ⟨a2, b2, c, d, rfl, e2, ?_⟩
  intro hs
  have := hr (e3 hs)
  exact ⟨this.1.trans e4.symm, this.2.trans e5.symm⟩

theorem rxLoop_skip (K : Consts) (fuel : Nat) (s : Dev)
    (hi : s.message_read_index < s.message_number)
    (hrd : (s.messages s.message_read_index).flags &&& K.I2C_M_RD = 0) :
    rxLoop K (fuel + 1) s = rxLoop K fuel (rxSkip s) := by
  conv_lhs => unfold rxLoop
  rw [if_pos hi]
  simp only [messageAt]
  rw [if_pos hrd]
  rfl

theorem rxLoop_done (K : Consts) (fuel : Nat) (s : Dev)
    (hi : ¬ s.message_read_index < s.message_number) :
    rxLoop K fuel s = s := by
  cases fuel with
  | zero => rfl
  | succ f =>
    unfold rxLoop
    rw [if_neg hi]

/-- The receive drain on a state with stale saved cursors. -/
theorem rxLoop_graft (K : Consts)
    (hwr : K.STATUS_WRITE_IN_PROGRESS &&& K.STATUS_READ_IN_PROGRESS = 0) (fuel : Nat) :
    ∀ (s : Dev) (a b c d : Nat),
      (s.status &&& K.STATUS_READ_IN_PROGRESS ≠ 0 →
        c = s.receive_buffer ∧ d = s.receive_buffer_length) →
      ∃ c2 d2, rxLoop K fuel (graft s a b c d) = graft (rxLoop K fuel s) a b c2 d2 ∧
        ((rxLoop K fuel s).status &&& K.STATUS_READ_IN_PROGRESS ≠ 0 →
          c2 = (rxLoop K fuel s).receive_buffer ∧
          d2 = (rxLoop K fuel s).receive_buffer_length) ∧
        ((rxLoop K fuel s).status &&& K.STATUS_WRITE_IN_PROGRESS ≠ 0 →
          s.status &&& K.STATUS_WRITE_IN_PROGRESS ≠ 0) ∧
        (rxLoop K fuel s).transaction_buffer = s.transaction_buffer ∧
        (rxLoop K fuel s).transaction_buffer_length = s.transaction_buffer_length := by
  have hrw : K.STATUS_READ_IN_PROGRESS &&& K.STATUS_WRITE_IN_PROGRESS = 0 := by
    rw [Nat.land_comm]; exact hwr
  induction fuel with
  | zero =>
    intro s a b c d h
    exact ⟨c, d, rfl, h, fun hs => hs, rfl, rfl⟩
  | succ fuel ih =>
    intro s a b c d h
    by_cases h1 : s.message_read_index < s.message_number
    · by_cases h2 : (s.messages s.message_read_index).flags &&& K.I2C_M_RD = 0
      · rw [rxLoop_skip K fuel (graft s a b c d) h1 h2, rxLoop_skip K fuel s h1 h2]
        have hg : rxSkip (graft s a b c d) = graft (rxSkip s) a b c d := rfl
        rw [hg]
        exact ih (rxSkip s) a b c d h
      · rw [rxLoop_read K fuel (graft s a b c d) h1 h2, rxLoop_read K fuel s h1 h2]
        have hl : rxLength K (graft s a b c d) = rxLength K s := by
          unfold rxLength
          simp only [graft_status, graft_messages, graft_message_read_index,
            graft_receive_buffer_length]
          by_cases hs : s.status &&& K.STATUS_READ_IN_PROGRESS = 0
          · rw [if_pos hs, if_pos hs]
          · rw [if_neg hs, if_neg hs]; exact (h hs).2
        have hb : rxBuffer K (graft s a b c d) = rxBuffer K s := by
          unfold rxBuffer
          simp only [graft_status, graft_messages, graft_message_read_index,
            graft_receive_buffer]
          by_cases hs : s.status &&& K.STATUS_READ_IN_PROGRESS = 0
          · rw [if_pos hs, if_pos hs]
          · rw [if_neg hs, if_neg hs]; exact (h hs).1
        have he : rxEntry K (graft s a b c d) = graft (rxEntry K s) a b c d := rfl
        rw [hl, hb, he]
        simp only [graft_hw, graft_nreads, rxFor_graft]
        have hp := rxFor_post (rxLength K s)
          (toInt32 (s.hw s.nreads Reg.DW_IC_RXFLR % U32 : Nat)) (rxBuffer K s) (rxEntry K s)
        generalize rxFor (rxLength K s) (toInt32 (s.hw s.nreads Reg.DW_IC_RXFLR % U32 : Nat))
          (rxBuffer K s) (rxEntry K s) = r at hp ⊢
        obtain ⟨-, -, hfr, -, -⟩ := hp
        have hst : r.1.status = s.status := by rw [hfr]; rfl
        have htb : r.1.transaction_buffer = s.transaction_buffer ∧
            r.1.transaction_buffer_length = s.transaction_buffer_length := by
          rw [hfr]; exact ⟨rfl, rfl⟩
        by_cases h4 : r.2.2 > 0
        · rw [if_pos h4, if_pos h4]
          refine ⟨r.2.1, r.2.2, rfl, fun _ => ⟨rfl, rfl⟩, ?_, htb.1, htb.2⟩
          intro hs
          rw [rxPartial_status, hst] at hs
          exact and_flag_of_or _ _ _ hrw hs
        · rw [if_neg h4, if_neg h4]
          have hn : rxNext K (graft r.1 a b c d, r.2) = graft (rxNext K r) a b c d := rfl
          rw [hn]
          obtain ⟨c2, d2, e1, e2, e3, e4, e5⟩ := ih (rxNext K r) a b c d (by
            intro hs
            rw [rxNext_status] at hs
            exact absurd (and_not32_flag _ _) hs)
          refine ⟨c2, d2, e1, e2, ?_, e4.trans htb.1, e5.trans htb.2⟩
          intro hs
          have := e3 hs
          rw [rxNext_status, hst] at this
          exact and_flag_of_and _ _ _ this
    · rw [rxLoop_done K _ (graft s a b c d) h1, rxLoop_done K _ s h1]
      exact ⟨c, d, rfl, h, fun hs => hs, rfl, rfl⟩

/-- A drain step on a state with stale saved cursors. -/
theorem readFromBus_stale (K : Consts)
    (hwr : K.STATUS_WRITE_IN_PROGRESS &&& K.STATUS_READ_IN_PROGRESS = 0) (s s2 : Dev)
    (h : StaleRel K s s2) :
    StaleRel K (readFromBus K s) (readFromBus K s2) := by
  obtain ⟨a, b, c, d, rfl, hw, hr⟩ := h
  unfold readFromBus
  simp only [graft_message_number, graft_message_read_index]
  obtain ⟨c2, d2, e1, e2, e3, e4, e5⟩ := rxLoop_graft K hwr
    (s.message_number - s.message_read_index).toNat s a b c d hr
  rw [e1]
  refine ⟨a, b, c2, d2, rfl, ?_, e2⟩
  intro hs
  have := hw (e3 hs)
  exact ⟨this.1.trans e4.symm, this.2.trans e5.symm⟩

theorem handleInterrupt_eq (K : Consts) (P : Nub) (s : Dev) :
    handleInterrupt K P s =
      irqExit (if s.awake = false then irqEnter s
        else if irqSkip K s then irqRead s
        else handleInterruptServe K P (irqRead s)) := by
  unfold handleInterrupt irqSkip
  simp only [readRegister]
  by_cases h : s.awake = false
  · rw [if_pos h, if_pos h]; rfl
  · rw [if_neg h, if_neg h]
    split <;> rfl

/-- A step that neither reads nor writes the status and the saved cursors keeps states
related. -/
theorem staleRel_inert (K : Consts) (f : Dev → Dev)
    (hc : ∀ s a b c d, f (graft s a b c d) = graft (f s) a b c d)
    (hf : ∀ s, (f s).status = s.status ∧ (f s).transaction_buffer = s.transaction_buffer ∧
      (f s).transaction_buffer_length = s.transaction_buffer_length ∧
      (f s).receive_buffer = s.receive_buffer ∧
      (f s).receive_buffer_length = s.receive_buffer_length)
    (s s2 : Dev) (h : StaleRel K s s2) : StaleRel K (f s) (f s2) := by
  obtain ⟨a, b, c, d, rfl, hw, hr⟩ := h
  obtain ⟨f1, f2, f3, f4, f5⟩ := hf s
  refine ⟨a, b, c, d, hc s a b c d, ?_, ?_⟩
  · rw [f1, f2, f3]; exact hw
  · rw [f1, f4, f5]; exact hr

theorem handleInterruptWakeup_frame (K : Consts) (P : Nub) (st : Nat) (s : Dev) :
    (handleInterruptWakeup K P st s).status = s.status ∧
    (handleInterruptWakeup K P st s).transaction_buffer = s.transaction_buffer ∧
    (handleInterruptWakeup K P st s).transaction_buffer_length = s.transaction_buffer_length ∧
    (handleInterruptWakeup K P st s).receive_buffer = s.receive_buffer ∧
    (handleInterruptWakeup K P st s).receive_buffer_length = s.receive_buffer_length := by
  unfold handleInterruptWakeup
  split
  · exact ⟨rfl, rfl, rfl, rfl, rfl⟩
  · split <;> exact ⟨rfl, rfl, rfl, rfl, rfl⟩

theorem clearFrame_fields {s s2 : Dev} (h : ClearFrame s s2) :
    s2.status = s.status ∧ s2.transaction_buffer = s.transaction_buffer ∧
    s2.transaction_buffer_length = s.transaction_buffer_length ∧
    s2.receive_buffer = s.receive_buffer ∧
    s2.receive_buffer_length = s.receive_buffer_length := by
  obtain ⟨T, -, e⟩ := h
  refine ⟨?_, ?_, ?_, ?_, ?_⟩ <;> rw [e]

/-- The part of `handleInterrupt` after the skip checks keeps states related. -/
theorem handleInterruptServe_stale (K : Consts) (P : Nub)
    (hiw : K.STATUS_IDLE &&& K.STATUS_WRITE_IN_PROGRESS = 0)
    (hir : K.STATUS_IDLE &&& K.STATUS_READ_IN_PROGRESS = 0)
    (hwr : K.STATUS_WRITE_IN_PROGRESS &&& K.STATUS_READ_IN_PROGRESS = 0) (s s2 : Dev)
    (h : StaleRel K s s2) :
    StaleRel K (handleInterruptServe K P s) (handleInterruptServe K P s2) := by
  have h1 : StaleRel K (readClearInterruptBits K s).2 (readClearInterruptBits K s2).2 := by
    obtain ⟨a, b, c, d, rfl, hw, hr⟩ := h
    obtain ⟨f1, f2, f3, f4, f5⟩ := clearFrame_fields (clearFrame_readClearInterruptBits K s)
    rw [readClearInterruptBits_graft]
    refine ⟨a, b, c, d, rfl, ?_, ?_⟩
    · rw [f1, f2, f3]; exact hw
    · rw [f1, f4, f5]; exact hr
  have h0 : (readClearInterruptBits K s2).1 = (readClearInterruptBits K s).1 := by
    obtain ⟨a, b, c, d, rfl, -, -⟩ := h
    rw [readClearInterruptBits_graft]
  unfold handleInterruptServe
  generalize readClearInterruptBits K s = r at h0 h1
  generalize readClearInterruptBits K s2 = r2 at h0 h1
  obtain ⟨st, x⟩ := r
  obtain ⟨st2, x2⟩ := r2
  simp only at h0 h1
  subst h0
  dsimp only
  by_cases hab : st2 &&& K.DW_IC_INTR_TX_ABRT ≠ 0
  · rw [if_pos hab, if_pos hab]
    obtain ⟨a, b, c, d, rfl, -, -⟩ := h1
    refine ⟨a, b, c, d, ?_, ?_, ?_⟩
    · exact handleInterruptWakeup_graft K P st2
        (writeRegister 0 Reg.DW_IC_INTR_MASK
          { x with
            command_error := x.command_error ||| K.DW_IC_ERR_TX_ABRT,
            status := K.STATUS_IDLE,
            receive_outstanding := 0 }) a b c d
    · intro hs
      rw [(handleInterruptWakeup_frame K P st2 _).1] at hs
      exact absurd hiw hs
    · intro hs
      rw [(handleInterruptWakeup_frame K P st2 _).1] at hs
      exact absurd hir hs
  · rw [if_neg hab, if_neg hab]
    apply staleRel_inert K (handleInterruptWakeup K P st2)
      (handleInterruptWakeup_graft K P st2) (handleInterruptWakeup_frame K P st2)
    have h2 : StaleRel K (if st2 &&& K.DW_IC_INTR_RX_FULL ≠ 0 then readFromBus K x else x)
        (if st2 &&& K.DW_IC_INTR_RX_FULL ≠ 0 then readFromBus K x2 else x2) := by
      split
      · exact readFromBus_stale K hwr x x2 h1
      · exact h1
    split
    · exact transferMessageToBus_stale K hwr _ _ h2
    · exact h2

/-- One interrupt keeps states related. -/
theorem handleInterrupt_stale (K : Consts) (P : Nub)
    (hiw : K.STATUS_IDLE &&& K.STATUS_WRITE_IN_PROGRESS = 0)
    (hir : K.STATUS_IDLE &&& K.STATUS_READ_IN_PROGRESS = 0)
    (hwr : K.STATUS_WRITE_IN_PROGRESS &&& K.STATUS_READ_IN_PROGRESS = 0) (s s2 : Dev)
    (h : StaleRel K s s2) :
    StaleRel K (handleInterrupt K P s) (handleInterrupt K P s2) := by
  rw [handleInterrupt_eq, handleInterrupt_eq K P s2]
  apply staleRel_inert K irqExit (fun _ _ _ _ _ => rfl) (fun _ => ⟨rfl, rfl, rfl, rfl, rfl⟩)
  have e1 : s2.awake = s.awake := by obtain ⟨a, b, c, d, rfl, -, -⟩ := h; rfl
  have e2 : irqSkip K s2 ↔ irqSkip K s := by obtain ⟨a, b, c, d, rfl, -, -⟩ := h; rfl
  rw [e1]
  by_cases ha : s.awake = false
  · rw [if_pos ha, if_pos ha]
    exact staleRel_inert K irqEnter (fun _ _ _ _ _ => rfl) (fun _ => ⟨rfl, rfl, rfl, rfl, rfl⟩)
      s s2 h
  · rw [if_neg ha, if_neg ha]
    have h3 := staleRel_inert K irqRead (fun _ _ _ _ _ => rfl)
      (fun _ => ⟨rfl, rfl, rfl, rfl, rfl⟩) s s2 h
    by_cases hk : irqSkip K s
    · rw [if_pos hk, if_pos (e2.mpr hk)]
      exact h3
    · rw [if_neg hk, if_neg (fun hh => hk (e2.mp hh))]
      exact handleInterruptServe_stale K P hiw hir hwr _ _ h3

theorem interrupts_stale (K : Consts) (P : Nub)
    (hiw : K.STATUS_IDLE &&& K.STATUS_WRITE_IN_PROGRESS = 0)
    (hir : K.STATUS_IDLE &&& K.STATUS_READ_IN_PROGRESS = 0)
    (hwr : K.STATUS_WRITE_IN_PROGRESS &&& K.STATUS_READ_IN_PROGRESS = 0) (k : Nat) :
    ∀ s s2 : Dev, StaleRel K s s2 → StaleRel K (interrupts K P k s) (interrupts K P k s2) := by
  induction k with
  | zero => intro s s2 h; exact h
  | succ k ih =>
    intro s s2 h
    exact ih _ _ (handleInterrupt_stale K P hiw hir hwr s s2 h)

theorem fillSteps_stale (K : Consts)
    (hwr : K.STATUS_WRITE_IN_PROGRESS &&& K.STATUS_READ_IN_PROGRESS = 0) (k : Nat) :
    ∀ s s2 : Dev, StaleRel K s s2 → StaleRel K (fillSteps K k s) (fillSteps K k s2) := by
  induction k with
  | zero => intro s s2 h; exact h
  | succ k ih =>
    intro s s2 h
    exact ih _ _ (transferMessageToBus_stale K hwr s s2 h)

theorem staleRel_trace {K : Consts} {s s2 : Dev} (h : StaleRel K s s2) :
    s2.trace = s.trace ∧ s2.message_error = s.message_error ∧
    s2.command_error = s.command_error ∧ s2.receive_outstanding = s.receive_outstanding ∧
    s2.mem = s.mem ∧ s2.status = s.status ∧
    s2.message_write_index = s.message_write_index ∧
    s2.message_read_index = s.message_read_index := by
  obtain ⟨a, b, c, d, rfl, -, -⟩ := h
  exact ⟨rfl, rfl, rfl, rfl, rfl, rfl, rfl, rfl⟩

theorem waitBusNotBusyLoop_zeroed (K : Consts) (t : Nat) :
    ∀ s : Dev, waitBusNotBusyLoop K t (zeroed s) =
      ((waitBusNotBusyLoop K t s).1, zeroed (waitBusNotBusyLoop K t s).2) := by
  induction t with
  | zero =>
    intro s
    unfold waitBusNotBusyLoop
    have e : readRegister Reg.DW_IC_STATUS (zeroed s) =
        ((readRegister Reg.DW_IC_STATUS s).1, zeroed (readRegister Reg.DW_IC_STATUS s).2) := rfl
    rw [e]
    dsimp only
    split <;> rfl
  | succ t ih =>
    intro s
    unfold waitBusNotBusyLoop
    have e : readRegister Reg.DW_IC_STATUS (zeroed s) =
        ((readRegister Reg.DW_IC_STATUS s).1, zeroed (readRegister Reg.DW_IC_STATUS s).2) := rfl
    rw [e]
    dsimp only
    split
    · have e2 : delay (zeroed (readRegister Reg.DW_IC_STATUS s).2) =
          zeroed (delay (readRegister Reg.DW_IC_STATUS s).2) := rfl
      rw [e2, ih]
    · rfl

theorem finishTransfer_graft (K : Consts) (P : Nub) (w : WaitResult) (s : Dev)
    (a b c d : Nat) :
    finishTransfer K P w (graft s a b c d) =
      ((finishTransfer K P w s).1, graft (finishTransfer K P w s).2 a b c d) := by
  unfold finishTransfer
  by_cases hw : w = WaitResult.THREAD_TIMED_OUT
  · rw [if_pos hw, if_pos hw, initialiseBus_graft]
  · rw [if_neg hw, if_neg hw, toggleBusState_graft]
    dsimp only
    simp only [graft_message_error, graft_command_error]
    split
    · rfl
    · split
      · rfl
      · split <;> rfl

/-- Arming from a stale descriptor and from the zeroed one. -/
theorem armTransfer_stale (K : Consts) (P : Nub)
    (hiw : K.STATUS_IDLE &&& K.STATUS_WRITE_IN_PROGRESS = 0)
    (hir : K.STATUS_IDLE &&& K.STATUS_READ_IN_PROGRESS = 0)
    (messages : Int → VoodooI2CControllerBusMessage) (number : Int) (s : Dev) :
    StaleRel K (armTransfer K P messages number (zeroed s))
      (armTransfer K P messages number s) := by
  have hst := (armTransfer_fields K P messages number (zeroed s)).2.2.2.2.2.2.1
  refine ⟨s.transaction_buffer, s.transaction_buffer_length, s.receive_buffer,
    s.receive_buffer_length, ?_, ?_, ?_⟩
  · unfold armTransfer
    rw [← requestTransferI2C_graft]
    rfl
  · intro hs
    rw [hst] at hs
    exact absurd hiw hs
  · intro hs
    rw [hst] at hs
    exact absurd hir hs

/-- The result and the final state of a submission from a stale descriptor and from the
zeroed one, the wait serving `k` interrupts and returning `w`. -/
theorem prepareTransferI2C_stale (K : Consts) (P : Nub)
    (hiw : K.STATUS_IDLE &&& K.STATUS_WRITE_IN_PROGRESS = 0)
    (hir : K.STATUS_IDLE &&& K.STATUS_READ_IN_PROGRESS = 0)
    (hwr : K.STATUS_WRITE_IN_PROGRESS &&& K.STATUS_READ_IN_PROGRESS = 0)
    (messages : Int → VoodooI2CControllerBusMessage) (number : Int) (k : Nat) (w : WaitResult)
    (s : Dev) :
    (prepareTransferI2C K P (interruptSleep K P k w) messages number s).1 =
      (prepareTransferI2C K P (interruptSleep K P k w) messages number (zeroed s)).1 ∧
    (prepareTransferI2C K P (interruptSleep K P k w) messages number s).2.trace =
      (prepareTransferI2C K P (interruptSleep K P k w) messages number (zeroed s)).2.trace := by
  unfold prepareTransferI2C
  have ea : (zeroed s).awake = s.awake := rfl
  rw [ea]
  by_cases ha : s.awake = false
  · rw [if_pos ha, if_pos ha]
    exact ⟨rfl, rfl⟩
  · rw [if_neg ha, if_neg ha]
    have ew : waitBusNotBusyI2C K (zeroed s) =
        ((waitBusNotBusyI2C K s).1, zeroed (waitBusNotBusyI2C K s).2) :=
      waitBusNotBusyLoop_zeroed K _ s
    rw [ew]
    generalize waitBusNotBusyI2C K s = r
    obtain ⟨r1, s1⟩ := r
    dsimp only
    by_cases hr : r1 ≠ IOReturn.kIOReturnSuccess
    · rw [if_pos hr, if_pos hr]
      exact ⟨rfl, rfl⟩
    · rw [if_neg hr, if_neg hr]
      unfold interruptSleep
      dsimp only
      have h1 := interrupts_stale K P hiw hir hwr k _ _
        (armTransfer_stale K P hiw hir messages number s1)
      obtain ⟨a, b, c, d, e, -, -⟩ := h1
      rw [e, finishTransfer_graft]
      exact ⟨rfl, rfl⟩

/-- C16: the state of the descriptor left by an earlier transfer does not bear on the
next one (the flags `STATUS_IDLE`, `STATUS_WRITE_IN_PROGRESS` and
`STATUS_READ_IN_PROGRESS` being distinct).  Arming resets `command_error`,
`message_error`, `abort_source`, `receive_outstanding` and both cursors to 0 and the
status to idle.  Compared with the same submission on the zeroed descriptor, the armed
states differ at most in the saved buffer cursors and lengths, which are not in use,
and this stays so through any number of fill steps and of interrupts: the traces (so
the commands written and the register accesses), the memory and the error fields are
the same, and so are the result and the trace of `prepareTransferI2C` for a wait that
serves `k` interrupts and returns `w`. -/
theorem C16_stale_descriptor_unused (K : Consts) (P : Nub)
    (messages : Int → VoodooI2CControllerBusMessage) (number : Int) (k : Nat) (w : WaitResult)
    (s : Dev)
    (hiw : K.STATUS_IDLE &&& K.STATUS_WRITE_IN_PROGRESS = 0)
    (hir : K.STATUS_IDLE &&& K.STATUS_READ_IN_PROGRESS = 0)
    (hwr : K.STATUS_WRITE_IN_PROGRESS &&& K.STATUS_READ_IN_PROGRESS = 0) :
    ((armTransfer K P messages number s).command_error = 0 ∧
      (armTransfer K P messages number s).message_error = 0 ∧
      (armTransfer K P messages number s).abort_source = 0 ∧
      (armTransfer K P messages number s).receive_outstanding = 0 ∧
      (armTransfer K P messages number s).message_write_index = 0 ∧
      (armTransfer K P messages number s).message_read_index = 0 ∧
      (armTransfer K P messages number s).status = K.STATUS_IDLE) ∧
    StaleRel K (armTransfer K P messages number (zeroed s))
      (armTransfer K P messages number s) ∧
    (∀ j, (fillSteps K j (armTransfer K P messages number s)).trace =
        (fillSteps K j (armTransfer K P messages number (zeroed s))).trace ∧
      cmdsOf (fillSteps K j (armTransfer K P messages number s)).trace =
        cmdsOf (fillSteps K j (armTransfer K P messages number (zeroed s))).trace ∧
      (fillSteps K j (armTransfer K P messages number s)).message_error =
        (fillSteps K j (armTransfer K P messages number (zeroed s))).message_error) ∧
    (∀ j, (interrupts K P j (armTransfer K P messages number s)).trace =
        (interrupts K P j (armTransfer K P messages number (zeroed s))).trace ∧
      (interrupts K P j (armTransfer K P messages number s)).mem =
        (interrupts K P j (armTransfer K P messages number (zeroed s))).mem ∧
      (interrupts K P j (armTransfer K P messages number s)).message_error =
        (interrupts K P j (armTransfer K P messages number (zeroed s))).message_error ∧
      (interrupts K P j (armTransfer K P messages number s)).command_error =
        (interrupts K P j (armTransfer K P messages number (zeroed s))).command_error) ∧
    (prepareTransferI2C K P (interruptSleep K P k w) messages number s).1 =
      (prepareTransferI2C K P (interruptSleep K P k w) messages number (zeroed s)).1 ∧
    (prepareTransferI2C K P (interruptSleep K P k w) messages number s).2.trace =
      (prepareTransferI2C K P (interruptSleep K P k w) messages number (zeroed s)).2.trace := by
  obtain ⟨-, -, f3, f4, f5, f6, f7, f8, f9⟩ := armTransfer_fields K P messages number s
  have harm := armTransfer_stale K P hiw hir messages number s
  refine ⟨⟨f6, f5, f9, f8, f3, f4, f7⟩, harm, ?_, ?_,
    prepareTransferI2C_stale K P hiw hir hwr messages number k w s⟩
  · intro j
    obtain ⟨t1, t2, -⟩ := staleRel_trace (fillSteps_stale K hwr j _ _ harm)
    exact ⟨t1, by rw [t1], t2⟩
  · intro j
    obtain ⟨t1, t2, t3, -, t5, -⟩ := staleRel_trace (interrupts_stale K P hiw hir hwr j _ _ harm)
    exact ⟨t1, t5, t2, t3⟩

set_option maxHeartbeats 4000000 in
theorem C16_stale_descriptor_unused_witness :
    dwConsts.STATUS_IDLE &&& dwConsts.STATUS_WRITE_IN_PROGRESS = 0 ∧
    dwConsts.STATUS_IDLE &&& dwConsts.STATUS_READ_IN_PROGRESS = 0 ∧
    dwConsts.STATUS_WRITE_IN_PROGRESS &&& dwConsts.STATUS_READ_IN_PROGRESS = 0 ∧
    (prepareTransferI2C dwConsts (plainNub "INT33C3" false)
      (interruptSleep dwConsts (plainNub "INT33C3" false) 1 WaitResult.THREAD_AWAKENED)
      oneWrite3 1 (zeroed (staleDev xferHw))).1 = IOReturn.kIOReturnSuccess ∧
    (prepareTransferI2C dwConsts (plainNub "INT33C3" false)
      (interruptSleep dwConsts (plainNub "INT33C3" false) 1 WaitResult.THREAD_AWAKENED)
      oneWrite3 1 (staleDev xferHw)).1 = IOReturn.kIOReturnSuccess ∧
    cmdsOf (prepareTransferI2C dwConsts (plainNub "INT33C3" false)
      (interruptSleep dwConsts (plainNub "INT33C3" false) 1 WaitResult.THREAD_AWAKENED)
      oneWrite3 1 (zeroed (staleDev xferHw))).2.trace =
      [(0, 3, 0x41), (0, 2, 0x42), (0, 1, 0x243)] ∧
    wakeups (prepareTransferI2C dwConsts (plainNub "INT33C3" false)
      (interruptSleep dwConsts (plainNub "INT33C3" false) 1 WaitResult.THREAD_AWAKENED)
      oneWrite3 1 (zeroed (staleDev xferHw))).2.trace = 1 := by
  have h := (C16_stale_descriptor_unused dwConsts (plainNub "INT33C3" false) oneWrite3 1 1
    WaitResult.THREAD_AWAKENED (staleDev xferHw) (by decide) (by decide) (by decide)).2.2.2.2.1
  have h0 : (prepareTransferI2C dwConsts (plainNub "INT33C3" false)
      (interruptSleep dwConsts (plainNub "INT33C3" false) 1 WaitResult.THREAD_AWAKENED)
      oneWrite3 1 (zeroed (staleDev xferHw))).1 = IOReturn.kIOReturnSuccess := by decide
  exact ⟨by decide, by decide, by decide, h0, h.trans h0, by decide, by decide⟩

/-! ## The restart bit (C20) -/

/-- C20 (evaluation at the failing input): two writes, of 2 bytes and of 1 byte, on
a controller with a transmit FIFO of depth 2 and restart enabled.  The first fill step
writes the 2 bytes of message 0, finds the FIFO full when it starts message 1 and
stops with `STATUS_WRITE_IN_PROGRESS` set and no command of message 1 written.  The
second fill step writes the only command of message 1 as 0x243: stop bit and data, no
restart bit.  With a FIFO of depth 16 that command is 0x643. -/
theorem C20_restart_lost :
    (restartDev fullOnceHw 2).bus_config &&& dwConsts.DW_IC_CON_RESTART_EN ≠ 0 ∧
    cmdsOf (fillSteps dwConsts 1 (restartDev fullOnceHw 2)).trace =
      [(0, 2, 0x41), (0, 1, 0x42)] ∧
    (fillSteps dwConsts 1 (restartDev fullOnceHw 2)).message_write_index = 1 ∧
    (fillSteps dwConsts 1 (restartDev fullOnceHw 2)).status &&&
      dwConsts.STATUS_WRITE_IN_PROGRESS ≠ 0 ∧
    cmdsOf (fillSteps dwConsts 2 (restartDev fullOnceHw 2)).trace =
      [(0, 2, 0x41), (0, 1, 0x42), (1, 1, 0x243)] ∧
    0x243 &&& 0x400 = 0 ∧
    cmdsOf (fillSteps dwConsts 1 (restartDev (constHw 0) 16)).trace =
      [(0, 2, 0x41), (0, 1, 0x42), (1, 1, 0x643)] := by
  refine ⟨by decide, by decide, by decide, by decide, by decide, by decide, by decide⟩

/-! ## What the drain, the fill and the clearing change -/

theorem irqFrame_refl (s : Dev) : IrqFrame s s :=
  ⟨[], by simp, by simp⟩

theorem irqFrame_trans {s1 s2 s3 : Dev} (h1 : IrqFrame s1 s2) (h2 : IrqFrame s2 s3) :
    IrqFrame s1 s3 := by
  obtain ⟨T1, q1, e1⟩ := h1
  obtain ⟨T2, q2, e2⟩ := h2
  refine ⟨T1 ++ T2, ?_, ?_⟩
  · intro e he
    rcases List.mem_append.mp he with h | h
    · exact q1 e h
    · exact q2 e h
  · rw [e2, e1]
    simp

theorem irqFrame_readRegister (r : Reg) (s : Dev) : IrqFrame s (readRegister r s).2 :=
  ⟨[Event.read r (s.hw s.nreads r % U32)], by simp [plain], rfl⟩

theorem irqFrame_writeRegister (v : Nat) (r : Reg) (s : Dev) :
    IrqFrame s (writeRegister v r s) :=
  ⟨[Event.write v r], by simp [plain], rfl⟩

theorem irqFrame_clearIf (c : Prop) [Decidable c] (r : Reg) (s : Dev) :
    IrqFrame s (clearIf c r s) := by
  unfold clearIf
  split
  · exact irqFrame_readRegister r s
  · exact irqFrame_refl s

theorem irqFrame_clearAbort (c : Prop) [Decidable c] (s : Dev) :
    IrqFrame s (clearAbort c s) := by
  unfold clearAbort
  split
  · exact ⟨[Event.read Reg.DW_IC_TX_ABRT_SOURCE (s.hw s.nreads Reg.DW_IC_TX_ABRT_SOURCE % U32)] ++
      [Event.read Reg.DW_IC_CLR_TX_ABRT (s.hw (s.nreads + 1) Reg.DW_IC_CLR_TX_ABRT % U32)],
      by simp [plain], by simp [readRegister]⟩
  · exact irqFrame_refl s

theorem irqFrame_readClearInterruptBits (K : Consts) (s : Dev) :
    IrqFrame s (readClearInterruptBits K s).2 := by
  unfold readClearInterruptBits
  dsimp only
  refine irqFrame_trans ?_ (irqFrame_clearIf _ _ _)
  refine irqFrame_trans ?_ (irqFrame_clearIf _ _ _)
  refine irqFrame_trans ?_ (irqFrame_clearIf _ _ _)
  refine irqFrame_trans ?_ (irqFrame_clearIf _ _ _)
  refine irqFrame_trans ?_ (irqFrame_clearIf _ _ _)
  refine irqFrame_trans ?_ (irqFrame_clearAbort _ _)
  refine irqFrame_trans ?_ (irqFrame_clearIf _ _ _)
  refine irqFrame_trans ?_ (irqFrame_clearIf _ _ _)
  refine irqFrame_trans ?_ (irqFrame_clearIf _ _ _)
  refine irqFrame_trans ?_ (irqFrame_clearIf _ _ _)
  exact irqFrame_readRegister _ s

/-! ### The transmit fill -/

theorem irqFrame_noteMsg (s : Dev) : IrqFrame s (noteMsg s) :=
  ⟨[Event.msg s.message_write_index], by simp [plain], rfl⟩

theorem irqFrame_flagError (s : Dev) : IrqFrame s (flagError s) :=
  ⟨[], by simp, by simp [flagError]⟩

theorem irqFrame_tokenState (bl : Nat) (nr : Bool) (s : Dev) : IrqFrame s (tokenState bl nr s) :=
  ⟨_, by simp [plain], rfl⟩

theorem irqFrame_byteState (bl : Nat) (nr : Bool) (b : Nat) (s : Dev) :
    IrqFrame s (byteState bl nr b s) :=
  ⟨_, by simp [plain], rfl⟩

theorem irqFrame_txWhile (K : Consts) (bl : Nat) :
    ∀ (nr : Bool) (tl rl : Int) (buffer : Nat) (s : Dev),
      IrqFrame s (txWhile K bl nr tl rl buffer s).1 := by
  induction bl with
  | zero => intro nr tl rl buffer s; exact irqFrame_refl s
  | succ bl ih =>
    intro nr tl rl buffer s
    rw [txWhile_succ]
    split
    · split
      · split
        · exact ⟨[Event.msg s.message_write_index], by simp [plain], rfl⟩
        · exact irqFrame_trans (irqFrame_tokenState bl nr s) (ih _ _ _ _ _)
      · exact irqFrame_trans (irqFrame_byteState bl nr buffer s) (ih _ _ _ _ _)
    · exact irqFrame_refl s

theorem irqFrame_txMessage (K : Consts) (nr : Bool) (buffer bl : Nat) (s : Dev) :
    IrqFrame s (txMessage K nr buffer bl s).1 := by
  unfold txMessage
  by_cases hs : s.status &&& K.STATUS_WRITE_IN_PROGRESS = 0
  · simp only [hs, if_true, messageAt, readRegister]
    refine irqFrame_trans ?_ (irqFrame_txWhile K _ _ _ _ _ _)
    exact ⟨[Event.msg s.message_write_index] ++ [Event.msg s.message_write_index] ++
      [Event.read Reg.DW_IC_TXFLR (s.hw s.nreads Reg.DW_IC_TXFLR % U32)] ++
      [Event.read Reg.DW_IC_RXFLR (s.hw (s.nreads + 1) Reg.DW_IC_RXFLR % U32)],
      by simp [plain], by simp⟩
  · simp only [hs, if_false, readRegister]
    refine irqFrame_trans ?_ (irqFrame_txWhile K _ _ _ _ _ _)
    exact ⟨[Event.read Reg.DW_IC_TXFLR (s.hw s.nreads Reg.DW_IC_TXFLR % U32)] ++
      [Event.read Reg.DW_IC_RXFLR (s.hw (s.nreads + 1) Reg.DW_IC_RXFLR % U32)],
      by simp [plain], by simp⟩

theorem irqFrame_txPartial (K : Consts) (r : Dev × Bool × Nat × Nat) :
    IrqFrame r.1 (txPartial K r) :=
  ⟨[], by simp, by simp [txPartial]⟩

theorem irqFrame_txNext (K : Consts) (r : Dev × Bool × Nat × Nat) :
    IrqFrame r.1 (txNext K r) :=
  ⟨[], by simp, by simp [txNext]⟩

theorem irqFrame_txFor (K : Consts) (address : Nat) (fuel : Nat) :
    ∀ (nr : Bool) (buffer bl : Nat) (s : Dev),
      IrqFrame s (txFor K address fuel nr buffer bl s) := by
  induction fuel with
  | zero => intro nr buffer bl s; exact irqFrame_refl s
  | succ fuel ih =>
    intro nr buffer bl s
    rw [txFor_succ]
    have h2 : IrqFrame s (noteMsg (noteMsg s)) :=
      irqFrame_trans (irqFrame_noteMsg s) (irqFrame_noteMsg _)
    have h3 : IrqFrame s (txMessage K nr buffer bl (noteMsg (noteMsg s))).1 :=
      irqFrame_trans h2 (irqFrame_txMessage K nr buffer bl _)
    split
    · split
      · exact irqFrame_trans (irqFrame_noteMsg s) (irqFrame_flagError _)
      · split
        · exact irqFrame_trans h2 (irqFrame_flagError _)
        · split
          · exact irqFrame_trans h3 (irqFrame_txPartial K _)
          · exact irqFrame_trans (irqFrame_trans h3 (irqFrame_txNext K _)) (ih _ _ _ _)
    · exact irqFrame_refl s

theorem irqFrame_transferMessageToBus (K : Consts) (s : Dev) :
    IrqFrame s (transferMessageToBus K s) := by
  rw [transferMessageToBus_eq]
  exact irqFrame_trans (irqFrame_trans (irqFrame_noteMsg s) (irqFrame_txFor K _ _ _ _ _ _))
    (irqFrame_writeRegister _ _ _)

/-! ### The receive drain -/

theorem irqFrame_rxFor (l : Nat) :
    ∀ (rv : Int) (buffer : Nat) (s : Dev), IrqFrame s (rxFor l rv buffer s).1 := by
  induction l with
  | zero => intro rv buffer s; exact irqFrame_refl s
  | succ l ih =>
    intro rv buffer s
    rw [rxFor_succ]
    split
    · refine irqFrame_trans ?_ (ih _ _ _)
      exact ⟨[Event.read Reg.DW_IC_DATA_CMD (s.hw s.nreads Reg.DW_IC_DATA_CMD % U32)] ++
        [Event.store buffer (s.hw s.nreads Reg.DW_IC_DATA_CMD % U32 % 256)],
        by simp [plain], by simp [rxByteState]⟩
    · exact irqFrame_refl s

theorem irqFrame_rxLoop (K : Consts) (fuel : Nat) :
    ∀ s : Dev, IrqFrame s (rxLoop K fuel s) := by
  induction fuel with
  | zero => intro s; exact irqFrame_refl s
  | succ fuel ih =>
    intro s
    by_cases h1 : s.message_read_index < s.message_number
    · by_cases h2 : (s.messages s.message_read_index).flags &&& K.I2C_M_RD = 0
      · rw [rxLoop_skip K fuel s h1 h2]
        refine irqFrame_trans ?_ (ih _)
        exact ⟨[Event.msg s.message_read_index], by simp [plain], rfl⟩
      · rw [rxLoop_read K fuel s h1 h2]
        have he : IrqFrame s (rxEntry K s) := by
          refine ⟨(if s.status &&& K.STATUS_READ_IN_PROGRESS = 0 then
              [Event.msg s.message_read_index] ++ [Event.msg s.message_read_index] ++
                [Event.msg s.message_read_index]
            else [Event.msg s.message_read_index]) ++
            [Event.read Reg.DW_IC_RXFLR (s.hw s.nreads Reg.DW_IC_RXFLR % U32)], ?_, ?_⟩
          · intro e he
            split at he <;> simp at he <;> rcases he with h | h <;> subst h <;> rfl
          · unfold rxEntry
            split <;> simp
        have hr := irqFrame_trans he (irqFrame_rxFor (rxLength K s)
          (toInt32 (s.hw s.nreads Reg.DW_IC_RXFLR % U32 : Nat)) (rxBuffer K s) (rxEntry K s))
        split
        · refine irqFrame_trans hr ?_
          exact ⟨[], by simp, by simp [rxPartial]⟩
        · refine irqFrame_trans (irqFrame_trans hr ?_) (ih _)
          exact ⟨[], by simp, by simp [rxNext]⟩
    · rw [rxLoop_done K _ s h1]
      exact irqFrame_refl s

theorem irqFrame_readFromBus (K : Consts) (s : Dev) : IrqFrame s (readFromBus K s) :=
  irqFrame_rxLoop K _ s

/-! ## The interrupt handler: skip checks and wake check (C21, C24) -/

theorem handleInterruptServe_eq (K : Consts) (P : Nub) (s : Dev) :
    handleInterruptServe K P s =
      handleInterruptWakeup K P (handleInterruptBody K s).1 (handleInterruptBody K s).2 := by
  unfold handleInterruptServe handleInterruptBody
  dsimp only
  split <;> rfl

theorem handleInterruptWakeup_eq (K : Consts) (P : Nub) (st : Nat) (s : Dev) :
    handleInterruptWakeup K P st s =
      { s with
        nreads := (handleInterruptWakeup K P st s).nreads,
        trace := s.trace ++ wakeEvents K P st s } := by
  unfold handleInterruptWakeup wakeEvents wakeTest
  split
  · rfl
  · split
    · simp [readRegister, writeRegister]
    · simp

theorem plain_counts (T : List Event) (h : ∀ e, e ∈ T → plain e = true) :
    wakeups T = 0 ∧ disables T = 0 ∧ enables T = 0 := by
  induction T with
  | nil => exact ⟨rfl, rfl, rfl⟩
  | cons x t ih =>
    have hx := h x (List.mem_cons_self _ _)
    have ht := ih (fun e he => h e (List.mem_cons_of_mem _ he))
    cases x <;> first | exact ht | exact absurd hx (by decide)

theorem disables_append (a b : List Event) : disables (a ++ b) = disables a + disables b := by
  induction a with
  | nil => simp [disables]
  | cons e t ih => cases e <;> simp [disables, ih]; omega

theorem enables_append (a b : List Event) : enables (a ++ b) = enables a + enables b := by
  induction a with
  | nil => simp [enables]
  | cons e t ih => cases e <;> simp [enables, ih]; omega

theorem wakeEvents_counts (K : Consts) (P : Nub) (st : Nat) (s : Dev) :
    wakeups (wakeEvents K P st s) = (if wakeTest K st s then 1 else 0) ∧
    disables (wakeEvents K P st s) = 0 ∧ enables (wakeEvents K P st s) = 0 := by
  unfold wakeEvents
  by_cases h : wakeTest K st s
  · rw [if_pos h, if_pos h]; exact ⟨rfl, rfl, rfl⟩
  · rw [if_neg h, if_neg h]
    split <;> exact ⟨rfl, rfl, rfl⟩

/-- The part of `handleInterrupt` up to the label `wakeup`: the status is the one read
from `DW_IC_INTR_STAT`, the trace grows by plain events, `command_error` is as it was
or has the abort marker or-ed in, and what the handler never assigns is as it was. -/
theorem handleInterruptBody_spec (K : Consts) (s : Dev) :
    (handleInterruptBody K s).1 = s.hw s.nreads Reg.DW_IC_INTR_STAT % U32 ∧
    (∃ T, (∀ e, e ∈ T → plain e = true) ∧ (handleInterruptBody K s).2.trace = s.trace ++ T) ∧
    ((handleInterruptBody K s).2.command_error = s.command_error ∨
      (handleInterruptBody K s).2.command_error = s.command_error ||| K.DW_IC_ERR_TX_ABRT) ∧
    (handleInterruptBody K s).2.awake = s.awake ∧
    (handleInterruptBody K s).2.hw = s.hw ∧
    (handleInterruptBody K s).2.messages = s.messages ∧
    (handleInterruptBody K s).2.message_number = s.message_number := by
  unfold handleInterruptBody
  have h1 := readClearInterruptBits_fst K s
  have hc := irqFrame_readClearInterruptBits K s
  generalize readClearInterruptBits K s = r at h1 hc
  obtain ⟨st, x⟩ := r
  simp only at h1 hc
  subst h1
  dsimp only
  by_cases hab : (s.hw s.nreads Reg.DW_IC_INTR_STAT % U32) &&& K.DW_IC_INTR_TX_ABRT ≠ 0
  · rw [if_pos hab]
    obtain ⟨T, q, e⟩ := hc
    refine ⟨rfl, ⟨T ++ [Event.write 0 Reg.DW_IC_INTR_MASK], ?_, ?_⟩, Or.inr ?_, ?_, ?_, ?_, ?_⟩
    · intro ev hev
      rcases List.mem_append.mp hev with h | h
      · exact q ev h
      · simp at h; subst h; rfl
    · rw [e]; simp [writeRegister]
    · rw [e]; rfl
    · rw [e]; rfl
    · rw [e]; rfl
    · rw [e]; rfl
    · rw [e]; rfl
  · rw [if_neg hab]
    have h2 : IrqFrame x (if (s.hw s.nreads Reg.DW_IC_INTR_STAT % U32) &&&
        K.DW_IC_INTR_RX_FULL ≠ 0 then readFromBus K x else x) := by
      split
      · exact irqFrame_readFromBus K x
      · exact irqFrame_refl x
    have h3 : IrqFrame s (if (s.hw s.nreads Reg.DW_IC_INTR_STAT % U32) &&&
        K.DW_IC_INTR_TX_EMPTY ≠ 0 then
          transferMessageToBus K (if (s.hw s.nreads Reg.DW_IC_INTR_STAT % U32) &&&
            K.DW_IC_INTR_RX_FULL ≠ 0 then readFromBus K x else x)
        else (if (s.hw s.nreads Reg.DW_IC_INTR_STAT % U32) &&&
            K.DW_IC_INTR_RX_FULL ≠ 0 then readFromBus K x else x)) := by
      split
      · exact irqFrame_trans (irqFrame_trans hc h2) (irqFrame_transferMessageToBus K _)
      · exact irqFrame_trans hc h2
    obtain ⟨T, q, e⟩ := h3
    refine ⟨rfl, ⟨T, q, ?_⟩, Or.inl ?_, ?_, ?_, ?_, ?_⟩ <;> rw [e]

theorem and_or_ne_zero_iff (a b c : Nat) :
    a &&& (b ||| c) ≠ 0 ↔ (a &&& b ≠ 0 ∨ a &&& c ≠ 0) := by
  constructor
  · intro h
    by_contra hn
    push_neg at hn
    apply h
    apply Nat.eq_of_testBit_eq
    intro i
    have e1 := congrArg (fun n => n.testBit i) hn.1
    have e2 := congrArg (fun n => n.testBit i) hn.2
    simp only [Nat.testBit_and, Nat.testBit_or, Nat.zero_testBit] at e1 e2 ⊢
    cases ha : a.testBit i <;> cases hb : b.testBit i <;> cases hc : c.testBit i <;> simp_all
  · intro h
    rcases h with h | h
    · exact and_or_ne_zero a b c h
    · rw [Nat.lor_comm]; exact and_or_ne_zero a c b h

/-- What `handleInterrupt` does past the skip checks, in terms of the state at the label
`wakeup`. -/
theorem handleInterrupt_past_checks (K : Consts) (P : Nub) (s : Dev)
    (hawake : s.awake = true) (hns : ¬ irqSkip K s) :
    handleInterrupt K P s =
      { (handleInterruptBody K (irqRead s)).2 with
        nreads := (handleInterrupt K P s).nreads,
        trace := (handleInterruptBody K (irqRead s)).2.trace ++
          wakeEvents K P (handleInterruptBody K (irqRead s)).1
            (handleInterruptBody K (irqRead s)).2 ++ [Event.enableInterrupt] } := by
  rw [handleInterrupt_eq, if_neg (by rw [hawake]; simp), if_neg hns, handleInterruptServe_eq]
  generalize handleInterruptBody K (irqRead s) = b
  rw [handleInterruptWakeup_eq]
  rfl

/-- C21: past the skip checks, with `st` the status `readClearInterruptBits` returns
(the value of `DW_IC_INTR_STAT`) and `b` the state after the abort handling or the
drain and fill steps, `handleInterrupt` signals the completion condition exactly when
(`st` has the transmit-abort or the stop-detected bit, or `message_error` of `b` is
nonzero) and `receive_outstanding` of `b` is 0; it signals once then, and never while
`receive_outstanding` is nonzero.  When it does not signal, it reads the interrupt
mask, writes 0 and writes the value back if the platform flag
`access_intr_mask_workaround` is set, and does nothing otherwise.  Nothing but the
trace and the count of reads changes after `b`. -/
theorem C21_wake_only_when_drained (K : Consts) (P : Nub) (s : Dev) (st : Nat) (b : Dev)
    (hawake : s.awake = true) (hns : ¬ irqSkip K s)
    (hb : handleInterruptBody K (irqRead s) = (st, b)) :
    st = s.hw (s.nreads + 2) Reg.DW_IC_INTR_STAT % U32 ∧
    (wakeTest K st b ↔
      ((st &&& K.DW_IC_INTR_TX_ABRT ≠ 0 ∨ st &&& K.DW_IC_INTR_STOP_DET ≠ 0) ∨
        b.message_error ≠ 0) ∧ b.receive_outstanding = 0) ∧
    handleInterrupt K P s =
      { b with
        nreads := (handleInterrupt K P s).nreads,
        trace := b.trace ++ wakeEvents K P st b ++ [Event.enableInterrupt] } ∧
    wakeups (handleInterrupt K P s).trace =
      wakeups s.trace + (if wakeTest K st b then 1 else 0) ∧
    (wakeTest K st b → wakeEvents K P st b = [Event.wakeup]) ∧
    (¬ wakeTest K st b → wakeEvents K P st b =
      if P.access_intr_mask_workaround then
        [Event.read Reg.DW_IC_INTR_MASK (b.hw b.nreads Reg.DW_IC_INTR_MASK % U32),
         Event.write 0 Reg.DW_IC_INTR_MASK,
         Event.write (b.hw b.nreads Reg.DW_IC_INTR_MASK % U32) Reg.DW_IC_INTR_MASK]
      else []) ∧
    (wakeups s.trace < wakeups (handleInterrupt K P s).trace →
      (handleInterrupt K P s).receive_outstanding = 0) := by
  have hp := handleInterrupt_past_checks K P s hawake hns
  obtain ⟨s1, ⟨T, q, s3⟩, -⟩ := handleInterruptBody_spec K (irqRead s)
  rw [hb] at hp s1 s3
  simp only at hp s1 s3
  have hwk : wakeups (handleInterrupt K P s).trace =
      wakeups s.trace + (if wakeTest K st b then 1 else 0) := by
    rw [hp]
    simp only [wakeups_append, s3, irqRead_trace, (plain_counts T q).1,
      (wakeEvents_counts K P st b).1]
    simp [wakeups]
  refine ⟨s1, ?_, hp, hwk, ?_, ?_, ?_⟩
  · unfold wakeTest
    rw [and_or_ne_zero_iff]
  · intro h; unfold wakeEvents; rw [if_pos h]
  · intro h; unfold wakeEvents; rw [if_neg h]
  · intro h
    rw [hwk] at h
    by_cases ht : wakeTest K st b
    · rw [hp]; exact ht.2
    · rw [if_neg ht] at h; omega

theorem C21_wake_only_when_drained_witness :
    (busyDev stopHw).awake = true ∧ ¬ irqSkip dwConsts (busyDev stopHw) ∧
    (busyDev stopHw).receive_outstanding = 2 ∧
    (busyDev stopHw).hw 2 Reg.DW_IC_INTR_STAT % U32 &&& dwConsts.DW_IC_INTR_STOP_DET ≠ 0 ∧
    wakeups (handleInterrupt dwConsts (plainNub "INT33C3" false) (busyDev stopHw)).trace =
      wakeups (busyDev stopHw).trace +
        (if wakeTest dwConsts (handleInterruptBody dwConsts (irqRead (busyDev stopHw))).1
          (handleInterruptBody dwConsts (irqRead (busyDev stopHw))).2 then 1 else 0) ∧
    wakeups (handleInterrupt dwConsts (plainNub "INT33C3" false) (busyDev stopHw)).trace = 0 ∧
    written (handleInterrupt dwConsts (plainNub "AMDI0010" true) (busyDev stopHw)).trace =
      [Reg.DW_IC_INTR_MASK, Reg.DW_IC_INTR_MASK] :=
  ⟨by decide, by decide, by decide, by decide,
   (C21_wake_only_when_drained dwConsts (plainNub "INT33C3" false) (busyDev stopHw)
      (handleInterruptBody dwConsts (irqRead (busyDev stopHw))).1
      (handleInterruptBody dwConsts (irqRead (busyDev stopHw))).2
      (by decide) (by decide) rfl).2.2.2.1,
   by decide, by decide⟩

/-! ## The zero-length message (C22) -/

/-- An attempt whose result is not `kIOReturnNotReady` is the only one. -/
theorem transferI2CGated_once (K : Consts) (P : Nub) (commandSleep : Dev → WaitResult × Dev)
    (messages : Int → VoodooI2CControllerBusMessage) (number : Int) (s : Dev)
    (h : (prepareTransferI2C K P commandSleep messages number s).1 ≠
      IOReturn.kIOReturnNotReady) :
    transferI2CGated K P commandSleep messages number s =
      prepareTransferI2C K P commandSleep messages number s := by
  unfold transferI2CGated transferI2CGatedLoop
  generalize prepareTransferI2C K P commandSleep messages number s = r at h ⊢
  obtain ⟨r1, s1⟩ := r
  dsimp only at h ⊢
  rw [if_pos h]

/-- A fill step entered with the write index on a message of length 0. -/
theorem transferMessageToBus_zero_length (K : Consts) (s : Dev)
    (hi : s.message_write_index < s.message_number)
    (hl : (s.messages s.message_write_index).length = 0) :
    transferMessageToBus K s =
      writeRegister 0 Reg.DW_IC_INTR_MASK (flagError (noteMsg (noteMsg (noteMsg s)))) := by
  rw [transferMessageToBus_eq]
  obtain ⟨f, hf⟩ : ∃ f, (s.message_number - s.message_write_index).toNat = f + 1 :=
    ⟨(s.message_number - s.message_write_index).toNat - 1, by omega⟩
  rw [hf, txFor_succ]
  simp only [noteMsg_message_write_index, noteMsg_message_number, noteMsg_messages]
  rw [if_pos hi, if_neg (by simp), if_pos hl]
  have hm : interruptMask K (flagError (noteMsg (noteMsg (noteMsg s)))) = 0 := by
    unfold interruptMask
    rw [if_pos]
    rw [flagError_message_error]
    decide
  rw [hm]

theorem writeRegister_message_write_index (v : Nat) (r : Reg) (s : Dev) :
    (writeRegister v r s).message_write_index = s.message_write_index := rfl

theorem writeRegister_message_error (v : Nat) (r : Reg) (s : Dev) :
    (writeRegister v r s).message_error = s.message_error := rfl

theorem fillSteps_zero_length (K : Consts) (k : Nat) :
    ∀ s : Dev, s.message_write_index < s.message_number →
      (s.messages s.message_write_index).length = 0 →
      (fillSteps K k s).message_write_index = s.message_write_index ∧
      (fillSteps K k s).message_number = s.message_number ∧
      (fillSteps K k s).messages = s.messages ∧
      (1 ≤ k → (fillSteps K k s).message_error = -1) ∧
      cmdsOf (fillSteps K k s).trace = cmdsOf s.trace ∧
      writesTo Reg.DW_IC_INTR_MASK (fillSteps K k s).trace =
        writesTo Reg.DW_IC_INTR_MASK s.trace ++ List.replicate k 0 := by
  induction k with
  | zero =>
    intro s _ _
    exact ⟨rfl, rfl, rfl, fun h => absurd h (by omega), rfl, by simp [fillSteps]⟩
  | succ k ih =>
    intro s hi hl
    have e := transferMessageToBus_zero_length K s hi hl
    have h1 : (transferMessageToBus K s).message_write_index = s.message_write_index := by
      rw [e]
      simp only [writeRegister_message_write_index, flagError_message_write_index,
        noteMsg_message_write_index]
    have h2 : (transferMessageToBus K s).message_number = s.message_number :=
      (transferMessageToBus_post K s).1.fields.2.1
    have h3 : (transferMessageToBus K s).messages = s.messages :=
      (transferMessageToBus_post K s).1.fields.1
    have h4 : (transferMessageToBus K s).message_error = -1 := by
      rw [e]
      simp only [writeRegister_message_error, flagError_message_error]
    have ht : (transferMessageToBus K s).trace = s.trace ++
        [Event.msg s.message_write_index, Event.msg s.message_write_index,
         Event.msg s.message_write_index, Event.write 0 Reg.DW_IC_INTR_MASK] := by
      rw [e]
      simp only [writeRegister_trace, flagError_trace, noteMsg_trace,
        noteMsg_message_write_index]
      simp
    have h5 : cmdsOf (transferMessageToBus K s).trace = cmdsOf s.trace := by
      rw [ht]; simp [cmdsOf_append, cmdsOf]
    have h6 : writesTo Reg.DW_IC_INTR_MASK (transferMessageToBus K s).trace =
        writesTo Reg.DW_IC_INTR_MASK s.trace ++ [0] := by
      rw [ht]; simp [writesTo_append, writesTo]
    obtain ⟨a1, a2, a3, a4, a5, a6⟩ := ih (transferMessageToBus K s)
      (by rw [h1, h2]; exact hi) (by rw [h3, h1]; exact hl)
    have hs : fillSteps K (k + 1) s = fillSteps K k (transferMessageToBus K s) := rfl
    rw [hs]
    refine ⟨a1.trans h1, a2.trans h2, a3.trans h3, ?_, a5.trans h5, ?_⟩
    · intro _
      cases k with
      | zero => exact h4
      | succ k => exact a4 (by omega)
    · rw [a6, h6, List.replicate_succ]
      simp

/-- A fill step on a batch whose message `z`, at or after the write index, has length
0: the write index does not pass `z`, the commands written are for messages before
`z`, and if the write index is `z` afterwards the error is flagged. -/
theorem fill_step_zero_length (K : Consts) (s : Dev) (z : Int)
    (h0 : s.message_write_index ≤ z) (hz : z < s.message_number)
    (hl : (s.messages z).length = 0) :
    (transferMessageToBus K s).messages = s.messages ∧
    (transferMessageToBus K s).message_number = s.message_number ∧
    (transferMessageToBus K s).message_write_index ≤ z ∧
    ((transferMessageToBus K s).message_write_index = z →
      (transferMessageToBus K s).message_error = -1) ∧
    (∃ X, cmdsOf (transferMessageToBus K s).trace = cmdsOf s.trace ++ X ∧
      ∀ e ∈ X, e.1 < z) := by
  have hp := transferMessageToBus_post K s
  generalize transferMessageToBus K s = s2 at hp ⊢
  obtain ⟨h1, h2, h3, h4, ⟨X, hX, hE⟩, -, -⟩ := hp
  obtain ⟨f1, f2, -⟩ := h1.fields
  have hle : s2.message_write_index ≤ z := by
    by_contra hc
    exact (h3 z h0 (by omega)).2.1 hl
  refine ⟨f1, f2, hle, ?_, X, hX, ?_⟩
  · intro hw
    unfold TxExit at h4
    rcases h4 with ⟨g1, -⟩ | ⟨-, g2, -⟩ | ⟨-, -, -, g4, -⟩
    · omega
    · exact g2
    · rw [hw] at g4; exact absurd hl g4
  · intro e he
    obtain ⟨-, -, a3, -, -, a6⟩ := hE e he
    rcases lt_or_eq_of_le (le_trans a3 hle) with h | h
    · exact h
    · rw [h] at a6; exact absurd hl a6

theorem fillSteps_zero_reach (K : Consts) (z : Int) (k : Nat) :
    ∀ s : Dev, s.message_write_index ≤ z → z < s.message_number →
      (s.messages z).length = 0 →
      (fillSteps K k s).message_write_index ≤ z ∧
      (∃ X, cmdsOf (fillSteps K k s).trace = cmdsOf s.trace ++ X ∧ ∀ e ∈ X, e.1 < z) ∧
      (1 ≤ k → (fillSteps K k s).message_write_index = z →
        (fillSteps K k s).message_error = -1 ∧
        (fillSteps K k s).trace.getLast? = some (Event.write 0 Reg.DW_IC_INTR_MASK)) := by
  induction k with
  | zero =>
    intro s h0 _ _
    exact ⟨h0, ⟨[], by simp [fillSteps], by simp⟩, fun h => absurd h (by omega)⟩
  | succ k ih =>
    intro s h0 hz hl
    rw [fillSteps_succ]
    obtain ⟨a1, ⟨X, hX, hXb⟩, -⟩ := ih s h0 hz hl
    have hm : (fillSteps K k s).messages = s.messages ∧
        (fillSteps K k s).message_number = s.message_number := by
      clear hX hXb a1 ih
      induction k with
      | zero => exact ⟨rfl, rfl⟩
      | succ k ih2 =>
        rw [fillSteps_succ]
        obtain ⟨f1, f2, -⟩ := (transferMessageToBus_post K (fillSteps K k s)).1.fields
        exact ⟨f1.trans ih2.1, f2.trans ih2.2⟩
    obtain ⟨-, -, b3, b4, ⟨Y, hY, hYb⟩⟩ := fill_step_zero_length K (fillSteps K k s) z a1
      (by rw [hm.2]; exact hz) (by rw [hm.1]; exact hl)
    refine ⟨b3, ⟨X ++ Y, by rw [hY, hX, List.append_assoc], ?_⟩, ?_⟩
    · intro e he
      rcases List.mem_append.mp he with h | h
      · exact hXb e h
      · exact hYb e h
    · intro _ hw
      refine ⟨b4 hw, ?_⟩
      rw [transferMessageToBus_last, if_pos (by rw [b4 hw]; decide)]

/-- Fill steps on a zero-length message.  On a batch whose message `z`, at or after the write index, has length 0, no
run of fill steps takes the write index past `z` or writes a command to
`DW_IC_DATA_CMD` for message `z` or a later one, and a step that ends with the write
index on `z` has set `message_error` and written an all-zero interrupt mask last.  If
the write index is on `z` on entry, a call of `transferMessageToBus` accesses that
message three times, sets `message_error`, writes 0 to `DW_IC_INTR_MASK` and nothing
else, and leaves the write index where it was; so does every later call.  With
`message_error` set, `prepareTransferI2C` returns `kIOReturnError` unless the wait
timed out, and `transferI2CGated` returns that result after the one attempt. -/
theorem zero_length_message_fill (K : Consts) (P : Nub) (s : Dev) (z : Int)
    (h0 : s.message_write_index ≤ z) (hz : z < s.message_number)
    (hl : (s.messages z).length = 0) :
    (∀ k, (fillSteps K k s).message_write_index ≤ z ∧
      (∃ X, cmdsOf (fillSteps K k s).trace = cmdsOf s.trace ++ X ∧ ∀ e ∈ X, e.1 < z) ∧
      (1 ≤ k → (fillSteps K k s).message_write_index = z →
        (fillSteps K k s).message_error = -1 ∧
        (fillSteps K k s).trace.getLast? = some (Event.write 0 Reg.DW_IC_INTR_MASK))) ∧
    (s.message_write_index = z →
      (transferMessageToBus K s).trace = s.trace ++
        [Event.msg z, Event.msg z, Event.msg z, Event.write 0 Reg.DW_IC_INTR_MASK] ∧
      ∀ k, 1 ≤ k →
        (fillSteps K k s).message_error = -1 ∧
        (fillSteps K k s).message_write_index = z ∧
        cmdsOf (fillSteps K k s).trace = cmdsOf s.trace ∧
        writesTo Reg.DW_IC_INTR_MASK (fillSteps K k s).trace =
          writesTo Reg.DW_IC_INTR_MASK s.trace ++ List.replicate k 0) ∧
    (∀ (d : Dev) (w : WaitResult), d.message_error ≠ 0 → w ≠ WaitResult.THREAD_TIMED_OUT →
      (finishTransfer K P w d).1 = IOReturn.kIOReturnError) ∧
    (∀ (commandSleep : Dev → WaitResult × Dev)
        (messages : Int → VoodooI2CControllerBusMessage) (number : Int) (s0 : Dev),
      (prepareTransferI2C K P commandSleep messages number s0).1 = IOReturn.kIOReturnError →
      transferI2CGated K P commandSleep messages number s0 =
        prepareTransferI2C K P commandSleep messages number s0) := by
  refine ⟨fun k => fillSteps_zero_reach K z k s h0 hz hl, ?_, ?_, ?_⟩
  · intro hw
    subst hw
    refine ⟨?_, ?_⟩
    · rw [transferMessageToBus_zero_length K s hz hl]
      simp only [writeRegister_trace, flagError_trace, noteMsg_trace,
        noteMsg_message_write_index]
      simp
    · intro k hk
      obtain ⟨a1, -, -, a4, a5, a6⟩ := fillSteps_zero_length K k s hz hl
      exact ⟨a4 hk, a1, a5, a6⟩
  · intro d w hd hw
    rw [finishTransfer_fst, if_neg hw]
    unfold classify
    rw [if_pos hd]
  · intro cs ms n s0 h
    exact transferI2CGated_once K P cs ms n s0 (by rw [h]; decide)

set_option maxHeartbeats 4000000 in
/-- C22 (evaluation at the failing input): a read of one byte followed by a message of
length 0, both for the address 0x2c, submitted on a controller with FIFO depth 16, the
interrupt status reading 0x10 (transmit FIFO empty).  The interrupt served during the
wait writes the read token of message 0, stops at message 1, sets `message_error` and
writes 0 to `DW_IC_INTR_MASK`; one token being outstanding, it does not signal
completion, and neither do further interrupts of the kind.  The wait therefore runs to
its timeout and `transferI2CGated` returns `kIOReturnTimeout`, not `kIOReturnError`.
The message of length 0 submitted alone is signalled and gives `kIOReturnError`. -/
theorem C22_zero_length_after_read :
    (readThenEmpty 1).length = 0 ∧
    (interrupts dwConsts (plainNub "INT33C3" false) 1
      (armTransfer dwConsts (plainNub "INT33C3" false) readThenEmpty 2
        (fifoDev letters fillHw 16))).message_error = -1 ∧
    (interrupts dwConsts (plainNub "INT33C3" false) 1
      (armTransfer dwConsts (plainNub "INT33C3" false) readThenEmpty 2
        (fifoDev letters fillHw 16))).message_write_index = 1 ∧
    (interrupts dwConsts (plainNub "INT33C3" false) 1
      (armTransfer dwConsts (plainNub "INT33C3" false) readThenEmpty 2
        (fifoDev letters fillHw 16))).receive_outstanding = 1 ∧
    cmdsOf (interrupts dwConsts (plainNub "INT33C3" false) 1
      (armTransfer dwConsts (plainNub "INT33C3" false) readThenEmpty 2
        (fifoDev letters fillHw 16))).trace = [(0, 1, 0x100)] ∧
    (writesTo Reg.DW_IC_INTR_MASK (interrupts dwConsts (plainNub "INT33C3" false) 1
      (armTransfer dwConsts (plainNub "INT33C3" false) readThenEmpty 2
        (fifoDev letters fillHw 16))).trace).getLast? = some 0 ∧
    wakeups (interrupts dwConsts (plainNub "INT33C3" false) 3
      (armTransfer dwConsts (plainNub "INT33C3" false) readThenEmpty 2
        (fifoDev letters fillHw 16))).trace = 0 ∧
    (transferI2CGated dwConsts (plainNub "INT33C3" false)
      (interruptSleep dwConsts (plainNub "INT33C3" false) 1 WaitResult.THREAD_TIMED_OUT)
      readThenEmpty 2 (fifoDev letters emptyHw 16)).1 = IOReturn.kIOReturnTimeout ∧
    wakeups (transferI2CGated dwConsts (plainNub "INT33C3" false)
      (interruptSleep dwConsts (plainNub "INT33C3" false) 1 WaitResult.THREAD_TIMED_OUT)
      readThenEmpty 2 (fifoDev letters emptyHw 16)).2.trace = 0 ∧
    (transferI2CGated dwConsts (plainNub "INT33C3" false)
      (interruptSleep dwConsts (plainNub "INT33C3" false) 1 WaitResult.THREAD_AWAKENED)
      oneEmpty 1 (fifoDev letters emptyHw 16)).1 = IOReturn.kIOReturnError ∧
    wakeups (transferI2CGated dwConsts (plainNub "INT33C3" false)
      (interruptSleep dwConsts (plainNub "INT33C3" false) 1 WaitResult.THREAD_AWAKENED)
      oneEmpty 1 (fifoDev letters emptyHw 16)).2.trace = 1 := by
  refine ⟨by decide!, by decide!, by decide!, by decide!, by decide!, by decide!, by decide!,
    by decide!, by decide!, by decide!, by decide!⟩

/-! ## SDA hold resolution (C23) -/

theorem DIV_S64_ROUND_CLOSEST_MICRO (c : Nat) :
    DIV_S64_ROUND_CLOSEST ((c : Int) * 300) (MICRO : Int) =
      (((c * 300 + 500000) / 1000000 : Nat) : Int) := by
  have hd : toInt32 ((MICRO : Nat) : Int) = 1000000 := by decide
  unfold DIV_S64_ROUND_CLOSEST div_s64
  simp only [hd]
  have h2 : Int.tdiv (1000000 : Int) 2 = 500000 := by decide
  rw [h2]
  by_cases hc : c = 0
  · subst hc
    decide
  · have hx : ((c : Int) * 300 > 0) := by
      have : (0 : Int) < c := by exact_mod_cast Nat.pos_of_ne_zero hc
      omega
    have e1 : decide ((c : Int) * 300 > 0) = decide ((1000000 : Int) > 0) := by
      simp [hx]
    rw [if_pos e1, Int.tdiv_eq_ediv (by omega) (by omega)]
    push_cast
    omega

/-- The resolved SDA hold value, by cases. -/
theorem holdValue_cases (c : Nat) (b : Bool) (h r : Nat) :
    (c ≠ 0 → (c * 300 + 500000) / 1000000 % U32 ≠ 0 →
      holdValue c b h r = (c * 300 + 500000) / 1000000 % U32) ∧
    (c = 0 → h ≠ 0 → holdValue c b h r = h) ∧
    (c = 0 → h = 0 → r ≠ 0 → holdValue c b h r = r) ∧
    (c = 0 → h = 0 → r = 0 → holdValue c b h r = if b then 0x1E else 0x62) := by
  unfold holdValue
  rw [DIV_S64_ROUND_CLOSEST_MICRO]
  have hcast : ((((c * 300 + 500000) / 1000000 : Nat) : Int) % (U32 : Int)).toNat =
      (c * 300 + 500000) / 1000000 % U32 := by
    rw [← Int.ofNat_emod, Int.toNat_ofNat]
  rw [hcast]
  generalize (c * 300 + 500000) / 1000000 % U32 = v
  refine ⟨?_, ?_, ?_, ?_⟩
  · intro hc hv
    simp [hc, hv]
  · intro hc hh
    simp [hc, hh]
  · intro hc hh hr
    simp [hc, hh, hr]
  · intro hc hh hr
    simp [hc, hh, hr]

theorem getClkRateFor_values (name : String) :
    (name = "AMD0010" → getClkRateFor name = 133000) ∧
    (name = "AMDI0010" ∨ name = "AMDI0019" → getClkRateFor name = 150000) ∧
    (getClkRateFor name ≠ 0 → getClkRateFor name = 133000 ∨ getClkRateFor name = 150000) := by
  unfold getClkRateFor KILO
  refine ⟨?_, ?_, ?_⟩
  · intro h; rw [if_pos h]
  · intro h
    by_cases h0 : name = "AMD0010"
    · subst h0
      rcases h with h | h <;> exact absurd h (by decide)
    · rw [if_neg h0, if_pos h]
  · intro h
    by_cases h0 : name = "AMD0010"
    · left; rw [if_pos h0]
    · by_cases h1 : name = "AMDI0010" ∨ name = "AMDI0019"
      · right; rw [if_neg h0, if_pos h1]
      · rw [if_neg h0, if_neg h1] at h
        exact absurd rfl h

/-- Below the minimum version the SDA hold block of `getBusConfig` is skipped. -/
theorem getBusConfigClk_hold_old (K : Consts) (P : Nub) (c : Nat) (s : Dev)
    (hver : s.hw (s.nreads + 1) Reg.DW_IC_COMP_VERSION % U32 < K.DW_IC_SDA_HOLD_MIN_VERS) :
    (getBusConfigClk K P c s).2.acpi_config.sda_hold =
      (getBusConfigFS P c (is_sunrise_point P.name)
        (getBusConfigSS P c (is_sunrise_point P.name) s.acpi_config false).1
        (getBusConfigSS P c (is_sunrise_point P.name) s.acpi_config false).2).1.sda_hold := by
  unfold getBusConfigClk
  simp only [readRegister]
  rw [if_neg (by omega)]

/-- C23 (amended): on hardware at or above the minimum version the final `sda_hold` is
the resolved value `v` with the receive hold forced, where, with `h` the SDA hold the
`FMCN` block leaves (the value `FMCN` supplies, or the one present before) and `r` the
value read from `DW_IC_SDA_HOLD`: if the clock `c` is known, `v` is `c * 300 / 1000000`
rounded to nearest, half away from zero (40 for 133000 kHz, 45 for 150000 kHz);
otherwise `v` is `h` if `h` is not 0, else `r` if `r` is not 0, else 0x1E on `INT344B`
and `INT345D` and 0x62 elsewhere.  Below the minimum version the final `sda_hold` is
`h`: the block changes nothing. -/
theorem C23_hold_resolution (K : Consts) (P : Nub) (s : Dev) (h r v : Nat)
    (hh : h = (getBusConfigFS P (getClkRateFor P.name) (is_sunrise_point P.name)
      (getBusConfigSS P (getClkRateFor P.name) (is_sunrise_point P.name)
        s.acpi_config false).1
      (getBusConfigSS P (getClkRateFor P.name) (is_sunrise_point P.name)
        s.acpi_config false).2).1.sda_hold)
    (hr : r = s.hw (s.nreads + 2) Reg.DW_IC_SDA_HOLD % U32)
    (hv : v = holdValue (getClkRateFor P.name) (is_sunrise_point P.name) h r) :
    (K.DW_IC_SDA_HOLD_MIN_VERS ≤ s.hw (s.nreads + 1) Reg.DW_IC_COMP_VERSION % U32 →
      (getBusConfig K P s).2.acpi_config.sda_hold = forceRxHold K v) ∧
    (s.hw (s.nreads + 1) Reg.DW_IC_COMP_VERSION % U32 < K.DW_IC_SDA_HOLD_MIN_VERS →
      (getBusConfig K P s).2.acpi_config.sda_hold = h) ∧
    (getClkRateFor P.name ≠ 0 →
      v = (getClkRateFor P.name * 300 + 500000) / 1000000 ∧ (v = 40 ∨ v = 45)) ∧
    (P.name = "AMD0010" → v = 40) ∧
    (P.name = "AMDI0010" ∨ P.name = "AMDI0019" → v = 45) ∧
    (getClkRateFor P.name = 0 → h ≠ 0 → v = h) ∧
    (getClkRateFor P.name = 0 → h = 0 → r ≠ 0 → v = r) ∧
    (getClkRateFor P.name = 0 → h = 0 → r = 0 →
      v = if P.name = "INT344B" ∨ P.name = "INT345D" then 0x1E else 0x62) := by
  obtain ⟨c1, c2, c3⟩ := getClkRateFor_values P.name
  obtain ⟨v1, v2, v3, v4⟩ := holdValue_cases (getClkRateFor P.name) (is_sunrise_point P.name) h r
  have k133 : (133000 * 300 + 500000) / 1000000 % U32 = 40 := by decide
  have k150 : (150000 * 300 + 500000) / 1000000 % U32 = 45 := by decide
  have e133 : getClkRateFor P.name = 133000 → v = 40 := by
    intro e
    rw [hv, v1 (by rw [e]; decide) (by rw [e, k133]; decide), e, k133]
  have e150 : getClkRateFor P.name = 150000 → v = 45 := by
    intro e
    rw [hv, v1 (by rw [e]; decide) (by rw [e, k150]; decide), e, k150]
  refine ⟨?_, ?_, ?_, fun hn => e133 (c1 hn), fun hn => e150 (c2 hn), ?_, ?_, ?_⟩
  · intro hver
    unfold getBusConfig
    rw [getBusConfigClk_hold K P (getClkRateFor P.name) s hver, hv, hh, hr]
  · intro hver
    unfold getBusConfig
    rw [getBusConfigClk_hold_old K P (getClkRateFor P.name) s hver, hh]
  · intro hc
    rcases c3 hc with e | e
    · rw [e133 e, e]; exact ⟨by decide, Or.inl rfl⟩
    · rw [e150 e, e]; exact ⟨by decide, Or.inr rfl⟩
  · intro hc hne; rw [hv]; exact v2 hc hne
  · intro hc h0 hne; rw [hv]; exact v3 hc h0 hne
  · intro hc h0 r0
    rw [hv, v4 hc h0 r0]
    unfold is_sunrise_point
    by_cases hs : P.name = "INT344B" ∨ P.name = "INT345D"
    · rw [if_pos hs]
      rcases hs with hs | hs <;> simp [hs]
    · rw [if_neg hs]
      push_neg at hs
      simp [hs.1, hs.2]

theorem C23_hold_resolution_witness :
    (getBusConfig dwConsts (plainNub "AMD0010" false)
      (init letters (holdHw 0x33))).2.acpi_config.sda_hold = forceRxHold dwConsts 40 ∧
    forceRxHold dwConsts 40 = 0x10028 ∧
    (getBusConfig dwConsts (plainNub "INT344B" false)
      (init letters (holdHw 0))).2.acpi_config.sda_hold = 0x1001E ∧
    (getBusConfig dwConsts (plainNub "INT33C3" false)
      (init letters (holdHw 0x33))).2.acpi_config.sda_hold = 0x10033 :=
  ⟨by
    have h := C23_hold_resolution dwConsts (plainNub "AMD0010" false) (init letters (holdHw 0x33))
      0 0x33 40 (by decide) (by decide) (by decide)
    exact h.1 (by decide),
   by decide, by decide, by decide⟩

/-- C23 as stated fails: with the clock unknown and `FMCN` supplying the SDA hold 0x28,
the resolved value is 0x28 (final `sda_hold` 0x10028), not the 0x33 that
`DW_IC_SDA_HOLD` holds, and that register is not read. -/
theorem C23_counterexample :
    getClkRateFor "INT33C3" = 0 ∧
    dwConsts.DW_IC_SDA_HOLD_MIN_VERS ≤ holdHw 0x33 1 Reg.DW_IC_COMP_VERSION % U32 ∧
    holdHw 0x33 2 Reg.DW_IC_SDA_HOLD % U32 = 0x33 ∧
    holdValue (getClkRateFor "INT33C3") (is_sunrise_point "INT33C3") 0x28
      (holdHw 0x33 2 Reg.DW_IC_SDA_HOLD % U32) = 0x28 ∧
    (getBusConfig dwConsts (overrideNub "INT33C3" (0x200, 0x210) (0x50, 0x60, 0x28))
      (init letters (holdHw 0x33))).2.acpi_config.sda_hold = 0x10028 ∧
    (getBusConfig dwConsts (overrideNub "INT33C3" (0x200, 0x210) (0x50, 0x60, 0x28))
      (init letters (holdHw 0x33))).2.acpi_config.sda_hold ≠ forceRxHold dwConsts 0x33 ∧
    Reg.DW_IC_SDA_HOLD ∉ readsOf (getBusConfig dwConsts
      (overrideNub "INT33C3" (0x200, 0x210) (0x50, 0x60, 0x28))
      (init letters (holdHw 0x33))).2.trace := by
  refine ⟨by decide, by decide, by decide, by decide, by decide, by decide, by decide⟩

/-! ## The values of `command_error` (C25) -/

theorem logFrame_waitBusNotBusyLoop (K : Consts) (t : Nat) :
    ∀ s : Dev, LogFrame s (waitBusNotBusyLoop K t s).2 := by
  induction t with
  | zero =>
    intro s
    unfold waitBusNotBusyLoop
    simp only [readRegister]
    split <;> rfl
  | succ t ih =>
    intro s
    unfold waitBusNotBusyLoop
    simp only [readRegister]
    split
    · exact @logFrame_trans _ (delay _) _ rfl (ih _)
    · rfl

theorem logFrame_command_error {s s2 : Dev} (h : LogFrame s s2) :
    s2.command_error = s.command_error := by
  unfold LogFrame at h
  rw [h]

theorem finishTransfer_command_error (K : Consts) (P : Nub) (w : WaitResult) (s : Dev) :
    (finishTransfer K P w s).2.command_error = s.command_error := by
  unfold finishTransfer
  by_cases hw : w = WaitResult.THREAD_TIMED_OUT
  · rw [if_pos hw]
    exact logFrame_command_error (logFrame_initialiseBus K P s)
  · rw [if_neg hw]
    dsimp only
    have h := logFrame_command_error (logFrame_toggleBusState P K.kVoodooI2CStateOff s)
    split
    · exact h
    · split
      · exact h
      · split <;> exact h

theorem cmdOk_handleInterrupt (K : Consts) (P : Nub) (s : Dev) (h : CmdOk K s) :
    CmdOk K (handleInterrupt K P s) := by
  have key : (handleInterrupt K P s).command_error = s.command_error ∨
      (handleInterrupt K P s).command_error = s.command_error ||| K.DW_IC_ERR_TX_ABRT := by
    rw [handleInterrupt_eq]
    by_cases ha : s.awake = false
    · rw [if_pos ha]; exact Or.inl rfl
    · rw [if_neg ha]
      by_cases hk : irqSkip K s
      · rw [if_pos hk]; exact Or.inl rfl
      · rw [if_neg hk, handleInterruptServe_eq]
        obtain ⟨-, -, hc, -⟩ := handleInterruptBody_spec K (irqRead s)
        generalize handleInterruptBody K (irqRead s) = b at hc
        rw [handleInterruptWakeup_eq]
        exact hc
  unfold CmdOk at *
  rcases key with e | e <;> rw [e]
  · exact h
  · rcases h with h | h <;> rw [h]
    · right; exact Nat.zero_or _
    · right; exact Nat.or_self _

theorem cmdOk_interrupts (K : Consts) (P : Nub) (k : Nat) :
    ∀ s : Dev, CmdOk K s → CmdOk K (interrupts K P k s) := by
  induction k with
  | zero => intro s h; exact h
  | succ k ih => intro s h; exact ih _ (cmdOk_handleInterrupt K P s h)

/-- A submission whose wait serves interrupts never ends in `kIOReturnNotReady`, and
leaves `command_error` at 0 or the abort marker if it was so. -/
theorem prepareTransferI2C_cmdOk (K : Consts) (P : Nub)
    (messages : Int → VoodooI2CControllerBusMessage) (number : Int) (k : Nat) (w : WaitResult)
    (s : Dev) :
    (prepareTransferI2C K P (interruptSleep K P k w) messages number s).1 ≠
      IOReturn.kIOReturnNotReady ∧
    (CmdOk K s →
      CmdOk K (prepareTransferI2C K P (interruptSleep K P k w) messages number s).2) := by
  unfold prepareTransferI2C
  by_cases ha : s.awake = false
  · rw [if_pos ha]
    exact ⟨by show IOReturn.kIOReturnBusy ≠ IOReturn.kIOReturnNotReady; decide, fun h => h⟩
  · rw [if_neg ha]
    have hw := logFrame_command_error (logFrame_waitBusNotBusyLoop K (K.TIMEOUT * 150) s)
    have hw2 : (waitBusNotBusyI2C K s).2.command_error = s.command_error := hw
    generalize waitBusNotBusyI2C K s = r at hw2
    obtain ⟨r1, s1⟩ := r
    dsimp only at hw2 ⊢
    by_cases hr : r1 ≠ IOReturn.kIOReturnSuccess
    · rw [if_pos hr]
      refine ⟨by show IOReturn.kIOReturnBusy ≠ IOReturn.kIOReturnNotReady; decide,
        fun h => ?_⟩
      unfold CmdOk at *
      dsimp only
      rw [hw2]; exact h
    · rw [if_neg hr]
      unfold interruptSleep
      dsimp only
      have harm : CmdOk K (armTransfer K P messages number s1) :=
        Or.inl (armTransfer_fields K P messages number s1).2.2.2.2.2.1
      have hd := cmdOk_interrupts K P k _ harm
      generalize interrupts K P k (armTransfer K P messages number s1) = d at hd
      refine ⟨?_, fun _ => ?_⟩
      · rw [finishTransfer_fst]
        by_cases hto : w = WaitResult.THREAD_TIMED_OUT
        · rw [if_pos hto]; decide
        · rw [if_neg hto]
          unfold classify
          split
          · decide
          · split
            · decide
            · rename_i h0
              rcases hd with h | h
              · exact absurd h h0
              · rw [if_pos h]; decide
      · unfold CmdOk
        rw [finishTransfer_command_error]
        exact hd

theorem cmdOk_act (K : Consts) (P : Nub) (a : Action) (s : Dev) (h : CmdOk K s) :
    CmdOk K (act K P a s) := by
  cases a with
  | irq => exact cmdOk_handleInterrupt K P s h
  | prepare messages number k w =>
    exact (prepareTransferI2C_cmdOk K P messages number k w s).2 h
  | submit messages number k w =>
    have h1 := prepareTransferI2C_cmdOk K P messages number k w s
    show CmdOk K (transferI2CGated K P (interruptSleep K P k w) messages number s).2
    rw [transferI2CGated_once K P _ messages number s h1.1]
    exact h1.2 h

theorem cmdOk_run (K : Consts) (P : Nub) (l : List Action) :
    ∀ s : Dev, CmdOk K s → CmdOk K (run K P l s) := by
  induction l with
  | nil => intro s h; exact h
  | cons a l ih => intro s h; exact ih _ (cmdOk_act K P a s h)

/-- C25: in every state that `init` followed by interrupts and submissions (whose waits
serve interrupts) leads to, `command_error` is 0 or the abort marker
`DW_IC_ERR_TX_ABRT`.  A call of `prepareTransferI2C` from such a state never returns
`kIOReturnNotReady`, so that `transferI2CGated` makes one attempt and returns its
result and state. -/
theorem C25_command_error_values (K : Consts) (P : Nub) (mem : Nat → Nat)
    (hw : Nat → Reg → Nat) (l : List Action) :
    ((run K P l (init mem hw)).command_error = 0 ∨
      (run K P l (init mem hw)).command_error = K.DW_IC_ERR_TX_ABRT) ∧
    ∀ (messages : Int → VoodooI2CControllerBusMessage) (number : Int) (k : Nat)
      (w : WaitResult),
      (prepareTransferI2C K P (interruptSleep K P k w) messages number
        (run K P l (init mem hw))).1 ≠ IOReturn.kIOReturnNotReady ∧
      transferI2CGated K P (interruptSleep K P k w) messages number
          (run K P l (init mem hw)) =
        nthAttempt K P (interruptSleep K P k w) messages number 0 (run K P l (init mem hw)) ∧
      (transferI2CGated K P (interruptSleep K P k w) messages number
        (run K P l (init mem hw))).1 ≠ IOReturn.kIOReturnNotReady := by
  have h0 : CmdOk K (init mem hw) := Or.inl rfl
  refine ⟨cmdOk_run K P l _ h0, ?_⟩
  intro messages number k w
  have h1 := (prepareTransferI2C_cmdOk K P messages number k w (run K P l (init mem hw))).1
  have h2 := transferI2CGated_once K P (interruptSleep K P k w) messages number
    (run K P l (init mem hw)) h1
  exact ⟨h1, h2, by rw [h2]; exact h1⟩

/-! ## Accesses to the message array (C26) -/

set_option maxHeartbeats 1000000 in
/-- C26 (evaluation at the failing input): a batch of one write of 3 bytes, FIFO depth
16.  The first fill step writes the 3 bytes and moves the write index to 1, the
number of messages.  A fill step entered in that state accesses `messages[1]`, past
the end of the array (the read of the address at the top of `transferMessageToBus`),
and writes no command; the receive drain accesses `messages[0]` only. -/
theorem C26_read_past_end :
    (fillSteps dwConsts 1 (armTransfer dwConsts (plainNub "INT33C3" false) oneWrite3 1
      (fifoDev letters armHw 16))).message_write_index = 1 ∧
    (fillSteps dwConsts 1 (armTransfer dwConsts (plainNub "INT33C3" false) oneWrite3 1
      (fifoDev letters armHw 16))).message_number = 1 ∧
    msgsOf ((transferMessageToBus dwConsts
      (fillSteps dwConsts 1 (armTransfer dwConsts (plainNub "INT33C3" false) oneWrite3 1
        (fifoDev letters armHw 16)))).trace.drop
      (fillSteps dwConsts 1 (armTransfer dwConsts (plainNub "INT33C3" false) oneWrite3 1
        (fifoDev letters armHw 16))).trace.length) = [1] ∧
    cmdsOf ((transferMessageToBus dwConsts
      (fillSteps dwConsts 1 (armTransfer dwConsts (plainNub "INT33C3" false) oneWrite3 1
        (fifoDev letters armHw 16)))).trace.drop
      (fillSteps dwConsts 1 (armTransfer dwConsts (plainNub "INT33C3" false) oneWrite3 1
        (fifoDev letters armHw 16))).trace.length) = [] ∧
    msgsOf ((readFromBus dwConsts
      (fillSteps dwConsts 1 (armTransfer dwConsts (plainNub "INT33C3" false) oneWrite3 1
        (fifoDev letters armHw 16)))).trace.drop
      (fillSteps dwConsts 1 (armTransfer dwConsts (plainNub "INT33C3" false) oneWrite3 1
        (fifoDev letters armHw 16))).trace.length) = [0] := by
  refine ⟨by decide, by decide, by decide, by decide, by decide⟩

/-! ## The stop bit over a complete transmission (C5) -/

theorem flag_keep_or (st r w : Nat) (h : r &&& w = 0) :
    ((st ||| r) &&& w = 0 ↔ st &&& w = 0) := by
  have e : (st ||| r) &&& w = st &&& w := by
    apply Nat.eq_of_testBit_eq
    intro i
    have e1 := congrArg (fun n => n.testBit i) h
    simp only [Nat.testBit_and, Nat.testBit_or, Nat.zero_testBit] at e1 ⊢
    cases hs : st.testBit i <;> cases hr : r.testBit i <;> cases hw : w.testBit i <;> simp_all
  rw [e]

theorem flag_keep_and (st r w : Nat) (h : r &&& w = 0) (hw : w < U32) :
    ((st &&& not32 r) &&& w = 0 ↔ st &&& w = 0) := by
  have e : (st &&& not32 r) &&& w = st &&& w := by
    unfold not32 U32 at *
    apply Nat.eq_of_testBit_eq
    intro i
    have e1 := congrArg (fun n => n.testBit i) h
    have h32 : (4294967296 : Nat) = 2 ^ 32 := by norm_num
    have hm : (4294967295 : Nat) = 2 ^ 32 - 1 := by norm_num
    simp only [Nat.testBit_and, Nat.testBit_xor, Nat.zero_testBit, h32, hm,
      Nat.testBit_mod_two_pow, Nat.testBit_two_pow_sub_one] at e1 ⊢
    by_cases hi : i < 32
    · cases hs : st.testBit i <;> cases hr : r.testBit i <;> cases hw2 : w.testBit i <;>
        simp_all
    · have hz : w.testBit i = false :=
        Nat.testBit_lt_two_pow (lt_of_lt_of_le hw (by
          rw [h32]; exact Nat.pow_le_pow_right (by norm_num) (by omega)))
      simp [hz]
  rw [e]

theorem txSame_refl (K : Consts) (s : Dev) : TxSame K s s :=
  ⟨rfl, rfl, rfl, rfl, Iff.rfl, rfl, rfl⟩

theorem txSame_trans {K : Consts} {s1 s2 s3 : Dev} (h1 : TxSame K s1 s2)
    (h2 : TxSame K s2 s3) : TxSame K s1 s3 := by
  obtain ⟨a1, a2, a3, a4, a5, a6, a7⟩ := h1
  obtain ⟨b1, b2, b3, b4, b5, b6, b7⟩ := h2
  exact ⟨b1.trans a1, b2.trans a2, b3.trans a3, b4.trans a4, b5.trans a5, b6.trans a6,
    b7.trans a7⟩

/-- The receive drain leaves the transmit side as it was. -/
theorem txSame_rxLoop (K : Consts)
    (hrw : K.STATUS_READ_IN_PROGRESS &&& K.STATUS_WRITE_IN_PROGRESS = 0)
    (hw : K.STATUS_WRITE_IN_PROGRESS < U32) (fuel : Nat) :
    ∀ s : Dev, TxSame K s (rxLoop K fuel s) := by
  induction fuel with
  | zero => intro s; exact txSame_refl K s
  | succ fuel ih =>
    intro s
    by_cases h1 : s.message_read_index < s.message_number
    · by_cases h2 : (s.messages s.message_read_index).flags &&& K.I2C_M_RD = 0
      · rw [rxLoop_skip K fuel s h1 h2]
        refine txSame_trans ?_ (ih _)
        exact ⟨rfl, rfl, rfl, rfl, Iff.rfl, rfl, by simp [rxSkip, cmdsOf_append, cmdsOf]⟩
      · rw [rxLoop_read K fuel s h1 h2]
        have hp := rxFor_post (rxLength K s)
          (toInt32 (s.hw s.nreads Reg.DW_IC_RXFLR % U32 : Nat)) (rxBuffer K s) (rxEntry K s)
        generalize rxFor (rxLength K s)
          (toInt32 (s.hw s.nreads Reg.DW_IC_RXFLR % U32 : Nat)) (rxBuffer K s) (rxEntry K s) = r
          at hp ⊢
        obtain ⟨-, -, h3, -, h5⟩ := hp
        have hcm : cmdsOf (rxEntry K s).trace = cmdsOf s.trace := by
          rw [rxEntry_trace]
          by_cases hs : s.status &&& K.STATUS_READ_IN_PROGRESS = 0
          · rw [if_pos hs]; simp [cmdsOf_append, cmdsOf]
          · rw [if_neg hs]; simp [cmdsOf_append, cmdsOf]
        have e1 : r.1.messages = s.messages := by rw [h3]; rfl
        have e2 : r.1.message_number = s.message_number := by rw [h3]; rfl
        have e3 : r.1.message_write_index = s.message_write_index := by rw [h3]; rfl
        have e4 : r.1.transaction_buffer_length = s.transaction_buffer_length := by
          rw [h3]; rfl
        have e5 : r.1.status = s.status := by rw [h3]; rfl
        have e6 : r.1.hw = s.hw := by rw [h3]; rfl
        have e7 : cmdsOf r.1.trace = cmdsOf s.trace := h5.trans hcm
        split
        · refine ⟨e1, e2, e3, e4, ?_, e6, e7⟩
          rw [rxPartial_status, e5]
          exact flag_keep_or _ _ _ hrw
        · refine txSame_trans ?_ (ih _)
          refine ⟨e1, e2, e3, e4, ?_, e6, e7⟩
          rw [rxNext_status, e5]
          exact flag_keep_and _ _ _ hrw hw
    · rw [rxLoop_done K _ s h1]
      exact txSame_refl K s

theorem txSame_readFromBus (K : Consts)
    (hrw : K.STATUS_READ_IN_PROGRESS &&& K.STATUS_WRITE_IN_PROGRESS = 0)
    (hw : K.STATUS_WRITE_IN_PROGRESS < U32) (s : Dev) : TxSame K s (readFromBus K s) :=
  txSame_rxLoop K hrw hw _ s

theorem txSame_of_clearFrame {K : Consts} {s s2 : Dev} (h : ClearFrame s s2) :
    TxSame K s s2 := by
  obtain ⟨T, q, e⟩ := h
  refine ⟨?_, ?_, ?_, ?_, ?_, ?_, ?_⟩
  · rw [e]
  · rw [e]
  · rw [e]
  · rw [e]
  · rw [e]
  · rw [e]
  · rw [e]
    show cmdsOf (s.trace ++ T) = cmdsOf s.trace
    rw [cmdsOf_append, q.2.2.2.2, List.append_nil]

theorem txSame_wakeup (K : Consts) (P : Nub) (st : Nat) (s : Dev) :
    TxSame K s (handleInterruptWakeup K P st s) := by
  rw [handleInterruptWakeup_eq]
  refine ⟨rfl, rfl, rfl, rfl, Iff.rfl, rfl, ?_⟩
  show cmdsOf (s.trace ++ wakeEvents K P st s) = cmdsOf s.trace
  rw [cmdsOf_append]
  unfold wakeEvents
  split
  · simp [cmdsOf]
  · split <;> simp [cmdsOf]

theorem pending_same {K : Consts} {s s2 : Dev} (h : TxSame K s s2) :
    pending K s2 = pending K s := by
  obtain ⟨h1, h2, h3, h4, h5, -, -⟩ := h
  unfold pending pendingLoop
  rw [h1, h2, h3, h4]
  by_cases hs : s.status &&& K.STATUS_WRITE_IN_PROGRESS = 0
  · rw [if_pos hs, if_pos (h5.mpr hs)]
  · rw [if_neg hs, if_neg (fun h => hs (h5.mp h))]

theorem progress_refl (K : Consts) (s : Dev) (hv : ValidFrom s) : Progress K s s :=
  ⟨rfl, rfl, hv, [], by simp, by simp, by simp⟩

theorem progress_same {K : Consts} {s0 s s2 : Dev} (hp : Progress K s0 s)
    (h : TxSame K s s2) : Progress K s0 s2 := by
  obtain ⟨hn, hh, hv, X, hX, hP, hE⟩ := hp
  have hpe := pending_same h
  obtain ⟨h1, h2, h3, -, -, h6, h7⟩ := h
  refine ⟨h2.trans hn, h6.trans hh, ?_, X, by rw [h7, hX], by rw [hpe, hP], hE⟩
  intro j hj1 hj2
  rw [h1, h3] at *
  rw [h2] at hj2
  exact hv j hj1 hj2

theorem progress_fill (K : Consts) (hW : K.STATUS_WRITE_IN_PROGRESS ≠ 0) {s0 s : Dev}
    (hp : Progress K s0 s) : Progress K s0 (transferMessageToBus K s) := by
  obtain ⟨hn, hh, hv, X, hX, hP, hE⟩ := hp
  obtain ⟨X1, hX1, hP1, hE1⟩ := transferMessageToBus_pending K hW s hv
  obtain ⟨-, f2, -, f4, -⟩ := (transferMessageToBus_post K s).1.fields
  refine ⟨f2.trans hn, f4.trans hh, ValidFrom_step K s hv, X ++ X1, ?_, ?_, ?_⟩
  · rw [hX1, hX, List.append_assoc]
  · rw [List.map_append, List.append_assoc, hP1, hP]
  · intro e he
    rcases List.mem_append.mp he with h | h
    · exact hE e h
    · have := hE1 e h
      rw [hn] at this
      exact this

theorem progress_steps (K : Consts) (hW : K.STATUS_WRITE_IN_PROGRESS ≠ 0)
    (hw : K.STATUS_WRITE_IN_PROGRESS < U32)
    (hrw : K.STATUS_READ_IN_PROGRESS &&& K.STATUS_WRITE_IN_PROGRESS = 0) (s0 : Dev)
    (l : List Bool) :
    ∀ s : Dev, Progress K s0 s → Progress K s0 (steps K l s) := by
  induction l with
  | nil => intro s hp; exact hp
  | cons b l ih =>
    intro s hp
    cases b with
    | true => exact ih _ (progress_fill K hW hp)
    | false => exact ih _ (progress_same hp (txSame_readFromBus K hrw hw s))

/-- The part of `handleInterrupt` up to the label `wakeup`, when the status read has no
transmit abort: a drain, a fill, both or none. -/
theorem progress_body (K : Consts) (hW : K.STATUS_WRITE_IN_PROGRESS ≠ 0)
    (hw : K.STATUS_WRITE_IN_PROGRESS < U32)
    (hrw : K.STATUS_READ_IN_PROGRESS &&& K.STATUS_WRITE_IN_PROGRESS = 0) {s0 s : Dev}
    (hp : Progress K s0 s)
    (hna : (s.hw s.nreads Reg.DW_IC_INTR_STAT % U32) &&& K.DW_IC_INTR_TX_ABRT = 0) :
    Progress K s0 (handleInterruptBody K s).2 := by
  unfold handleInterruptBody
  have h1 := readClearInterruptBits_fst K s
  have hc := clearFrame_readClearInterruptBits K s
  generalize readClearInterruptBits K s = r at h1 hc
  obtain ⟨st, x⟩ := r
  simp only at h1 hc
  subst h1
  dsimp only
  rw [if_neg (not_not.mpr hna)]
  have hx : Progress K s0 x := progress_same hp (txSame_of_clearFrame hc)
  have h2 : Progress K s0 (if (s.hw s.nreads Reg.DW_IC_INTR_STAT % U32) &&&
      K.DW_IC_INTR_RX_FULL ≠ 0 then readFromBus K x else x) := by
    split
    · exact progress_same hx (txSame_readFromBus K hrw hw x)
    · exact hx
  show Progress K s0 (if (s.hw s.nreads Reg.DW_IC_INTR_STAT % U32) &&&
      K.DW_IC_INTR_TX_EMPTY ≠ 0 then
        transferMessageToBus K (if (s.hw s.nreads Reg.DW_IC_INTR_STAT % U32) &&&
          K.DW_IC_INTR_RX_FULL ≠ 0 then readFromBus K x else x)
      else (if (s.hw s.nreads Reg.DW_IC_INTR_STAT % U32) &&&
          K.DW_IC_INTR_RX_FULL ≠ 0 then readFromBus K x else x))
  split
  · exact progress_fill K hW h2
  · exact h2

theorem progress_handleInterrupt (K : Consts) (P : Nub)
    (hW : K.STATUS_WRITE_IN_PROGRESS ≠ 0) (hw : K.STATUS_WRITE_IN_PROGRESS < U32)
    (hrw : K.STATUS_READ_IN_PROGRESS &&& K.STATUS_WRITE_IN_PROGRESS = 0) {s0 s : Dev}
    (hp : Progress K s0 s)
    (hna : ∀ n, (s0.hw n Reg.DW_IC_INTR_STAT % U32) &&& K.DW_IC_INTR_TX_ABRT = 0) :
    Progress K s0 (handleInterrupt K P s) := by
  rw [handleInterrupt_eq]
  have hexit : ∀ x, TxSame K x (irqExit x) := fun x =>
    ⟨rfl, rfl, rfl, rfl, Iff.rfl, rfl, by simp [cmdsOf_append, cmdsOf]⟩
  have henter : TxSame K s (irqEnter s) :=
    ⟨rfl, rfl, rfl, rfl, Iff.rfl, rfl, by simp [cmdsOf_append, cmdsOf]⟩
  have hread : TxSame K s (irqRead s) :=
    ⟨rfl, rfl, rfl, rfl, Iff.rfl, rfl, by simp [cmdsOf_append, cmdsOf]⟩
  refine progress_same ?_ (hexit _)
  split
  · exact progress_same hp henter
  · split
    · exact progress_same hp hread
    · rw [handleInterruptServe_eq]
      refine progress_same ?_ (txSame_wakeup K P _ _)
      have hr := progress_same hp hread
      refine progress_body K hW hw hrw hr ?_
      have := hna (irqRead s).nreads
      rw [← hp.2.1] at this
      exact this

theorem progress_interrupts (K : Consts) (P : Nub)
    (hW : K.STATUS_WRITE_IN_PROGRESS ≠ 0) (hw : K.STATUS_WRITE_IN_PROGRESS < U32)
    (hrw : K.STATUS_READ_IN_PROGRESS &&& K.STATUS_WRITE_IN_PROGRESS = 0) (s0 : Dev)
    (hna : ∀ n, (s0.hw n Reg.DW_IC_INTR_STAT % U32) &&& K.DW_IC_INTR_TX_ABRT = 0)
    (k : Nat) :
    ∀ s : Dev, Progress K s0 s → Progress K s0 (interrupts K P k s) := by
  induction k with
  | zero => intro s hp; exact hp
  | succ k ih =>
    intro s hp
    exact ih _ (progress_handleInterrupt K P hW hw hrw hp hna)

/-- Once the write index has reached the number of messages, the commands written
since a state with the write index on a message not yet begun are `Y` followed by `e`,
where `e` carries the stop bit and no command of `Y` does. -/
theorem progress_done (K : Consts) (s0 s : Dev)
    (hlt : s0.message_write_index < s0.message_number)
    (hidle : s0.status &&& K.STATUS_WRITE_IN_PROGRESS = 0) (hv : ValidFrom s0)
    (hp : Progress K s0 s) (hdone : s.message_write_index = s0.message_number) :
    ∃ Y e, cmdsOf s.trace = cmdsOf s0.trace ++ (Y ++ [e]) ∧
      e.2.2 &&& 0x200 ≠ 0 ∧ ∀ e2 ∈ Y, e2.2.2 &&& 0x200 = 0 := by
  obtain ⟨hn, -, -, X, hX, hP, hE⟩ := hp
  have hp0 : pending K s = [] := by
    unfold pending pendingLoop
    rw [if_neg (by rw [hdone, hn]; omega)]
  rw [hp0, List.append_nil] at hP
  have hfull : pending K s0 = pendingFrom s0.messages s0.message_write_index
      (s0.message_number - s0.message_write_index).toNat := pendingLoop_idle K _ s0 hidle
  obtain ⟨m, hm⟩ : ∃ m : Nat, (s0.message_number - s0.message_write_index).toNat = m + 1 :=
    ⟨(s0.message_number - s0.message_write_index).toNat - 1, by omega⟩
  obtain ⟨Y0, hY0, hp⟩ := pendingFrom_last s0.messages m s0.message_write_index
    (fun j h1 h2 => (hv j h1 (by omega)).2)
  rw [hfull, hm, hY0] at hP
  obtain ⟨Y, L, hXY, hYm, hLm⟩ := List.map_eq_append_iff.mp hP
  obtain ⟨e, L2, hL, hea, hL2⟩ := List.map_eq_cons_iff.mp hLm
  have hL2' : L2 = [] := List.map_eq_nil_iff.mp hL2
  subst hL2'
  subst hL
  subst hXY
  have hlast : s0.message_write_index + (m : Int) = s0.message_number - 1 := by omega
  refine ⟨Y, e, hX, ?_, ?_⟩
  · rw [hE e (by simp)]
    have h1 : e.1 = s0.message_write_index + m := congrArg Prod.fst hea
    have h2 : e.2.1 = 1 := congrArg Prod.snd hea
    exact ⟨by rw [h1, hlast], h2⟩
  · intro e2 he2
    by_contra hc
    have hs := (hE e2 (by simp [he2])).mp hc
    have hmem : annot e2 ∈ Y0 := by
      rw [← hYm]; exact List.mem_map_of_mem annot he2
    exact hp _ hmem ⟨by rw [← hlast] at hs; exact hs.1, hs.2⟩

theorem fillSteps_eq_steps (K : Consts) (n : Nat) :
    ∀ s : Dev, fillSteps K n s = steps K (List.replicate n true) s := by
  induction n with
  | zero => intro s; rfl
  | succ n ih => intro s; exact ih _
theorem progress_fillSteps (K : Consts) (hW : K.STATUS_WRITE_IN_PROGRESS ≠ 0) (s0 : Dev)
    (n : Nat) : ∀ s : Dev, Progress K s0 s → Progress K s0 (fillSteps K n s) := by
  induction n with
  | zero => intro s hp; exact hp
  | succ n ih => intro s hp; exact ih _ (progress_fill K hW hp)

/-- C5: every command a call of `transferMessageToBus` writes carries the stop bit
(0x200) exactly when it is built with the write index at `message_number - 1` and one
byte remaining.  Hence, from a state with the write index on a message not yet begun,
all messages from there on having the same address and a nonzero length: once the write
index has reached `message_number`, the commands written are `Y` followed by `e`, where
`e` carries the stop bit and no command of `Y` does.  This holds over every run of fill
steps, and, the two progress flags being distinct bits of the 32-bit status, over every
run of drain and fill steps in any order and over every run of interrupts served on
hardware that reports no transmit abort. -/
theorem C5_stop_bit_last_byte (K : Consts) (s : Dev) :
    (∃ X, cmdsOf (transferMessageToBus K s).trace = cmdsOf s.trace ++ X ∧
      ∀ e ∈ X, (e.2.2 &&& 0x200 ≠ 0 ↔ (e.1 = s.message_number - 1 ∧ e.2.1 = 1))) ∧
    (K.STATUS_WRITE_IN_PROGRESS ≠ 0 →
      s.message_write_index < s.message_number →
      s.status &&& K.STATUS_WRITE_IN_PROGRESS = 0 →
      ValidFrom s →
      (∀ n, (fillSteps K n s).message_write_index = s.message_number →
        ∃ Y e, cmdsOf (fillSteps K n s).trace = cmdsOf s.trace ++ (Y ++ [e]) ∧
          e.2.2 &&& 0x200 ≠ 0 ∧ ∀ e2 ∈ Y, e2.2.2 &&& 0x200 = 0) ∧
      (K.STATUS_WRITE_IN_PROGRESS < U32 →
        K.STATUS_READ_IN_PROGRESS &&& K.STATUS_WRITE_IN_PROGRESS = 0 →
        (∀ l, (steps K l s).message_write_index = s.message_number →
          ∃ Y e, cmdsOf (steps K l s).trace = cmdsOf s.trace ++ (Y ++ [e]) ∧
            e.2.2 &&& 0x200 ≠ 0 ∧ ∀ e2 ∈ Y, e2.2.2 &&& 0x200 = 0) ∧
        (∀ (P : Nub) (k : Nat),
          (∀ n, (s.hw n Reg.DW_IC_INTR_STAT % U32) &&& K.DW_IC_INTR_TX_ABRT = 0) →
          (interrupts K P k s).message_write_index = s.message_number →
          ∃ Y e, cmdsOf (interrupts K P k s).trace = cmdsOf s.trace ++ (Y ++ [e]) ∧
            e.2.2 &&& 0x200 ≠ 0 ∧ ∀ e2 ∈ Y, e2.2.2 &&& 0x200 = 0))) := by
  constructor
  · obtain ⟨-, -, -, -, ⟨X, hX, hE⟩, -, -⟩ := transferMessageToBus_post K s
    exact ⟨X, hX, fun e he => (hE e he).1⟩
  · intro hW hlt hidle hv
    refine ⟨fun n hdone => ?_, fun hw hrw => ⟨fun l hdone => ?_, fun P k hna hdone => ?_⟩⟩
    · exact progress_done K s _ hlt hidle hv
        (progress_fillSteps K hW s n s (progress_refl K s hv)) hdone
    · exact progress_done K s _ hlt hidle hv
        (progress_steps K hW hw hrw s l s (progress_refl K s hv)) hdone
    · exact progress_done K s _ hlt hidle hv
        (progress_interrupts K P hW hw hrw s hna k s (progress_refl K s hv)) hdone

set_option maxHeartbeats 4000000 in
/-- Witness for C5: a single read of 5 bytes armed on a controller whose FIFOs have
depth 2 and whose receive level reads 1.  Fill steps alone stay on the message (one
token, then the receive limit stops them); with a drain between the fill steps the
fifth fill step writes the fifth token, the only one with the stop bit, and moves the
write index to the end.  The hypotheses of the theorem hold there. -/
theorem C5_stop_bit_last_byte_witness :
    dwConsts.STATUS_WRITE_IN_PROGRESS ≠ 0 ∧
    dwConsts.STATUS_WRITE_IN_PROGRESS < U32 ∧
    dwConsts.STATUS_READ_IN_PROGRESS &&& dwConsts.STATUS_WRITE_IN_PROGRESS = 0 ∧
    (fillSteps dwConsts 9 (armTransfer dwConsts (plainNub "INT33C3" false) oneRead5 1
      (fifoDev letters trickleHw 2))).message_write_index = 0 ∧
    (steps dwConsts [true, false, true, false, true, false, true, false, true]
      (armTransfer dwConsts (plainNub "INT33C3" false) oneRead5 1
        (fifoDev letters trickleHw 2))).message_write_index = 1 ∧
    cmdsOf (steps dwConsts [true, false, true, false, true, false, true, false, true]
      (armTransfer dwConsts (plainNub "INT33C3" false) oneRead5 1
        (fifoDev letters trickleHw 2))).trace =
      [(0, 5, 0x100), (0, 4, 0x100), (0, 3, 0x100), (0, 2, 0x100), (0, 1, 0x300)] ∧
    (∃ Y e, cmdsOf (steps dwConsts [true, false, true, false, true, false, true, false, true]
        (armTransfer dwConsts (plainNub "INT33C3" false) oneRead5 1
          (fifoDev letters trickleHw 2))).trace =
        cmdsOf (armTransfer dwConsts (plainNub "INT33C3" false) oneRead5 1
          (fifoDev letters trickleHw 2)).trace ++ (Y ++ [e]) ∧
      e.2.2 &&& 0x200 ≠ 0 ∧ ∀ e2 ∈ Y, e2.2.2 &&& 0x200 = 0) := by
  obtain ⟨a1, a2, a3, -, -, -, a7, -⟩ := armTransfer_fields dwConsts (plainNub "INT33C3" false)
    oneRead5 1 (fifoDev letters trickleHw 2)
  refine ⟨by decide, by decide, by decide, by decide, by decide, by decide, ?_⟩
  refine (((C5_stop_bit_last_byte dwConsts (armTransfer dwConsts (plainNub "INT33C3" false)
    oneRead5 1 (fifoDev letters trickleHw 2))).2 (by decide) (by rw [a2, a3]; decide)
    (by rw [a7]; decide) ?_).2 (by decide) (by decide)).1 _ (by decide)
  intro j h1 h2
  rw [a2] at h2
  rw [a3] at h1 ⊢
  have : j = 0 := by omega
  subst this
  rw [a1]
  exact ⟨rfl, by decide⟩

/-- A single write of 3 bytes, armed on a controller with FIFO depth 16 and empty
FIFOs: one fill step writes three commands and only the third carries the stop bit;
so does one interrupt that reports the transmit FIFO empty. -/
theorem stop_bit_single_write :
    cmdsOf (fillSteps dwConsts 1 (armTransfer dwConsts (plainNub "INT33C3" false)
        oneWrite3 1 (fifoDev letters armHw 16))).trace =
      [(0, 3, 0x41), (0, 2, 0x42), (0, 1, 0x243)] ∧
    cmdsOf (interrupts dwConsts (plainNub "INT33C3" false) 1
      (armTransfer dwConsts (plainNub "INT33C3" false) oneWrite3 1
        (fifoDev letters fillHw 16))).trace =
      [(0, 3, 0x41), (0, 2, 0x42), (0, 1, 0x243)] := by
  refine ⟨by decide, by decide⟩

/-! ## The message pointer and the paths of the interrupt handler (C24) -/

theorem nullKept_refl (s : Dev) : NullKept s s := ⟨rfl, fun _ => rfl⟩

theorem nullKept_trans {s1 s2 s3 : Dev} (h1 : NullKept s1 s2) (h2 : NullKept s2 s3) :
    NullKept s1 s3 :=
  ⟨h2.1.trans h1.1, fun h => (h2.2 (h1.1.trans h)).trans (h1.2 h)⟩

theorem nullKept_noteMsg (s : Dev) : NullKept s (noteMsg s) :=
  ⟨rfl, fun h => by simp [noteMsg, h]⟩

theorem nullKept_txWhile (K : Consts) (bl : Nat) :
    ∀ (nr : Bool) (tl rl : Int) (buffer : Nat) (s : Dev),
      NullKept s (txWhile K bl nr tl rl buffer s).1 := by
  induction bl with
  | zero => intro nr tl rl buffer s; exact nullKept_refl s
  | succ bl ih =>
    intro nr tl rl buffer s
    rw [txWhile_succ]
    by_cases h1 : tl > 0 ∧ rl > 0
    · rw [if_pos h1]
      by_cases h2 : (s.messages s.message_write_index).flags &&& K.I2C_M_RD ≠ 0
      · rw [if_pos h2]
        by_cases h3 : rl - s.receive_outstanding ≤ 0
        · rw [if_pos h3]; exact nullKept_noteMsg s
        · rw [if_neg h3]
          refine nullKept_trans ?_ (ih _ _ _ _ _)
          exact ⟨rfl, fun h => by simp [tokenState, h]⟩
      · rw [if_neg h2]
        refine nullKept_trans ?_ (ih _ _ _ _ _)
        exact ⟨rfl, fun h => by simp [byteState, h]⟩
    · rw [if_neg h1]; exact nullKept_refl s

theorem nullKept_txMessage (K : Consts) (nr : Bool) (buffer bl : Nat) (s : Dev) :
    NullKept s (txMessage K nr buffer bl s).1 := by
  unfold txMessage
  by_cases hw : s.status &&& K.STATUS_WRITE_IN_PROGRESS = 0
  · simp only [hw, if_true, messageAt, readRegister]
    refine nullKept_trans ?_ (nullKept_txWhile K _ _ _ _ _ _)
    exact ⟨rfl, fun h => by simp [h]⟩
  · simp only [hw, if_false, messageAt, readRegister]
    refine nullKept_trans ?_ (nullKept_txWhile K _ _ _ _ _ _)
    exact ⟨rfl, fun _ => rfl⟩

theorem nullKept_txFor (K : Consts) (address : Nat) (fuel : Nat) :
    ∀ (nr : Bool) (buffer bl : Nat) (s : Dev), NullKept s (txFor K address fuel nr buffer bl s) := by
  induction fuel with
  | zero => intro nr buffer bl s; exact nullKept_refl s
  | succ fuel ih =>
    intro nr buffer bl s
    rw [txFor_succ]
    have h2 : NullKept s (noteMsg (noteMsg s)) :=
      nullKept_trans (nullKept_noteMsg s) (nullKept_noteMsg _)
    have hm : NullKept s (txMessage K nr buffer bl (noteMsg (noteMsg s))).1 :=
      nullKept_trans h2 (nullKept_txMessage K nr buffer bl _)
    split
    · split
      · exact nullKept_trans (nullKept_noteMsg s) ⟨rfl, fun _ => rfl⟩
      · split
        · exact nullKept_trans h2 ⟨rfl, fun _ => rfl⟩
        · split
          · exact nullKept_trans hm ⟨rfl, fun _ => rfl⟩
          · refine nullKept_trans (nullKept_trans hm ?_) (ih _ _ _ _)
            exact ⟨rfl, fun _ => rfl⟩
    · exact nullKept_refl s

theorem nullKept_transferMessageToBus (K : Consts) (s : Dev) :
    NullKept s (transferMessageToBus K s) := by
  rw [transferMessageToBus_eq]
  refine nullKept_trans (nullKept_trans (nullKept_noteMsg s)
    (nullKept_txFor K _ _ _ _ _ _)) ⟨rfl, fun _ => rfl⟩

theorem nullKept_rxLoop (K : Consts) (fuel : Nat) :
    ∀ s : Dev, NullKept s (rxLoop K fuel s) := by
  induction fuel with
  | zero => intro s; exact nullKept_refl s
  | succ fuel ih =>
    intro s
    by_cases h1 : s.message_read_index < s.message_number
    · by_cases h2 : (s.messages s.message_read_index).flags &&& K.I2C_M_RD = 0
      · rw [rxLoop_skip K fuel s h1 h2]
        refine nullKept_trans ?_ (ih _)
        exact ⟨rfl, fun h => by simp [rxSkip, h]⟩
      · rw [rxLoop_read K fuel s h1 h2]
        have hp := rxFor_post (rxLength K s)
          (toInt32 (s.hw s.nreads Reg.DW_IC_RXFLR % U32 : Nat)) (rxBuffer K s) (rxEntry K s)
        generalize rxFor (rxLength K s)
          (toInt32 (s.hw s.nreads Reg.DW_IC_RXFLR % U32 : Nat)) (rxBuffer K s) (rxEntry K s) = r
          at hp ⊢
        obtain ⟨-, -, h3, -, -⟩ := hp
        have he : NullKept s (rxEntry K s) := ⟨rfl, fun h => by simp [rxEntry, h]⟩
        have hr : NullKept s r.1 := by
          refine nullKept_trans he ⟨?_, fun _ => ?_⟩
          · rw [h3]
          · rw [h3]
        split
        · exact nullKept_trans hr ⟨rfl, fun _ => rfl⟩
        · exact nullKept_trans (nullKept_trans hr ⟨rfl, fun _ => rfl⟩) (ih _)
    · rw [rxLoop_done K _ s h1]
      exact nullKept_refl s

theorem nullKept_readFromBus (K : Consts) (s : Dev) : NullKept s (readFromBus K s) :=
  nullKept_rxLoop K _ s

theorem nullKept_of_clearFrame {s s2 : Dev} (h : ClearFrame s s2) : NullKept s s2 := by
  obtain ⟨T, -, e⟩ := h
  refine ⟨?_, fun _ => ?_⟩
  · rw [e]
  · rw [e]

theorem nullKept_handleInterruptBody (K : Consts) (s : Dev) :
    NullKept s (handleInterruptBody K s).2 := by
  unfold handleInterruptBody
  have hc := clearFrame_readClearInterruptBits K s
  generalize readClearInterruptBits K s = r at hc
  obtain ⟨st, x⟩ := r
  simp only at hc
  dsimp only
  have hx : NullKept s x := nullKept_of_clearFrame hc
  split
  · exact nullKept_trans hx ⟨rfl, fun _ => rfl⟩
  · have h2 : NullKept s (if st &&& K.DW_IC_INTR_RX_FULL ≠ 0 then readFromBus K x else x) := by
      split
      · exact nullKept_trans hx (nullKept_readFromBus K x)
      · exact hx
    show NullKept s (if st &&& K.DW_IC_INTR_TX_EMPTY ≠ 0 then
        transferMessageToBus K (if st &&& K.DW_IC_INTR_RX_FULL ≠ 0 then readFromBus K x else x)
      else (if st &&& K.DW_IC_INTR_RX_FULL ≠ 0 then readFromBus K x else x))
    split
    · exact nullKept_trans h2 (nullKept_transferMessageToBus K _)
    · exact h2

/-- With a message pointer that is not NULL the interrupt handler adds no fault. -/
theorem nullKept_handleInterrupt (K : Consts) (P : Nub) (s : Dev) :
    NullKept s (handleInterrupt K P s) := by
  rw [handleInterrupt_eq]
  refine nullKept_trans ?_ ⟨rfl, fun _ => rfl⟩
  split
  · exact ⟨rfl, fun _ => rfl⟩
  · split
    · exact ⟨rfl, fun _ => rfl⟩
    · rw [handleInterruptServe_eq]
      have hb := nullKept_handleInterruptBody K (irqRead s)
      generalize handleInterruptBody K (irqRead s) = b at hb ⊢
      rw [handleInterruptWakeup_eq]
      exact nullKept_trans (nullKept_trans ⟨rfl, fun _ => rfl⟩ hb) ⟨rfl, fun _ => rfl⟩

/-- The paths of `handleInterrupt`.  If the controller is not awake, it only disables
and enables the interrupt line: no register is read.  If it is awake and the enable
register reads 0, or the raw status has no bit other than activity, or the raw status
reads 0xFFFFFFFF, it reads these two registers between the disabling and the enabling
and does nothing else: no field of the descriptor changes, no register is written, no
clear register is read and nothing is signalled.  On every path that does not fault
the trace grows by the disabling of the line, events among which the line is neither
disabled nor enabled, and the enabling of the line; and with a message pointer that is
not NULL the handler adds no fault. -/
theorem handleInterrupt_paths (K : Consts) (P : Nub) (s : Dev) :
    (s.awake = false →
      handleInterrupt K P s =
        { s with trace := s.trace ++ [Event.disableInterrupt, Event.enableInterrupt] }) ∧
    (s.awake = true → irqSkip K s →
      handleInterrupt K P s =
        { s with
          nreads := s.nreads + 2,
          trace := s.trace ++
            [Event.disableInterrupt,
             Event.read Reg.DW_IC_ENABLE (s.hw s.nreads Reg.DW_IC_ENABLE % U32),
             Event.read Reg.DW_IC_RAW_INTR_STAT
               (s.hw (s.nreads + 1) Reg.DW_IC_RAW_INTR_STAT % U32),
             Event.enableInterrupt] }) ∧
    ((handleInterrupt K P s).fault = false →
      ∃ T, (handleInterrupt K P s).trace =
        s.trace ++ [Event.disableInterrupt] ++ T ++ [Event.enableInterrupt] ∧
      disables T = 0 ∧ enables T = 0) ∧
    (s.messages_null = false → (handleInterrupt K P s).fault = s.fault) := by
  refine ⟨?_, ?_, ?_, (nullKept_handleInterrupt K P s).2⟩
  · intro h
    rw [handleInterrupt_eq, if_pos h]
    simp [irqExit, irqEnter]
  · intro h hk
    rw [handleInterrupt_eq, if_neg (by rw [h]; simp), if_pos hk]
    simp [irqExit, irqRead]
  · intro _
    by_cases h : s.awake = false
    · refine ⟨[], ?_, rfl, rfl⟩
      rw [handleInterrupt_eq, if_pos h]
      simp [irqExit, irqEnter]
    · by_cases hk : irqSkip K s
      · refine ⟨[Event.read Reg.DW_IC_ENABLE (s.hw s.nreads Reg.DW_IC_ENABLE % U32),
          Event.read Reg.DW_IC_RAW_INTR_STAT
            (s.hw (s.nreads + 1) Reg.DW_IC_RAW_INTR_STAT % U32)], ?_, rfl, rfl⟩
        rw [handleInterrupt_eq, if_neg h, if_pos hk]
        simp [irqExit, irqRead]
      · have ha : s.awake = true := by
          cases hs : s.awake
          · exact absurd hs h
          · rfl
        have hp := handleInterrupt_past_checks K P s ha hk
        obtain ⟨-, ⟨T, q, s3⟩, -⟩ := handleInterruptBody_spec K (irqRead s)
        obtain ⟨-, w2, w3⟩ := wakeEvents_counts K P (handleInterruptBody K (irqRead s)).1
          (handleInterruptBody K (irqRead s)).2
        obtain ⟨-, p2, p3⟩ := plain_counts T q
        refine ⟨[Event.read Reg.DW_IC_ENABLE (s.hw s.nreads Reg.DW_IC_ENABLE % U32),
          Event.read Reg.DW_IC_RAW_INTR_STAT
            (s.hw (s.nreads + 1) Reg.DW_IC_RAW_INTR_STAT % U32)] ++ T ++
          wakeEvents K P (handleInterruptBody K (irqRead s)).1
            (handleInterruptBody K (irqRead s)).2, ?_, ?_, ?_⟩
        · rw [hp]
          simp only [s3, irqRead_trace]
          simp
        · simp only [disables_append, p2, w2]
          rfl
        · simp only [enables_append, p3, w3]
          rfl

/-- The registers `getBusConfig` reads: the component parameters, the component
version and, on hardware at or above the minimum version, `DW_IC_SDA_HOLD` exactly when
the value at hand (the one computed from a known clock, else the one the `FMCN` block
left) is 0.  In particular, with the clock unknown and a nonzero value left by the
`FMCN` block, `DW_IC_SDA_HOLD` is not read. -/
theorem getBusConfig_reads (K : Consts) (P : Nub) (s : Dev) :
    readsOf (getBusConfig K P s).2.trace =
      readsOf s.trace ++ [Reg.DW_IC_COMP_PARAM_1, Reg.DW_IC_COMP_VERSION] ++
        (if K.DW_IC_SDA_HOLD_MIN_VERS ≤ s.hw (s.nreads + 1) Reg.DW_IC_COMP_VERSION % U32 ∧
            (if getClkRateFor P.name ≠ 0 then
              (DIV_S64_ROUND_CLOSEST ((getClkRateFor P.name : Int) * 300) (MICRO : Int) %
                (U32 : Int)).toNat
             else
              (getBusConfigFS P (getClkRateFor P.name) (is_sunrise_point P.name)
                (getBusConfigSS P (getClkRateFor P.name) (is_sunrise_point P.name)
                  s.acpi_config false).1
                (getBusConfigSS P (getClkRateFor P.name) (is_sunrise_point P.name)
                  s.acpi_config false).2).1.sda_hold) = 0
          then [Reg.DW_IC_SDA_HOLD] else []) := by
  unfold getBusConfig getBusConfigClk
  generalize getClkRateFor P.name = c
  simp only [readRegister]
  generalize getBusConfigFS P c (is_sunrise_point P.name)
    (getBusConfigSS P c (is_sunrise_point P.name) s.acpi_config false).1
    (getBusConfigSS P c (is_sunrise_point P.name) s.acpi_config false).2 = r2
  by_cases hver : K.DW_IC_SDA_HOLD_MIN_VERS ≤ s.hw (s.nreads + 1) Reg.DW_IC_COMP_VERSION % U32
  · rw [if_pos hver]
    dsimp only
    unfold getBusConfigHold
    generalize (if c ≠ 0 then
      (DIV_S64_ROUND_CLOSEST ((c : Int) * 300) (MICRO : Int) % (U32 : Int)).toNat
      else r2.1.sda_hold) = v
    by_cases hv : v = 0
    · simp [hv, hver, readRegister, readsOf_append, readsOf]
    · simp [hv, hver, readsOf_append, readsOf]
  · rw [if_neg hver]
    simp [hver, readsOf_append, readsOf]

/-! ## The order of the writes of the bus state controller -/

/-- The order of the writes of a successful `toggleBusState` on a controller of the
clock-gating family: the first event is the write of `en` to the enable register, the
last one the write of `en` to the clock-gating register, which is not written in
between. -/
theorem toggleBusStateLoop_order (P : Nub) (en : Nat) (hg : gated P) (t : Nat) :
    ∀ s : Dev, (toggleBusStateLoop P en t s).1 = IOReturn.kIOReturnSuccess →
      ∃ T0, (toggleBusStateLoop P en t s).2.trace =
          s.trace ++ [Event.write en Reg.DW_IC_ENABLE] ++ T0 ++
            [Event.write en Reg.LPSS_PRIVATE_CLOCK_GATING] ∧
        writesTo Reg.LPSS_PRIVATE_CLOCK_GATING T0 = [] := by
  induction t with
  | zero =>
    intro s h
    rw [toggleBusStateLoop_eq] at h ⊢
    by_cases hp : pollBit s 0 = en
    · rw [if_pos hp]
      refine ⟨[Event.read Reg.DW_IC_ENABLE_STATUS
        (s.hw s.nreads Reg.DW_IC_ENABLE_STATUS % U32)], ?_, rfl⟩
      rw [(toggleClockGating_trace P en _).1, if_pos hg, pollState_trace]
    · rw [if_neg hp] at h
      have h2 : IOReturn.kIOReturnTimeout = IOReturn.kIOReturnSuccess := h
      exact absurd h2 (by decide)
  | succ t ih =>
    intro s h
    rw [toggleBusStateLoop_eq] at h ⊢
    by_cases hp : pollBit s 0 = en
    · rw [if_pos hp]
      refine ⟨[Event.read Reg.DW_IC_ENABLE_STATUS
        (s.hw s.nreads Reg.DW_IC_ENABLE_STATUS % U32)], ?_, rfl⟩
      rw [(toggleClockGating_trace P en _).1, if_pos hg, pollState_trace]
    · rw [if_neg hp] at h ⊢
      have h2 : (toggleBusStateLoop P en t (delay (pollState en s))).1 =
          IOReturn.kIOReturnSuccess := h
      obtain ⟨T0, e, w⟩ := ih _ h2
      refine ⟨[Event.read Reg.DW_IC_ENABLE_STATUS
        (s.hw s.nreads Reg.DW_IC_ENABLE_STATUS % U32), Event.delay,
        Event.write en Reg.DW_IC_ENABLE] ++ T0, ?_, ?_⟩
      · show (toggleBusStateLoop P en t (delay (pollState en s))).2.trace = _
        rw [e]
        simp [delay, pollState_trace]
      · rw [writesTo_append, w]
        simp [writesTo]

theorem toggleBusState_order (P : Nub) (en : Nat) (hg : gated P) (s : Dev)
    (h : (toggleBusState P en s).1 = IOReturn.kIOReturnSuccess) :
    ∃ T0, (toggleBusState P en s).2.trace =
        s.trace ++ [Event.write en Reg.DW_IC_ENABLE] ++ T0 ++
          [Event.write en Reg.LPSS_PRIVATE_CLOCK_GATING] ∧
      writesTo Reg.LPSS_PRIVATE_CLOCK_GATING T0 = [] :=
  toggleBusStateLoop_order P en hg 1000 s h

end VoodooI2C
